import Mathlib

/-!
# Dual-extruder toolhead module (`src/Marlin/src/module/dual_extruder.cpp`)

A shallow embedding of the motion planner (`DoBlockingMoveToZ`), the stepper
interrupt routine (`Stepper`), the moves built on them (`PrepareMoveToDestination`,
`MoveSync`, `ExtruderSwitcingWithMotor`, `GoHome`), the extruder identity check,
the temperature report, the thermistor calibration of `Init`, the setters of
the configuration and the cases of the dispatcher `HandModule` that call them.

Conventions of the embedding

* `float` values are rationals (`ℚ`). The planner `DoBlockingMoveToZ` is
  embedded twice. `DualExtruder.DoBlockingMoveToZ` computes with exact
  arithmetic; it serves the statements about control flow, which do not depend
  on the computed numbers beyond the pulse counts of the moves that the module
  itself arms. `DualExtruder.InBinary32.DoBlockingMoveToZ` rounds the result of
  every operation to binary32 (`Binary32.rnd`), in the order in which the
  source evaluates; every statement about the numbers of the table is made on
  it.
* `uint32_t`, `uint16_t` and `uint8_t` values are natural numbers; every
  narrowing and every wrap-around is written out (`% 2 ^ w`).
* a `float` that the code only copies byte by byte (the hotend offsets) is its
  four bytes in memory order.
* hardware lines, the stepper timer, the CAN transmit queue and the
  configuration store are fields of the state; every write to a line or to the
  timer is also appended to `hw_log`, every sent frame to `can_tx`.
* values that the sources use but that are defined in headers outside `src/`
  are the fields of `Env`.
-/

/-! ## Constants of `dual_extruder.cpp` -/

def NTC3590_ADC_MIN : Nat := 168
def NTC3590_ADC_MAX : Nat := 417
def Z_MAX_POS : ℚ := 5
def Z_AXIS_STEPS_PER_UNIT : ℚ := 1600
def ACCELERATION : ℚ := 40

/-- Largest value of a `uint32_t`. -/
def UINT32_MAX : Nat := 4294967295

/-- Values used by `dual_extruder.cpp` whose definitions live in headers that
are not part of the sources at hand; every function of the embedding that needs
one of them takes the environment as its first argument. `sqrt` is the
`<math.h>` square root. -/
structure Env where
  INVALID_VALUE : Nat
  PROTECTION_TEMPERATURE : Nat
  TOOLHEAD_3DP_EXTRUDER0 : Nat
  TOOLHEAD_3DP_EXTRUDER1 : Nat
  INVALID_EXTRUDER : Nat
  NOZZLE_TYPE_INVALID : Nat
  sqrt : ℚ → ℚ

/-! ## Data model -/

/-- One entry of `speed_ctrl_buffer_`: the cumulative pulse threshold of the
segment and the timer period while the segment is executed. -/
structure speed_ctrl_t where
  pulse_count : Nat
  timer_time : Nat
deriving DecidableEq, Repr

/-- The table `speed_ctrl_buffer_[20]`, addressed by index; only the cells
`0 .. 19` belong to the array. -/
abbrev SpeedCtrlBuffer := Nat → speed_ctrl_t

inductive thermistor_type_e where
  | THERMISTOR_PT100
  | THERMISTOR_NTC3590
deriving DecidableEq, Repr

inductive extruder_status_e where
  | EXTRUDER_STATUS_CHECK
  | EXTRUDER_STATUS_IDLE
deriving DecidableEq, Repr

/-- Function identifiers handled by `HandModule`. -/
inductive FuncId where
  | FUNC_REPORT_CUT
  | FUNC_REPORT_PROBE
  | FUNC_SET_FAN
  | FUNC_SET_FAN2
  | FUNC_SET_FAN_NOZZLE
  | FUNC_SET_TEMPEARTURE
  | FUNC_REPORT_TEMPEARTURE
  | FUNC_REPORT_TEMP_PID
  | FUNC_SET_PID
  | FUNC_SWITCH_EXTRUDER
  | FUNC_REPORT_NOZZLE_TYPE
  | FUNC_REPORT_EXTRUDER_INFO
  | FUNC_SET_EXTRUDER_CHECK
  | FUNC_SET_HOTEND_OFFSET
  | FUNC_REPORT_HOTEND_OFFSET
  | FUNC_SET_PROBE_SENSOR_COMPENSATION
  | FUNC_REPORT_PROBE_SENSOR_COMPENSATION
  | FUNC_MOVE_TO_DEST
deriving DecidableEq, Repr

/-- Modelled from the spec: the class `Temperature` (`src/device/temperature.h`
is not among the sources). A temperature channel holds the ADC index it samples,
its thermistor type, and the current and target temperature in tenths of a
degree (`uint16_t`). -/
structure Temperature where
  adc_index : Nat
  thermistor_type : thermistor_type_e
  current_c_tenths : Nat
  target_c_tenths : Nat
deriving DecidableEq, Repr

/-- Modelled from the spec: the nozzle identification channel (its class is not
among the sources): the ADC index it samples, the thermistor type its check
table was calibrated for, and the nozzle type it currently detects. -/
structure NozzleIdentify where
  adc_index : Nat
  calibration_type : thermistor_type_e
  nozzle_type : Nat
deriving DecidableEq, Repr

/-- Object representation of a 32-bit `float`: its four bytes in memory order. -/
structure FloatBytes where
  b0 : Nat
  b1 : Nat
  b2 : Nat
  b3 : Nat
deriving DecidableEq, Repr

/-- The part of `registryInstance.cfg_` that the module reads and writes. -/
structure Cfg where
  x_hotend_offset : FloatBytes
  y_hotend_offset : FloatBytes
  z_hotend_offset : FloatBytes
  probe_sensor_compensation_0 : FloatBytes
  probe_sensor_compensation_1 : FloatBytes
deriving DecidableEq, Repr

/-- A frame handed to `canbus_g.PushSendStandardData`: the message identifier
and the first `len` bytes of the buffer. -/
structure Frame where
  msgid : Int
  data : List Nat
deriving DecidableEq, Repr

/-- Modelled from the spec: the fan class (`src/device/fan.h` is not among the
sources). A fan keeps the duty cycle and the switch-off delay in seconds that
the last `ChangePwm` asked for. -/
structure Fan where
  duty_cycle : Nat
  delay_sec_kill : Nat
deriving DecidableEq, Repr

/-- The fans that `FanCtrl` addresses. -/
inductive fan_e where
  | LEFT_MODEL_FAN
  | RIGHT_MODEL_FAN
  | NOZZLE_FAN
deriving DecidableEq, Repr

/-- A write to a hardware line or to the stepper timer. -/
inductive HwEvent where
  | dir_out (level : Nat)
  | step_out (level : Nat)
  | timer_start (time : Nat)
  | timer_stop
deriving DecidableEq, Repr

/-- The members of `DualExtruder` (and of the collaborators it owns) that the
modelled functions touch. -/
structure DualExtruder where
  speed_ctrl_buffer_ : SpeedCtrlBuffer
  speed_ctrl_index_ : Fin 20
  stepps_sum_ : Nat
  stepps_count_ : Nat
  step_pin_state_ : Nat
  motor_state_ : Nat
  end_stop_enable_ : Bool
  current_position_ : ℚ
  homed_state_ : Nat
  extruder_check_status_ : extruder_status_e
  active_extruder_ : Nat
  target_extruder_ : Nat
  extruder_status_ : Bool
  need_to_report_extruder_info_ : Bool
  temperature_0_ : Temperature
  temperature_1_ : Temperature
  nozzle_identify_0_ : NozzleIdentify
  nozzle_identify_1_ : NozzleIdentify
  /-- Result of `registryInstance.FuncId2MsgId`. -/
  FuncId2MsgId : FuncId → Nat
  cfg_ : Cfg
  /-- Number of calls of `registryInstance.SaveCfg`. -/
  cfg_saves : Nat
  /-- Level last written to the direction line. -/
  z_motor_dir_ : Nat
  /-- Level last written to the step line. -/
  z_motor_step_ : Nat
  /-- Period of the stepper timer while it is enabled. -/
  stepper_timer : Option Nat
  hw_log : List HwEvent
  can_tx : List Frame
  /-- Level last written to the select line of extruder 0. -/
  extruder_cs_0_ : Nat
  /-- Level last written to the select line of extruder 1. -/
  extruder_cs_1_ : Nat
  left_model_fan_ : Fan
  right_model_fan_ : Fan
  nozzle_fan_ : Fan
  /-- Arguments of the calls of `temperature_0_.SetPID`, oldest first. -/
  SetPID_calls : List (Nat × ℚ)

/-! ## Binary32 arithmetic -/

namespace Binary32

/-- Nearest integer, ties to the even one. -/
def roundEven (y : ℚ) : ℤ :=
  if y - ⌊y⌋ < 1 / 2 then ⌊y⌋
  else if 1 / 2 < y - ⌊y⌋ then ⌊y⌋ + 1
  else if ⌊y⌋ % 2 = 0 then ⌊y⌋ else ⌊y⌋ + 1

/-- Exponent of the unit in the last place of the binary32 neighbours of `x`:
23 below the exponent of `x`, and -149 in the subnormal range. -/
def ulp_exp (x : ℚ) : ℤ := max (Int.log 2 |x| - 23) (-149)

/-- Rounding of a rational to binary32, to nearest with ties to even: the value
that a `float` operation stores when its exact result is `x`. Values beyond the
largest finite binary32 number are rounded on the same grid (the overflow to
infinity is not modelled; the statements bound their inputs so that no
operation overflows). -/
def rnd (x : ℚ) : ℚ := (roundEven (x / 2 ^ ulp_exp x) : ℚ) * 2 ^ ulp_exp x

/-- A number of the binary32 grid: `m * 2 ^ k` with `0 <= m <= 2 ^ 24` and
`-149 <= k`. -/
def OnGrid (x : ℚ) : Prop :=
  ∃ m : ℕ, ∃ k : ℤ, m ≤ 2 ^ 24 ∧ -149 ≤ k ∧ x = (m : ℚ) * 2 ^ k

/-- What the conversion of a floating value to `uint32_t` yields where C++
leaves it undefined: for a finite value outside the range of the type, and for
an infinity. These are facts of the compiler and of the target. -/
structure Platform where
  f2u_out_of_range : ℚ → Nat
  f2u_infinite : Nat

/-- Conversion of a floating value to `uint32_t`: truncation towards zero for a
value above -1 and below `2 ^ 32`. -/
def f2u (P : Platform) (x : ℚ) : Nat :=
  if -1 < x ∧ x < 4294967296 then Int.toNat ⌊x⌋ else P.f2u_out_of_range x % 4294967296

/-- The expression `1000000 / dv` in binary32, converted to `uint32_t`; a zero
divisor makes the quotient an infinity. -/
def period (P : Platform) (dv : ℚ) : Nat :=
  if dv = 0 then P.f2u_infinite % 4294967296 else f2u P (rnd (1000000 / dv))

end Binary32

namespace DualExtruder

/-! ## Conversions -/

/-- Conversion of a floating value to `uint32_t`: the fraction is dropped and
the result saturates at both ends of the range, which is what the conversion
routine of the target does (C++ leaves the out-of-range case undefined). -/
def f2u32 (x : ℚ) : Nat := min (Int.toNat ⌊x⌋) UINT32_MAX

/-- The expression `1000000 / x` converted to `uint32_t`. A zero divisor makes
the quotient an IEEE infinity, which the conversion saturates. -/
def period_us (x : ℚ) : Nat := if x = 0 then UINT32_MAX else f2u32 (1000000 / x)

/-- Value of a 16-bit pattern read as `int16_t`. -/
def int16_of (n : Nat) : Int :=
  if n % 65536 < 32768 then (n % 65536 : Nat) else ((n % 65536 : Nat) : Int) - 65536

/-! ## Hardware and transport collaborators -/

def z_motor_dir_Out (s : DualExtruder) (level : Nat) : DualExtruder :=
  { s with z_motor_dir_ := level, hw_log := s.hw_log ++ [HwEvent.dir_out level] }

def z_motor_step_Out (s : DualExtruder) (level : Nat) : DualExtruder :=
  { s with z_motor_step_ := level, hw_log := s.hw_log ++ [HwEvent.step_out level] }

/-- Start of the stepper timer, `StepperTimerStart(uint16_t time)`: the argument is
narrowed to 16 bits. -/
def StepperTimerStart (s : DualExtruder) (time : Nat) : DualExtruder :=
  { s with stepper_timer := some (time % 65536),
           hw_log := s.hw_log ++ [HwEvent.timer_start (time % 65536)] }

def StepperTimerStop (s : DualExtruder) : DualExtruder :=
  { s with stepper_timer := none, hw_log := s.hw_log ++ [HwEvent.timer_stop] }

def PushSendStandardData (s : DualExtruder) (msgid : Int) (data : List Nat) : DualExtruder :=
  { s with can_tx := s.can_tx ++ [{ msgid := msgid, data := data }] }

def SaveCfg (s : DualExtruder) : DualExtruder :=
  { s with cfg_saves := s.cfg_saves + 1 }

/-! ## Motion profile generator: `DoBlockingMoveToZ` -/

def setPulseCount (buf : SpeedCtrlBuffer) (i v : Nat) : SpeedCtrlBuffer :=
  fun j => if j = i then { buf j with pulse_count := v } else buf j

def setTimerTime (buf : SpeedCtrlBuffer) (i v : Nat) : SpeedCtrlBuffer :=
  fun j => if j = i then { buf j with timer_time := v } else buf j

/-- The loop `for (i = 0; i < n; i++) body`. -/
def forLoop {σ : Type} (n : Nat) (body : Nat → σ → σ) (init : σ) : σ :=
  (List.range n).foldl (fun st i => body i st) init

/-- Body of the acceleration loop (lines 339-341 and 366-368); the loop state
is the table and the running `acc_time`. -/
def accel_body (quantum : ℚ) (i : Nat) (st : SpeedCtrlBuffer × ℚ) : SpeedCtrlBuffer × ℚ :=
  let acc_time := st.2
  let buf := setPulseCount st.1 i
    (f2u32 ((ACCELERATION * (acc_time * acc_time) / 2) * Z_AXIS_STEPS_PER_UNIT))
  let buf := setTimerTime buf i (period_us (ACCELERATION * acc_time * Z_AXIS_STEPS_PER_UNIT))
  (buf, acc_time + quantum)

/-- Body of the deceleration loop (lines 350-352 with `v = speed`, lines 374-376
with `v = velocity`). -/
def decel_body (v quantum : ℚ) (i : Nat) (st : SpeedCtrlBuffer × ℚ) : SpeedCtrlBuffer × ℚ :=
  let acc_time := st.2
  let buf := setPulseCount st.1 (10 + i)
    (f2u32 (((st.1 9).pulse_count : ℚ)
      + (v * acc_time - ACCELERATION * (acc_time * acc_time) / 2) * Z_AXIS_STEPS_PER_UNIT))
  let buf := setTimerTime buf (10 + i)
    (period_us ((v - ACCELERATION * (acc_time - quantum)) * Z_AXIS_STEPS_PER_UNIT))
  (buf, acc_time + quantum)

/-- The pulse count of the whole move: `stepps_sum_ = 1600 * length + 0.5`. -/
def stepps_sum_of (length : ℚ) : Nat := f2u32 (Z_AXIS_STEPS_PER_UNIT * length + 1 / 2)

/-- The local `acc_dec_stepps` (line 327). -/
def acc_dec_stepps_of (speed : ℚ) : Nat :=
  f2u32 (((speed * speed) / (2 * ACCELERATION)) * Z_AXIS_STEPS_PER_UNIT)

/-- The branch `acc_dec_stepps <= half_stepps_sum` (lines 332-356). -/
def trapezoid_table (buf : SpeedCtrlBuffer) (stepps_sum acc_dec_stepps : Nat) (speed : ℚ) :
    SpeedCtrlBuffer :=
  let acc_dec_time := speed / ACCELERATION
  let acc_dec_time_quantum := acc_dec_time / 10
  let buf := (forLoop 10 (accel_body acc_dec_time_quantum) (buf, acc_dec_time_quantum)).1
  let buf := setPulseCount buf 9 ((stepps_sum + 4294967296 - acc_dec_stepps) % 4294967296)
  let buf := (forLoop 10 (decel_body speed acc_dec_time_quantum) (buf, acc_dec_time_quantum)).1
  setPulseCount buf 19 stepps_sum

/-- The `else` branch (lines 358-380). -/
def triangle_table (E : Env) (buf : SpeedCtrlBuffer) (stepps_sum : Nat) (length : ℚ) :
    SpeedCtrlBuffer :=
  let acc_dec_time := E.sqrt (length / ACCELERATION)
  let acc_dec_time_quantum := acc_dec_time / 10
  let velocity := ACCELERATION * acc_dec_time
  let buf := (forLoop 10 (accel_body acc_dec_time_quantum) (buf, acc_dec_time_quantum)).1
  let buf := (forLoop 10 (decel_body velocity acc_dec_time_quantum) (buf, acc_dec_time_quantum)).1
  setPulseCount buf 19 stepps_sum

/-- Whether the planner takes the first (trapezoid) branch: line 331. -/
def takes_trapezoid (length speed : ℚ) : Bool :=
  decide (acc_dec_stepps_of speed ≤ stepps_sum_of length / 2)

/-- Relative motion `DoBlockingMoveToZ(length, speed)`, lines 306-387. -/
def DoBlockingMoveToZ (E : Env) (s : DualExtruder) (length speed : ℚ) : DualExtruder :=
  if s.motor_state_ ≠ 0 then s
  else
    let s := { s with speed_ctrl_index_ := 0 }
    -- set motor rotation direction
    let s := if length < 0 then z_motor_dir_Out s 0 else z_motor_dir_Out s 1
    let length := if length < 0 then -length else length
    -- convert motion distance to number of pulses
    let s := { s with stepps_sum_ := stepps_sum_of length }
    let acc_dec_stepps := acc_dec_stepps_of speed
    let s := { s with speed_ctrl_buffer_ :=
      if takes_trapezoid length speed then
        trapezoid_table s.speed_ctrl_buffer_ s.stepps_sum_ acc_dec_stepps speed
      else
        triangle_table E s.speed_ctrl_buffer_ s.stepps_sum_ length }
    -- wakeup
    let s := { s with motor_state_ := 1 }
    let s := { s with current_position_ := s.current_position_ + length }
    StepperTimerStart s (s.speed_ctrl_buffer_ 0).timer_time

/-! ## Motion profile generator in binary32 -/

namespace InBinary32

open Binary32

/-- Body of the acceleration loop (lines 339-341 and 366-368) in binary32; the
loop state is the table and the running `acc_time`. -/
def accel_body (P : Platform) (quantum : ℚ) (i : Nat) (st : SpeedCtrlBuffer × ℚ) :
    SpeedCtrlBuffer × ℚ :=
  let acc_time := st.2
  let buf := setPulseCount st.1 i
    (f2u P (rnd (rnd (rnd (ACCELERATION * rnd (acc_time * acc_time)) / 2)
      * Z_AXIS_STEPS_PER_UNIT)))
  let buf := setTimerTime buf i
    (period P (rnd (rnd (ACCELERATION * acc_time) * Z_AXIS_STEPS_PER_UNIT)))
  (buf, rnd (acc_time + quantum))

/-- Body of the deceleration loop (lines 350-352 with `v = speed`, lines 374-376
with `v = velocity`) in binary32; `segment[9].pulse_count` is converted to
`float` before the addition. -/
def decel_body (P : Platform) (v quantum : ℚ) (i : Nat) (st : SpeedCtrlBuffer × ℚ) :
    SpeedCtrlBuffer × ℚ :=
  let acc_time := st.2
  let buf := setPulseCount st.1 (10 + i)
    (f2u P (rnd (rnd ((st.1 9).pulse_count : ℚ)
      + rnd (rnd (rnd (v * acc_time)
          - rnd (rnd (ACCELERATION * rnd (acc_time * acc_time)) / 2))
        * Z_AXIS_STEPS_PER_UNIT))))
  let buf := setTimerTime buf (10 + i)
    (period P (rnd (rnd (v - rnd (ACCELERATION * rnd (acc_time - quantum)))
      * Z_AXIS_STEPS_PER_UNIT)))
  (buf, rnd (acc_time + quantum))

/-- The pulse count of the whole move, line 323: the product is a `float`; the
sum with the `double` constant 0.5 is formed in `double`, where it is exact for
a product of at least `2 ^ -29` and has the integer part 0, like the exact sum,
for a smaller one; the conversion truncates. -/
def stepps_sum_of (P : Platform) (length : ℚ) : Nat :=
  f2u P (rnd (Z_AXIS_STEPS_PER_UNIT * length) + 1 / 2)

/-- The local `acc_dec_stepps` (line 327). -/
def acc_dec_stepps_of (P : Platform) (speed : ℚ) : Nat :=
  f2u P (rnd (rnd (rnd (speed * speed) / (2 * ACCELERATION)) * Z_AXIS_STEPS_PER_UNIT))

/-- The branch `acc_dec_stepps <= half_stepps_sum` (lines 332-356). -/
def trapezoid_table (P : Platform) (buf : SpeedCtrlBuffer) (stepps_sum acc_dec_stepps : Nat)
    (speed : ℚ) : SpeedCtrlBuffer :=
  let acc_dec_time := rnd (speed / ACCELERATION)
  let acc_dec_time_quantum := rnd (acc_dec_time / 10)
  let buf := (forLoop 10 (accel_body P acc_dec_time_quantum) (buf, acc_dec_time_quantum)).1
  let buf := setPulseCount buf 9 ((stepps_sum + 4294967296 - acc_dec_stepps) % 4294967296)
  let buf := (forLoop 10 (decel_body P speed acc_dec_time_quantum)
    (buf, acc_dec_time_quantum)).1
  setPulseCount buf 19 stepps_sum

/-- The `else` branch (lines 358-380); the result of `sqrt` is stored in a
`float`. -/
def triangle_table (E : Env) (P : Platform) (buf : SpeedCtrlBuffer) (stepps_sum : Nat)
    (length : ℚ) : SpeedCtrlBuffer :=
  let acc_dec_time := rnd (E.sqrt (rnd (length / ACCELERATION)))
  let acc_dec_time_quantum := rnd (acc_dec_time / 10)
  let velocity := rnd (ACCELERATION * acc_dec_time)
  let buf := (forLoop 10 (accel_body P acc_dec_time_quantum) (buf, acc_dec_time_quantum)).1
  let buf := (forLoop 10 (decel_body P velocity acc_dec_time_quantum)
    (buf, acc_dec_time_quantum)).1
  setPulseCount buf 19 stepps_sum

/-- Whether the planner takes the first (trapezoid) branch: line 331. -/
def takes_trapezoid (P : Platform) (length speed : ℚ) : Bool :=
  decide (acc_dec_stepps_of P speed ≤ stepps_sum_of P length / 2)

/-- Relative motion `DoBlockingMoveToZ(length, speed)`, lines 306-387, with the
arithmetic of the source in binary32. -/
def DoBlockingMoveToZ (E : Env) (P : Platform) (s : DualExtruder) (length speed : ℚ) :
    DualExtruder :=
  if s.motor_state_ ≠ 0 then s
  else
    let s := { s with speed_ctrl_index_ := 0 }
    -- set motor rotation direction
    let s := if length < 0 then z_motor_dir_Out s 0 else z_motor_dir_Out s 1
    let length := if length < 0 then -length else length
    -- convert motion distance to number of pulses
    let s := { s with stepps_sum_ := stepps_sum_of P length }
    let acc_dec_stepps := acc_dec_stepps_of P speed
    let s := { s with speed_ctrl_buffer_ :=
      if takes_trapezoid P length speed then
        trapezoid_table P s.speed_ctrl_buffer_ s.stepps_sum_ acc_dec_stepps speed
      else
        triangle_table E P s.speed_ctrl_buffer_ s.stepps_sum_ length }
    -- wakeup
    let s := { s with motor_state_ := 1 }
    let s := { s with current_position_ := rnd (s.current_position_ + length) }
    StepperTimerStart s (s.speed_ctrl_buffer_ 0).timer_time

end InBinary32

/-! ## Stepper executor: `Stepper` -/

/-- The loop `while (stepps_count_ == speed_ctrl_buffer_[speed_ctrl_index_].pulse_count)`
of lines 184-197. The first argument bounds the number of iterations; the flag of
the result tells whether the loop left `Stepper` through its `return`. The index
grows at every iteration and stays below 20, so 20 iterations always suffice
(`Stepper_while_fuel`). -/
def Stepper_while : Nat → DualExtruder → DualExtruder × Bool
  | 0, s => (s, false)
  | fuel + 1, s =>
    if s.stepps_count_ = (s.speed_ctrl_buffer_ s.speed_ctrl_index_).pulse_count then
      if h : s.speed_ctrl_index_.val ≠ 19 then
        let s := { s with speed_ctrl_index_ := ⟨s.speed_ctrl_index_.val + 1, by omega⟩ }
        let s := StepperTimerStop s
        let s := StepperTimerStart s (s.speed_ctrl_buffer_ s.speed_ctrl_index_).timer_time
        Stepper_while fuel s
      else
        let s := { s with stepps_count_ := 0 }
        let s := { s with stepps_sum_ := 0 }
        let s := { s with motor_state_ := 0 }
        let s := z_motor_step_Out s 0
        (StepperTimerStop s, true)
    else (s, false)

/-- One invocation of the timer interrupt routine `Stepper()`, lines 172-214;
`endstop` is the value that `probe_right_extruder_optocoupler_.Read()` returns
to this invocation. -/
def Stepper (s : DualExtruder) (endstop : Nat) : DualExtruder :=
  if s.end_stop_enable_ = true ∧ endstop ≠ 0 then
    let s := { s with stepps_count_ := 0 }
    let s := { s with stepps_sum_ := 0 }
    let s := { s with motor_state_ := 0 }
    let s := z_motor_step_Out s 0
    StepperTimerStop s
  else
    let r := Stepper_while 20 s
    if r.2 then r.1
    else
      let s := r.1
      if s.step_pin_state_ = 0 then
        let s := { s with step_pin_state_ := 1 }
        let s := z_motor_step_Out s 1
        { s with stepps_count_ := (s.stepps_count_ + 1) % 4294967296 }
      else
        let s := { s with step_pin_state_ := 0 }
        let s := z_motor_step_Out s 0
        if s.stepps_count_ = s.stepps_sum_ then
          let s := { s with stepps_count_ := 0 }
          let s := { s with stepps_sum_ := 0 }
          let s := { s with motor_state_ := 0 }
          StepperTimerStop s
        else s

/-- The state after `n` successive invocations of `Stepper`, the invocation
number `i` (counted from 0) reading `endstop i` from the endstop. -/
def runStepper (endstop : Nat → Nat) : Nat → DualExtruder → DualExtruder
  | 0, s => s
  | n + 1, s => Stepper (runStepper endstop n s) (endstop n)

/-! ## Extruder identity state machine -/

/-- Identity report `ReportExtruderInfo()`, lines 574-584. -/
def ReportExtruderInfo (E : Env) (s : DualExtruder) : DualExtruder :=
  let msgid := s.FuncId2MsgId FuncId.FUNC_REPORT_EXTRUDER_INFO
  if msgid ≠ E.INVALID_VALUE then
    PushSendStandardData s msgid
      [if s.active_extruder_ = s.target_extruder_ then 0 else 1, s.active_extruder_]
  else s

/-- The value that lines 506-512 assign to `active_extruder_` for the readings
`left` and `right` of the two extruder optocouplers. -/
def detected_extruder (E : Env) (left right : Nat) : Nat :=
  if left = 1 ∧ right = 0 then E.TOOLHEAD_3DP_EXTRUDER0
  else if left = 1 ∧ right = 1 then E.TOOLHEAD_3DP_EXTRUDER1
  else E.INVALID_EXTRUDER

/-- One poll `ExtruderStatusCheck()`, lines 498-535; `left` and `right` are the
values read from the two extruder optocouplers. -/
def ExtruderStatusCheck (E : Env) (s : DualExtruder) (left right : Nat) : DualExtruder :=
  match s.extruder_check_status_ with
  | extruder_status_e.EXTRUDER_STATUS_CHECK =>
    let s := { s with active_extruder_ := detected_extruder E left right }
    let s :=
      if s.active_extruder_ ≠ s.target_extruder_ ∧ s.extruder_status_ = true then
        { s with need_to_report_extruder_info_ := true, extruder_status_ := false }
      else if s.active_extruder_ = s.target_extruder_ ∧ s.extruder_status_ = false then
        { s with need_to_report_extruder_info_ := true, extruder_status_ := true }
      else s
    if s.need_to_report_extruder_info_ = true then
      ReportExtruderInfo E { s with need_to_report_extruder_info_ := false }
    else s
  | extruder_status_e.EXTRUDER_STATUS_IDLE => s

/-- The state after polling once for every pair of readings of the list, in
order. -/
def pollAll (E : Env) (s : DualExtruder) (reads : List (Nat × Nat)) : DualExtruder :=
  reads.foldl (fun st r => ExtruderStatusCheck E st r.1 r.2) s

/-! ## Temperature channels -/

end DualExtruder

namespace Temperature

/-- Modelled from the spec: `Temperature::ChangeTarget` stores the new target
temperature of the channel. -/
def ChangeTarget (t : Temperature) (target : Nat) : Temperature :=
  { t with target_c_tenths := target }

/-- Modelled from the spec: `Temperature::GetCurTemprature` returns the current
temperature of the channel in tenths of a degree. -/
def GetCurTemprature (t : Temperature) : Nat := t.current_c_tenths

/-- Modelled from the spec: `Temperature::GetTargetTemprature` returns the
target temperature of the channel in tenths of a degree. -/
def GetTargetTemprature (t : Temperature) : Nat := t.target_c_tenths

/-- Modelled from the spec: `Temperature::SetAdcIndex` binds the channel to an
ADC index. -/
def SetAdcIndex (t : Temperature) (index : Nat) : Temperature :=
  { t with adc_index := index }

/-- Modelled from the spec: `Temperature::SetThermistorType` selects the
thermistor table of the channel. -/
def SetThermistorType (t : Temperature) (type : thermistor_type_e) : Temperature :=
  { t with thermistor_type := type }

end Temperature

namespace NozzleIdentify

/-- Modelled from the spec: `GetNozzleType` returns the nozzle type the channel
currently detects. -/
def GetNozzleType (n : NozzleIdentify) : Nat := n.nozzle_type

/-- Modelled from the spec: `SetAdcIndex` binds the identification channel to
an ADC index. -/
def SetAdcIndex (n : NozzleIdentify) (index : Nat) : NozzleIdentify :=
  { n with adc_index := index }

/-- Modelled from the spec: `SetNozzleTypeCheckArray` selects the check table
that belongs to the thermistor type found by the calibration. -/
def SetNozzleTypeCheckArray (n : NozzleIdentify) (type : thermistor_type_e) : NozzleIdentify :=
  { n with calibration_type := type }

end NozzleIdentify

namespace DualExtruder

/-- The part of `ReportTemprature()` that handles one hotend (lines 441-453 for
hotend 0, lines 459-471 for hotend 1): the channel after the forced targets,
and the values of the locals `temp` and `target` (`uint16_t`). -/
def report_channel (E : Env) (n : NozzleIdentify) (t : Temperature) : Temperature × Nat × Nat :=
  let r : Temperature × Nat × Nat :=
    if n.GetNozzleType = E.NOZZLE_TYPE_INVALID then (t.ChangeTarget 0, 0, 0)
    else (t, t.GetCurTemprature % 65536, t.GetTargetTemprature % 65536)
  if r.2.1 > E.PROTECTION_TEMPERATURE * 10 then (r.1.ChangeTarget 0, 0, 0) else r

/-- The four bytes `temp >> 8, temp, target >> 8, target` stored into the
`uint8_t` buffer (lines 454-457 and 472-475). -/
def report_bytes (temp target : Nat) : List Nat :=
  [(temp >>> 8) % 256, temp % 256, (target >>> 8) % 256, target % 256]

/-- Temperature report `ReportTemprature()`, lines 435-478. The local `msgid`
is an `int16_t` here. -/
def ReportTemprature (E : Env) (s : DualExtruder) : DualExtruder :=
  let msgid : Int := int16_of (s.FuncId2MsgId FuncId.FUNC_REPORT_TEMPEARTURE)
  if msgid ≠ (E.INVALID_VALUE : Int) then
    let c0 := report_channel E s.nozzle_identify_0_ s.temperature_0_
    let s := { s with temperature_0_ := c0.1 }
    let c1 := report_channel E s.nozzle_identify_1_ s.temperature_1_
    let s := { s with temperature_1_ := c1.1 }
    PushSendStandardData s msgid (report_bytes c0.2.1 c0.2.2 ++ report_bytes c1.2.1 c1.2.2)
  else s

/-! ## Thermistor calibration of `Init` -/

/-- The calibration part of `Init()`, lines 66-106. The four ADC indices are the
values returned by `InitCapture` and by the `Init` of the identification
channels; `ADC_GetCusum` gives the accumulated sum of 16 samples of an ADC
index once `hal_adc_status()` holds. `adc_sum0` and `adc_sum1` are `uint16_t`.
Both branches of each classification set the ADC index of both channels, so the
result does not depend on what `InitCapture` stored. -/
def Init (s : DualExtruder)
    (adc_index0_temp adc_index0_identify adc_index1_temp adc_index1_identify : Nat)
    (ADC_GetCusum : Nat → Nat) : DualExtruder :=
  let PT100 := thermistor_type_e.THERMISTOR_PT100
  let NTC3590 := thermistor_type_e.THERMISTOR_NTC3590
  let t0 := s.temperature_0_.SetThermistorType PT100
  let t1 := s.temperature_1_.SetThermistorType PT100
  let n0 := s.nozzle_identify_0_
  let n1 := s.nozzle_identify_1_
  let adc_sum0 := (ADC_GetCusum adc_index0_temp / 16) % 65536
  let adc_sum1 := (ADC_GetCusum adc_index1_temp / 16) % 65536
  let c0 : Temperature × NozzleIdentify :=
    if adc_sum0 > NTC3590_ADC_MIN ∧ adc_sum0 < NTC3590_ADC_MAX then
      ((t0.SetAdcIndex adc_index0_identify).SetThermistorType NTC3590,
       (n0.SetAdcIndex adc_index0_temp).SetNozzleTypeCheckArray NTC3590)
    else
      ((t0.SetAdcIndex adc_index0_temp).SetThermistorType PT100,
       (n0.SetAdcIndex adc_index0_identify).SetNozzleTypeCheckArray PT100)
  let c1 : Temperature × NozzleIdentify :=
    if adc_sum1 > NTC3590_ADC_MIN ∧ adc_sum1 < NTC3590_ADC_MAX then
      ((t1.SetAdcIndex adc_index1_identify).SetThermistorType NTC3590,
       (n1.SetAdcIndex adc_index1_temp).SetNozzleTypeCheckArray NTC3590)
    else
      ((t1.SetAdcIndex adc_index1_temp).SetThermistorType PT100,
       (n1.SetAdcIndex adc_index1_identify).SetNozzleTypeCheckArray PT100)
  { s with temperature_0_ := c0.1, nozzle_identify_0_ := c0.2,
           temperature_1_ := c1.1, nozzle_identify_1_ := c1.2 }

/-! ## Hotend offsets -/

/-- Handler `SetHotendOffset(data)`, lines 586-612: `data[0]` is the axis index,
`data[1..4]` are copied into the bytes of the local `float offset`. -/
def SetHotendOffset (s : DualExtruder) (data : List Nat) : DualExtruder :=
  let axis_index := data.getD 0 0
  let offset : FloatBytes :=
    { b0 := data.getD 1 0, b1 := data.getD 2 0, b2 := data.getD 3 0, b3 := data.getD 4 0 }
  match axis_index with
  | 0 => SaveCfg { s with cfg_ := { s.cfg_ with x_hotend_offset := offset } }
  | 1 => SaveCfg { s with cfg_ := { s.cfg_ with y_hotend_offset := offset } }
  | 2 => SaveCfg { s with cfg_ := { s.cfg_ with z_hotend_offset := offset } }
  | _ => s

/-- The local array `offset[3]` of `ReportHotendOffset`. -/
def hotend_offsets (c : Cfg) (i : Nat) : FloatBytes :=
  if i = 0 then c.x_hotend_offset else if i = 1 then c.y_hotend_offset else c.z_hotend_offset

/-- Report `ReportHotendOffset()`, lines 614-635: one frame of five bytes per
axis. -/
def ReportHotendOffset (E : Env) (s : DualExtruder) : DualExtruder :=
  let msgid := s.FuncId2MsgId FuncId.FUNC_REPORT_HOTEND_OFFSET
  if msgid = E.INVALID_VALUE then s
  else
    let offset := hotend_offsets s.cfg_
    forLoop 3 (fun i st =>
      PushSendStandardData st msgid
        [i, (offset i).b0, (offset i).b1, (offset i).b2, (offset i).b3]) s

/-- Value of a 32-bit IEEE 754 pattern given by its four bytes, least
significant byte first (the byte order of the target); defined for zero and for
the normal numbers. -/
def decode_float_le (f : FloatBytes) : Option ℚ :=
  let bits := f.b0 + 256 * f.b1 + 65536 * f.b2 + 16777216 * f.b3
  let sign : ℚ := if bits / 2147483648 % 2 = 1 then -1 else 1
  let expo := bits / 8388608 % 256
  let frac := bits % 8388608
  if expo = 0 ∧ frac = 0 then some 0
  else if expo = 0 ∨ expo = 255 then none
  else some (sign * (1 + (frac : ℚ) / 8388608) * (2 : ℚ) ^ ((expo : Int) - 127))

/-! ## Moves to a destination and extruder switching -/

/-- Move to an absolute position, `PrepareMoveToDestination(position, speed)`,
lines 294-303. -/
def PrepareMoveToDestination (E : Env) (s : DualExtruder) (position speed : ℚ) : DualExtruder :=
  let position :=
    if position > Z_MAX_POS then Z_MAX_POS else if position < 0 then 0 else position
  let s := DoBlockingMoveToZ E s (position - s.current_position_) speed
  { s with current_position_ := position }

/-- The wait `MoveSync()`, lines 230-237: the loop runs until the timer interrupt
has cleared `motor_state_`. The state passes through the invocations of
`Stepper` that happen meanwhile, invocation `i` reading `endstop i`; the first
argument bounds their number, and the result is `none` when the motor is still
on after that many invocations. The handlers that the loop pumps (transport,
configuration, system, module loop) are collaborators outside this model. -/
def MoveSync : Nat → (Nat → Nat) → DualExtruder → Option DualExtruder
  | 0, _, s => if s.motor_state_ = 0 then some s else none
  | fuel + 1, endstop, s =>
    if s.motor_state_ = 0 then some s
    else MoveSync fuel (fun i => endstop (i + 1)) (Stepper s (endstop 0))

/-- Selection of the hotend driver lines, `ActiveExtruder(extruder)`, lines
480-488. -/
def ActiveExtruder (E : Env) (s : DualExtruder) (extruder : Nat) : DualExtruder :=
  if extruder = E.TOOLHEAD_3DP_EXTRUDER0 then
    { s with extruder_cs_0_ := 1, extruder_cs_1_ := 0 }
  else if extruder = E.TOOLHEAD_3DP_EXTRUDER1 then
    { s with extruder_cs_0_ := 0, extruder_cs_1_ := 1 }
  else s

/-- Extruder switch `ExtruderSwitcingWithMotor(data)`, lines 542-561; the bound
and the endstop readings are those of the `MoveSync` inside. -/
def ExtruderSwitcingWithMotor (E : Env) (fuel : Nat) (endstop : Nat → Nat) (s : DualExtruder)
    (data : List Nat) : Option DualExtruder :=
  let s := { s with target_extruder_ := data.getD 0 0 }
  let s := ActiveExtruder E s s.target_extruder_
  let s := { s with extruder_check_status_ := extruder_status_e.EXTRUDER_STATUS_IDLE }
  let s :=
    if s.target_extruder_ = 1 then PrepareMoveToDestination E s Z_MAX_POS 9
    else if s.target_extruder_ = 0 then PrepareMoveToDestination E s 0 9
    else s
  match MoveSync fuel endstop s with
  | none => none
  | some s =>
    let s := { s with extruder_check_status_ := extruder_status_e.EXTRUDER_STATUS_CHECK }
    let msgid := s.FuncId2MsgId FuncId.FUNC_SWITCH_EXTRUDER
    if msgid ≠ E.INVALID_VALUE then some (PushSendStandardData s msgid [s.target_extruder_])
    else some s

/-- Homing `GoHome()`, lines 239-271. `at_entry` is the value that
`probe_right_extruder_optocoupler_.Read()` returns at line 243; the waits are
numbered 0 to 4 in the order of the source and wait number 5 is the one inside
the final switch; `reads k` are the endstop readings of the invocations of
`Stepper` during wait `k`, and `fuel` bounds each wait. -/
def GoHome (E : Env) (fuel : Nat) (at_entry : Nat) (reads : Nat → Nat → Nat)
    (s : DualExtruder) : Option DualExtruder :=
  let s := { s with extruder_check_status_ := extruder_status_e.EXTRUDER_STATUS_IDLE }
  -- if endstop triggered, leave current position
  (if at_entry ≠ 0 then MoveSync fuel (reads 0) (DoBlockingMoveToZ E s (-2) 9)
    else some s).bind fun s =>
  let s := { s with end_stop_enable_ := true }
  (MoveSync fuel (reads 1) (DoBlockingMoveToZ E s 9 9)).bind fun s =>
  let s := { s with end_stop_enable_ := false }
  -- bump
  (MoveSync fuel (reads 2) (DoBlockingMoveToZ E s (-1) 9)).bind fun s =>
  let s := { s with end_stop_enable_ := true }
  (MoveSync fuel (reads 3) (DoBlockingMoveToZ E s (3 / 2) 1)).bind fun s =>
  let s := { s with end_stop_enable_ := false }
  -- go to the home position
  (MoveSync fuel (reads 4) (DoBlockingMoveToZ E s (-2) 6)).bind fun s =>
  let s := { s with homed_state_ := 1 }
  let s := { s with current_position_ := 0 }
  let s := { s with extruder_check_status_ := extruder_status_e.EXTRUDER_STATUS_CHECK }
  ExtruderSwitcingWithMotor E fuel (reads 5) s [s.active_extruder_]

/-! ## Probe sensor compensation, fans, temperature targets and the dispatcher -/

/-- Handler `SetProbeSensorCompensation(data)`, lines 637-660: `data[0]` is the
channel, `data[1..4]` are copied into the bytes of the local `float`. -/
def SetProbeSensorCompensation (s : DualExtruder) (data : List Nat) : DualExtruder :=
  let e := data.getD 0 0
  let compensation : FloatBytes :=
    { b0 := data.getD 1 0, b1 := data.getD 2 0, b2 := data.getD 3 0, b3 := data.getD 4 0 }
  match e with
  | 0 => SaveCfg { s with cfg_ := { s.cfg_ with probe_sensor_compensation_0 := compensation } }
  | 1 => SaveCfg { s with cfg_ := { s.cfg_ with probe_sensor_compensation_1 := compensation } }
  | _ => s

end DualExtruder

namespace Fan

/-- Modelled from the spec: `ChangePwm(duty, delay)` takes over the duty cycle
and the switch-off delay. -/
def ChangePwm (_f : Fan) (duty_cycle delay_sec_kill : Nat) : Fan :=
  { duty_cycle := duty_cycle, delay_sec_kill := delay_sec_kill }

end Fan

namespace DualExtruder

/-- Fan control `FanCtrl(fan, duty_cycle, delay_sec_kill)`, lines 414-428; the
parameters are a `uint8_t` and a `uint16_t`. -/
def FanCtrl (s : DualExtruder) (fan : fan_e) (duty_cycle delay_sec_kill : Nat) : DualExtruder :=
  match fan with
  | fan_e.LEFT_MODEL_FAN =>
    { s with left_model_fan_ := s.left_model_fan_.ChangePwm (duty_cycle % 256) (delay_sec_kill % 65536) }
  | fan_e.RIGHT_MODEL_FAN =>
    { s with right_model_fan_ := s.right_model_fan_.ChangePwm (duty_cycle % 256) (delay_sec_kill % 65536) }
  | fan_e.NOZZLE_FAN =>
    { s with nozzle_fan_ := s.nozzle_fan_.ChangePwm (duty_cycle % 256) (delay_sec_kill % 65536) }

/-- Handler `SetTemperature(data)`, lines 430-433. -/
def SetTemperature (s : DualExtruder) (data : List Nat) : DualExtruder :=
  { s with
    temperature_0_ := s.temperature_0_.ChangeTarget ((data.getD 0 0 <<< 8) ||| data.getD 1 0),
    temperature_1_ := s.temperature_1_.ChangeTarget ((data.getD 2 0 <<< 8) ||| data.getD 3 0) }

/-- Value of a 32-bit pattern read as `int` (two's complement). -/
def int32_of (n : Nat) : Int :=
  if n % 4294967296 < 2147483648 then (n % 4294967296 : Nat)
  else ((n % 4294967296 : Nat) : Int) - 4294967296

/-- The local `val` of the case `FUNC_SET_PID` (line 137): the four bytes are
promoted to `int`, shifted and combined with `|`; the `int` is converted to
`float`, which rounds it to binary32, and divided by 1000 in binary32. -/
def pid_value (data : List Nat) : ℚ :=
  Binary32.rnd (Binary32.rnd ((int32_of ((data.getD 1 0 <<< 24) ||| (data.getD 2 0 <<< 16)
      ||| ((data.getD 3 0 <<< 8) ||| data.getD 4 0)) : Int) : ℚ) / 1000)

/-- Call of `temperature_0_.SetPID(index, val)`; the class is not among the
sources, the call is recorded with its arguments. -/
def SetPID (s : DualExtruder) (index : Nat) (val : ℚ) : DualExtruder :=
  { s with SetPID_calls := s.SetPID_calls ++ [(index, val)] }

/-- The dispatcher `HandModule(func_id, data, data_len)`, lines 109-170. The
cases whose handlers are embedded above are spelled out; the other cases
(reports of the probes, of the material detectors, of the PID values and of the
nozzle type, the extruder switch, the extruder check control, the compensation
report and the move to a destination) are passed to `other`. -/
def HandModule (E : Env) (other : FuncId → DualExtruder → List Nat → DualExtruder)
    (s : DualExtruder) (func_id : FuncId) (data : List Nat) : DualExtruder :=
  match func_id with
  | FuncId.FUNC_SET_FAN => FanCtrl s fan_e.LEFT_MODEL_FAN (data.getD 1 0) (data.getD 0 0)
  | FuncId.FUNC_SET_FAN2 => FanCtrl s fan_e.RIGHT_MODEL_FAN (data.getD 1 0) (data.getD 0 0)
  | FuncId.FUNC_SET_FAN_NOZZLE => FanCtrl s fan_e.NOZZLE_FAN (data.getD 1 0) (data.getD 0 0)
  | FuncId.FUNC_SET_TEMPEARTURE => SetTemperature s data
  | FuncId.FUNC_REPORT_TEMPEARTURE => ReportTemprature E s
  | FuncId.FUNC_SET_PID => SetPID s (data.getD 0 0) (pid_value data)
  | FuncId.FUNC_REPORT_EXTRUDER_INFO => ReportExtruderInfo E s
  | FuncId.FUNC_SET_HOTEND_OFFSET => SetHotendOffset s data
  | FuncId.FUNC_REPORT_HOTEND_OFFSET => ReportHotendOffset E s
  | FuncId.FUNC_SET_PROBE_SENSOR_COMPENSATION => SetProbeSensorCompensation s data
  | f => other f s data

end DualExtruder

/-! ## Sample inputs -/

/-- A square root on the rationals, truncated to six decimals; used as the
`sqrt` of the sample environment. -/
def sample_sqrt (x : ℚ) : ℚ := (Nat.sqrt (Int.toNat ⌊x * 1000000000000⌋) : ℚ) / 1000000

/-- A sample environment: the protection temperature is 55 degrees, so the
threshold of the temperature report is 550 tenths. -/
def sample_env : Env :=
  { INVALID_VALUE := 65535
    PROTECTION_TEMPERATURE := 55
    TOOLHEAD_3DP_EXTRUDER0 := 0
    TOOLHEAD_3DP_EXTRUDER1 := 1
    INVALID_EXTRUDER := 2
    NOZZLE_TYPE_INVALID := 255
    sqrt := sample_sqrt }

/-- A sample platform: the conversions that C++ leaves undefined saturate. -/
def sample_platform : Binary32.Platform :=
  { f2u_out_of_range := fun _ => 4294967295
    f2u_infinite := 4294967295 }

/-- A sample state: the motor is idle at position 0 with the step phase low, the
identity flags are clear, identity checking is on, and every function
identifier has the message identifier 1. -/
def sample_state : DualExtruder :=
  { speed_ctrl_buffer_ := fun _ => { pulse_count := 0, timer_time := 0 }
    speed_ctrl_index_ := 0
    stepps_sum_ := 0
    stepps_count_ := 0
    step_pin_state_ := 0
    motor_state_ := 0
    end_stop_enable_ := false
    current_position_ := 0
    homed_state_ := 0
    extruder_check_status_ := extruder_status_e.EXTRUDER_STATUS_CHECK
    active_extruder_ := 2
    target_extruder_ := 0
    extruder_status_ := false
    need_to_report_extruder_info_ := false
    temperature_0_ :=
      { adc_index := 0, thermistor_type := thermistor_type_e.THERMISTOR_PT100,
        current_c_tenths := 250, target_c_tenths := 2000 }
    temperature_1_ :=
      { adc_index := 1, thermistor_type := thermistor_type_e.THERMISTOR_PT100,
        current_c_tenths := 600, target_c_tenths := 2100 }
    nozzle_identify_0_ :=
      { adc_index := 2, calibration_type := thermistor_type_e.THERMISTOR_PT100, nozzle_type := 0 }
    nozzle_identify_1_ :=
      { adc_index := 3, calibration_type := thermistor_type_e.THERMISTOR_PT100, nozzle_type := 0 }
    FuncId2MsgId := fun _ => 1
    cfg_ :=
      { x_hotend_offset := { b0 := 0, b1 := 0, b2 := 0, b3 := 0 }
        y_hotend_offset := { b0 := 0, b1 := 0, b2 := 128, b3 := 63 }
        z_hotend_offset := { b0 := 0, b1 := 0, b2 := 0, b3 := 64 }
        probe_sensor_compensation_0 := { b0 := 0, b1 := 0, b2 := 0, b3 := 0 }
        probe_sensor_compensation_1 := { b0 := 0, b1 := 0, b2 := 0, b3 := 0 } }
    cfg_saves := 0
    z_motor_dir_ := 0
    z_motor_step_ := 0
    stepper_timer := none
    hw_log := []
    can_tx := []
    extruder_cs_0_ := 1
    extruder_cs_1_ := 0
    left_model_fan_ := { duty_cycle := 0, delay_sec_kill := 0 }
    right_model_fan_ := { duty_cycle := 0, delay_sec_kill := 0 }
    nozzle_fan_ := { duty_cycle := 0, delay_sec_kill := 0 }
    SetPID_calls := [] }

/-- The sample state with a move in flight. -/
def sample_busy : DualExtruder := { sample_state with motor_state_ := 1, stepps_sum_ := 8000 }

/-- The sample environment with the sentinel 9999 for a missing message
identifier. -/
def sample_env_9999 : Env := { sample_env with INVALID_VALUE := 9999 }

/-- The sample state with no reply route: every lookup returns the sentinel
`inv`. -/
def sample_no_route (inv : Nat) : DualExtruder := { sample_state with FuncId2MsgId := fun _ => inv }

/-- A move of three pulses in flight on a table that is not monotone: the
thresholds are 5, 1, 1, ..., 1, 3. -/
def jagged_move : DualExtruder :=
  { sample_state with
    speed_ctrl_buffer_ := fun i =>
      { pulse_count := if i = 19 then 3 else if i = 0 then 5 else 1, timer_time := 100 }
    stepps_sum_ := 3
    motor_state_ := 1 }

/-- A first move of one pulse (distance 1/1600 at speed 1/10) armed in the
sample state. -/
def first_move : DualExtruder := DualExtruder.DoBlockingMoveToZ sample_env sample_state (1 / 1600) (1 / 10)

/-- The state in which the executor leaves the first move: two invocations of
`Stepper` with the endstop not triggered. -/
def after_first_move : DualExtruder := DualExtruder.runStepper (fun _ => 0) 2 first_move

/-- A second move of one pulse, armed once the first one is complete. -/
def second_move : DualExtruder :=
  DualExtruder.DoBlockingMoveToZ sample_env after_first_move (1 / 1600) (1 / 10)

/-- The travel to the position of the second extruder, `DoBlockingMoveToZ(5, 9)`
(the call of `PrepareMoveToDestination(Z_MAX_POS, 9)` at position 0), armed in
the sample state with the arithmetic of the planner in binary32. -/
def travel_out : DualExtruder :=
  DualExtruder.InBinary32.DoBlockingMoveToZ sample_env sample_platform sample_state 5 9

/-- The state in which the executor leaves that travel: 16000 invocations of
`Stepper` with the endstop not triggered. -/
def after_travel_out : DualExtruder := DualExtruder.runStepper (fun _ => 0) 16000 travel_out

/-- The travel back, `DoBlockingMoveToZ(-5, 9)` (the call of
`PrepareMoveToDestination(0, 9)` at position 5), armed once the travel out is
complete. -/
def travel_back : DualExtruder :=
  DualExtruder.InBinary32.DoBlockingMoveToZ sample_env sample_platform after_travel_out (-5) 9

/-- The long approach of homing: the endstop stop is enabled and the move
`DoBlockingMoveToZ(9, 9)` is armed in the sample state. -/
def homing_approach : DualExtruder :=
  DualExtruder.DoBlockingMoveToZ sample_env { sample_state with end_stop_enable_ := true } 9 9

/-! ## Auxiliary definitions of the proofs -/

namespace DualExtruder

/-- The pulse threshold that the acceleration loop writes in the round with
`acc_time = q * k`. -/
def accel_term (q : ℚ) (k : ℚ) : ℚ :=
  (ACCELERATION * ((q * k) * (q * k)) / 2) * Z_AXIS_STEPS_PER_UNIT

/-- The increment over `segment[9]` that the deceleration loop writes in the
round with `acc_time = q * k`. -/
def decel_term (v q : ℚ) (k : ℚ) : ℚ :=
  (v * (q * k) - ACCELERATION * ((q * k) * (q * k)) / 2) * Z_AXIS_STEPS_PER_UNIT

/-- Invariant of a move in flight: the table is `B`, the move has `T` pulses of
which `c` are emitted, the step phase is `p`, the motor is on, and the threshold
of the current segment has not been passed. -/
def Running (B : SpeedCtrlBuffer) (T c p : Nat) (s : DualExtruder) : Prop :=
  s.speed_ctrl_buffer_ = B ∧ s.stepps_sum_ = T ∧ s.stepps_count_ = c ∧ s.step_pin_state_ = p ∧
    s.motor_state_ ≠ 0 ∧ c ≤ (B s.speed_ctrl_index_).pulse_count

/-- A table with non-decreasing pulse thresholds. -/
def NonDecreasing (B : SpeedCtrlBuffer) : Prop :=
  ∀ i, i < 19 → (B i).pulse_count ≤ (B (i + 1)).pulse_count

/-- The levels written to the step line, in the order of the writes. -/
def step_writes (log : List HwEvent) : List Nat :=
  log.filterMap (fun e => match e with
    | HwEvent.step_out v => some v
    | _ => none)

/-- Number of rising edges that a sequence of writes produces on a line whose
level before the first write is `level`. -/
def rising_edges : Nat → List Nat → Nat
  | _, [] => 0
  | level, v :: rest => (if level = 0 ∧ v ≠ 0 then 1 else 0) + rising_edges v rest

/-- The writes of `n` complete pulses: high, low, high, low, ... -/
def pulse_train : Nat → List Nat
  | 0 => []
  | n + 1 => pulse_train n ++ [1, 0]

/-- Invariant of a move in flight on an arbitrary table with the endstop stop
disabled: the table is `B`, the move has `T` pulses of which `c` are emitted,
the step phase variable is `p`, and the motor is on. -/
def Executing (B : SpeedCtrlBuffer) (T c p : Nat) (s : DualExtruder) : Prop :=
  s.speed_ctrl_buffer_ = B ∧ s.stepps_sum_ = T ∧ s.stepps_count_ = c ∧ s.step_pin_state_ = p ∧
    s.motor_state_ ≠ 0 ∧ s.end_stop_enable_ = false

/-- The part of the state that the stepper executor never writes: the state
with the executor's own members (segment index, pulse sum and counter, step
phase, motor state, step line, timer, log of hardware writes) blanked. -/
def outside_executor (s : DualExtruder) : DualExtruder :=
  { s with speed_ctrl_index_ := 0, stepps_sum_ := 0, stepps_count_ := 0, step_pin_state_ := 0,
           motor_state_ := 0, z_motor_step_ := 0, stepper_timer := none, hw_log := [] }

/-- The first three statements of `ExtruderSwitcingWithMotor`: the target is
stored, the driver lines are selected and identity checking is suspended. -/
def switch_selected (E : Env) (s : DualExtruder) (target : Nat) : DualExtruder :=
  let s := { s with target_extruder_ := target }
  let s := ActiveExtruder E s s.target_extruder_
  { s with extruder_check_status_ := extruder_status_e.EXTRUDER_STATUS_IDLE }

/-- The state that `ExtruderSwitcingWithMotor` hands to its `MoveSync`: after
the first three statements the move to the rail position of the target is
requested. -/
def switch_armed (E : Env) (s : DualExtruder) (target : Nat) : DualExtruder :=
  let s := switch_selected E s target
  if s.target_extruder_ = 1 then PrepareMoveToDestination E s Z_MAX_POS 9
  else if s.target_extruder_ = 0 then PrepareMoveToDestination E s 0 9
  else s

/-- What `ExtruderSwitcingWithMotor` does once its `MoveSync` has returned:
identity checking is resumed and the target is echoed. -/
def switch_done (E : Env) (s : DualExtruder) : DualExtruder :=
  let s := { s with extruder_check_status_ := extruder_status_e.EXTRUDER_STATUS_CHECK }
  if s.FuncId2MsgId FuncId.FUNC_SWITCH_EXTRUDER ≠ E.INVALID_VALUE then
    PushSendStandardData s (s.FuncId2MsgId FuncId.FUNC_SWITCH_EXTRUDER) [s.target_extruder_]
  else s

/-- One move of the homing sequence: `DoBlockingMoveToZ(d, v)` is called in
`prev` with the motor idle and identity checking suspended, so the request is
armed (with the pulse count and the direction of `d`, under the endstop
setting of `prev`); identity checking stays suspended at every invocation of
the executor, and the wait returns `next` with the motor idle. -/
def HomingMove (E : Env) (fuel : Nat) (r : Nat → Nat) (prev : DualExtruder) (d v : ℚ)
    (next : DualExtruder) : Prop :=
  prev.motor_state_ = 0 ∧
  prev.extruder_check_status_ = extruder_status_e.EXTRUDER_STATUS_IDLE ∧
  (DoBlockingMoveToZ E prev d v).motor_state_ = 1 ∧
  (DoBlockingMoveToZ E prev d v).stepps_sum_ = stepps_sum_of |d| ∧
  (DoBlockingMoveToZ E prev d v).z_motor_dir_ = (if d < 0 then 0 else 1) ∧
  (DoBlockingMoveToZ E prev d v).end_stop_enable_ = prev.end_stop_enable_ ∧
  (∀ n, (runStepper r n (DoBlockingMoveToZ E prev d v)).extruder_check_status_
    = extruder_status_e.EXTRUDER_STATUS_IDLE) ∧
  MoveSync fuel r (DoBlockingMoveToZ E prev d v) = some next ∧
  next.motor_state_ = 0 ∧
  next.extruder_check_status_ = extruder_status_e.EXTRUDER_STATUS_IDLE ∧
  next.end_stop_enable_ = prev.end_stop_enable_

namespace InBinary32

open Binary32

/-- The value of `acc_time` at the start of round `n` of either loop: the
quantum, to which the quantum has been added `n` times in binary32. -/
def acc_time_at (q : ℚ) : Nat → ℚ
  | 0 => q
  | n + 1 => rnd (acc_time_at q n + q)

/-- The threshold, before its conversion, that the acceleration loop computes
from `acc_time = a`. -/
def accel_value (a : ℚ) : ℚ :=
  rnd (rnd (rnd (ACCELERATION * rnd (a * a)) / 2) * Z_AXIS_STEPS_PER_UNIT)

/-- The divisor of the period that the acceleration loop computes from
`acc_time = a`. -/
def accel_divisor (a : ℚ) : ℚ :=
  rnd (rnd (ACCELERATION * a) * Z_AXIS_STEPS_PER_UNIT)

/-- The increment over `segment[9]`, before the addition, that the deceleration
loop computes from `acc_time = a`. -/
def decel_increment (v a : ℚ) : ℚ :=
  rnd (rnd (rnd (v * a) - rnd (rnd (ACCELERATION * rnd (a * a)) / 2))
    * Z_AXIS_STEPS_PER_UNIT)

/-- The divisor of the period that the deceleration loop computes from
`acc_time = a`. -/
def decel_divisor (v q a : ℚ) : ℚ :=
  rnd (rnd (v - rnd (ACCELERATION * rnd (a - q))) * Z_AXIS_STEPS_PER_UNIT)

/-- The local `acc_dec_time_quantum` of `DoBlockingMoveToZ` for a move of the
given length (lines 334 and 360). -/
def quantum_of (E : Env) (P : Platform) (length speed : ℚ) : ℚ :=
  if takes_trapezoid P length speed then rnd (rnd (speed / ACCELERATION) / 10)
  else rnd (rnd (E.sqrt (rnd (length / ACCELERATION))) / 10)

/-- The speed from which the deceleration loop starts: `speed` in the first
branch, the local `velocity` (line 362) in the second. -/
def velocity_of (E : Env) (P : Platform) (length speed : ℚ) : ℚ :=
  if takes_trapezoid P length speed then speed
  else rnd (ACCELERATION * rnd (E.sqrt (rnd (length / ACCELERATION))))

/-- The value of the expression `((speed * speed) / (2 * ACCELERATION)) *
Z_AXIS_STEPS_PER_UNIT` of line 327, before its conversion. -/
def acc_dec_value (speed : ℚ) : ℚ :=
  rnd (rnd (rnd (speed * speed) / (2 * ACCELERATION)) * Z_AXIS_STEPS_PER_UNIT)

end InBinary32

end DualExtruder

/-! ## Rounding to binary32 -/

open DualExtruder Binary32

theorem roundEven_int (n : ℤ) : roundEven (n : ℚ) = n := by
  simp [roundEven]

theorem floor_le_roundEven (y : ℚ) : ⌊y⌋ ≤ roundEven y := by
  unfold roundEven
  split_ifs <;> omega

theorem roundEven_le_floor_succ (y : ℚ) : roundEven y ≤ ⌊y⌋ + 1 := by
  unfold roundEven
  split_ifs <;> omega

theorem abs_roundEven_sub_le (y : ℚ) : |(roundEven y : ℚ) - y| ≤ 1 / 2 := by
  have h1 : (⌊y⌋ : ℚ) ≤ y := Int.floor_le y
  have h2 : y < (⌊y⌋ : ℚ) + 1 := Int.lt_floor_add_one y
  unfold roundEven
  rw [abs_le]
  split_ifs with ha hb hc
  · constructor <;> linarith
  · push_cast
    constructor <;> linarith
  · have he : y - ⌊y⌋ = 1 / 2 := le_antisymm (not_lt.mp hb) (not_lt.mp ha)
    constructor <;> linarith
  · have he : y - ⌊y⌋ = 1 / 2 := le_antisymm (not_lt.mp hb) (not_lt.mp ha)
    push_cast
    constructor <;> linarith

theorem roundEven_mono {y z : ℚ} (h : y ≤ z) : roundEven y ≤ roundEven z := by
  have hf : ⌊y⌋ ≤ ⌊z⌋ := Int.floor_mono h
  rcases lt_or_eq_of_le hf with hlt | heq
  · exact le_trans (roundEven_le_floor_succ y) (le_trans (by omega) (floor_le_roundEven z))
  · unfold roundEven
    rw [heq]
    have hd : y - (⌊z⌋ : ℚ) ≤ z - (⌊z⌋ : ℚ) := by linarith
    split_ifs <;> first | omega | (exfalso; linarith)

theorem roundEven_nonneg {y : ℚ} (h : 0 ≤ y) : 0 ≤ roundEven y := by
  have := roundEven_mono h
  rw [show ((0 : ℚ)) = ((0 : ℤ) : ℚ) by norm_num, roundEven_int] at this
  exact this

theorem two_zpow_pos (k : ℤ) : (0 : ℚ) < 2 ^ k := zpow_pos (by norm_num) k

/-- The exponent of a positive number between two consecutive powers of two. -/
theorem log_eq_of_bounds {x : ℚ} {e : ℤ} (h1 : (2 : ℚ) ^ e ≤ x) (h2 : x < 2 ^ (e + 1)) :
    Int.log 2 x = e := by
  have hx : 0 < x := lt_of_lt_of_le (two_zpow_pos e) h1
  have a1 : e ≤ Int.log 2 x := by
    rw [← Int.zpow_le_iff_le_log (by norm_num) hx]
    exact_mod_cast h1
  have a2 : Int.log 2 x < e + 1 := by
    rw [← Int.lt_zpow_iff_log_lt (by norm_num) hx]
    exact_mod_cast h2
  omega

theorem zpow_log_le {x : ℚ} (hx : 0 < x) : (2 : ℚ) ^ Int.log 2 x ≤ x := by
  have := Int.zpow_log_le_self (b := 2) (by norm_num) hx
  exact_mod_cast this

theorem lt_zpow_log_succ (x : ℚ) : x < (2 : ℚ) ^ (Int.log 2 x + 1) := by
  have := Int.lt_zpow_succ_log_self (b := 2) (by norm_num) x
  exact_mod_cast this

theorem ulp_exp_eq {x : ℚ} {e : ℤ} (h1 : (2 : ℚ) ^ e ≤ |x|) (h2 : |x| < 2 ^ (e + 1)) :
    ulp_exp x = max (e - 23) (-149) := by
  unfold ulp_exp
  rw [log_eq_of_bounds h1 h2]

theorem rnd_zero : rnd 0 = 0 := by
  simp [rnd, roundEven]

/-- Evaluation of the rounding once the binade of the argument is known. -/
theorem rnd_eval {x : ℚ} (e : ℤ) (h1 : (2 : ℚ) ^ e ≤ |x|) (h2 : |x| < 2 ^ (e + 1)) :
    rnd x = (roundEven (x / 2 ^ max (e - 23) (-149)) : ℚ) * 2 ^ max (e - 23) (-149) := by
  unfold rnd
  rw [ulp_exp_eq h1 h2]

theorem rnd_nonneg {x : ℚ} (h : 0 ≤ x) : 0 ≤ rnd x := by
  unfold rnd
  apply mul_nonneg _ (le_of_lt (two_zpow_pos _))
  have : 0 ≤ x / 2 ^ ulp_exp x := div_nonneg h (le_of_lt (two_zpow_pos _))
  exact_mod_cast roundEven_nonneg this

theorem ulp_exp_mono {x y : ℚ} (hx : 0 < x) (h : x ≤ y) : ulp_exp x ≤ ulp_exp y := by
  unfold ulp_exp
  rw [abs_of_pos hx, abs_of_pos (lt_of_lt_of_le hx h)]
  have := Int.log_mono_right (b := 2) hx h
  exact max_le_max (by omega) (le_refl _)

/-- Rounding to binary32 is monotone on the non-negative numbers. -/
theorem rnd_mono {x y : ℚ} (hx : 0 ≤ x) (h : x ≤ y) : rnd x ≤ rnd y := by
  rcases eq_or_lt_of_le hx with h0 | hpos
  · rw [← h0, rnd_zero]
    exact rnd_nonneg (le_trans hx h)
  have hy : 0 < y := lt_of_lt_of_le hpos h
  have hexp := ulp_exp_mono hpos h
  rcases eq_or_lt_of_le hexp with heq | hlt
  · unfold rnd
    rw [heq]
    apply mul_le_mul_of_nonneg_right _ (le_of_lt (two_zpow_pos _))
    have : x / 2 ^ ulp_exp y ≤ y / 2 ^ ulp_exp y :=
      div_le_div_of_nonneg_right h (le_of_lt (two_zpow_pos _))
    exact_mod_cast roundEven_mono this
  · -- different binades: a power of two lies in between
    have hey : ulp_exp y = Int.log 2 y - 23 := by
      unfold ulp_exp at hlt ⊢
      rw [abs_of_pos hy] at hlt ⊢
      have h149 : -149 ≤ max (Int.log 2 |x| - 23) (-149) := le_max_right _ _
      rw [max_eq_left]
      by_contra hc
      rw [max_eq_right (by omega)] at hlt
      omega
    have hex : Int.log 2 x - 23 ≤ ulp_exp x := by
      unfold ulp_exp
      rw [abs_of_pos hpos]
      exact le_max_left _ _
    -- rnd x ≤ 2 ^ (ulp_exp x + 24)
    have hxu : x / 2 ^ ulp_exp x ≤ ((2 ^ 24 : ℤ) : ℚ) := by
      rw [div_le_iff₀ (two_zpow_pos _)]
      have h1 : x < (2 : ℚ) ^ (Int.log 2 x + 1) := lt_zpow_log_succ x
      have h2 : (2 : ℚ) ^ (Int.log 2 x + 1) ≤ 2 ^ (24 + ulp_exp x) :=
        zpow_le_zpow_right₀ (by norm_num) (by omega)
      have h3 : ((2 ^ 24 : ℤ) : ℚ) * 2 ^ ulp_exp x = 2 ^ (24 + ulp_exp x) := by
        rw [zpow_add₀ (by norm_num)]
        norm_num
      rw [h3]
      linarith
    have hrx : rnd x ≤ 2 ^ (24 + ulp_exp x) := by
      unfold rnd
      have h4 := roundEven_mono hxu
      rw [roundEven_int] at h4
      have h5 : (roundEven (x / 2 ^ ulp_exp x) : ℚ) ≤ ((2 ^ 24 : ℤ) : ℚ) := by exact_mod_cast h4
      calc (roundEven (x / 2 ^ ulp_exp x) : ℚ) * 2 ^ ulp_exp x
          ≤ ((2 ^ 24 : ℤ) : ℚ) * 2 ^ ulp_exp x :=
            mul_le_mul_of_nonneg_right h5 (le_of_lt (two_zpow_pos _))
        _ = 2 ^ (24 + ulp_exp x) := by
            rw [zpow_add₀ (by norm_num)]
            norm_num
    -- 2 ^ (ulp_exp y + 23) ≤ rnd y
    have hyu : ((2 ^ 23 : ℤ) : ℚ) ≤ y / 2 ^ ulp_exp y := by
      rw [le_div_iff₀ (two_zpow_pos _)]
      have h1 : (2 : ℚ) ^ Int.log 2 y ≤ y := zpow_log_le hy
      have h3 : ((2 ^ 23 : ℤ) : ℚ) * 2 ^ ulp_exp y = 2 ^ Int.log 2 y := by
        rw [hey, show Int.log 2 y = 23 + (Int.log 2 y - 23) by ring, zpow_add₀ (by norm_num)]
        norm_num
      rw [h3]
      exact h1
    have hry : (2 : ℚ) ^ (23 + ulp_exp y) ≤ rnd y := by
      unfold rnd
      have h4 := roundEven_mono hyu
      rw [roundEven_int] at h4
      have h5 : ((2 ^ 23 : ℤ) : ℚ) ≤ (roundEven (y / 2 ^ ulp_exp y) : ℚ) := by exact_mod_cast h4
      calc (2 : ℚ) ^ (23 + ulp_exp y) = ((2 ^ 23 : ℤ) : ℚ) * 2 ^ ulp_exp y := by
            rw [zpow_add₀ (by norm_num)]
            norm_num
        _ ≤ (roundEven (y / 2 ^ ulp_exp y) : ℚ) * 2 ^ ulp_exp y :=
            mul_le_mul_of_nonneg_right h5 (le_of_lt (two_zpow_pos _))
    have hpow : (2 : ℚ) ^ (24 + ulp_exp x) ≤ 2 ^ (23 + ulp_exp y) :=
      zpow_le_zpow_right₀ (by norm_num) (by omega)
    linarith

/-- The quotient of a positive number by its unit in the last place is below
`2 ^ 24`. -/
theorem div_ulp_lt {x : ℚ} (hx : 0 < x) : x / 2 ^ ulp_exp x < 2 ^ 24 := by
  rw [div_lt_iff₀ (two_zpow_pos _)]
  have hex : Int.log 2 x - 23 ≤ ulp_exp x := by
    unfold ulp_exp
    rw [abs_of_pos hx]
    exact le_max_left _ _
  have h1 : x < (2 : ℚ) ^ (Int.log 2 x + 1) := lt_zpow_log_succ x
  have h2 : (2 : ℚ) ^ (Int.log 2 x + 1) ≤ 2 ^ (24 + ulp_exp x) :=
    zpow_le_zpow_right₀ (by norm_num) (by omega)
  have h3 : (2 : ℚ) ^ 24 * 2 ^ ulp_exp x = 2 ^ (24 + ulp_exp x) := by
    rw [zpow_add₀ (by norm_num)]
    norm_num
  rw [h3]
  linarith

theorem ulp_exp_ge (x : ℚ) : -149 ≤ ulp_exp x := le_max_right _ _

theorem rnd_onGrid {x : ℚ} (hx : 0 ≤ x) : OnGrid (rnd x) := by
  rcases eq_or_lt_of_le hx with h0 | hpos
  · rw [← h0, rnd_zero]
    exact ⟨0, 0, by norm_num, by norm_num, by norm_num⟩
  have h1 : x / 2 ^ ulp_exp x ≤ ((2 ^ 24 : ℤ) : ℚ) := by
    have := div_ulp_lt hpos
    push_cast
    linarith
  have h2 := roundEven_mono h1
  rw [roundEven_int] at h2
  have h3 : 0 ≤ roundEven (x / 2 ^ ulp_exp x) :=
    roundEven_nonneg (div_nonneg hx (le_of_lt (two_zpow_pos _)))
  refine ⟨(roundEven (x / 2 ^ ulp_exp x)).toNat, ulp_exp x, ?_, ulp_exp_ge x, ?_⟩
  · have : ((roundEven (x / 2 ^ ulp_exp x)).toNat : ℤ) = roundEven (x / 2 ^ ulp_exp x) :=
      Int.toNat_of_nonneg h3
    omega
  · unfold rnd
    have : (((roundEven (x / 2 ^ ulp_exp x)).toNat : ℕ) : ℚ)
        = ((roundEven (x / 2 ^ ulp_exp x) : ℤ) : ℚ) := by
      have h := Int.toNat_of_nonneg h3
      exact_mod_cast h
    rw [this]

/-- Numbers of the grid are not changed by the rounding. -/
theorem rnd_of_onGrid {x : ℚ} (h : OnGrid x) : rnd x = x := by
  obtain ⟨m, k, hm, hk, rfl⟩ := h
  rcases Nat.eq_zero_or_pos m with h0 | hmpos
  · subst h0
    simp [rnd_zero]
  have hmq : (0 : ℚ) < (m : ℚ) := by exact_mod_cast hmpos
  have hpos : (0 : ℚ) < (m : ℚ) * 2 ^ k := mul_pos hmq (two_zpow_pos k)
  -- the quotient by the unit in the last place is an integer
  have hint : ∃ n : ℤ, (m : ℚ) * 2 ^ k / 2 ^ ulp_exp ((m : ℚ) * 2 ^ k) = (n : ℚ) := by
    rcases Nat.lt_or_ge m (2 ^ 24) with hlt | hge
    · -- the exponent of the product is at most 23 + k
      have hlog : Int.log 2 ((m : ℚ) * 2 ^ k) < 24 + k := by
        rw [← Int.lt_zpow_iff_log_lt (by norm_num) hpos]
        have : ((2 : ℕ) : ℚ) ^ (24 + k) = 2 ^ 24 * 2 ^ k := by
          rw [zpow_add₀ (by norm_num)]
          norm_num
        rw [this]
        apply mul_lt_mul_of_pos_right _ (two_zpow_pos k)
        have : (m : ℚ) < ((2 ^ 24 : ℕ) : ℚ) := by exact_mod_cast hlt
        push_cast at this
        exact this
      have hu : ulp_exp ((m : ℚ) * 2 ^ k) ≤ k := by
        unfold ulp_exp
        rw [abs_of_pos hpos]
        exact max_le (by omega) hk
      obtain ⟨j, hj⟩ : ∃ j : ℕ, k = ulp_exp ((m : ℚ) * 2 ^ k) + j :=
        ⟨(k - ulp_exp ((m : ℚ) * 2 ^ k)).toNat, by
          have := Int.toNat_of_nonneg (by omega : 0 ≤ k - ulp_exp ((m : ℚ) * 2 ^ k))
          omega⟩
      refine ⟨(m : ℤ) * 2 ^ j, ?_⟩
      rw [div_eq_iff (ne_of_gt (two_zpow_pos _))]
      push_cast
      conv_lhs => rw [hj]
      rw [zpow_add₀ (by norm_num), zpow_natCast]
      ring
    · have hm24 : m = 2 ^ 24 := le_antisymm hm hge
      subst hm24
      have hval : (((2 ^ 24 : ℕ) : ℚ)) * 2 ^ k = 2 ^ (24 + k) := by
        rw [zpow_add₀ (by norm_num)]
        norm_num
      have hlog : Int.log 2 ((((2 ^ 24 : ℕ) : ℚ)) * 2 ^ k) = 24 + k := by
        rw [hval]
        have := Int.log_zpow (R := ℚ) (b := 2) (by norm_num) (24 + k)
        exact_mod_cast this
      have hu : ulp_exp ((((2 ^ 24 : ℕ) : ℚ)) * 2 ^ k) = 1 + k := by
        unfold ulp_exp
        rw [abs_of_pos hpos, hlog]
        rw [max_eq_left (by omega)]
        ring
      refine ⟨2 ^ 23, ?_⟩
      rw [hu, div_eq_iff (ne_of_gt (two_zpow_pos _)), hval]
      rw [zpow_add₀ (by norm_num) 1 k, zpow_add₀ (by norm_num) 24 k]
      norm_num
      ring
  obtain ⟨n, hn⟩ := hint
  unfold rnd
  rw [hn, roundEven_int, ← hn]
  exact div_mul_cancel₀ _ (ne_of_gt (two_zpow_pos _))

theorem rnd_idem {x : ℚ} (hx : 0 ≤ x) : rnd (rnd x) = rnd x :=
  rnd_of_onGrid (rnd_onGrid hx)

theorem onGrid_nat (n : ℕ) (h : n ≤ 2 ^ 24) : OnGrid (n : ℚ) :=
  ⟨n, 0, h, by norm_num, by simp⟩

theorem rnd_nat (n : ℕ) (h : n ≤ 2 ^ 24) : rnd (n : ℚ) = n := rnd_of_onGrid (onGrid_nat n h)

/-- The relative error of the rounding is at most `2 ^ -24` in the normal
range. -/
theorem rnd_rel_err {x : ℚ} (hx : (2 : ℚ) ^ (-126 : ℤ) ≤ x) :
    |rnd x - x| ≤ x * 2 ^ (-24 : ℤ) := by
  have hpos : 0 < x := lt_of_lt_of_le (two_zpow_pos _) hx
  have hlog : -126 ≤ Int.log 2 x := by
    rw [← Int.zpow_le_iff_le_log (by norm_num) hpos]
    exact_mod_cast hx
  have hu : ulp_exp x = Int.log 2 x - 23 := by
    unfold ulp_exp
    rw [abs_of_pos hpos, max_eq_left (by omega)]
  have herr := abs_roundEven_sub_le (x / 2 ^ ulp_exp x)
  have hx' : x = x / 2 ^ ulp_exp x * 2 ^ ulp_exp x :=
    (div_mul_cancel₀ _ (ne_of_gt (two_zpow_pos _))).symm
  have hsub : rnd x - x
      = ((roundEven (x / 2 ^ ulp_exp x) : ℚ) - x / 2 ^ ulp_exp x) * 2 ^ ulp_exp x := by
    rw [sub_mul, ← hx']
    rfl
  rw [hsub, abs_mul, abs_of_pos (two_zpow_pos _)]
  have h2 : (2 : ℚ) ^ ulp_exp x = 2 ^ Int.log 2 x * 2 ^ (-23 : ℤ) := by
    rw [hu, sub_eq_add_neg, zpow_add₀ (by norm_num)]
  have h3 : (2 : ℚ) ^ Int.log 2 x ≤ x := zpow_log_le hpos
  calc |(roundEven (x / 2 ^ ulp_exp x) : ℚ) - x / 2 ^ ulp_exp x| * 2 ^ ulp_exp x
      ≤ 1 / 2 * 2 ^ ulp_exp x := mul_le_mul_of_nonneg_right herr (le_of_lt (two_zpow_pos _))
    _ = 2 ^ Int.log 2 x * 2 ^ (-24 : ℤ) := by
        rw [h2]
        norm_num
        ring
    _ ≤ x * 2 ^ (-24 : ℤ) := mul_le_mul_of_nonneg_right h3 (le_of_lt (two_zpow_pos _))

theorem rnd_le_of_normal {x : ℚ} (hx : (2 : ℚ) ^ (-126 : ℤ) ≤ x) :
    rnd x ≤ x * (1 + 2 ^ (-24 : ℤ)) := by
  have h := (abs_le.mp (rnd_rel_err hx)).2
  linarith

theorem rnd_ge_of_normal {x : ℚ} (hx : (2 : ℚ) ^ (-126 : ℤ) ≤ x) :
    x * (1 - 2 ^ (-24 : ℤ)) ≤ rnd x := by
  have h := (abs_le.mp (rnd_rel_err hx)).1
  linarith

/-! ## Arming: frame condition, branch selection, position update -/

/-- C3: a call of `DoBlockingMoveToZ` while `motor_state_` is not 0 returns the
state it was given: table, counters, step phase, motor state, endstop flag,
position, the direction line and the timer (with the log of writes to them)
all keep their values. -/
theorem C3_arming_while_active_changes_nothing (E : Env) (s : DualExtruder) (length speed : ℚ)
    (hactive : s.motor_state_ ≠ 0) : DoBlockingMoveToZ E s length speed = s := by
  simp [DoBlockingMoveToZ, hactive]

theorem C3_arming_while_active_witness :
    sample_busy.motor_state_ ≠ 0 ∧ DoBlockingMoveToZ sample_env sample_busy (-2) 9 = sample_busy :=
  ⟨by decide, C3_arming_while_active_changes_nothing sample_env sample_busy (-2) 9 (by decide)⟩

/-- The magnitude that `DoBlockingMoveToZ` keeps in `length` after the sign test. -/
theorem length_magnitude (d : ℚ) : (if d < 0 then -d else d) = |d| := by
  split
  · next h => rw [abs_of_neg h]
  · next h => rw [abs_of_nonneg (not_lt.mp h)]

theorem DoBlockingMoveToZ_stepps_sum (E : Env) (s : DualExtruder) (d speed : ℚ)
    (hidle : s.motor_state_ = 0) :
    (DoBlockingMoveToZ E s d speed).stepps_sum_ = stepps_sum_of |d| := by
  simp only [DoBlockingMoveToZ, hidle, length_magnitude, StepperTimerStart]
  simp

theorem DoBlockingMoveToZ_buffer (E : Env) (s : DualExtruder) (d speed : ℚ)
    (hidle : s.motor_state_ = 0) :
    (DoBlockingMoveToZ E s d speed).speed_ctrl_buffer_ =
      if takes_trapezoid |d| speed then
        trapezoid_table s.speed_ctrl_buffer_ (stepps_sum_of |d|) (acc_dec_stepps_of speed) speed
      else triangle_table E s.speed_ctrl_buffer_ (stepps_sum_of |d|) |d| := by
  simp only [DoBlockingMoveToZ, hidle, length_magnitude, StepperTimerStart]
  by_cases hd : d < 0 <;> simp [hd, z_motor_dir_Out]

theorem DoBlockingMoveToZ_position (E : Env) (s : DualExtruder) (d speed : ℚ)
    (hidle : s.motor_state_ = 0) :
    (DoBlockingMoveToZ E s d speed).current_position_ = s.current_position_ + |d| := by
  simp only [DoBlockingMoveToZ, hidle, length_magnitude, StepperTimerStart]
  by_cases hd : d < 0 <;> simp [hd, z_motor_dir_Out]

theorem DoBlockingMoveToZ_motion_fields (E : Env) (s : DualExtruder) (d speed : ℚ)
    (hidle : s.motor_state_ = 0) :
    (DoBlockingMoveToZ E s d speed).motor_state_ = 1 ∧
    (DoBlockingMoveToZ E s d speed).speed_ctrl_index_ = 0 ∧
    (DoBlockingMoveToZ E s d speed).stepps_count_ = s.stepps_count_ ∧
    (DoBlockingMoveToZ E s d speed).step_pin_state_ = s.step_pin_state_ ∧
    (DoBlockingMoveToZ E s d speed).end_stop_enable_ = s.end_stop_enable_ := by
  simp only [DoBlockingMoveToZ, hidle, length_magnitude, StepperTimerStart]
  by_cases hd : d < 0 <;> simp [hd, z_motor_dir_Out]

/-! ## Facts about the conversions -/

theorem f2u32_mono {x y : ℚ} (h : x ≤ y) : f2u32 x ≤ f2u32 y := by
  unfold f2u32
  exact min_le_min (Int.toNat_le_toNat (Int.floor_mono h)) le_rfl

theorem f2u32_le_max (x : ℚ) : f2u32 x ≤ UINT32_MAX := min_le_right _ _

theorem f2u32_le_self {x : ℚ} (hx : 0 ≤ x) : (f2u32 x : ℚ) ≤ x := by
  have h1 : f2u32 x ≤ Int.toNat ⌊x⌋ := min_le_left _ _
  have h2 : ((Int.toNat ⌊x⌋ : ℕ) : ℤ) = ⌊x⌋ := Int.toNat_of_nonneg (Int.floor_nonneg.mpr hx)
  have h3 : ((Int.toNat ⌊x⌋ : ℕ) : ℚ) = ((⌊x⌋ : ℤ) : ℚ) := by exact_mod_cast h2
  calc (f2u32 x : ℚ) ≤ ((Int.toNat ⌊x⌋ : ℕ) : ℚ) := by exact_mod_cast h1
    _ = ((⌊x⌋ : ℤ) : ℚ) := h3
    _ ≤ x := Int.floor_le x

theorem f2u32_nat_add {n : ℕ} {x : ℚ} (hn : n ≤ UINT32_MAX) (hx : 0 ≤ x) :
    n ≤ f2u32 ((n : ℚ) + x) := by
  unfold f2u32
  refine le_min ?_ hn
  have h1 : (n : ℤ) ≤ ⌊(n : ℚ) + x⌋ := by
    rw [Int.le_floor]
    push_cast
    linarith
  omega

theorem lt_f2u32_add_one {x : ℚ} (h : f2u32 x < UINT32_MAX) : x < (f2u32 x : ℚ) + 1 := by
  have h1 : f2u32 x = Int.toNat ⌊x⌋ := by
    unfold f2u32 at h ⊢
    rcases le_total (Int.toNat ⌊x⌋) UINT32_MAX with hle | hle
    · exact min_eq_left hle
    · rw [min_eq_right hle] at h
      exact absurd h (lt_irrefl _)
  have h2 : ⌊x⌋ ≤ ((Int.toNat ⌊x⌋ : ℕ) : ℤ) := Int.self_le_toNat _
  have h3 : ((⌊x⌋ : ℤ) : ℚ) ≤ ((Int.toNat ⌊x⌋ : ℕ) : ℚ) := by exact_mod_cast h2
  have h4 : x < ((⌊x⌋ : ℤ) : ℚ) + 1 := Int.lt_floor_add_one x
  rw [h1]
  linarith

theorem f2u32_eq_floor {x : ℚ} (h0 : 0 ≤ x) (h : ⌊x⌋ ≤ (UINT32_MAX : ℤ)) :
    ((f2u32 x : ℕ) : ℤ) = ⌊x⌋ := by
  unfold f2u32
  have h1 : 0 ≤ ⌊x⌋ := Int.floor_nonneg.mpr h0
  have h2 : Int.toNat ⌊x⌋ ≤ UINT32_MAX := by omega
  rw [min_eq_left h2]
  exact Int.toNat_of_nonneg h1

/-! ## The two loops of the planner in closed form -/

theorem forLoop_succ {σ : Type} (n : Nat) (body : Nat → σ → σ) (init : σ) :
    forLoop (n + 1) body init = body n (forLoop n body init) := by
  simp [forLoop, List.range_succ, List.foldl_append]

theorem forLoop_zero {σ : Type} (body : Nat → σ → σ) (init : σ) :
    forLoop 0 body init = init := by
  simp [forLoop]

/-- After `n` rounds of the acceleration loop `acc_time` is `(n + 1)` quanta. -/
theorem accel_loop_time (q : ℚ) (buf : SpeedCtrlBuffer) (n : Nat) :
    (forLoop n (accel_body q) (buf, q)).2 = q * ((n : ℚ) + 1) := by
  induction n with
  | zero => simp [forLoop_zero]
  | succ k ih =>
    rw [forLoop_succ]
    simp only [accel_body, ih]
    push_cast
    ring

/-- Pulse counts after `n` rounds of the acceleration loop. -/
theorem accel_loop_pulse (q : ℚ) (buf : SpeedCtrlBuffer) (n i : Nat) :
    ((forLoop n (accel_body q) (buf, q)).1 i).pulse_count =
      if i < n then f2u32 (accel_term q ((i : ℚ) + 1))
      else (buf i).pulse_count := by
  induction n with
  | zero => simp [forLoop_zero]
  | succ k ih =>
    rw [forLoop_succ]
    simp only [accel_body, accel_loop_time, setPulseCount, setTimerTime, accel_term]
    by_cases hik : i = k
    · subst hik
      simp
    · have h1 : (i < k + 1) = (i < k) := by
        apply propext
        omega
      simp only [hik, if_false, h1]
      exact ih

/-- After `n` rounds of the deceleration loop `acc_time` is `(n + 1)` quanta. -/
theorem decel_loop_time (v q : ℚ) (buf : SpeedCtrlBuffer) (n : Nat) :
    (forLoop n (decel_body v q) (buf, q)).2 = q * ((n : ℚ) + 1) := by
  induction n with
  | zero => simp [forLoop_zero]
  | succ k ih =>
    rw [forLoop_succ]
    simp only [decel_body, ih]
    push_cast
    ring

/-- Pulse counts after `n` rounds of the deceleration loop, in closed form. -/
theorem decel_loop_pulse (v q : ℚ) (buf : SpeedCtrlBuffer) (n j : Nat) :
    ((forLoop n (decel_body v q) (buf, q)).1 j).pulse_count =
      if 10 ≤ j ∧ j < 10 + n then
        f2u32 (((buf 9).pulse_count : ℚ) + decel_term v q (((j - 10 : ℕ) : ℚ) + 1))
      else (buf j).pulse_count := by
  induction n generalizing j with
  | zero =>
    have h : ¬ (10 ≤ j ∧ j < 10 + 0) := by omega
    simp [forLoop_zero, h]
  | succ k ih =>
    rw [forLoop_succ]
    simp only [decel_body, decel_loop_time, setPulseCount, setTimerTime, decel_term]
    by_cases hjk : j = 10 + k
    · subst hjk
      have h9 := ih 9
      have hn : ¬ (10 ≤ 9 ∧ 9 < 10 + k) := by omega
      rw [if_neg hn] at h9
      simp [h9]
    · have h1 : (10 ≤ j ∧ j < 10 + (k + 1)) = (10 ≤ j ∧ j < 10 + k) := by
        apply propext
        omega
      simp only [hjk, if_false, h1]
      exact ih j

theorem f2u32_le_of_lt {x : ℚ} {n : ℕ} (h : x < (n : ℚ) + 1) : f2u32 x ≤ n := by
  have h1 : f2u32 x ≤ Int.toNat ⌊x⌋ := min_le_left _ _
  have h2 : ⌊x⌋ < (n : ℤ) + 1 := by
    rw [Int.floor_lt]
    push_cast
    exact h
  omega

/-! ## Monotonicity of the generated table -/

theorem accel_term_eq (q k : ℚ) : accel_term q k = 32000 * q ^ 2 * k ^ 2 := by
  simp only [accel_term, ACCELERATION, Z_AXIS_STEPS_PER_UNIT]
  ring

theorem decel_term_eq (q k : ℚ) : decel_term (400 * q) q k = 32000 * q ^ 2 * (k * (20 - k)) := by
  simp only [decel_term, ACCELERATION, Z_AXIS_STEPS_PER_UNIT]
  ring

theorem accel_term_mono (q : ℚ) {a b : ℚ} (ha : 0 ≤ a) (hab : a ≤ b) :
    accel_term q a ≤ accel_term q b := by
  rw [accel_term_eq, accel_term_eq]
  have h1 : a ^ 2 ≤ b ^ 2 := pow_le_pow_left₀ ha hab 2
  have h2 : (0 : ℚ) ≤ 32000 * q ^ 2 := by positivity
  exact mul_le_mul_of_nonneg_left h1 h2

theorem decel_term_nonneg {v q : ℚ} (hv : v = 400 * q) {k : ℚ} (h0 : 0 ≤ k) (h20 : k ≤ 20) :
    0 ≤ decel_term v q k := by
  subst hv
  rw [decel_term_eq]
  have h1 : 0 ≤ k * (20 - k) := mul_nonneg h0 (by linarith)
  positivity

theorem decel_term_mono {v q : ℚ} (hv : v = 400 * q) {a b : ℚ} (hab : a ≤ b)
    (hsum : a + b ≤ 20) : decel_term v q a ≤ decel_term v q b := by
  subst hv
  rw [decel_term_eq, decel_term_eq]
  have h1 : a * (20 - a) ≤ b * (20 - b) := by nlinarith
  have h2 : (0 : ℚ) ≤ 32000 * q ^ 2 := by positivity
  exact mul_le_mul_of_nonneg_left h1 h2

theorem setPulseCount_pulse (buf : SpeedCtrlBuffer) (i v j : Nat) :
    ((setPulseCount buf i v) j).pulse_count = if j = i then v else (buf j).pulse_count := by
  unfold setPulseCount
  split <;> rfl

/-- Pulse counts of the table built by the trapezoid branch. -/
theorem trapezoid_table_pulse (buf : SpeedCtrlBuffer) (sum acc : Nat) (speed : ℚ) (j : Nat) :
    ((trapezoid_table buf sum acc speed) j).pulse_count =
      if j = 19 then sum
      else if 10 ≤ j ∧ j < 20 then
        f2u32 ((((sum + 4294967296 - acc) % 4294967296 : ℕ) : ℚ)
          + decel_term speed (speed / ACCELERATION / 10) (((j - 10 : ℕ) : ℚ) + 1))
      else if j = 9 then (sum + 4294967296 - acc) % 4294967296
      else if j < 10 then f2u32 (accel_term (speed / ACCELERATION / 10) ((j : ℚ) + 1))
      else (buf j).pulse_count := by
  simp only [trapezoid_table]
  rw [setPulseCount_pulse]
  by_cases h19 : j = 19
  · simp [h19]
  · simp only [h19, if_false]
    rw [decel_loop_pulse, setPulseCount_pulse, setPulseCount_pulse]
    by_cases hd : 10 ≤ j ∧ j < 10 + 10
    · have hd2 : 10 ≤ j ∧ j < 20 := by omega
      simp [hd, hd2]
    · have hd2 : ¬ (10 ≤ j ∧ j < 20) := by omega
      simp only [hd, hd2, if_false]
      rw [accel_loop_pulse]

/-- Pulse counts of the table built by the triangular branch. -/
theorem triangle_table_pulse (E : Env) (buf : SpeedCtrlBuffer) (sum : Nat) (length : ℚ) (j : Nat) :
    ((triangle_table E buf sum length) j).pulse_count =
      if j = 19 then sum
      else if 10 ≤ j ∧ j < 20 then
        f2u32 (((f2u32 (accel_term (E.sqrt (length / ACCELERATION) / 10) 10) : ℕ) : ℚ)
          + decel_term (ACCELERATION * E.sqrt (length / ACCELERATION))
              (E.sqrt (length / ACCELERATION) / 10) (((j - 10 : ℕ) : ℚ) + 1))
      else if j < 10 then f2u32 (accel_term (E.sqrt (length / ACCELERATION) / 10) ((j : ℚ) + 1))
      else (buf j).pulse_count := by
  simp only [triangle_table]
  rw [setPulseCount_pulse]
  by_cases h19 : j = 19
  · simp [h19]
  · simp only [h19, if_false]
    rw [decel_loop_pulse, accel_loop_pulse, accel_loop_pulse]
    by_cases hd : 10 ≤ j ∧ j < 10 + 10
    · have hd2 : 10 ≤ j ∧ j < 20 := by omega
      simp only [hd, hd2, if_true, and_self]
      norm_num
    · have hd2 : ¬ (10 ≤ j ∧ j < 20) := by omega
      simp only [hd, hd2, if_false]

theorem trapezoid_pulse_accel (buf : SpeedCtrlBuffer) (sum acc : Nat) (speed : ℚ) {j : Nat}
    (hj : j ≤ 8) :
    ((trapezoid_table buf sum acc speed) j).pulse_count =
      f2u32 (accel_term (speed / ACCELERATION / 10) ((j : ℚ) + 1)) := by
  rw [trapezoid_table_pulse]
  have h1 : ¬ j = 19 := by omega
  have h2 : ¬ (10 ≤ j ∧ j < 20) := by omega
  have h3 : ¬ j = 9 := by omega
  have h4 : j < 10 := by omega
  simp only [h1, h2, h3, h4, if_false, if_true]

theorem trapezoid_pulse_9 (buf : SpeedCtrlBuffer) (sum acc : Nat) (speed : ℚ) :
    ((trapezoid_table buf sum acc speed) 9).pulse_count =
      (sum + 4294967296 - acc) % 4294967296 := by
  rw [trapezoid_table_pulse]
  norm_num

theorem trapezoid_pulse_decel (buf : SpeedCtrlBuffer) (sum acc : Nat) (speed : ℚ) {j : Nat}
    (h10 : 10 ≤ j) (h18 : j ≤ 18) :
    ((trapezoid_table buf sum acc speed) j).pulse_count =
      f2u32 ((((sum + 4294967296 - acc) % 4294967296 : ℕ) : ℚ)
        + decel_term speed (speed / ACCELERATION / 10) (((j - 10 : ℕ) : ℚ) + 1)) := by
  rw [trapezoid_table_pulse]
  have h1 : ¬ j = 19 := by omega
  have h2 : 10 ≤ j ∧ j < 20 := by omega
  simp only [h1, h2, if_false, if_true, and_self]

theorem trapezoid_pulse_19 (buf : SpeedCtrlBuffer) (sum acc : Nat) (speed : ℚ) :
    ((trapezoid_table buf sum acc speed) 19).pulse_count = sum := by
  rw [trapezoid_table_pulse]
  norm_num

theorem quantum_speed (speed : ℚ) : speed = 400 * (speed / ACCELERATION / 10) := by
  simp only [ACCELERATION]
  ring

/-- The trapezoid branch builds a non-decreasing table. -/
theorem trapezoid_table_mono (buf : SpeedCtrlBuffer) (sum : Nat) (speed : ℚ)
    (hsum : sum ≤ UINT32_MAX) (hbranch : acc_dec_stepps_of speed ≤ sum / 2) (i : Nat)
    (hi : i < 19) :
    ((trapezoid_table buf sum (acc_dec_stepps_of speed) speed) i).pulse_count ≤
      ((trapezoid_table buf sum (acc_dec_stepps_of speed) speed) (i + 1)).pulse_count := by
  have hmax : UINT32_MAX = 4294967295 := rfl
  have hv := quantum_speed speed
  have h9 : (sum + 4294967296 - acc_dec_stepps_of speed) % 4294967296
      = sum - acc_dec_stepps_of speed := by omega
  have h9le : sum - acc_dec_stepps_of speed ≤ UINT32_MAX := by omega
  rcases Nat.lt_or_ge i 8 with h8 | h8
  · -- both cells belong to the acceleration phase
    rw [trapezoid_pulse_accel buf sum _ speed (by omega : i ≤ 8),
      trapezoid_pulse_accel buf sum _ speed (by omega : i + 1 ≤ 8)]
    apply f2u32_mono
    apply accel_term_mono
    · positivity
    · push_cast
      linarith
  rcases Nat.lt_or_ge i 9 with h9i | h9i
  · -- i = 8: the last acceleration threshold against the plateau
    have hi8 : i = 8 := by omega
    subst hi8
    rw [trapezoid_pulse_accel buf sum _ speed (le_refl 8), trapezoid_pulse_9, h9]
    have hle : f2u32 (accel_term (speed / ACCELERATION / 10) (((8 : ℕ) : ℚ) + 1))
        ≤ acc_dec_stepps_of speed := by
      unfold acc_dec_stepps_of
      apply f2u32_mono
      rw [accel_term_eq]
      simp only [ACCELERATION, Z_AXIS_STEPS_PER_UNIT]
      have : 0 ≤ speed ^ 2 := sq_nonneg speed
      push_cast
      nlinarith
    omega
  rcases Nat.lt_or_ge i 10 with h10 | h10
  · -- i = 9: the plateau against the first deceleration threshold
    have hi9 : i = 9 := by omega
    subst hi9
    rw [trapezoid_pulse_9, trapezoid_pulse_decel buf sum _ speed (le_refl 10) (by omega), h9]
    apply f2u32_nat_add h9le
    apply decel_term_nonneg hv
    · positivity
    · norm_num
  rcases Nat.lt_or_ge i 18 with h18 | h18
  · -- both cells belong to the deceleration phase
    rw [trapezoid_pulse_decel buf sum _ speed h10 (by omega),
      trapezoid_pulse_decel buf sum _ speed (by omega : 10 ≤ i + 1) (by omega)]
    apply f2u32_mono
    have hk : ((i + 1 - 10 : ℕ) : ℚ) = ((i - 10 : ℕ) : ℚ) + 1 := by
      have : i + 1 - 10 = (i - 10) + 1 := by omega
      rw [this]
      push_cast
      rfl
    have hk8 : ((i - 10 : ℕ) : ℚ) ≤ 7 := by
      have : i - 10 ≤ 7 := by omega
      exact_mod_cast this
    have := decel_term_mono hv (a := ((i - 10 : ℕ) : ℚ) + 1) (b := ((i + 1 - 10 : ℕ) : ℚ) + 1)
      (by rw [hk]; linarith) (by rw [hk]; linarith)
    linarith
  · -- i = 18: the last computed threshold against the final clamp
    have hi18 : i = 18 := by omega
    subst hi18
    rw [trapezoid_pulse_decel buf sum _ speed (by omega : 10 ≤ 18) (le_refl 18),
      trapezoid_pulse_19, h9]
    apply f2u32_le_of_lt
    have hacc : acc_dec_stepps_of speed < UINT32_MAX := by omega
    have hlt := lt_f2u32_add_one hacc
    have hterm : decel_term speed (speed / ACCELERATION / 10) (((18 - 10 : ℕ) : ℚ) + 1)
        ≤ speed * speed / (2 * ACCELERATION) * Z_AXIS_STEPS_PER_UNIT := by
      simp only [decel_term, ACCELERATION, Z_AXIS_STEPS_PER_UNIT]
      have : 0 ≤ speed ^ 2 := sq_nonneg speed
      norm_num
      nlinarith
    have hcast : ((sum - acc_dec_stepps_of speed : ℕ) : ℚ)
        = (sum : ℚ) - (acc_dec_stepps_of speed : ℚ) := by
      have : acc_dec_stepps_of speed ≤ sum := by omega
      push_cast [this]
      rfl
    rw [hcast]
    unfold acc_dec_stepps_of at hlt ⊢
    linarith

theorem triangle_pulse_accel (E : Env) (buf : SpeedCtrlBuffer) (sum : Nat) (length : ℚ) {j : Nat}
    (hj : j ≤ 9) :
    ((triangle_table E buf sum length) j).pulse_count =
      f2u32 (accel_term (E.sqrt (length / ACCELERATION) / 10) ((j : ℚ) + 1)) := by
  rw [triangle_table_pulse]
  have h1 : ¬ j = 19 := by omega
  have h2 : ¬ (10 ≤ j ∧ j < 20) := by omega
  have h4 : j < 10 := by omega
  simp only [h1, h2, h4, if_false, if_true]

theorem triangle_pulse_decel (E : Env) (buf : SpeedCtrlBuffer) (sum : Nat) (length : ℚ) {j : Nat}
    (h10 : 10 ≤ j) (h18 : j ≤ 18) :
    ((triangle_table E buf sum length) j).pulse_count =
      f2u32 (((f2u32 (accel_term (E.sqrt (length / ACCELERATION) / 10) 10) : ℕ) : ℚ)
        + decel_term (ACCELERATION * E.sqrt (length / ACCELERATION))
            (E.sqrt (length / ACCELERATION) / 10) (((j - 10 : ℕ) : ℚ) + 1)) := by
  rw [triangle_table_pulse]
  have h1 : ¬ j = 19 := by omega
  have h2 : 10 ≤ j ∧ j < 20 := by omega
  simp only [h1, h2, if_false, if_true, and_self]

theorem triangle_pulse_19 (E : Env) (buf : SpeedCtrlBuffer) (sum : Nat) (length : ℚ) :
    ((triangle_table E buf sum length) 19).pulse_count = sum := by
  rw [triangle_table_pulse]
  norm_num

theorem quantum_velocity (r : ℚ) : ACCELERATION * r = 400 * (r / 10) := by
  simp only [ACCELERATION]
  ring

/-- The triangular branch builds a non-decreasing table when the square of the
computed root exceeds its argument by at most half a percent. -/
theorem triangle_table_mono (E : Env) (buf : SpeedCtrlBuffer) (length : ℚ) (hlen : 0 ≤ length)
    (hsqrt : E.sqrt (length / ACCELERATION) ^ 2 ≤ length / ACCELERATION * (201 / 200))
    (i : Nat) (hi : i < 19) :
    ((triangle_table E buf (stepps_sum_of length) length) i).pulse_count ≤
      ((triangle_table E buf (stepps_sum_of length) length) (i + 1)).pulse_count := by
  have hv := quantum_velocity (E.sqrt (length / ACCELERATION))
  rcases Nat.lt_or_ge i 9 with h9 | h9
  · -- both cells belong to the acceleration phase
    rw [triangle_pulse_accel E buf _ length (by omega : i ≤ 9),
      triangle_pulse_accel E buf _ length (by omega : i + 1 ≤ 9)]
    apply f2u32_mono
    apply accel_term_mono
    · positivity
    · push_cast
      linarith
  rcases Nat.lt_or_ge i 10 with h10 | h10
  · -- i = 9: the midpoint against the first deceleration threshold
    have hi9 : i = 9 := by omega
    subst hi9
    rw [triangle_pulse_accel E buf _ length (le_refl 9),
      triangle_pulse_decel E buf _ length (le_refl 10) (by omega)]
    have h910 : (((9 : ℕ) : ℚ) + 1) = 10 := by norm_num
    rw [h910]
    apply f2u32_nat_add (f2u32_le_max _)
    apply decel_term_nonneg hv
    · positivity
    · norm_num
  rcases Nat.lt_or_ge i 18 with h18 | h18
  · -- both cells belong to the deceleration phase
    rw [triangle_pulse_decel E buf _ length h10 (by omega),
      triangle_pulse_decel E buf _ length (by omega : 10 ≤ i + 1) (by omega)]
    apply f2u32_mono
    have hk : ((i + 1 - 10 : ℕ) : ℚ) = ((i - 10 : ℕ) : ℚ) + 1 := by
      have : i + 1 - 10 = (i - 10) + 1 := by omega
      rw [this]
      push_cast
      rfl
    have hk8 : ((i - 10 : ℕ) : ℚ) ≤ 7 := by
      have : i - 10 ≤ 7 := by omega
      exact_mod_cast this
    have := decel_term_mono hv (a := ((i - 10 : ℕ) : ℚ) + 1) (b := ((i + 1 - 10 : ℕ) : ℚ) + 1)
      (by rw [hk]; linarith) (by rw [hk]; linarith)
    linarith
  · -- i = 18: the last computed threshold against the final clamp
    have hi18 : i = 18 := by omega
    subst hi18
    rw [triangle_pulse_decel E buf _ length (by omega : 10 ≤ 18) (le_refl 18),
      triangle_pulse_19]
    unfold stepps_sum_of
    apply f2u32_mono
    have hmid : ((f2u32 (accel_term (E.sqrt (length / ACCELERATION) / 10) 10) : ℕ) : ℚ)
        ≤ 32000 * E.sqrt (length / ACCELERATION) ^ 2 := by
      have h1 : accel_term (E.sqrt (length / ACCELERATION) / 10) 10
          = 32000 * E.sqrt (length / ACCELERATION) ^ 2 := by
        rw [accel_term_eq]
        ring
      rw [← h1]
      apply f2u32_le_self
      rw [h1]
      positivity
    have hterm : decel_term (ACCELERATION * E.sqrt (length / ACCELERATION))
        (E.sqrt (length / ACCELERATION) / 10) (((18 - 10 : ℕ) : ℚ) + 1)
        = 31680 * E.sqrt (length / ACCELERATION) ^ 2 := by
      rw [hv, decel_term_eq]
      norm_num
      ring
    rw [hterm]
    simp only [ACCELERATION, Z_AXIS_STEPS_PER_UNIT] at hsqrt hmid ⊢
    linarith

theorem takes_trapezoid_iff (length speed : ℚ) :
    takes_trapezoid length speed = true ↔ acc_dec_stepps_of speed ≤ stepps_sum_of length / 2 := by
  simp [takes_trapezoid]

/-- The final clamp: whatever the branch, `segment[19]` holds `stepps_sum_`. -/
theorem DoBlockingMoveToZ_last_pulse (E : Env) (s : DualExtruder) (d speed : ℚ)
    (hidle : s.motor_state_ = 0) :
    ((DoBlockingMoveToZ E s d speed).speed_ctrl_buffer_ 19).pulse_count = stepps_sum_of |d| := by
  rw [DoBlockingMoveToZ_buffer E s d speed hidle]
  split
  · exact trapezoid_pulse_19 _ _ _ _
  · exact triangle_pulse_19 _ _ _ _

/-- The table of an armed move is non-decreasing; the accuracy of the square
root matters in the triangular branch only. -/
theorem DoBlockingMoveToZ_mono (E : Env) (s : DualExtruder) (d speed : ℚ)
    (hidle : s.motor_state_ = 0)
    (hsqrt : takes_trapezoid |d| speed = true ∨
      E.sqrt (|d| / ACCELERATION) ^ 2 ≤ |d| / ACCELERATION * (201 / 200))
    (i : Nat) (hi : i < 19) :
    ((DoBlockingMoveToZ E s d speed).speed_ctrl_buffer_ i).pulse_count ≤
      ((DoBlockingMoveToZ E s d speed).speed_ctrl_buffer_ (i + 1)).pulse_count := by
  rw [DoBlockingMoveToZ_buffer E s d speed hidle]
  by_cases hb : takes_trapezoid |d| speed = true
  · simp only [hb, if_true]
    exact trapezoid_table_mono _ _ _ (f2u32_le_max _) ((takes_trapezoid_iff _ _).mp hb) i hi
  · simp only [hb]
    rcases hsqrt with h | h
    · exact absurd h hb
    · exact triangle_table_mono E _ _ (abs_nonneg d) h i hi

theorem sample_sqrt_hundredth : sample_sqrt (1 / 100) = 1 / 10 := by
  have h1 : Nat.sqrt 10000000000 = 100000 :=
    (Nat.eq_sqrt.2 ⟨by norm_num, by norm_num⟩).symm
  have h2 : Int.toNat (10000000000 : ℤ) = 10000000000 := rfl
  unfold sample_sqrt
  norm_num [h1, h2]

/-! ## The iteration bound of the `while` loop -/

/-- The bound of 20 iterations is never exhausted: any two bounds that cover
the segments left give the same result. -/
theorem Stepper_while_fuel_irrelevant (fuel1 fuel2 : Nat) (s : DualExtruder)
    (h1 : 20 ≤ fuel1 + s.speed_ctrl_index_.val) (h2 : 20 ≤ fuel2 + s.speed_ctrl_index_.val) :
    Stepper_while fuel1 s = Stepper_while fuel2 s := by
  induction fuel1 generalizing fuel2 s with
  | zero =>
    have := s.speed_ctrl_index_.isLt
    omega
  | succ n ih =>
    cases fuel2 with
    | zero =>
      have := s.speed_ctrl_index_.isLt
      omega
    | succ m =>
      rw [Stepper_while, Stepper_while]
      split
      · split
        · apply ih
          · simp only [StepperTimerStart, StepperTimerStop]
            omega
          · simp only [StepperTimerStart, StepperTimerStop]
            omega
        · rfl
      · rfl

theorem Stepper_while_fuel (fuel : Nat) (s : DualExtruder) (h : 20 ≤ fuel) :
    Stepper_while fuel s = Stepper_while 20 s :=
  Stepper_while_fuel_irrelevant fuel 20 s (by omega) (by omega)

/-! ## The stepper executor on a non-decreasing table -/

theorem NonDecreasing_le_last {B : SpeedCtrlBuffer} (h : NonDecreasing B) (i : Nat) (hi : i ≤ 19) :
    (B i).pulse_count ≤ (B 19).pulse_count := by
  obtain ⟨k, hk⟩ : ∃ k, i + k = 19 := ⟨19 - i, by omega⟩
  induction k generalizing i with
  | zero =>
    have : i = 19 := by omega
    rw [this]
  | succ n ih =>
    have h1 := h i (by omega)
    have h2 := ih (i + 1) (by omega) (by omega)
    exact le_trans h1 h2

/-- The `while` loop below the last threshold: it stops without leaving
`Stepper`, on a segment whose threshold lies above the pulses emitted. -/
theorem Stepper_while_advance (B : SpeedCtrlBuffer) (T c p : Nat) (hmono : NonDecreasing B)
    (hlast : (B 19).pulse_count = T) (hc : c < T) (fuel : Nat) (s : DualExtruder)
    (hfuel : 20 ≤ fuel + s.speed_ctrl_index_.val) (hs : Running B T c p s) :
    ∃ s', Stepper_while fuel s = (s', false) ∧ Running B T c p s' ∧
      c < (B s'.speed_ctrl_index_).pulse_count ∧
      s'.end_stop_enable_ = s.end_stop_enable_ := by
  induction fuel generalizing s with
  | zero =>
    have := s.speed_ctrl_index_.isLt
    omega
  | succ n ih =>
    obtain ⟨hB, hT, hcnt, hp, hm, hle⟩ := hs
    rw [Stepper_while]
    by_cases heq : s.stepps_count_ = (s.speed_ctrl_buffer_ s.speed_ctrl_index_).pulse_count
    · rw [if_pos heq]
      by_cases h19 : s.speed_ctrl_index_.val ≠ 19
      · rw [dif_pos h19]
        have hlt := s.speed_ctrl_index_.isLt
        have hnext := hmono s.speed_ctrl_index_.val (by omega)
        rw [hB, hcnt] at heq
        refine ih _ ?_ ?_ |>.imp fun s' hs' => ⟨hs'.1, hs'.2.1, hs'.2.2.1, ?_⟩
        · simp only [StepperTimerStart, StepperTimerStop]
          omega
        · simp only [StepperTimerStart, StepperTimerStop, Running]
          exact ⟨hB, hT, hcnt, hp, hm, by omega⟩
        · rw [hs'.2.2.2]
          simp only [StepperTimerStart, StepperTimerStop]
      · exfalso
        have h19' : s.speed_ctrl_index_.val = 19 := by omega
        rw [hB, hcnt, h19', hlast] at heq
        omega
    · rw [if_neg heq]
      refine ⟨s, rfl, ⟨hB, hT, hcnt, hp, hm, hle⟩, ?_, rfl⟩
      rw [hB, hcnt] at heq
      omega

/-- The `while` loop once the last threshold is reached: it runs to the last
segment and stops the motor. -/
theorem Stepper_while_finish (B : SpeedCtrlBuffer) (T p : Nat) (hmono : NonDecreasing B)
    (hlast : (B 19).pulse_count = T) (fuel : Nat) (s : DualExtruder)
    (hfuel : 20 ≤ fuel + s.speed_ctrl_index_.val) (hs : Running B T T p s) :
    ∃ s', Stepper_while fuel s = (s', true) ∧ s'.motor_state_ = 0 ∧ s'.stepps_count_ = 0 ∧
      s'.step_pin_state_ = p ∧ s'.stepps_sum_ = 0 ∧
      s'.end_stop_enable_ = s.end_stop_enable_ := by
  induction fuel generalizing s with
  | zero =>
    have := s.speed_ctrl_index_.isLt
    omega
  | succ n ih =>
    obtain ⟨hB, hT, hcnt, hp, hm, hle⟩ := hs
    have hlt := s.speed_ctrl_index_.isLt
    have hup := NonDecreasing_le_last hmono s.speed_ctrl_index_.val (by omega)
    have heq : s.stepps_count_ = (s.speed_ctrl_buffer_ s.speed_ctrl_index_).pulse_count := by
      rw [hB, hcnt]
      omega
    rw [Stepper_while, if_pos heq]
    by_cases h19 : s.speed_ctrl_index_.val ≠ 19
    · rw [dif_pos h19]
      have hnext := hmono s.speed_ctrl_index_.val (by omega)
      rw [hB, hcnt] at heq
      refine ih _ ?_ ?_ |>.imp fun s' hs' =>
        ⟨hs'.1, hs'.2.1, hs'.2.2.1, hs'.2.2.2.1, hs'.2.2.2.2.1, ?_⟩
      · simp only [StepperTimerStart, StepperTimerStop]
        omega
      · simp only [StepperTimerStart, StepperTimerStop, Running]
        exact ⟨hB, hT, hcnt, hp, hm, by omega⟩
      · rw [hs'.2.2.2.2.2]
        simp only [StepperTimerStart, StepperTimerStop]
    · rw [dif_neg h19]
      refine ⟨_, rfl, ?_, ?_, ?_, ?_, ?_⟩ <;>
        simp [StepperTimerStop, z_motor_step_Out, hp]

/-- A rising edge: the invocation in phase low below the last threshold emits
one pulse. -/
theorem Stepper_rise (B : SpeedCtrlBuffer) (T c : Nat) (hmono : NonDecreasing B)
    (hlast : (B 19).pulse_count = T) (hc : c < T) (hT : T ≤ UINT32_MAX) (s : DualExtruder)
    (endstop : Nat) (hno : ¬ (s.end_stop_enable_ = true ∧ endstop ≠ 0))
    (hs : Running B T c 0 s) :
    Running B T (c + 1) 1 (Stepper s endstop) ∧
      (Stepper s endstop).end_stop_enable_ = s.end_stop_enable_ := by
  obtain ⟨s', hw, ⟨hB, hsum, hcnt, hp, hm, _⟩, hlt, he⟩ :=
    Stepper_while_advance B T c 0 hmono hlast hc 20 s (by omega) hs
  have hmax : UINT32_MAX = 4294967295 := rfl
  have hmod : (c + 1) % 4294967296 = c + 1 := Nat.mod_eq_of_lt (by omega)
  unfold Stepper
  rw [if_neg hno, hw]
  simp only [Bool.false_eq_true, if_false, hp, if_true, z_motor_step_Out, Running, hcnt, hmod]
  refine ⟨⟨hB, ?_, ?_, ?_, hm, ?_⟩, he⟩ <;> trivial

/-- A falling edge before the last pulse: the invocation in phase high only
lowers the step line. -/
theorem Stepper_fall (B : SpeedCtrlBuffer) (T c : Nat) (hmono : NonDecreasing B)
    (hlast : (B 19).pulse_count = T) (hc : c < T) (s : DualExtruder)
    (endstop : Nat) (hno : ¬ (s.end_stop_enable_ = true ∧ endstop ≠ 0))
    (hs : Running B T c 1 s) :
    Running B T c 0 (Stepper s endstop) ∧
      (Stepper s endstop).end_stop_enable_ = s.end_stop_enable_ := by
  obtain ⟨s', hw, ⟨hB, hsum, hcnt, hp, hm, _⟩, hlt, he⟩ :=
    Stepper_while_advance B T c 1 hmono hlast hc 20 s (by omega) hs
  have hne : ¬ c = T := by omega
  unfold Stepper
  rw [if_neg hno, hw]
  simp only [Bool.false_eq_true, if_false, hp, one_ne_zero, z_motor_step_Out, Running, hcnt,
    hsum, hne]
  refine ⟨⟨hB, ?_, ?_, ?_, hm, ?_⟩, he⟩ <;> trivial

/-- The invocation after the last pulse stops the motor; the step phase
variable keeps the value 1. -/
theorem Stepper_last (B : SpeedCtrlBuffer) (T : Nat) (hmono : NonDecreasing B)
    (hlast : (B 19).pulse_count = T) (s : DualExtruder)
    (endstop : Nat) (hno : ¬ (s.end_stop_enable_ = true ∧ endstop ≠ 0))
    (hs : Running B T T 1 s) :
    (Stepper s endstop).motor_state_ = 0 ∧ (Stepper s endstop).stepps_count_ = 0 ∧
      (Stepper s endstop).step_pin_state_ = 1 ∧
      (Stepper s endstop).end_stop_enable_ = s.end_stop_enable_ := by
  obtain ⟨s', hw, hm, hcnt, hp, _, he⟩ :=
    Stepper_while_finish B T 1 hmono hlast 20 s (by omega) hs
  unfold Stepper
  rw [if_neg hno, hw]
  simp only [if_true]
  exact ⟨hm, hcnt, hp, he⟩

theorem runStepper_succ (endstop : Nat → Nat) (n : Nat) (s : DualExtruder) :
    runStepper endstop (n + 1) s = Stepper (runStepper endstop n s) (endstop n) := rfl

/-- A move that starts in phase low with no pulse emitted: after `2 * j`
invocations `j` pulses are out and the phase is low again. -/
theorem runStepper_even (B : SpeedCtrlBuffer) (T : Nat) (hmono : NonDecreasing B)
    (hlast : (B 19).pulse_count = T) (hT : T ≤ UINT32_MAX) (endstop : Nat → Nat)
    (hstop : ∀ i, endstop i = 0) (s : DualExtruder) (hs : Running B T 0 0 s) (j : Nat)
    (hj : j < T) : Running B T j 0 (runStepper endstop (2 * j) s) := by
  induction j with
  | zero => exact hs
  | succ k ih =>
    have hk := ih (by omega)
    have hno : ∀ (st : DualExtruder) (i : Nat), ¬ (st.end_stop_enable_ = true ∧ endstop i ≠ 0) := by
      intro st i h
      exact h.2 (hstop i)
    have h1 := (Stepper_rise B T k hmono hlast (by omega) hT _ (endstop (2 * k)) (hno _ _) hk).1
    have h2 := (Stepper_fall B T (k + 1) hmono hlast hj _ (endstop (2 * k + 1)) (hno _ _) h1).1
    have e : 2 * (k + 1) = 2 * k + 1 + 1 := by ring
    rw [e, runStepper_succ, runStepper_succ]
    exact h2

/-- After `2 * j + 1` invocations `j + 1` pulses are out and the phase is high. -/
theorem runStepper_odd (B : SpeedCtrlBuffer) (T : Nat) (hmono : NonDecreasing B)
    (hlast : (B 19).pulse_count = T) (hT : T ≤ UINT32_MAX) (endstop : Nat → Nat)
    (hstop : ∀ i, endstop i = 0) (s : DualExtruder) (hs : Running B T 0 0 s) (j : Nat)
    (hj : j < T) : Running B T (j + 1) 1 (runStepper endstop (2 * j + 1) s) := by
  have hk := runStepper_even B T hmono hlast hT endstop hstop s hs j hj
  have hno : ¬ ((runStepper endstop (2 * j) s).end_stop_enable_ = true ∧ endstop (2 * j) ≠ 0) :=
    fun h => h.2 (hstop _)
  rw [runStepper_succ]
  exact (Stepper_rise B T j hmono hlast hj hT _ (endstop (2 * j)) hno hk).1

/-- A move of `T` pulses, `T` at least 1, that starts in phase low with no pulse
emitted on a non-decreasing table whose last threshold is `T`: the motor is on
after every number of invocations below `2 * T` and off after `2 * T`
invocations, with the step phase variable left at 1. -/
theorem runStepper_clean_start (B : SpeedCtrlBuffer) (T : Nat) (hmono : NonDecreasing B)
    (hlast : (B 19).pulse_count = T) (hT : T ≤ UINT32_MAX) (hT1 : 1 ≤ T) (endstop : Nat → Nat)
    (hstop : ∀ i, endstop i = 0) (s : DualExtruder) (hs : Running B T 0 0 s) :
    (∀ k, k < 2 * T → (runStepper endstop k s).motor_state_ ≠ 0) ∧
    (runStepper endstop (2 * T) s).motor_state_ = 0 ∧
    (runStepper endstop (2 * T) s).stepps_count_ = 0 ∧
    (runStepper endstop (2 * T) s).step_pin_state_ = 1 := by
  refine ⟨?_, ?_⟩
  · intro k hk
    rcases Nat.even_or_odd' k with ⟨j, hj | hj⟩
    · rw [hj]
      exact (runStepper_even B T hmono hlast hT endstop hstop s hs j (by omega)).2.2.2.2.1
    · rw [hj]
      exact (runStepper_odd B T hmono hlast hT endstop hstop s hs j (by omega)).2.2.2.2.1
  · have hodd := runStepper_odd B T hmono hlast hT endstop hstop s hs (T - 1) (by omega)
    have e1 : T - 1 + 1 = T := by omega
    rw [e1] at hodd
    have e2 : 2 * T = 2 * (T - 1) + 1 + 1 := by omega
    have hno : ¬ ((runStepper endstop (2 * (T - 1) + 1) s).end_stop_enable_ = true
        ∧ endstop (2 * (T - 1) + 1) ≠ 0) := fun h => h.2 (hstop _)
    have h := Stepper_last B T hmono hlast _ (endstop (2 * (T - 1) + 1)) hno hodd
    rw [e2, runStepper_succ]
    exact ⟨h.1, h.2.1, h.2.2.1⟩

theorem runStepper_shift (endstop : Nat → Nat) (n : Nat) (s : DualExtruder) :
    runStepper endstop (n + 1) s
      = runStepper (fun i => endstop (i + 1)) n (Stepper s (endstop 0)) := by
  induction n with
  | zero => rfl
  | succ k ih =>
    rw [runStepper_succ, ih]
    rfl

/-- A move that is armed while the step phase variable still holds 1: the first
invocation only clears the phase, so the motor is on after every number of
invocations up to `2 * T` and goes off at invocation `2 * T + 1`. -/
theorem runStepper_stale_start (B : SpeedCtrlBuffer) (T : Nat) (hmono : NonDecreasing B)
    (hlast : (B 19).pulse_count = T) (hT : T ≤ UINT32_MAX) (hT1 : 1 ≤ T) (endstop : Nat → Nat)
    (hstop : ∀ i, endstop i = 0) (s : DualExtruder) (hs : Running B T 0 1 s) :
    (∀ k, k < 2 * T + 1 → (runStepper endstop k s).motor_state_ ≠ 0) ∧
    (runStepper endstop (2 * T + 1) s).motor_state_ = 0 := by
  have hno : ¬ (s.end_stop_enable_ = true ∧ endstop 0 ≠ 0) := fun h => h.2 (hstop 0)
  have h0 := (Stepper_fall B T 0 hmono hlast (by omega) s (endstop 0) hno hs).1
  have hrun := runStepper_clean_start B T hmono hlast hT hT1 (fun i => endstop (i + 1))
    (fun i => hstop (i + 1)) _ h0
  refine ⟨?_, ?_⟩
  · intro k hk
    cases k with
    | zero => exact hs.2.2.2.2.1
    | succ n =>
      rw [runStepper_shift]
      exact hrun.1 n (by omega)
  · rw [runStepper_shift]
    exact hrun.2.1

/-- The state that `DoBlockingMoveToZ` arms satisfies the invariant of a move in
flight, with the counter and the step phase it found. -/
theorem DoBlockingMoveToZ_running (E : Env) (s : DualExtruder) (d speed : ℚ)
    (hidle : s.motor_state_ = 0) (hcount : s.stepps_count_ = 0) :
    Running (DoBlockingMoveToZ E s d speed).speed_ctrl_buffer_
      (DoBlockingMoveToZ E s d speed).stepps_sum_ 0 s.step_pin_state_
      (DoBlockingMoveToZ E s d speed) := by
  obtain ⟨hm, _, hc, hp, _⟩ := DoBlockingMoveToZ_motion_fields E s d speed hidle
  refine ⟨rfl, rfl, ?_, hp, ?_, Nat.zero_le _⟩
  · rw [hc, hcount]
  · rw [hm]
    exact one_ne_zero

/-- A move that `DoBlockingMoveToZ` arms from an idle state
whose pulse counter is 0 and whose step phase variable is 0, with at least one
pulse and a non-decreasing table whose last threshold is the pulse count,
keeps `motor_state_` different from 0 after every number of `Stepper`
invocations below `2 * stepps_sum_` and has `motor_state_ = 0` after exactly
`2 * stepps_sum_` invocations, when the endstop never reads triggered. -/
theorem Stepper_idle_on_invocation_two_T (E : Env) (s : DualExtruder) (d speed : ℚ)
    (endstop : Nat → Nat)
    (hidle : s.motor_state_ = 0) (hcount : s.stepps_count_ = 0) (hphase : s.step_pin_state_ = 0)
    (hT : 1 ≤ (DoBlockingMoveToZ E s d speed).stepps_sum_)
    (hmono : ∀ i, i < 19 →
      ((DoBlockingMoveToZ E s d speed).speed_ctrl_buffer_ i).pulse_count ≤
        ((DoBlockingMoveToZ E s d speed).speed_ctrl_buffer_ (i + 1)).pulse_count)
    (hlast : ((DoBlockingMoveToZ E s d speed).speed_ctrl_buffer_ 19).pulse_count
      = (DoBlockingMoveToZ E s d speed).stepps_sum_)
    (hstop : ∀ i, endstop i = 0) :
    (∀ k, k < 2 * (DoBlockingMoveToZ E s d speed).stepps_sum_ →
      (runStepper endstop k (DoBlockingMoveToZ E s d speed)).motor_state_ ≠ 0) ∧
    (runStepper endstop (2 * (DoBlockingMoveToZ E s d speed).stepps_sum_)
      (DoBlockingMoveToZ E s d speed)).motor_state_ = 0 := by
  have hrun := DoBlockingMoveToZ_running E s d speed hidle hcount
  rw [hphase] at hrun
  have hmax : (DoBlockingMoveToZ E s d speed).stepps_sum_ ≤ UINT32_MAX := by
    rw [DoBlockingMoveToZ_stepps_sum E s d speed hidle]
    exact f2u32_le_max _
  have h := runStepper_clean_start _ _ hmono hlast hmax hT endstop hstop _ hrun
  exact ⟨h.1, h.2.1⟩

theorem stepps_sum_of_five : stepps_sum_of |(5 : ℚ)| = 8000 := by
  rw [abs_of_pos (by norm_num)]
  norm_num [stepps_sum_of, f2u32, Z_AXIS_STEPS_PER_UNIT, UINT32_MAX]
  rfl

theorem takes_trapezoid_five_nine : takes_trapezoid |(5 : ℚ)| 9 = true := by
  rw [takes_trapezoid_iff, stepps_sum_of_five]
  norm_num [acc_dec_stepps_of, f2u32, Z_AXIS_STEPS_PER_UNIT, ACCELERATION, UINT32_MAX]

theorem stepps_sum_of_one_step : stepps_sum_of |(1 / 1600 : ℚ)| = 1 := by
  rw [abs_of_pos (by norm_num)]
  norm_num [stepps_sum_of, f2u32, Z_AXIS_STEPS_PER_UNIT, UINT32_MAX]

theorem takes_trapezoid_one_step : takes_trapezoid |(1 / 1600 : ℚ)| (1 / 10) = true := by
  rw [takes_trapezoid_iff, stepps_sum_of_one_step]
  norm_num [acc_dec_stepps_of, f2u32, Z_AXIS_STEPS_PER_UNIT, ACCELERATION, UINT32_MAX]

theorem idle_on_invocation_two_T_example :
    sample_state.motor_state_ = 0 ∧ sample_state.stepps_count_ = 0 ∧
    sample_state.step_pin_state_ = 0 ∧
    1 ≤ (DoBlockingMoveToZ sample_env sample_state 5 9).stepps_sum_ ∧
    (∀ i, i < 19 →
      ((DoBlockingMoveToZ sample_env sample_state 5 9).speed_ctrl_buffer_ i).pulse_count ≤
        ((DoBlockingMoveToZ sample_env sample_state 5 9).speed_ctrl_buffer_ (i + 1)).pulse_count) ∧
    ((DoBlockingMoveToZ sample_env sample_state 5 9).speed_ctrl_buffer_ 19).pulse_count
      = (DoBlockingMoveToZ sample_env sample_state 5 9).stepps_sum_ ∧
    (∀ i : Nat, (fun _ : Nat => 0) i = 0) ∧
    ((∀ k, k < 2 * (DoBlockingMoveToZ sample_env sample_state 5 9).stepps_sum_ →
      (runStepper (fun _ => 0) k
        (DoBlockingMoveToZ sample_env sample_state 5 9)).motor_state_ ≠ 0) ∧
    (runStepper (fun _ => 0) (2 * (DoBlockingMoveToZ sample_env sample_state 5 9).stepps_sum_)
      (DoBlockingMoveToZ sample_env sample_state 5 9)).motor_state_ = 0) := by
  have hidle : sample_state.motor_state_ = 0 := by decide
  have hcount : sample_state.stepps_count_ = 0 := by decide
  have hphase : sample_state.step_pin_state_ = 0 := by decide
  have hsum := DoBlockingMoveToZ_stepps_sum sample_env sample_state 5 9 hidle
  have hT : 1 ≤ (DoBlockingMoveToZ sample_env sample_state 5 9).stepps_sum_ := by
    rw [hsum, stepps_sum_of_five]
    norm_num
  have hmono := DoBlockingMoveToZ_mono sample_env sample_state 5 9 hidle
    (Or.inl takes_trapezoid_five_nine)
  have hlast : ((DoBlockingMoveToZ sample_env sample_state 5 9).speed_ctrl_buffer_ 19).pulse_count
      = (DoBlockingMoveToZ sample_env sample_state 5 9).stepps_sum_ := by
    rw [hsum]
    exact DoBlockingMoveToZ_last_pulse sample_env sample_state 5 9 hidle
  exact ⟨hidle, hcount, hphase, hT, hmono, hlast, fun _ => rfl,
    Stepper_idle_on_invocation_two_T sample_env sample_state 5 9 (fun _ => 0) hidle hcount hphase hT
      hmono hlast (fun _ => rfl)⟩

/-- The stale step phase on the shortest move, with the planner in exact
arithmetic: a second move of one pulse, armed by
`DoBlockingMoveToZ` after the executor has completed a first one, has a
non-decreasing table whose last threshold is its pulse count, and with the
endstop never triggered its motor is still on after `2 * stepps_sum_ = 2`
invocations of `Stepper`; it goes off at the third one. -/
theorem second_move_ends_one_invocation_late :
    after_first_move.motor_state_ = 0 ∧
    second_move.stepps_sum_ = 1 ∧
    (∀ i, i < 19 →
      (second_move.speed_ctrl_buffer_ i).pulse_count ≤
        (second_move.speed_ctrl_buffer_ (i + 1)).pulse_count) ∧
    (second_move.speed_ctrl_buffer_ 19).pulse_count = second_move.stepps_sum_ ∧
    (runStepper (fun _ => 0) (2 * second_move.stepps_sum_) second_move).motor_state_ ≠ 0 ∧
    (runStepper (fun _ => 0) (2 * second_move.stepps_sum_ + 1) second_move).motor_state_ = 0 := by
  have hidle : sample_state.motor_state_ = 0 := by decide
  have hcount : sample_state.stepps_count_ = 0 := by decide
  have hphase : sample_state.step_pin_state_ = 0 := by decide
  -- the first move
  have hsum1 : first_move.stepps_sum_ = 1 := by
    unfold first_move
    rw [DoBlockingMoveToZ_stepps_sum _ _ _ _ hidle, stepps_sum_of_one_step]
  have hmono1 : NonDecreasing first_move.speed_ctrl_buffer_ :=
    DoBlockingMoveToZ_mono sample_env sample_state _ _ hidle (Or.inl takes_trapezoid_one_step)
  have hlast1 : (first_move.speed_ctrl_buffer_ 19).pulse_count = 1 := by
    unfold first_move
    rw [DoBlockingMoveToZ_last_pulse _ _ _ _ hidle, stepps_sum_of_one_step]
  have hrun1 : Running first_move.speed_ctrl_buffer_ 1 0 0 first_move := by
    have h := DoBlockingMoveToZ_running sample_env sample_state (1 / 1600) (1 / 10) hidle hcount
    have hs : (DoBlockingMoveToZ sample_env sample_state (1 / 1600) (1 / 10)).stepps_sum_ = 1 :=
      hsum1
    rw [hphase, hs] at h
    exact h
  have hend1 := runStepper_clean_start first_move.speed_ctrl_buffer_ 1 hmono1 hlast1
    (by decide) (le_refl 1) (fun _ => 0) (fun _ => rfl) first_move hrun1
  have hafter : after_first_move = runStepper (fun _ => 0) (2 * 1) first_move := rfl
  rw [← hafter] at hend1
  obtain ⟨_, hidle2, hcount2, hphase2⟩ := hend1
  -- the second move
  have hsum2 : second_move.stepps_sum_ = 1 := by
    unfold second_move
    rw [DoBlockingMoveToZ_stepps_sum _ _ _ _ hidle2, stepps_sum_of_one_step]
  have hmono2 : NonDecreasing second_move.speed_ctrl_buffer_ :=
    DoBlockingMoveToZ_mono sample_env after_first_move _ _ hidle2
      (Or.inl takes_trapezoid_one_step)
  have hlast2 : (second_move.speed_ctrl_buffer_ 19).pulse_count = 1 := by
    unfold second_move
    rw [DoBlockingMoveToZ_last_pulse _ _ _ _ hidle2, stepps_sum_of_one_step]
  have hrun2 : Running second_move.speed_ctrl_buffer_ 1 0 1 second_move := by
    have h := DoBlockingMoveToZ_running sample_env after_first_move (1 / 1600) (1 / 10)
      hidle2 hcount2
    have hs : (DoBlockingMoveToZ sample_env after_first_move (1 / 1600) (1 / 10)).stepps_sum_ = 1 :=
      hsum2
    rw [hphase2, hs] at h
    exact h
  have hend2 := runStepper_stale_start second_move.speed_ctrl_buffer_ 1 hmono2 hlast2
    (by decide) (le_refl 1) (fun _ => 0) (fun _ => rfl) second_move hrun2
  refine ⟨hidle2, hsum2, hmono2, ?_, ?_, ?_⟩
  · rw [hlast2, hsum2]
  · rw [hsum2]
    exact hend2.1 2 (by norm_num)
  · rw [hsum2]
    exact hend2.2

/-! ## Branch selection and position update of the planner -/

/-- C9, the code at a negative distance: arming the move `DoBlockingMoveToZ(-2, 9)`
in the idle sample state adds 2 to `current_position_`, not -2; the sign of the
distance is dropped before the position is updated. -/
theorem C9_negative_distance_adds_magnitude :
    sample_state.motor_state_ = 0 ∧
    (DoBlockingMoveToZ sample_env sample_state (-2) 9).current_position_
      = sample_state.current_position_ + 2 ∧
    (DoBlockingMoveToZ sample_env sample_state (-2) 9).current_position_
      ≠ sample_state.current_position_ + (-2) := by
  have hidle : sample_state.motor_state_ = 0 := by decide
  have hpos := DoBlockingMoveToZ_position sample_env sample_state (-2) 9 hidle
  have habs : |(-2 : ℚ)| = 2 := by
    rw [abs_of_neg (by norm_num)]
    norm_num
  rw [habs] at hpos
  refine ⟨hidle, hpos, ?_⟩
  rw [hpos]
  intro h
  linarith

/-! ## Endstop abort -/

theorem Stepper_while_end_stop_enable (fuel : Nat) (s : DualExtruder) :
    (Stepper_while fuel s).1.end_stop_enable_ = s.end_stop_enable_ := by
  induction fuel generalizing s with
  | zero => rfl
  | succ n ih =>
    rw [Stepper_while]
    split
    · split
      · rw [ih]
        rfl
      · rfl
    · rfl

theorem Stepper_end_stop_enable (s : DualExtruder) (endstop : Nat) :
    (Stepper s endstop).end_stop_enable_ = s.end_stop_enable_ := by
  have hw := Stepper_while_end_stop_enable 20 s
  simp only [Stepper]
  split_ifs <;> simp [z_motor_step_Out, StepperTimerStop, hw]

theorem runStepper_end_stop_enable (endstop : Nat → Nat) (n : Nat) (s : DualExtruder) :
    (runStepper endstop n s).end_stop_enable_ = s.end_stop_enable_ := by
  induction n with
  | zero => rfl
  | succ k ih => rw [runStepper_succ, Stepper_end_stop_enable, ih]

/-- C10: one invocation of `Stepper` with `end_stop_enable_` set and the endstop
reading triggered ends with `motor_state_ = 0`, `stepps_count_ = 0`, the step
line low and the timer stopped; the segment index is unchanged and the only
writes to the hardware are the low level on the step line and the timer stop
(no rising edge, so no pulse is counted). Hence, if the endstop reads triggered
at the invocation number `n + 1` of a move of `stepps_sum_` pulses and
`n + 1 < 2 * stepps_sum_`, the motor is off after `n + 1` invocations, fewer
than `2 * stepps_sum_`. -/
theorem C10_endstop_abort (s : DualExtruder) (endstop : Nat) (reads : Nat → Nat) (n : Nat)
    (henable : s.end_stop_enable_ = true) (htrig : endstop ≠ 0) :
    ((Stepper s endstop).motor_state_ = 0 ∧ (Stepper s endstop).stepps_count_ = 0 ∧
      (Stepper s endstop).z_motor_step_ = 0 ∧ (Stepper s endstop).stepper_timer = none ∧
      (Stepper s endstop).speed_ctrl_index_ = s.speed_ctrl_index_ ∧
      (Stepper s endstop).hw_log = s.hw_log ++ [HwEvent.step_out 0, HwEvent.timer_stop]) ∧
    (reads n ≠ 0 → n + 1 < 2 * s.stepps_sum_ →
      ∃ m, m < 2 * s.stepps_sum_ ∧ (runStepper reads m s).motor_state_ = 0) := by
  have hstep : ∀ (st : DualExtruder) (e : Nat), st.end_stop_enable_ = true → e ≠ 0 →
      (Stepper st e).motor_state_ = 0 := by
    intro st e h1 h2
    simp [Stepper, h1, h2, z_motor_step_Out, StepperTimerStop]
  refine ⟨?_, ?_⟩
  · simp [Stepper, henable, htrig, z_motor_step_Out, StepperTimerStop]
  · intro hr hn
    refine ⟨n + 1, hn, ?_⟩
    rw [runStepper_succ]
    apply hstep _ _ _ hr
    rw [runStepper_end_stop_enable]
    exact henable

theorem stepps_sum_of_nine : stepps_sum_of |(9 : ℚ)| = 14400 := by
  rw [abs_of_pos (by norm_num)]
  norm_num [stepps_sum_of, f2u32, Z_AXIS_STEPS_PER_UNIT, UINT32_MAX]
  rfl

theorem C10_endstop_abort_witness :
    homing_approach.end_stop_enable_ = true ∧ (1 : Nat) ≠ 0 ∧
    (((Stepper homing_approach 1).motor_state_ = 0 ∧
      (Stepper homing_approach 1).stepps_count_ = 0 ∧
      (Stepper homing_approach 1).z_motor_step_ = 0 ∧
      (Stepper homing_approach 1).stepper_timer = none ∧
      (Stepper homing_approach 1).speed_ctrl_index_ = homing_approach.speed_ctrl_index_ ∧
      (Stepper homing_approach 1).hw_log
        = homing_approach.hw_log ++ [HwEvent.step_out 0, HwEvent.timer_stop]) ∧
    ((fun i : Nat => if i = 4 then 1 else 0) 4 ≠ 0 → 4 + 1 < 2 * homing_approach.stepps_sum_ →
      ∃ m, m < 2 * homing_approach.stepps_sum_ ∧
        (runStepper (fun i : Nat => if i = 4 then 1 else 0) m homing_approach).motor_state_ = 0)) ∧
    (fun i : Nat => if i = 4 then 1 else 0) 4 ≠ 0 ∧ 4 + 1 < 2 * homing_approach.stepps_sum_ := by
  have hidle : ({ sample_state with end_stop_enable_ := true } : DualExtruder).motor_state_ = 0 := by
    decide
  have hen : homing_approach.end_stop_enable_ = true :=
    (DoBlockingMoveToZ_motion_fields sample_env _ 9 9 hidle).2.2.2.2
  have hsum : homing_approach.stepps_sum_ = 14400 := by
    unfold homing_approach
    rw [DoBlockingMoveToZ_stepps_sum _ _ _ _ hidle, stepps_sum_of_nine]
  refine ⟨hen, by decide,
    C10_endstop_abort homing_approach 1 (fun i : Nat => if i = 4 then 1 else 0) 4 hen (by decide),
    by decide, ?_⟩
  rw [hsum]
  norm_num

/-! ## Extruder identity reports -/

/-- One poll in `CHECK` state with a reply route and no report pending: the
flags after the poll, and the frames sent by it. -/
theorem ExtruderStatusCheck_step (E : Env) (s : DualExtruder) (left right : Nat)
    (hcheck : s.extruder_check_status_ = extruder_status_e.EXTRUDER_STATUS_CHECK)
    (hroute : s.FuncId2MsgId FuncId.FUNC_REPORT_EXTRUDER_INFO ≠ E.INVALID_VALUE)
    (hpending : s.need_to_report_extruder_info_ = false) :
    (ExtruderStatusCheck E s left right).extruder_check_status_
      = extruder_status_e.EXTRUDER_STATUS_CHECK ∧
    (ExtruderStatusCheck E s left right).FuncId2MsgId = s.FuncId2MsgId ∧
    (ExtruderStatusCheck E s left right).need_to_report_extruder_info_ = false ∧
    (ExtruderStatusCheck E s left right).target_extruder_ = s.target_extruder_ ∧
    (ExtruderStatusCheck E s left right).extruder_status_
      = decide (detected_extruder E left right = s.target_extruder_) ∧
    (ExtruderStatusCheck E s left right).can_tx =
      if decide (detected_extruder E left right = s.target_extruder_) = s.extruder_status_ then
        s.can_tx
      else
        s.can_tx ++ [{ msgid := (s.FuncId2MsgId FuncId.FUNC_REPORT_EXTRUDER_INFO : Int),
                       data := [if detected_extruder E left right = s.target_extruder_ then 0 else 1,
                                detected_extruder E left right] }] := by
  unfold ExtruderStatusCheck
  rw [hcheck]
  by_cases hm : detected_extruder E left right = s.target_extruder_ <;>
    cases hst : s.extruder_status_ <;>
    simp [hm, hst, hpending, hroute, hcheck, ReportExtruderInfo, PushSendStandardData]

/-- C4: in `CHECK` state with a reply route registered (and no report pending
from before, as every poll leaves it), a poll of `ExtruderStatusCheck` sends an
identity report exactly when its match result (detected = target) differs from
the stored flag `extruder_status_`, and then exactly one; starting with the
flag clear, the polls (mismatch, mismatch, match, match, mismatch) send exactly
2 reports. -/
theorem C4_identity_report_on_transition (E : Env) (s : DualExtruder) (left right : Nat)
    (p1 p2 p3 p4 p5 : Nat × Nat)
    (hcheck : s.extruder_check_status_ = extruder_status_e.EXTRUDER_STATUS_CHECK)
    (hroute : s.FuncId2MsgId FuncId.FUNC_REPORT_EXTRUDER_INFO ≠ E.INVALID_VALUE)
    (hpending : s.need_to_report_extruder_info_ = false) :
    (decide (detected_extruder E left right = s.target_extruder_) ≠ s.extruder_status_ →
      (ExtruderStatusCheck E s left right).can_tx =
        s.can_tx ++ [{ msgid := (s.FuncId2MsgId FuncId.FUNC_REPORT_EXTRUDER_INFO : Int),
                       data := [if detected_extruder E left right = s.target_extruder_ then 0 else 1,
                                detected_extruder E left right] }]) ∧
    (decide (detected_extruder E left right = s.target_extruder_) = s.extruder_status_ →
      (ExtruderStatusCheck E s left right).can_tx = s.can_tx) ∧
    (ExtruderStatusCheck E s left right).can_tx.length ≤ s.can_tx.length + 1 ∧
    (s.extruder_status_ = false →
      detected_extruder E p1.1 p1.2 ≠ s.target_extruder_ →
      detected_extruder E p2.1 p2.2 ≠ s.target_extruder_ →
      detected_extruder E p3.1 p3.2 = s.target_extruder_ →
      detected_extruder E p4.1 p4.2 = s.target_extruder_ →
      detected_extruder E p5.1 p5.2 ≠ s.target_extruder_ →
      (pollAll E s [p1, p2, p3, p4, p5]).can_tx.length = s.can_tx.length + 2) := by
  have hstep := ExtruderStatusCheck_step E s left right hcheck hroute hpending
  refine ⟨?_, ?_, ?_, ?_⟩
  · intro h
    rw [hstep.2.2.2.2.2, if_neg h]
  · intro h
    rw [hstep.2.2.2.2.2, if_pos h]
  · rw [hstep.2.2.2.2.2]
    split <;> simp
  · intro hst h1 h2 h3 h4 h5
    obtain ⟨c1, r1, n1, t1, e1, x1⟩ := ExtruderStatusCheck_step E s p1.1 p1.2 hcheck hroute hpending
    rw [← r1] at hroute
    obtain ⟨c2, r2, n2, t2, e2, x2⟩ := ExtruderStatusCheck_step E _ p2.1 p2.2 c1 hroute n1
    rw [← r2] at hroute
    obtain ⟨c3, r3, n3, t3, e3, x3⟩ := ExtruderStatusCheck_step E _ p3.1 p3.2 c2 hroute n2
    rw [← r3] at hroute
    obtain ⟨c4, r4, n4, t4, e4, x4⟩ := ExtruderStatusCheck_step E _ p4.1 p4.2 c3 hroute n3
    rw [← r4] at hroute
    obtain ⟨c5, r5, n5, t5, e5, x5⟩ := ExtruderStatusCheck_step E _ p5.1 p5.2 c4 hroute n4
    have g1 : detected_extruder E p1.1 p1.2 ≠ s.target_extruder_ := h1
    have g2 : detected_extruder E p2.1 p2.2
        ≠ (ExtruderStatusCheck E s p1.1 p1.2).target_extruder_ := by rw [t1]; exact h2
    have g3 : detected_extruder E p3.1 p3.2
        = (ExtruderStatusCheck E (ExtruderStatusCheck E s p1.1 p1.2) p2.1 p2.2).target_extruder_ := by
      rw [t2, t1]; exact h3
    have g4 : detected_extruder E p4.1 p4.2
        = (ExtruderStatusCheck E (ExtruderStatusCheck E (ExtruderStatusCheck E s p1.1 p1.2)
            p2.1 p2.2) p3.1 p3.2).target_extruder_ := by
      rw [t3, t2, t1]; exact h4
    have g5 : detected_extruder E p5.1 p5.2
        ≠ (ExtruderStatusCheck E (ExtruderStatusCheck E (ExtruderStatusCheck E
            (ExtruderStatusCheck E s p1.1 p1.2) p2.1 p2.2) p3.1 p3.2) p4.1 p4.2).target_extruder_ := by
      rw [t4, t3, t2, t1]; exact h5
    simp only [g1, hst, decide_False, if_true] at e1 x1
    simp only [g2, e1, decide_False, if_true] at e2 x2
    simp only [g3, e2, decide_True, Bool.true_eq_false, if_false] at e3 x3
    simp only [g4, e3, decide_True, if_true] at e4 x4
    simp only [g5, e4, decide_False, Bool.false_eq_true, if_false] at e5 x5
    simp only [pollAll, List.foldl_cons, List.foldl_nil]
    rw [x5, x4, x3, x2, x1]
    simp

theorem C4_identity_report_witness :
    sample_state.extruder_check_status_ = extruder_status_e.EXTRUDER_STATUS_CHECK ∧
    sample_state.FuncId2MsgId FuncId.FUNC_REPORT_EXTRUDER_INFO ≠ sample_env.INVALID_VALUE ∧
    sample_state.need_to_report_extruder_info_ = false ∧
    sample_state.extruder_status_ = false ∧
    detected_extruder sample_env 1 1 ≠ sample_state.target_extruder_ ∧
    detected_extruder sample_env 0 0 ≠ sample_state.target_extruder_ ∧
    detected_extruder sample_env 1 0 = sample_state.target_extruder_ ∧
    (pollAll sample_env sample_state [(1, 1), (0, 0), (1, 0), (1, 0), (0, 1)]).can_tx.length
      = sample_state.can_tx.length + 2 := by
  have h := C4_identity_report_on_transition sample_env sample_state 1 0
    (1, 1) (0, 0) (1, 0) (1, 0) (0, 1) (by decide) (by decide) (by decide)
  exact ⟨by decide, by decide, by decide, by decide, by decide, by decide, by decide,
    h.2.2.2 (by decide) (by decide) (by decide) (by decide) (by decide) (by decide)⟩

/-! ## Temperature report -/

theorem int16_of_ne_invalid (m inv : Nat) (hm : m < 65536) (hne : m ≠ inv) :
    int16_of m ≠ (inv : Int) := by
  unfold int16_of
  rw [Nat.mod_eq_of_lt hm]
  split
  · exact_mod_cast hne
  · omega

/-- A valid channel above the protection temperature: zeros are reported and
the target is forced to 0. -/
theorem report_channel_hot (E : Env) (n : NozzleIdentify) (t : Temperature)
    (hvalid : n.nozzle_type ≠ E.NOZZLE_TYPE_INVALID) (hc : t.current_c_tenths < 65536)
    (hot : E.PROTECTION_TEMPERATURE * 10 < t.current_c_tenths) :
    report_channel E n t = ({ t with target_c_tenths := 0 }, 0, 0) := by
  simp [report_channel, NozzleIdentify.GetNozzleType, Temperature.GetCurTemprature,
    Temperature.ChangeTarget, hvalid, Nat.mod_eq_of_lt hc, hot]

/-- A valid channel not above the protection temperature: the stored values
are reported and the channel is untouched. -/
theorem report_channel_cool (E : Env) (n : NozzleIdentify) (t : Temperature)
    (hvalid : n.nozzle_type ≠ E.NOZZLE_TYPE_INVALID) (hc : t.current_c_tenths < 65536)
    (ht : t.target_c_tenths < 65536)
    (cool : t.current_c_tenths ≤ E.PROTECTION_TEMPERATURE * 10) :
    report_channel E n t = (t, t.current_c_tenths, t.target_c_tenths) := by
  simp [report_channel, NozzleIdentify.GetNozzleType, Temperature.GetCurTemprature,
    Temperature.GetTargetTemprature, hvalid, Nat.mod_eq_of_lt hc, Nat.mod_eq_of_lt ht,
    Nat.not_lt.mpr cool]

theorem report_bytes_u16 (temp target : Nat) :
    report_bytes temp target = [temp / 256 % 256, temp % 256, target / 256 % 256, target % 256] := by
  simp [report_bytes, Nat.shiftRight_eq_div_pow]

/-- C5: with a reply route registered, `ReportTemprature` sends one frame of two
groups of four bytes, one group per channel. For a channel whose nozzle type is
valid: if its current temperature exceeds `PROTECTION_TEMPERATURE * 10`, its
group is 0, 0, 0, 0 and the stored target becomes 0; otherwise the group holds
the stored current and target temperatures (high byte, low byte) and the
channel is left as it was. -/
theorem C5_temperature_report_protection (E : Env) (s : DualExtruder)
    (hroute : s.FuncId2MsgId FuncId.FUNC_REPORT_TEMPEARTURE ≠ E.INVALID_VALUE)
    (hmsg : s.FuncId2MsgId FuncId.FUNC_REPORT_TEMPEARTURE < 65536)
    (hc0 : s.temperature_0_.current_c_tenths < 65536)
    (ht0 : s.temperature_0_.target_c_tenths < 65536)
    (hc1 : s.temperature_1_.current_c_tenths < 65536)
    (ht1 : s.temperature_1_.target_c_tenths < 65536) :
    ∃ b0 b1 : List Nat,
      (ReportTemprature E s).can_tx = s.can_tx ++
        [{ msgid := int16_of (s.FuncId2MsgId FuncId.FUNC_REPORT_TEMPEARTURE), data := b0 ++ b1 }] ∧
      b0.length = 4 ∧ b1.length = 4 ∧
      (s.nozzle_identify_0_.nozzle_type ≠ E.NOZZLE_TYPE_INVALID →
        (E.PROTECTION_TEMPERATURE * 10 < s.temperature_0_.current_c_tenths →
          b0 = [0, 0, 0, 0] ∧ (ReportTemprature E s).temperature_0_.target_c_tenths = 0) ∧
        (s.temperature_0_.current_c_tenths ≤ E.PROTECTION_TEMPERATURE * 10 →
          b0 = [s.temperature_0_.current_c_tenths / 256, s.temperature_0_.current_c_tenths % 256,
                s.temperature_0_.target_c_tenths / 256, s.temperature_0_.target_c_tenths % 256] ∧
          (ReportTemprature E s).temperature_0_ = s.temperature_0_)) ∧
      (s.nozzle_identify_1_.nozzle_type ≠ E.NOZZLE_TYPE_INVALID →
        (E.PROTECTION_TEMPERATURE * 10 < s.temperature_1_.current_c_tenths →
          b1 = [0, 0, 0, 0] ∧ (ReportTemprature E s).temperature_1_.target_c_tenths = 0) ∧
        (s.temperature_1_.current_c_tenths ≤ E.PROTECTION_TEMPERATURE * 10 →
          b1 = [s.temperature_1_.current_c_tenths / 256, s.temperature_1_.current_c_tenths % 256,
                s.temperature_1_.target_c_tenths / 256, s.temperature_1_.target_c_tenths % 256] ∧
          (ReportTemprature E s).temperature_1_ = s.temperature_1_)) := by
  have hid := int16_of_ne_invalid _ _ hmsg hroute
  have hq0 : s.temperature_0_.current_c_tenths / 256 % 256
      = s.temperature_0_.current_c_tenths / 256 := by omega
  have hq1 : s.temperature_1_.current_c_tenths / 256 % 256
      = s.temperature_1_.current_c_tenths / 256 := by omega
  have gq0 : s.temperature_0_.target_c_tenths / 256 % 256
      = s.temperature_0_.target_c_tenths / 256 := by omega
  have gq1 : s.temperature_1_.target_c_tenths / 256 % 256
      = s.temperature_1_.target_c_tenths / 256 := by omega
  have hres : ReportTemprature E s =
      PushSendStandardData
        { s with
          temperature_0_ := (report_channel E s.nozzle_identify_0_ s.temperature_0_).1,
          temperature_1_ := (report_channel E s.nozzle_identify_1_ s.temperature_1_).1 }
        (int16_of (s.FuncId2MsgId FuncId.FUNC_REPORT_TEMPEARTURE))
        (report_bytes (report_channel E s.nozzle_identify_0_ s.temperature_0_).2.1
            (report_channel E s.nozzle_identify_0_ s.temperature_0_).2.2
          ++ report_bytes (report_channel E s.nozzle_identify_1_ s.temperature_1_).2.1
            (report_channel E s.nozzle_identify_1_ s.temperature_1_).2.2) := by
    simp only [ReportTemprature, hid, ne_eq, not_false_eq_true, if_true]
  refine ⟨report_bytes (report_channel E s.nozzle_identify_0_ s.temperature_0_).2.1
      (report_channel E s.nozzle_identify_0_ s.temperature_0_).2.2,
    report_bytes (report_channel E s.nozzle_identify_1_ s.temperature_1_).2.1
      (report_channel E s.nozzle_identify_1_ s.temperature_1_).2.2, ?_, ?_, ?_, ?_, ?_⟩
  · rw [hres]
    rfl
  · simp [report_bytes]
  · simp [report_bytes]
  · intro hv
    refine ⟨fun hot => ?_, fun cool => ?_⟩
    · rw [hres, report_channel_hot E _ _ hv hc0 hot]
      simp [report_bytes, PushSendStandardData]
    · rw [hres, report_channel_cool E _ _ hv hc0 ht0 cool]
      simp [report_bytes_u16, PushSendStandardData, hq0, gq0]
  · intro hv
    refine ⟨fun hot => ?_, fun cool => ?_⟩
    · rw [hres, report_channel_hot E _ _ hv hc1 hot]
      simp [report_bytes, PushSendStandardData]
    · rw [hres, report_channel_cool E _ _ hv hc1 ht1 cool]
      simp [report_bytes_u16, PushSendStandardData, hq1, gq1]

theorem C5_temperature_report_witness :
    sample_state.FuncId2MsgId FuncId.FUNC_REPORT_TEMPEARTURE ≠ sample_env.INVALID_VALUE ∧
    sample_state.nozzle_identify_1_.nozzle_type ≠ sample_env.NOZZLE_TYPE_INVALID ∧
    sample_state.temperature_1_.current_c_tenths = 600 ∧
    sample_env.PROTECTION_TEMPERATURE * 10 = 550 ∧
    ∃ b0 b1 : List Nat,
      (ReportTemprature sample_env sample_state).can_tx = sample_state.can_tx ++
        [{ msgid := int16_of (sample_state.FuncId2MsgId FuncId.FUNC_REPORT_TEMPEARTURE),
           data := b0 ++ b1 }] ∧
      b0 = [0, 250, 7, 208] ∧ b1 = [0, 0, 0, 0] ∧
      (ReportTemprature sample_env sample_state).temperature_0_ = sample_state.temperature_0_ ∧
      (ReportTemprature sample_env sample_state).temperature_1_.target_c_tenths = 0 := by
  obtain ⟨b0, b1, htx, _, _, h0, h1⟩ :=
    C5_temperature_report_protection sample_env sample_state (by decide) (by decide) (by decide)
      (by decide) (by decide) (by decide)
  have g0 := (h0 (by decide)).2 (by decide)
  have g1 := (h1 (by decide)).1 (by decide)
  exact ⟨by decide, by decide, by decide, by decide, b0, b1, htx, g0.1, g1.1, g0.2, g1.2⟩

/-! ## Thermistor calibration -/

/-- C6 (as amended): `Init` binds a hotend to the alternate wiring (temperature
on the identification ADC index, nozzle identity on the nominal temperature ADC
index, thermistor type NTC3590) exactly when its averaged sample `a` satisfies
`168 < a < 417`, bounds excluded, and to the nominal PT100 wiring for every
other `a`; the binding of a hotend depends on its own sample only. -/
theorem C6_calibration_band_is_open (s : DualExtruder)
    (adc_index0_temp adc_index0_identify adc_index1_temp adc_index1_identify : Nat)
    (ADC_GetCusum other : Nat → Nat) :
    ((168 < ADC_GetCusum adc_index0_temp / 16 % 65536 ∧
        ADC_GetCusum adc_index0_temp / 16 % 65536 < 417) →
      (Init s adc_index0_temp adc_index0_identify adc_index1_temp adc_index1_identify
          ADC_GetCusum).temperature_0_
        = { s.temperature_0_ with
            adc_index := adc_index0_identify,
            thermistor_type := thermistor_type_e.THERMISTOR_NTC3590 } ∧
      (Init s adc_index0_temp adc_index0_identify adc_index1_temp adc_index1_identify
          ADC_GetCusum).nozzle_identify_0_
        = { s.nozzle_identify_0_ with
            adc_index := adc_index0_temp,
            calibration_type := thermistor_type_e.THERMISTOR_NTC3590 }) ∧
    (¬ (168 < ADC_GetCusum adc_index0_temp / 16 % 65536 ∧
        ADC_GetCusum adc_index0_temp / 16 % 65536 < 417) →
      (Init s adc_index0_temp adc_index0_identify adc_index1_temp adc_index1_identify
          ADC_GetCusum).temperature_0_
        = { s.temperature_0_ with
            adc_index := adc_index0_temp,
            thermistor_type := thermistor_type_e.THERMISTOR_PT100 } ∧
      (Init s adc_index0_temp adc_index0_identify adc_index1_temp adc_index1_identify
          ADC_GetCusum).nozzle_identify_0_
        = { s.nozzle_identify_0_ with
            adc_index := adc_index0_identify,
            calibration_type := thermistor_type_e.THERMISTOR_PT100 }) ∧
    ((168 < ADC_GetCusum adc_index1_temp / 16 % 65536 ∧
        ADC_GetCusum adc_index1_temp / 16 % 65536 < 417) →
      (Init s adc_index0_temp adc_index0_identify adc_index1_temp adc_index1_identify
          ADC_GetCusum).temperature_1_
        = { s.temperature_1_ with
            adc_index := adc_index1_identify,
            thermistor_type := thermistor_type_e.THERMISTOR_NTC3590 } ∧
      (Init s adc_index0_temp adc_index0_identify adc_index1_temp adc_index1_identify
          ADC_GetCusum).nozzle_identify_1_
        = { s.nozzle_identify_1_ with
            adc_index := adc_index1_temp,
            calibration_type := thermistor_type_e.THERMISTOR_NTC3590 }) ∧
    (¬ (168 < ADC_GetCusum adc_index1_temp / 16 % 65536 ∧
        ADC_GetCusum adc_index1_temp / 16 % 65536 < 417) →
      (Init s adc_index0_temp adc_index0_identify adc_index1_temp adc_index1_identify
          ADC_GetCusum).temperature_1_
        = { s.temperature_1_ with
            adc_index := adc_index1_temp,
            thermistor_type := thermistor_type_e.THERMISTOR_PT100 } ∧
      (Init s adc_index0_temp adc_index0_identify adc_index1_temp adc_index1_identify
          ADC_GetCusum).nozzle_identify_1_
        = { s.nozzle_identify_1_ with
            adc_index := adc_index1_identify,
            calibration_type := thermistor_type_e.THERMISTOR_PT100 }) ∧
    (other adc_index0_temp = ADC_GetCusum adc_index0_temp →
      (Init s adc_index0_temp adc_index0_identify adc_index1_temp adc_index1_identify
          other).temperature_0_
        = (Init s adc_index0_temp adc_index0_identify adc_index1_temp adc_index1_identify
            ADC_GetCusum).temperature_0_ ∧
      (Init s adc_index0_temp adc_index0_identify adc_index1_temp adc_index1_identify
          other).nozzle_identify_0_
        = (Init s adc_index0_temp adc_index0_identify adc_index1_temp adc_index1_identify
            ADC_GetCusum).nozzle_identify_0_) ∧
    (other adc_index1_temp = ADC_GetCusum adc_index1_temp →
      (Init s adc_index0_temp adc_index0_identify adc_index1_temp adc_index1_identify
          other).temperature_1_
        = (Init s adc_index0_temp adc_index0_identify adc_index1_temp adc_index1_identify
            ADC_GetCusum).temperature_1_ ∧
      (Init s adc_index0_temp adc_index0_identify adc_index1_temp adc_index1_identify
          other).nozzle_identify_1_
        = (Init s adc_index0_temp adc_index0_identify adc_index1_temp adc_index1_identify
            ADC_GetCusum).nozzle_identify_1_) := by
  refine ⟨?_, ?_, ?_, ?_, ?_, ?_⟩
  · intro h
    simp [Init, NTC3590_ADC_MIN, NTC3590_ADC_MAX, h, Temperature.SetAdcIndex,
      Temperature.SetThermistorType, NozzleIdentify.SetAdcIndex,
      NozzleIdentify.SetNozzleTypeCheckArray]
  · intro h
    simp [Init, NTC3590_ADC_MIN, NTC3590_ADC_MAX, h, Temperature.SetAdcIndex,
      Temperature.SetThermistorType, NozzleIdentify.SetAdcIndex,
      NozzleIdentify.SetNozzleTypeCheckArray]
  · intro h
    simp [Init, NTC3590_ADC_MIN, NTC3590_ADC_MAX, h, Temperature.SetAdcIndex,
      Temperature.SetThermistorType, NozzleIdentify.SetAdcIndex,
      NozzleIdentify.SetNozzleTypeCheckArray]
  · intro h
    simp [Init, NTC3590_ADC_MIN, NTC3590_ADC_MAX, h, Temperature.SetAdcIndex,
      Temperature.SetThermistorType, NozzleIdentify.SetAdcIndex,
      NozzleIdentify.SetNozzleTypeCheckArray]
  · intro h
    simp only [Init, h]
    exact ⟨trivial, trivial⟩
  · intro h
    simp only [Init, h]
    exact ⟨trivial, trivial⟩

theorem C6_calibration_witness :
    (168 < (fun i : Nat => if i = 0 then 4800 else 16000) 0 / 16 % 65536 ∧
      (fun i : Nat => if i = 0 then 4800 else 16000) 0 / 16 % 65536 < 417) ∧
    ¬ (168 < (fun i : Nat => if i = 0 then 4800 else 16000) 1 / 16 % 65536 ∧
      (fun i : Nat => if i = 0 then 4800 else 16000) 1 / 16 % 65536 < 417) ∧
    (Init sample_state 0 2 1 3 (fun i => if i = 0 then 4800 else 16000)).temperature_0_
      = { sample_state.temperature_0_ with
          adc_index := 2,
          thermistor_type := thermistor_type_e.THERMISTOR_NTC3590 } ∧
    (Init sample_state 0 2 1 3 (fun i => if i = 0 then 4800 else 16000)).nozzle_identify_0_
      = { sample_state.nozzle_identify_0_ with
          adc_index := 0,
          calibration_type := thermistor_type_e.THERMISTOR_NTC3590 } ∧
    (Init sample_state 0 2 1 3 (fun i => if i = 0 then 4800 else 16000)).temperature_1_
      = { sample_state.temperature_1_ with
          adc_index := 1,
          thermistor_type := thermistor_type_e.THERMISTOR_PT100 } ∧
    (Init sample_state 0 2 1 3 (fun i => if i = 0 then 4800 else 16000)).nozzle_identify_1_
      = { sample_state.nozzle_identify_1_ with
          adc_index := 3,
          calibration_type := thermistor_type_e.THERMISTOR_PT100 } := by
  have h := C6_calibration_band_is_open sample_state 0 2 1 3
    (fun i => if i = 0 then 4800 else 16000) (fun _ => 0)
  have h0 : 168 < (fun i : Nat => if i = 0 then 4800 else 16000) 0 / 16 % 65536 ∧
      (fun i : Nat => if i = 0 then 4800 else 16000) 0 / 16 % 65536 < 417 := by decide
  have h1 : ¬ (168 < (fun i : Nat => if i = 0 then 4800 else 16000) 1 / 16 % 65536 ∧
      (fun i : Nat => if i = 0 then 4800 else 16000) 1 / 16 % 65536 < 417) := by decide
  exact ⟨h0, h1, (h.1 h0).1, (h.1 h0).2, (h.2.2.2.1 h1).1, (h.2.2.2.1 h1).2⟩

/-- C6, counterexample to the claim as stated: an averaged sample of exactly
168 (or of exactly 417) lies in the closed band `[168, 417]`, yet `Init` binds
the hotend to the nominal PT100 wiring. -/
theorem C6_counterexample_band_ends :
    (2688 / 16 % 65536 = 168 ∧ NTC3590_ADC_MIN ≤ 168 ∧ 168 ≤ NTC3590_ADC_MAX) ∧
    (Init sample_state 0 2 1 3 (fun _ => 2688)).temperature_0_.thermistor_type
      = thermistor_type_e.THERMISTOR_PT100 ∧
    (Init sample_state 0 2 1 3 (fun _ => 2688)).temperature_0_.adc_index = 0 ∧
    (Init sample_state 0 2 1 3 (fun _ => 2688)).nozzle_identify_0_.adc_index = 2 ∧
    (6672 / 16 % 65536 = 417 ∧ NTC3590_ADC_MIN ≤ 417 ∧ 417 ≤ NTC3590_ADC_MAX) ∧
    (Init sample_state 0 2 1 3 (fun _ => 6672)).temperature_1_.thermistor_type
      = thermistor_type_e.THERMISTOR_PT100 ∧
    (Init sample_state 0 2 1 3 (fun _ => 6672)).temperature_1_.adc_index = 1 ∧
    (Init sample_state 0 2 1 3 (fun _ => 6672)).nozzle_identify_1_.adc_index = 3 := by
  decide

/-! ## Hotend offsets -/

/-- C7: for an axis index `a` below 3 and value bytes `v0 .. v3`,
`SetHotendOffset([a, v0, v1, v2, v3])` followed by `ReportHotendOffset` with a
reply route registered sends three frames of five bytes for the axes 0, 1, 2 in
this order; the frame of axis `a` is `[a, v0, v1, v2, v3]`, the frames of the
other two axes carry the offsets stored before. -/
theorem C7_hotend_offset_round_trip (E : Env) (s : DualExtruder) (a v0 v1 v2 v3 : Nat)
    (ha : a < 3)
    (hroute : s.FuncId2MsgId FuncId.FUNC_REPORT_HOTEND_OFFSET ≠ E.INVALID_VALUE) :
    (ReportHotendOffset E (SetHotendOffset s [a, v0, v1, v2, v3])).can_tx =
      s.can_tx ++
        [{ msgid := (s.FuncId2MsgId FuncId.FUNC_REPORT_HOTEND_OFFSET : Int),
           data := if a = 0 then [0, v0, v1, v2, v3]
             else [0, s.cfg_.x_hotend_offset.b0, s.cfg_.x_hotend_offset.b1,
                   s.cfg_.x_hotend_offset.b2, s.cfg_.x_hotend_offset.b3] },
         { msgid := (s.FuncId2MsgId FuncId.FUNC_REPORT_HOTEND_OFFSET : Int),
           data := if a = 1 then [1, v0, v1, v2, v3]
             else [1, s.cfg_.y_hotend_offset.b0, s.cfg_.y_hotend_offset.b1,
                   s.cfg_.y_hotend_offset.b2, s.cfg_.y_hotend_offset.b3] },
         { msgid := (s.FuncId2MsgId FuncId.FUNC_REPORT_HOTEND_OFFSET : Int),
           data := if a = 2 then [2, v0, v1, v2, v3]
             else [2, s.cfg_.z_hotend_offset.b0, s.cfg_.z_hotend_offset.b1,
                   s.cfg_.z_hotend_offset.b2, s.cfg_.z_hotend_offset.b3] }] := by
  interval_cases a <;>
    simp [SetHotendOffset, ReportHotendOffset, SaveCfg, hroute, forLoop, List.range_succ,
      PushSendStandardData, hotend_offsets]

theorem decode_one_and_a_quarter :
    decode_float_le { b0 := 0, b1 := 0, b2 := 160, b3 := 63 } = some (5 / 4) := by
  norm_num [decode_float_le]

theorem C7_hotend_offset_witness :
    (2 : Nat) < 3 ∧
    sample_state.FuncId2MsgId FuncId.FUNC_REPORT_HOTEND_OFFSET ≠ sample_env.INVALID_VALUE ∧
    (ReportHotendOffset sample_env (SetHotendOffset sample_state [2, 0, 0, 160, 63])).can_tx =
      [{ msgid := 1, data := [0, 0, 0, 0, 0] }, { msgid := 1, data := [1, 0, 0, 128, 63] },
       { msgid := 1, data := [2, 0, 0, 160, 63] }] ∧
    decode_float_le { b0 := 0, b1 := 0, b2 := 160, b3 := 63 } = some (5 / 4) :=
  ⟨by decide, by decide,
    C7_hotend_offset_round_trip sample_env sample_state 2 0 0 160 63 (by decide) (by decide),
    decode_one_and_a_quarter⟩

/-! ## Moves to a destination -/

/-- The destination that `PrepareMoveToDestination` keeps after its two tests is
the requested one clamped to the travel `[0, Z_MAX_POS]`. -/
theorem clamped_destination (p : ℚ) :
    (if p > Z_MAX_POS then Z_MAX_POS else if p < 0 then 0 else p) = max 0 (min p 5) := by
  simp only [Z_MAX_POS]
  split
  · next h =>
    rw [min_eq_right (le_of_lt h), max_eq_right (by norm_num)]
  · next h =>
    rw [min_eq_left (not_lt.mp h)]
    split
    · next h0 => rw [max_eq_left (le_of_lt h0)]
    · next h0 => rw [max_eq_right (not_lt.mp h0)]

theorem PrepareMoveToDestination_eq (E : Env) (s : DualExtruder) (p speed : ℚ) :
    PrepareMoveToDestination E s p speed =
      { DoBlockingMoveToZ E s (max 0 (min p 5) - s.current_position_) speed with
        current_position_ := max 0 (min p 5) } := by
  simp only [PrepareMoveToDestination, clamped_destination]

theorem DoBlockingMoveToZ_direction (E : Env) (s : DualExtruder) (d speed : ℚ)
    (hidle : s.motor_state_ = 0) :
    (DoBlockingMoveToZ E s d speed).z_motor_dir_ = if d < 0 then 0 else 1 := by
  simp only [DoBlockingMoveToZ, hidle, length_magnitude, StepperTimerStart]
  by_cases hd : d < 0 <;> simp [hd, z_motor_dir_Out]

/-- A move requested through `PrepareMoveToDestination` while the motor is on is
not armed, but `current_position_` is set to the clamped destination all the
same. -/
theorem PrepareMoveToDestination_busy (E : Env) (s : DualExtruder) (p speed : ℚ)
    (hbusy : s.motor_state_ ≠ 0) :
    PrepareMoveToDestination E s p speed = { s with current_position_ := max 0 (min p 5) } := by
  rw [PrepareMoveToDestination_eq]
  simp [DoBlockingMoveToZ, hbusy]

/-- C18, the code with a move in flight: `PrepareMoveToDestination(5, 9)` called
in the sample state while `motor_state_` is 1 leaves the move and the table
alone but changes `current_position_` from 0 to 5. -/
theorem C18_busy_request_overwrites_position :
    sample_busy.motor_state_ ≠ 0 ∧
    sample_busy.current_position_ = 0 ∧
    (PrepareMoveToDestination sample_env sample_busy 5 9).current_position_ = 5 ∧
    (PrepareMoveToDestination sample_env sample_busy 5 9).current_position_
      ≠ sample_busy.current_position_ ∧
    (PrepareMoveToDestination sample_env sample_busy 5 9).motor_state_ = sample_busy.motor_state_ ∧
    (PrepareMoveToDestination sample_env sample_busy 5 9).stepps_sum_ = sample_busy.stepps_sum_ := by
  have hbusy : sample_busy.motor_state_ ≠ 0 := by decide
  have h := PrepareMoveToDestination_busy sample_env sample_busy 5 9 hbusy
  have hc : max (0 : ℚ) (min 5 5) = 5 := by norm_num
  rw [hc] at h
  have h0 : sample_busy.current_position_ = 0 := rfl
  refine ⟨hbusy, h0, ?_, ?_, ?_, ?_⟩
  · rw [h]
  · rw [h, h0]
    norm_num
  · rw [h]
  · rw [h]

/-! ## Setters with an index out of range -/

/-- C13: `SetHotendOffset` with an axis index of 3 or more and
`SetProbeSensorCompensation` with a channel index of 2 or more return the state
they were given: every configuration field keeps its value, `SaveCfg` is not
called and no frame is sent. -/
theorem C13_out_of_range_index_is_ignored (s : DualExtruder) (data : List Nat) :
    (3 ≤ data.getD 0 0 →
      SetHotendOffset s data = s ∧ (SetHotendOffset s data).cfg_ = s.cfg_ ∧
      (SetHotendOffset s data).cfg_saves = s.cfg_saves ∧
      (SetHotendOffset s data).can_tx = s.can_tx) ∧
    (2 ≤ data.getD 0 0 →
      SetProbeSensorCompensation s data = s ∧ (SetProbeSensorCompensation s data).cfg_ = s.cfg_ ∧
      (SetProbeSensorCompensation s data).cfg_saves = s.cfg_saves ∧
      (SetProbeSensorCompensation s data).can_tx = s.can_tx) := by
  constructor
  · intro h
    have heq : SetHotendOffset s data = s := by
      obtain ⟨n, hn⟩ : ∃ n, data.getD 0 0 = n + 3 := ⟨data.getD 0 0 - 3, by omega⟩
      simp only [SetHotendOffset, hn]
    rw [heq]
    exact ⟨rfl, rfl, rfl, rfl⟩
  · intro h
    have heq : SetProbeSensorCompensation s data = s := by
      obtain ⟨n, hn⟩ : ∃ n, data.getD 0 0 = n + 2 := ⟨data.getD 0 0 - 2, by omega⟩
      simp only [SetProbeSensorCompensation, hn]
    rw [heq]
    exact ⟨rfl, rfl, rfl, rfl⟩

theorem C13_out_of_range_index_witness :
    3 ≤ [7, 0, 0, 160, 63].getD 0 0 ∧ 2 ≤ [7, 0, 0, 160, 63].getD 0 0 ∧
    SetHotendOffset sample_state [7, 0, 0, 160, 63] = sample_state ∧
    SetProbeSensorCompensation sample_state [7, 0, 0, 160, 63] = sample_state := by
  have h := C13_out_of_range_index_is_ignored sample_state [7, 0, 0, 160, 63]
  exact ⟨by decide, by decide, (h.1 (by decide)).1, (h.2 (by decide)).1⟩

/-! ## Detection of the active extruder -/

theorem ExtruderStatusCheck_active (E : Env) (s : DualExtruder) (left right : Nat)
    (hcheck : s.extruder_check_status_ = extruder_status_e.EXTRUDER_STATUS_CHECK) :
    (ExtruderStatusCheck E s left right).active_extruder_ = detected_extruder E left right := by
  unfold ExtruderStatusCheck
  rw [hcheck]
  simp only [ReportExtruderInfo, PushSendStandardData]
  split_ifs <;> rfl

/-- C16: in `CHECK` state a poll stores in `active_extruder_` the value
`TOOLHEAD_3DP_EXTRUDER0` exactly for the readings (1, 0), the value
`TOOLHEAD_3DP_EXTRUDER1` exactly for the readings (1, 1) and `INVALID_EXTRUDER`
exactly for every other pair (the three constants being distinct); in `IDLE`
state a poll returns the state it was given, so the detected extruder, the
matched flag and the frames sent are unchanged. -/
theorem C16_detection_table (E : Env) (s : DualExtruder) (left right : Nat)
    (h01 : E.TOOLHEAD_3DP_EXTRUDER0 ≠ E.TOOLHEAD_3DP_EXTRUDER1)
    (h0i : E.TOOLHEAD_3DP_EXTRUDER0 ≠ E.INVALID_EXTRUDER)
    (h1i : E.TOOLHEAD_3DP_EXTRUDER1 ≠ E.INVALID_EXTRUDER) :
    (s.extruder_check_status_ = extruder_status_e.EXTRUDER_STATUS_CHECK →
      ((ExtruderStatusCheck E s left right).active_extruder_ = E.TOOLHEAD_3DP_EXTRUDER0
        ↔ left = 1 ∧ right = 0) ∧
      ((ExtruderStatusCheck E s left right).active_extruder_ = E.TOOLHEAD_3DP_EXTRUDER1
        ↔ left = 1 ∧ right = 1) ∧
      ((ExtruderStatusCheck E s left right).active_extruder_ = E.INVALID_EXTRUDER
        ↔ ¬ (left = 1 ∧ right = 0) ∧ ¬ (left = 1 ∧ right = 1))) ∧
    (s.extruder_check_status_ = extruder_status_e.EXTRUDER_STATUS_IDLE →
      ExtruderStatusCheck E s left right = s ∧
      (ExtruderStatusCheck E s left right).active_extruder_ = s.active_extruder_ ∧
      (ExtruderStatusCheck E s left right).extruder_status_ = s.extruder_status_ ∧
      (ExtruderStatusCheck E s left right).can_tx = s.can_tx) := by
  constructor
  · intro hcheck
    rw [ExtruderStatusCheck_active E s left right hcheck]
    by_cases ha : left = 1 ∧ right = 0
    · obtain ⟨rfl, rfl⟩ := ha
      simp [detected_extruder, h01, h0i]
    · by_cases hb : left = 1 ∧ right = 1
      · obtain ⟨rfl, rfl⟩ := hb
        simp [detected_extruder, h01.symm, h1i]
      · simp [detected_extruder, ha, hb, h0i.symm, h1i.symm]
  · intro hidle
    have heq : ExtruderStatusCheck E s left right = s := by
      unfold ExtruderStatusCheck
      rw [hidle]
    rw [heq]
    exact ⟨rfl, rfl, rfl, rfl⟩

theorem C16_detection_table_witness :
    sample_env.TOOLHEAD_3DP_EXTRUDER0 ≠ sample_env.TOOLHEAD_3DP_EXTRUDER1 ∧
    sample_state.extruder_check_status_ = extruder_status_e.EXTRUDER_STATUS_CHECK ∧
    ((ExtruderStatusCheck sample_env sample_state 1 1).active_extruder_
        = sample_env.TOOLHEAD_3DP_EXTRUDER1 ↔ (1 : Nat) = 1 ∧ (1 : Nat) = 1) ∧
    ({ sample_state with extruder_check_status_ := extruder_status_e.EXTRUDER_STATUS_IDLE }
        : DualExtruder).extruder_check_status_ = extruder_status_e.EXTRUDER_STATUS_IDLE ∧
    ExtruderStatusCheck sample_env
        { sample_state with extruder_check_status_ := extruder_status_e.EXTRUDER_STATUS_IDLE } 1 1
      = { sample_state with extruder_check_status_ := extruder_status_e.EXTRUDER_STATUS_IDLE } := by
  have h := C16_detection_table sample_env sample_state 1 1 (by decide) (by decide) (by decide)
  have h2 := C16_detection_table sample_env
    { sample_state with extruder_check_status_ := extruder_status_e.EXTRUDER_STATUS_IDLE } 1 1
    (by decide) (by decide) (by decide)
  exact ⟨by decide, rfl, (h.1 rfl).2.1, rfl, (h2.2 rfl).1⟩

/-! ## Fans and PID gain in the dispatcher -/

/-- C15 (as amended): for each of the three set-fan function identifiers and
every payload `[b0, b1]` of two bytes, the dispatcher applies duty = `b1` and
delay in seconds = `b0` to the addressed fan, and leaves the other two fans as
they were. -/
theorem C15_fan_payload_is_delay_then_duty (E : Env)
    (other : FuncId → DualExtruder → List Nat → DualExtruder) (s : DualExtruder) (b0 b1 : Nat)
    (h0 : b0 < 256) (h1 : b1 < 256) :
    ((HandModule E other s FuncId.FUNC_SET_FAN [b0, b1]).left_model_fan_
        = { duty_cycle := b1, delay_sec_kill := b0 } ∧
      (HandModule E other s FuncId.FUNC_SET_FAN [b0, b1]).right_model_fan_ = s.right_model_fan_ ∧
      (HandModule E other s FuncId.FUNC_SET_FAN [b0, b1]).nozzle_fan_ = s.nozzle_fan_) ∧
    ((HandModule E other s FuncId.FUNC_SET_FAN2 [b0, b1]).right_model_fan_
        = { duty_cycle := b1, delay_sec_kill := b0 } ∧
      (HandModule E other s FuncId.FUNC_SET_FAN2 [b0, b1]).left_model_fan_ = s.left_model_fan_ ∧
      (HandModule E other s FuncId.FUNC_SET_FAN2 [b0, b1]).nozzle_fan_ = s.nozzle_fan_) ∧
    ((HandModule E other s FuncId.FUNC_SET_FAN_NOZZLE [b0, b1]).nozzle_fan_
        = { duty_cycle := b1, delay_sec_kill := b0 } ∧
      (HandModule E other s FuncId.FUNC_SET_FAN_NOZZLE [b0, b1]).left_model_fan_
        = s.left_model_fan_ ∧
      (HandModule E other s FuncId.FUNC_SET_FAN_NOZZLE [b0, b1]).right_model_fan_
        = s.right_model_fan_) := by
  have m0 : b0 % 65536 = b0 := Nat.mod_eq_of_lt (by omega)
  have m1 : b1 % 256 = b1 := Nat.mod_eq_of_lt h1
  simp [HandModule, FanCtrl, Fan.ChangePwm, m0, m1]

theorem C15_fan_payload_witness :
    (10 : Nat) < 256 ∧ (200 : Nat) < 256 ∧
    (HandModule sample_env (fun _ st _ => st) sample_state FuncId.FUNC_SET_FAN2 [10, 200]).right_model_fan_
      = { duty_cycle := 200, delay_sec_kill := 10 } ∧
    (HandModule sample_env (fun _ st _ => st) sample_state FuncId.FUNC_SET_FAN2 [10, 200]).left_model_fan_
      = sample_state.left_model_fan_ :=
  ⟨by decide, by decide,
    (C15_fan_payload_is_delay_then_duty sample_env (fun _ st _ => st) sample_state 10 200
      (by decide) (by decide)).2.1.1,
    (C15_fan_payload_is_delay_then_duty sample_env (fun _ st _ => st) sample_state 10 200
      (by decide) (by decide)).2.1.2.1⟩

/-- C15, counterexample to the claim as stated: for the payload `[10, 200]` of
the left model fan the dispatcher applies the duty 200 and the delay 10, not
the duty 10 and the delay 200. -/
theorem C15_counterexample_duty_is_second_byte :
    (HandModule sample_env (fun _ st _ => st) sample_state FuncId.FUNC_SET_FAN [10, 200]).left_model_fan_
      = { duty_cycle := 200, delay_sec_kill := 10 } ∧
    (HandModule sample_env (fun _ st _ => st) sample_state FuncId.FUNC_SET_FAN [10, 200]).left_model_fan_
      ≠ { duty_cycle := 10, delay_sec_kill := 200 } := by
  decide

theorem pid_bits_eq (b3 b2 b1 b0 : Nat) (h2 : b2 < 256) (h1 : b1 < 256) (h0 : b0 < 256) :
    (b3 <<< 24) ||| (b2 <<< 16) ||| ((b1 <<< 8) ||| b0)
      = b3 * 2 ^ 24 + b2 * 2 ^ 16 + b1 * 2 ^ 8 + b0 := by
  have e1 : (b1 <<< 8) ||| b0 = 2 ^ 8 * b1 + b0 := by
    rw [Nat.shiftLeft_eq, Nat.mul_comm b1, Nat.mul_add_lt_is_or (by omega)]
  have e2 : (b3 <<< 24) ||| (b2 <<< 16) = 2 ^ 16 * (2 ^ 8 * b3 + b2) := by
    rw [Nat.shiftLeft_eq, Nat.shiftLeft_eq, Nat.mul_comm b3, ← Nat.mul_add_lt_is_or (by omega)]
    ring
  rw [e1, e2, ← Nat.mul_add_lt_is_or (by omega)]
  ring

/-- The value that the case `FUNC_SET_PID` passes on: the four bytes, most
significant first, read as a signed 32-bit integer, rounded to binary32 and
divided by 1000 in binary32. -/
theorem pid_value_eq (ch b3 b2 b1 b0 : Nat) (h3 : b3 < 256) (h2 : b2 < 256) (h1 : b1 < 256)
    (h0 : b0 < 256) :
    pid_value [ch, b3, b2, b1, b0] =
      Binary32.rnd (Binary32.rnd
        (if b3 < 128 then ((b3 * 2 ^ 24 + b2 * 2 ^ 16 + b1 * 2 ^ 8 + b0 : Nat) : ℚ)
         else ((b3 * 2 ^ 24 + b2 * 2 ^ 16 + b1 * 2 ^ 8 + b0 : Nat) : ℚ) - 4294967296) / 1000) := by
  have hbits := pid_bits_eq b3 b2 b1 b0 h2 h1 h0
  have hlt : b3 * 2 ^ 24 + b2 * 2 ^ 16 + b1 * 2 ^ 8 + b0 < 4294967296 := by omega
  simp only [pid_value, List.getD_cons_succ, List.getD_cons_zero, hbits, int32_of,
    Nat.mod_eq_of_lt hlt]
  by_cases h : b3 < 128
  · have hs : b3 * 2 ^ 24 + b2 * 2 ^ 16 + b1 * 2 ^ 8 + b0 < 2147483648 := by omega
    simp only [h, hs, if_true]
    push_cast
    rfl
  · have hs : ¬ b3 * 2 ^ 24 + b2 * 2 ^ 16 + b1 * 2 ^ 8 + b0 < 2147483648 := by omega
    simp only [h, hs, if_false]
    push_cast
    rfl

/-- C20 (as amended): for every payload `[channel, b3, b2, b1, b0]` of bytes the
dispatcher passes to `SetPID` the index byte `channel` and the gain computed in
binary32 from the four bytes read as a signed 32-bit integer: the integer
`b3*2^24 + b2*2^16 + b1*2^8 + b0` (less `2^32` when `b3 >= 128`) rounded to
binary32, divided by 1000, and the quotient rounded to binary32. -/
theorem C20_pid_gain_is_a_rounded_signed_word (E : Env)
    (other : FuncId → DualExtruder → List Nat → DualExtruder) (s : DualExtruder)
    (channel b3 b2 b1 b0 : Nat) (h3 : b3 < 256) (h2 : b2 < 256) (h1 : b1 < 256) (h0 : b0 < 256) :
    (HandModule E other s FuncId.FUNC_SET_PID [channel, b3, b2, b1, b0]).SetPID_calls =
      s.SetPID_calls ++
        [(channel, Binary32.rnd (Binary32.rnd
          (if b3 < 128 then ((b3 * 2 ^ 24 + b2 * 2 ^ 16 + b1 * 2 ^ 8 + b0 : Nat) : ℚ)
           else ((b3 * 2 ^ 24 + b2 * 2 ^ 16 + b1 * 2 ^ 8 + b0 : Nat) : ℚ) - 4294967296)
          / 1000))] := by
  simp only [HandModule, SetPID, List.getD_cons_zero]
  rw [pid_value_eq channel b3 b2 b1 b0 h3 h2 h1 h0]

theorem C20_pid_gain_rounded_witness :
    (0 : Nat) < 256 ∧ (1 : Nat) < 256 ∧ (134 : Nat) < 256 ∧ (160 : Nat) < 256 ∧
    (HandModule sample_env (fun _ st _ => st) sample_state FuncId.FUNC_SET_PID
        [2, 0, 1, 134, 160]).SetPID_calls = [(2, 100)] := by
  have h := C20_pid_gain_is_a_rounded_signed_word sample_env (fun _ st _ => st) sample_state
    2 0 1 134 160 (by decide) (by decide) (by decide) (by decide)
  refine ⟨by decide, by decide, by decide, by decide, ?_⟩
  rw [h]
  have hs : sample_state.SetPID_calls = [] := rfl
  have e1 : Binary32.rnd ((100000 : ℕ) : ℚ) = 100000 := by
    rw [rnd_nat 100000 (by norm_num)]
    norm_num
  have e2 : Binary32.rnd ((100 : ℕ) : ℚ) = 100 := by
    rw [rnd_nat 100 (by norm_num)]
    norm_num
  have e3 : ((100000 : ℚ)) / 1000 = ((100 : ℕ) : ℚ) := by norm_num
  rw [hs]
  norm_num
  rw [show (100000 : ℚ) = ((100000 : ℕ) : ℚ) by norm_num, e1, e3, e2]

/-- C20, counterexample to the claim as stated: for the payload
`[0, 128, 0, 0, 0]` the dispatcher passes the gain -2147483.75 to `SetPID`, not
`128 * 2^24 / 1000 = 2147483.648`: the word is negative as a signed integer, and
the quotient by 1000 is rounded to binary32. -/
theorem C20_counterexample_high_bit_and_rounding :
    (HandModule sample_env (fun _ st _ => st) sample_state FuncId.FUNC_SET_PID
        [0, 128, 0, 0, 0]).SetPID_calls = [(0, -8589935 / 4)] ∧
    (HandModule sample_env (fun _ st _ => st) sample_state FuncId.FUNC_SET_PID
        [0, 128, 0, 0, 0]).SetPID_calls
      ≠ [(0, ((128 * 2 ^ 24 + 0 * 2 ^ 16 + 0 * 2 ^ 8 + 0 : Nat) : ℚ) / 1000)] := by
  have hcalls : (HandModule sample_env (fun _ st _ => st) sample_state FuncId.FUNC_SET_PID
      [0, 128, 0, 0, 0]).SetPID_calls = [(0, pid_value [0, 128, 0, 0, 0])] := rfl
  have e1 : Binary32.rnd (-2147483648) = -2147483648 := by
    rw [rnd_eval 31 (by norm_num [abs_of_neg]) (by norm_num [abs_of_neg])]
    norm_num [Binary32.roundEven]
  have e2 : Binary32.rnd (-2147483648 / 1000) = -8589935 / 4 := by
    rw [rnd_eval 21 (by norm_num [abs_of_neg]) (by norm_num [abs_of_neg])]
    norm_num [Binary32.roundEven]
  have hval : pid_value [0, 128, 0, 0, 0] = -8589935 / 4 := by
    rw [pid_value_eq 0 128 0 0 0 (by decide) (by decide) (by decide) (by decide)]
    norm_num
    rw [e1, e2]
    norm_num
  rw [hcalls, hval]
  refine ⟨rfl, ?_⟩
  norm_num

/-! ## Temperature report without a reply route -/

/-- When the `int16_t` copy of the looked-up identifier equals `INVALID_VALUE`,
`ReportTemprature` does nothing. -/
theorem ReportTemprature_guarded (E : Env) (s : DualExtruder)
    (h : int16_of (s.FuncId2MsgId FuncId.FUNC_REPORT_TEMPEARTURE) = (E.INVALID_VALUE : Int)) :
    ReportTemprature E s = s := by
  simp [ReportTemprature, h]

/-- C14 (as amended): when the lookup for the temperature report fails and the
sentinel survives the narrowing to `int16_t` (`INVALID_VALUE < 32768`),
`ReportTemprature` returns at once: no stored target is changed, whatever the
nozzle identities and the temperatures are, and no frame is sent. -/
theorem C14_no_route_skips_the_whole_report (E : Env) (s : DualExtruder)
    (hfail : s.FuncId2MsgId FuncId.FUNC_REPORT_TEMPEARTURE = E.INVALID_VALUE)
    (hsmall : E.INVALID_VALUE < 32768) :
    ReportTemprature E s = s ∧
    (ReportTemprature E s).temperature_0_ = s.temperature_0_ ∧
    (ReportTemprature E s).temperature_1_ = s.temperature_1_ ∧
    (ReportTemprature E s).can_tx = s.can_tx := by
  have hid : int16_of (s.FuncId2MsgId FuncId.FUNC_REPORT_TEMPEARTURE) = (E.INVALID_VALUE : Int) := by
    rw [hfail]
    unfold int16_of
    have hm : E.INVALID_VALUE % 65536 = E.INVALID_VALUE := Nat.mod_eq_of_lt (by omega)
    rw [hm, if_pos hsmall]
  have heq := ReportTemprature_guarded E s hid
  rw [heq]
  exact ⟨rfl, rfl, rfl, rfl⟩

theorem C14_no_route_witness :
    (sample_no_route 9999).FuncId2MsgId FuncId.FUNC_REPORT_TEMPEARTURE
      = sample_env_9999.INVALID_VALUE ∧
    sample_env_9999.INVALID_VALUE < 32768 ∧
    ReportTemprature sample_env_9999 (sample_no_route 9999) = sample_no_route 9999 :=
  ⟨rfl, by decide,
    (C14_no_route_skips_the_whole_report sample_env_9999 (sample_no_route 9999) rfl
      (by decide)).1⟩

/-- C14, counterexample to the claim as stated. With the sentinel 9999 and no
route, channel 1 of the sample state is at 600 tenths, above the threshold 550,
and its stored target stays 2100 instead of being forced to 0. With the
sentinel 65535 and no route, the `int16_t` copy is -1, the test does not see
the failure and a frame is sent. -/
theorem C14_counterexample_no_route :
    ((sample_no_route 9999).FuncId2MsgId FuncId.FUNC_REPORT_TEMPEARTURE
        = sample_env_9999.INVALID_VALUE ∧
      sample_env_9999.PROTECTION_TEMPERATURE * 10
        < (sample_no_route 9999).temperature_1_.current_c_tenths ∧
      (ReportTemprature sample_env_9999 (sample_no_route 9999)).temperature_1_.target_c_tenths
        = 2100) ∧
    ((sample_no_route 65535).FuncId2MsgId FuncId.FUNC_REPORT_TEMPEARTURE
        = sample_env.INVALID_VALUE ∧
      (ReportTemprature sample_env (sample_no_route 65535)).can_tx
        = [{ msgid := -1, data := [0, 250, 7, 208, 0, 0, 0, 0] }]) := by
  decide

/-! ## The stepper executor on an arbitrary table -/

theorem step_writes_append (l1 l2 : List HwEvent) :
    step_writes (l1 ++ l2) = step_writes l1 ++ step_writes l2 := by
  simp [step_writes, List.filterMap_append]

/-- What the `while` loop does, whatever the table: either it falls through
with the counters, the phase, the motor state and the step line as they were,
or it leaves `Stepper` with the motor stopped, and then the pulse counter had
reached the threshold of the last segment. -/
theorem Stepper_while_result (fuel : Nat) (s : DualExtruder)
    (hfuel : 20 ≤ fuel + s.speed_ctrl_index_.val) :
    ((Stepper_while fuel s).2 = false →
      (Stepper_while fuel s).1.speed_ctrl_buffer_ = s.speed_ctrl_buffer_ ∧
      (Stepper_while fuel s).1.stepps_sum_ = s.stepps_sum_ ∧
      (Stepper_while fuel s).1.stepps_count_ = s.stepps_count_ ∧
      (Stepper_while fuel s).1.step_pin_state_ = s.step_pin_state_ ∧
      (Stepper_while fuel s).1.z_motor_step_ = s.z_motor_step_ ∧
      (Stepper_while fuel s).1.motor_state_ = s.motor_state_ ∧
      step_writes (Stepper_while fuel s).1.hw_log = step_writes s.hw_log) ∧
    ((Stepper_while fuel s).2 = true →
      s.stepps_count_ = (s.speed_ctrl_buffer_ 19).pulse_count ∧
      (Stepper_while fuel s).1.motor_state_ = 0 ∧
      (Stepper_while fuel s).1.stepps_count_ = 0 ∧
      (Stepper_while fuel s).1.stepps_sum_ = 0 ∧
      (Stepper_while fuel s).1.step_pin_state_ = s.step_pin_state_ ∧
      (Stepper_while fuel s).1.z_motor_step_ = 0 ∧
      (Stepper_while fuel s).1.stepper_timer = none ∧
      step_writes (Stepper_while fuel s).1.hw_log = step_writes s.hw_log ++ [0]) := by
  induction fuel generalizing s with
  | zero =>
    have := s.speed_ctrl_index_.isLt
    omega
  | succ n ih =>
    rw [Stepper_while]
    by_cases heq : s.stepps_count_ = (s.speed_ctrl_buffer_ s.speed_ctrl_index_).pulse_count
    · rw [if_pos heq]
      by_cases h19 : s.speed_ctrl_index_.val ≠ 19
      · rw [dif_pos h19]
        have hlt := s.speed_ctrl_index_.isLt
        have h := ih (StepperTimerStart (StepperTimerStop
          { s with speed_ctrl_index_ := ⟨s.speed_ctrl_index_.val + 1, by omega⟩ })
          ((StepperTimerStop
            { s with speed_ctrl_index_ := ⟨s.speed_ctrl_index_.val + 1, by omega⟩ }).speed_ctrl_buffer_
            (StepperTimerStop
              { s with speed_ctrl_index_ := ⟨s.speed_ctrl_index_.val + 1, by omega⟩ }).speed_ctrl_index_).timer_time)
          (by simp only [StepperTimerStart, StepperTimerStop]; omega)
        simp only [StepperTimerStart, StepperTimerStop, step_writes_append] at h ⊢
        simpa [step_writes] using h
      · rw [dif_neg h19]
        have h19' : s.speed_ctrl_index_.val = 19 := by omega
        rw [h19'] at heq
        simp [StepperTimerStop, z_motor_step_Out, step_writes, heq]
    · rw [if_neg heq]
      simp

/-- Below the last threshold the `while` loop cannot leave `Stepper`. -/
theorem Stepper_while_falls_through (B : SpeedCtrlBuffer) (T c p : Nat)
    (hlast : (B 19).pulse_count = T) (hc : c < T) (s : DualExtruder)
    (hs : Executing B T c p s) :
    (Stepper_while 20 s).2 = false ∧ Executing B T c p (Stepper_while 20 s).1 ∧
      step_writes (Stepper_while 20 s).1.hw_log = step_writes s.hw_log := by
  obtain ⟨hB, hsum, hcnt, hp, hm, hen⟩ := hs
  have hw := Stepper_while_result 20 s (by omega)
  have hflag : (Stepper_while 20 s).2 = false := by
    cases hf : (Stepper_while 20 s).2
    · rfl
    · have h := (hw.2 hf).1
      rw [hB, hcnt, hlast] at h
      omega
  obtain ⟨gB, gsum, gcnt, gp, _, gm, gw⟩ := hw.1 hflag
  refine ⟨hflag, ⟨?_, ?_, ?_, ?_, ?_, ?_⟩, gw⟩
  · rw [gB, hB]
  · rw [gsum, hsum]
  · rw [gcnt, hcnt]
  · rw [gp, hp]
  · rw [gm]; exact hm
  · rw [Stepper_while_end_stop_enable, hen]

/-- A rising edge on an arbitrary table. -/
theorem Stepper_any_rise (B : SpeedCtrlBuffer) (T c : Nat) (hlast : (B 19).pulse_count = T)
    (hc : c < T) (hT : T ≤ UINT32_MAX) (s : DualExtruder) (endstop : Nat)
    (hs : Executing B T c 0 s) :
    Executing B T (c + 1) 1 (Stepper s endstop) ∧
      step_writes (Stepper s endstop).hw_log = step_writes s.hw_log ++ [1] := by
  obtain ⟨hflag, ⟨hB, hsum, hcnt, hp, hm, hen⟩, hw⟩ :=
    Stepper_while_falls_through B T c 0 hlast hc s hs
  have hno : ¬ (s.end_stop_enable_ = true ∧ endstop ≠ 0) := by
    rw [hs.2.2.2.2.2]
    simp
  have hmax : UINT32_MAX = 4294967295 := rfl
  have hmod : (c + 1) % 4294967296 = c + 1 := Nat.mod_eq_of_lt (by omega)
  unfold Stepper
  rw [if_neg hno]
  simp only [hflag, Bool.false_eq_true, if_false, hp, if_true, z_motor_step_Out, Executing, hcnt,
    hmod, step_writes_append, hw]
  refine ⟨⟨hB, hsum, trivial, trivial, hm, hen⟩, ?_⟩
  simp [step_writes]

/-- A falling edge before the last pulse on an arbitrary table. -/
theorem Stepper_any_fall (B : SpeedCtrlBuffer) (T c p : Nat) (hlast : (B 19).pulse_count = T)
    (hc : c < T) (hp0 : p ≠ 0) (s : DualExtruder) (endstop : Nat)
    (hs : Executing B T c p s) :
    Executing B T c 0 (Stepper s endstop) ∧
      step_writes (Stepper s endstop).hw_log = step_writes s.hw_log ++ [0] := by
  obtain ⟨hflag, ⟨hB, hsum, hcnt, hp, hm, hen⟩, hw⟩ :=
    Stepper_while_falls_through B T c p hlast hc s hs
  have hno : ¬ (s.end_stop_enable_ = true ∧ endstop ≠ 0) := by
    rw [hs.2.2.2.2.2]
    simp
  have hne : ¬ c = T := by omega
  unfold Stepper
  rw [if_neg hno]
  simp only [hflag, Bool.false_eq_true, if_false, hp, hp0, z_motor_step_Out, Executing, hcnt,
    hsum, hne, step_writes_append, hw]
  refine ⟨⟨hB, trivial, trivial, trivial, hm, hen⟩, ?_⟩
  simp [step_writes]

/-- The invocation after the last rising edge stops the motor, through the
`while` loop or through the test of the falling edge; either way it writes the
step line low once. -/
theorem Stepper_any_last (B : SpeedCtrlBuffer) (T p : Nat) (hp0 : p ≠ 0) (s : DualExtruder)
    (endstop : Nat) (hs : Executing B T T p s) :
    (Stepper s endstop).motor_state_ = 0 ∧ (Stepper s endstop).stepps_count_ = 0 ∧
      step_writes (Stepper s endstop).hw_log = step_writes s.hw_log ++ [0] := by
  obtain ⟨hB, hsum, hcnt, hp, hm, hen⟩ := hs
  have hno : ¬ (s.end_stop_enable_ = true ∧ endstop ≠ 0) := by
    rw [hen]
    simp
  have hw := Stepper_while_result 20 s (by omega)
  unfold Stepper
  rw [if_neg hno]
  cases hf : (Stepper_while 20 s).2
  · obtain ⟨_, gsum, gcnt, gp, _, _, gw⟩ := hw.1 hf
    have hpne : ¬ (Stepper_while 20 s).1.step_pin_state_ = 0 := by rw [gp, hp]; exact hp0
    have heq : (Stepper_while 20 s).1.stepps_count_ = (Stepper_while 20 s).1.stepps_sum_ := by
      rw [gcnt, gsum, hcnt, hsum]
    simp only [hf, Bool.false_eq_true, if_false, hpne, z_motor_step_Out, heq, if_true,
      StepperTimerStop, step_writes_append, gw]
    simp [step_writes]
  · obtain ⟨_, gm, gcnt, _, _, _, _, gw⟩ := hw.2 hf
    simp only [hf, if_true]
    exact ⟨gm, gcnt, gw⟩

theorem rising_edges_pulse_train (n : Nat) (rest : List Nat) :
    rising_edges 0 (pulse_train n ++ rest) = n + rising_edges 0 rest := by
  induction n generalizing rest with
  | zero => simp [pulse_train]
  | succ k ih =>
    have h : pulse_train (k + 1) ++ rest = pulse_train k ++ (1 :: 0 :: rest) := by
      simp [pulse_train]
    rw [h, ih]
    simp only [rising_edges]
    simp
    omega

/-- On an arbitrary table whose last threshold is `T`: after `2 * j` invocations
`j` pulses have been written and the phase is low. -/
theorem runStepper_any_even (B : SpeedCtrlBuffer) (T : Nat) (hlast : (B 19).pulse_count = T)
    (hT : T ≤ UINT32_MAX) (endstop : Nat → Nat) (s : DualExtruder) (hs : Executing B T 0 0 s)
    (j : Nat) (hj : j < T) :
    Executing B T j 0 (runStepper endstop (2 * j) s) ∧
      step_writes (runStepper endstop (2 * j) s).hw_log = step_writes s.hw_log ++ pulse_train j := by
  induction j with
  | zero => exact ⟨hs, by simp [runStepper, pulse_train]⟩
  | succ k ih =>
    obtain ⟨hk, hwk⟩ := ih (by omega)
    obtain ⟨h1, hw1⟩ := Stepper_any_rise B T k hlast (by omega) hT _ (endstop (2 * k)) hk
    obtain ⟨h2, hw2⟩ := Stepper_any_fall B T (k + 1) 1 hlast hj one_ne_zero _
      (endstop (2 * k + 1)) h1
    have e : 2 * (k + 1) = 2 * k + 1 + 1 := by ring
    rw [e, runStepper_succ, runStepper_succ]
    refine ⟨h2, ?_⟩
    rw [hw2, hw1, hwk]
    simp [pulse_train]

/-- After `2 * j + 1` invocations the pulse `j + 1` has started. -/
theorem runStepper_any_odd (B : SpeedCtrlBuffer) (T : Nat) (hlast : (B 19).pulse_count = T)
    (hT : T ≤ UINT32_MAX) (endstop : Nat → Nat) (s : DualExtruder) (hs : Executing B T 0 0 s)
    (j : Nat) (hj : j < T) :
    Executing B T (j + 1) 1 (runStepper endstop (2 * j + 1) s) ∧
      step_writes (runStepper endstop (2 * j + 1) s).hw_log
        = step_writes s.hw_log ++ pulse_train j ++ [1] := by
  obtain ⟨hk, hwk⟩ := runStepper_any_even B T hlast hT endstop s hs j hj
  obtain ⟨h1, hw1⟩ := Stepper_any_rise B T j hlast hj hT _ (endstop (2 * j)) hk
  rw [runStepper_succ]
  exact ⟨h1, by rw [hw1, hwk]⟩

/-- A move of `T` pulses on an arbitrary table whose last threshold is `T`,
started with no pulse emitted and the phase low: the motor stays on for
`2 * T - 1` invocations and goes off at invocation `2 * T`, after the writes of
`T` complete pulses; the pulse counter never exceeds `T`. -/
theorem runStepper_any_table (B : SpeedCtrlBuffer) (T : Nat) (hlast : (B 19).pulse_count = T)
    (hT : T ≤ UINT32_MAX) (hT1 : 1 ≤ T) (endstop : Nat → Nat) (s : DualExtruder)
    (hs : Executing B T 0 0 s) :
    (∀ k, k < 2 * T → (runStepper endstop k s).motor_state_ ≠ 0) ∧
    (runStepper endstop (2 * T) s).motor_state_ = 0 ∧
    step_writes (runStepper endstop (2 * T) s).hw_log = step_writes s.hw_log ++ pulse_train T ∧
    (∀ k, k ≤ 2 * T → (runStepper endstop k s).stepps_count_ ≤ T) := by
  have hodd := runStepper_any_odd B T hlast hT endstop s hs (T - 1) (by omega)
  have e1 : T - 1 + 1 = T := by omega
  rw [e1] at hodd
  have e2 : 2 * T = 2 * (T - 1) + 1 + 1 := by omega
  obtain ⟨hm, hc, hw⟩ := Stepper_any_last B T 1 one_ne_zero _ (endstop (2 * (T - 1) + 1)) hodd.1
  have hfin : (runStepper endstop (2 * T) s).motor_state_ = 0 ∧
      (runStepper endstop (2 * T) s).stepps_count_ = 0 ∧
      step_writes (runStepper endstop (2 * T) s).hw_log
        = step_writes s.hw_log ++ pulse_train T := by
    rw [e2, runStepper_succ]
    refine ⟨hm, hc, ?_⟩
    rw [hw, hodd.2]
    have hp : pulse_train T = pulse_train (T - 1) ++ [1, 0] := by
      conv_lhs => rw [← e1]
      rfl
    rw [hp]
    simp
  refine ⟨?_, hfin.1, hfin.2.2, ?_⟩
  · intro k hk
    rcases Nat.even_or_odd' k with ⟨j, hj | hj⟩
    · rw [hj]
      exact (runStepper_any_even B T hlast hT endstop s hs j (by omega)).1.2.2.2.2.1
    · rw [hj]
      exact (runStepper_any_odd B T hlast hT endstop s hs j (by omega)).1.2.2.2.2.1
  · intro k hk
    rcases Nat.lt_or_ge k (2 * T) with hlt | hge
    · rcases Nat.even_or_odd' k with ⟨j, hj | hj⟩
      · rw [hj, (runStepper_any_even B T hlast hT endstop s hs j (by omega)).1.2.2.1]
        omega
      · rw [hj, (runStepper_any_odd B T hlast hT endstop s hs j (by omega)).1.2.2.1]
        omega
    · have : k = 2 * T := by omega
      rw [this, hfin.2.1]
      exact Nat.zero_le _

/-- C11: for every table whose threshold `segment[19].pulse_count` equals the
pulse count `total_steps >= 1` of the move, whatever the other thresholds are,
the executor started with `stepps_count_ = 0`, the phase and the step line low
and the endstop stop disabled stays on for every number of invocations below
`2 * total_steps`, is idle after `2 * total_steps` invocations, has then
written `total_steps` complete pulses to the step line, that is `total_steps`
rising edges, and `stepps_count_` never exceeds `total_steps` on the way. -/
theorem C11_pulses_on_any_table (s : DualExtruder) (endstop : Nat → Nat) (total_steps : Nat)
    (hT1 : 1 ≤ total_steps) (hT : total_steps ≤ UINT32_MAX)
    (hlast : (s.speed_ctrl_buffer_ 19).pulse_count = total_steps)
    (hsum : s.stepps_sum_ = total_steps) (hactive : s.motor_state_ ≠ 0)
    (hcount : s.stepps_count_ = 0) (hphase : s.step_pin_state_ = 0)
    (hline : s.z_motor_step_ = 0) (hdisabled : s.end_stop_enable_ = false) :
    (∀ k, k < 2 * total_steps → (runStepper endstop k s).motor_state_ ≠ 0) ∧
    (runStepper endstop (2 * total_steps) s).motor_state_ = 0 ∧
    step_writes (runStepper endstop (2 * total_steps) s).hw_log
      = step_writes s.hw_log ++ pulse_train total_steps ∧
    rising_edges s.z_motor_step_ (pulse_train total_steps) = total_steps ∧
    (∀ k, k ≤ 2 * total_steps → (runStepper endstop k s).stepps_count_ ≤ total_steps) := by
  have hs : Executing s.speed_ctrl_buffer_ total_steps 0 0 s :=
    ⟨rfl, hsum, hcount, hphase, hactive, hdisabled⟩
  obtain ⟨h1, h2, h3, h4⟩ :=
    runStepper_any_table s.speed_ctrl_buffer_ total_steps hlast hT hT1 endstop s hs
  refine ⟨h1, h2, h3, ?_, h4⟩
  rw [hline]
  have h := rising_edges_pulse_train total_steps []
  simpa [rising_edges] using h

theorem C11_pulses_on_any_table_witness :
    (1 : Nat) ≤ 3 ∧ 3 ≤ UINT32_MAX ∧ (jagged_move.speed_ctrl_buffer_ 19).pulse_count = 3 ∧
    (jagged_move.speed_ctrl_buffer_ 0).pulse_count = 5 ∧
    jagged_move.stepps_sum_ = 3 ∧ jagged_move.motor_state_ ≠ 0 ∧ jagged_move.stepps_count_ = 0 ∧
    jagged_move.step_pin_state_ = 0 ∧ jagged_move.z_motor_step_ = 0 ∧
    jagged_move.end_stop_enable_ = false ∧
    ((∀ k, k < 2 * 3 → (runStepper (fun _ => 1) k jagged_move).motor_state_ ≠ 0) ∧
    (runStepper (fun _ => 1) (2 * 3) jagged_move).motor_state_ = 0 ∧
    step_writes (runStepper (fun _ => 1) (2 * 3) jagged_move).hw_log
      = step_writes jagged_move.hw_log ++ pulse_train 3 ∧
    rising_edges jagged_move.z_motor_step_ (pulse_train 3) = 3 ∧
    (∀ k, k ≤ 2 * 3 → (runStepper (fun _ => 1) k jagged_move).stepps_count_ ≤ 3)) :=
  ⟨by decide, by decide, by decide, by decide, by decide, by decide, by decide, by decide,
    by decide, by decide,
    C11_pulses_on_any_table jagged_move (fun _ => 1) 3 (by decide) (by decide) (by decide)
      (by decide) (by decide) (by decide) (by decide) (by decide) (by decide)⟩

/-! ## What the executor leaves alone, and what an idle state looks like -/

theorem Stepper_while_outside (fuel : Nat) (s : DualExtruder) :
    outside_executor (Stepper_while fuel s).1 = outside_executor s := by
  induction fuel generalizing s with
  | zero => rfl
  | succ n ih =>
    rw [Stepper_while]
    split
    · split
      · rw [ih]
        rfl
      · rfl
    · rfl

theorem Stepper_outside (s : DualExtruder) (endstop : Nat) :
    outside_executor (Stepper s endstop) = outside_executor s := by
  have hw := Stepper_while_outside 20 s
  simp only [outside_executor] at hw
  injection hw with h1 h2 h3 h4 h5 h6 h7 h8 h9 h10 h11 h12 h13 h14 h15 h16 h17 h18 h19 h20 h21 h22
    h23 h24 h25 h26 h27 h28 h29 h30 h31 h32
  simp only [Stepper, outside_executor]
  split_ifs <;>
    simp [z_motor_step_Out, StepperTimerStop, h1, h7, h8, h9, h10, h11, h12, h13, h14, h15, h16, h17,
      h18, h19, h20, h21, h22, h26, h27, h28, h29, h30, h31, h32]

theorem runStepper_outside (endstop : Nat → Nat) (n : Nat) (s : DualExtruder) :
    outside_executor (runStepper endstop n s) = outside_executor s := by
  induction n with
  | zero => rfl
  | succ k ih => rw [runStepper_succ, Stepper_outside, ih]

/-- An invocation that turns the motor off went through one of the three
stopping sequences: the counters are cleared, the step line is low and the
timer is stopped. -/
theorem Stepper_stops_clean (s : DualExtruder) (endstop : Nat) (hon : s.motor_state_ ≠ 0)
    (hoff : (Stepper s endstop).motor_state_ = 0) :
    (Stepper s endstop).stepps_count_ = 0 ∧ (Stepper s endstop).stepps_sum_ = 0 ∧
      (Stepper s endstop).z_motor_step_ = 0 ∧ (Stepper s endstop).stepper_timer = none := by
  have hw := Stepper_while_result 20 s (by omega)
  unfold Stepper at hoff ⊢
  by_cases habort : s.end_stop_enable_ = true ∧ endstop ≠ 0
  · simp [habort, z_motor_step_Out, StepperTimerStop]
  · rw [if_neg habort] at hoff ⊢
    cases hf : (Stepper_while 20 s).2
    · obtain ⟨_, _, _, _, _, gm, _⟩ := hw.1 hf
      simp only [hf, Bool.false_eq_true, if_false] at hoff ⊢
      by_cases hp : (Stepper_while 20 s).1.step_pin_state_ = 0
      · simp only [hp, if_true, z_motor_step_Out] at hoff
        rw [gm] at hoff
        exact absurd hoff hon
      · simp only [hp, if_false, z_motor_step_Out] at hoff ⊢
        by_cases hc : (Stepper_while 20 s).1.stepps_count_ = (Stepper_while 20 s).1.stepps_sum_
        · simp [hc, StepperTimerStop]
        · simp only [hc, if_false] at hoff
          rw [gm] at hoff
          exact absurd hoff hon
    · obtain ⟨_, _, gc, gs, _, gz, gt, _⟩ := hw.2 hf
      simp only [hf, if_true]
      exact ⟨gc, gs, gz, gt⟩

/-! ## The wait for the end of a move -/

theorem MoveSync_idle (fuel : Nat) (endstop : Nat → Nat) (s : DualExtruder)
    (h : s.motor_state_ = 0) : MoveSync fuel endstop s = some s := by
  cases fuel <;> simp [MoveSync, h]

/-- Enough invocations give the result: when the motor goes off at invocation
`n` and not before, a wait that allows `n` invocations or more returns the
state after invocation `n`. -/
theorem MoveSync_of_run (fuel : Nat) (endstop : Nat → Nat) (s : DualExtruder) (n : Nat)
    (hn : n ≤ fuel) (hon : ∀ k, k < n → (runStepper endstop k s).motor_state_ ≠ 0)
    (hoff : (runStepper endstop n s).motor_state_ = 0) :
    MoveSync fuel endstop s = some (runStepper endstop n s) := by
  induction n generalizing fuel endstop s with
  | zero => exact MoveSync_idle fuel endstop s hoff
  | succ m ih =>
    cases fuel with
    | zero => omega
    | succ f =>
      have h0 : s.motor_state_ ≠ 0 := hon 0 (by omega)
      rw [MoveSync, if_neg h0, runStepper_shift]
      apply ih
      · omega
      · intro k hk
        rw [← runStepper_shift]
        exact hon (k + 1) (by omega)
      · rw [← runStepper_shift]
        exact hoff

/-- A wait that returns has seen the motor go off: its result is the state
after some number of invocations, the first at which the motor is off. -/
theorem MoveSync_some (fuel : Nat) (endstop : Nat → Nat) (s x : DualExtruder)
    (h : MoveSync fuel endstop s = some x) :
    ∃ n, n ≤ fuel ∧ x = runStepper endstop n s ∧ x.motor_state_ = 0 ∧
      ∀ k, k < n → (runStepper endstop k s).motor_state_ ≠ 0 := by
  induction fuel generalizing endstop s with
  | zero =>
    by_cases h0 : s.motor_state_ = 0
    · simp only [MoveSync, h0, if_true, Option.some.injEq] at h
      subst h
      exact ⟨0, le_refl 0, rfl, h0, fun k hk => absurd hk (Nat.not_lt_zero k)⟩
    · simp [MoveSync, h0] at h
  | succ f ih =>
    by_cases h0 : s.motor_state_ = 0
    · simp only [MoveSync, h0, if_true, Option.some.injEq] at h
      subst h
      exact ⟨0, Nat.zero_le _, rfl, h0, fun k hk => absurd hk (Nat.not_lt_zero k)⟩
    · rw [MoveSync, if_neg h0] at h
      obtain ⟨n, hn, hx, hm, hon⟩ := ih _ _ h
      refine ⟨n + 1, by omega, ?_, hm, ?_⟩
      · rw [runStepper_shift]
        exact hx
      · intro k hk
        cases k with
        | zero => exact h0
        | succ j =>
          rw [runStepper_shift]
          exact hon j (by omega)

/-! ## Moves of no pulse -/

/-- What arming leaves alone, and what it writes to the hardware. -/
theorem DoBlockingMoveToZ_other_fields (E : Env) (s : DualExtruder) (d speed : ℚ)
    (hidle : s.motor_state_ = 0) :
    (DoBlockingMoveToZ E s d speed).target_extruder_ = s.target_extruder_ ∧
    (DoBlockingMoveToZ E s d speed).extruder_check_status_ = s.extruder_check_status_ ∧
    (DoBlockingMoveToZ E s d speed).can_tx = s.can_tx ∧
    (DoBlockingMoveToZ E s d speed).FuncId2MsgId = s.FuncId2MsgId ∧
    (DoBlockingMoveToZ E s d speed).extruder_cs_0_ = s.extruder_cs_0_ ∧
    (DoBlockingMoveToZ E s d speed).extruder_cs_1_ = s.extruder_cs_1_ ∧
    (DoBlockingMoveToZ E s d speed).z_motor_step_ = s.z_motor_step_ ∧
    ∃ t, (DoBlockingMoveToZ E s d speed).hw_log
      = s.hw_log ++ [HwEvent.dir_out (if d < 0 then 0 else 1), HwEvent.timer_start t] := by
  simp only [DoBlockingMoveToZ, hidle, length_magnitude, StepperTimerStart]
  by_cases hd : d < 0 <;> simp [hd, z_motor_dir_Out]

/-- The state in which the executor leaves the first sample move: idle, the
pulse counter cleared, the step line low, and the phase variable at 1. -/
theorem after_first_move_state :
    after_first_move.motor_state_ = 0 ∧ after_first_move.stepps_count_ = 0 ∧
      after_first_move.step_pin_state_ = 1 ∧ after_first_move.z_motor_step_ = 0 := by
  have hidle : sample_state.motor_state_ = 0 := by decide
  have hcount : sample_state.stepps_count_ = 0 := by decide
  have hphase : sample_state.step_pin_state_ = 0 := by decide
  have hsum1 : first_move.stepps_sum_ = 1 := by
    unfold first_move
    rw [DoBlockingMoveToZ_stepps_sum _ _ _ _ hidle, stepps_sum_of_one_step]
  have hmono1 : NonDecreasing first_move.speed_ctrl_buffer_ :=
    DoBlockingMoveToZ_mono sample_env sample_state _ _ hidle (Or.inl takes_trapezoid_one_step)
  have hlast1 : (first_move.speed_ctrl_buffer_ 19).pulse_count = 1 := by
    unfold first_move
    rw [DoBlockingMoveToZ_last_pulse _ _ _ _ hidle, stepps_sum_of_one_step]
  have hrun1 : Running first_move.speed_ctrl_buffer_ 1 0 0 first_move := by
    have h := DoBlockingMoveToZ_running sample_env sample_state (1 / 1600) (1 / 10) hidle hcount
    have hs : (DoBlockingMoveToZ sample_env sample_state (1 / 1600) (1 / 10)).stepps_sum_ = 1 :=
      hsum1
    rw [hphase, hs] at h
    exact h
  have hend1 := runStepper_clean_start first_move.speed_ctrl_buffer_ 1 hmono1 hlast1
    (by decide) (le_refl 1) (fun _ => 0) (fun _ => rfl) first_move hrun1
  have hafter : after_first_move = runStepper (fun _ => 0) (2 * 1) first_move := rfl
  have hstep : after_first_move = Stepper (runStepper (fun _ => 0) 1 first_move) 0 := rfl
  have hon : (runStepper (fun _ => 0) 1 first_move).motor_state_ ≠ 0 := hend1.1 1 (by norm_num)
  rw [← hafter] at hend1
  obtain ⟨_, hidle2, hcount2, hphase2⟩ := hend1
  refine ⟨hidle2, hcount2, hphase2, ?_⟩
  have hoff : (Stepper (runStepper (fun _ => 0) 1 first_move) 0).motor_state_ = 0 := by
    rw [← hstep]
    exact hidle2
  rw [hstep]
  exact (Stepper_stops_clean _ 0 hon hoff).2.2.1

/-- C17, the code against the claim: the executor completes a first move of one
pulse (endstop never triggered) and leaves the motor idle with the step line
low; the move that `DoBlockingMoveToZ` arms in that state has
`stepps_count_ = 0`, `speed_ctrl_index_ = 0` and `motor_state_ = 1`, but its
phase variable `step_pin_state_` is 1 (high) while the step line is low. -/
theorem C17_arming_keeps_the_stale_phase :
    after_first_move = runStepper (fun _ => 0) (2 * first_move.stepps_sum_) first_move ∧
    after_first_move.motor_state_ = 0 ∧
    second_move = DoBlockingMoveToZ sample_env after_first_move (1 / 1600) (1 / 10) ∧
    second_move.stepps_count_ = 0 ∧
    second_move.speed_ctrl_index_ = 0 ∧
    second_move.motor_state_ = 1 ∧
    second_move.step_pin_state_ = 1 ∧
    second_move.z_motor_step_ = 0 := by
  obtain ⟨hidle, hcount, hphase, hline⟩ := after_first_move_state
  have hsum1 : first_move.stepps_sum_ = 1 := by
    unfold first_move
    rw [DoBlockingMoveToZ_stepps_sum _ _ _ _ (by decide), stepps_sum_of_one_step]
  obtain ⟨gm, gi, gc, gp, _⟩ :=
    DoBlockingMoveToZ_motion_fields sample_env after_first_move (1 / 1600) (1 / 10) hidle
  obtain ⟨_, _, _, _, _, _, gz, _⟩ :=
    DoBlockingMoveToZ_other_fields sample_env after_first_move (1 / 1600) (1 / 10) hidle
  refine ⟨?_, hidle, rfl, ?_, ?_, ?_, ?_, ?_⟩
  · rw [hsum1]
    rfl
  · unfold second_move
    rw [gc, hcount]
  · unfold second_move
    exact gi
  · unfold second_move
    exact gm
  · unfold second_move
    rw [gp, hphase]
  · unfold second_move
    rw [gz, hline]

/-! ## The extruder switch -/

theorem ExtruderSwitcingWithMotor_eq (E : Env) (fuel : Nat) (endstop : Nat → Nat)
    (s : DualExtruder) (data : List Nat) :
    ExtruderSwitcingWithMotor E fuel endstop s data =
      (MoveSync fuel endstop (switch_armed E s (data.getD 0 0))).map (switch_done E) := by
  unfold ExtruderSwitcingWithMotor
  have h : ∀ o : Option DualExtruder,
      (match o with
        | none => none
        | some s =>
          if ({ s with extruder_check_status_ :=
                  extruder_status_e.EXTRUDER_STATUS_CHECK }).FuncId2MsgId
              FuncId.FUNC_SWITCH_EXTRUDER ≠ E.INVALID_VALUE then
            some (PushSendStandardData
              { s with extruder_check_status_ := extruder_status_e.EXTRUDER_STATUS_CHECK }
              (({ s with extruder_check_status_ :=
                  extruder_status_e.EXTRUDER_STATUS_CHECK }).FuncId2MsgId
                FuncId.FUNC_SWITCH_EXTRUDER)
              [({ s with extruder_check_status_ :=
                  extruder_status_e.EXTRUDER_STATUS_CHECK }).target_extruder_])
          else some { s with extruder_check_status_ := extruder_status_e.EXTRUDER_STATUS_CHECK })
        = o.map (switch_done E) := by
    intro o
    cases o with
    | none => rfl
    | some x =>
      simp only [Option.map, switch_done]
      split_ifs <;> rfl
  exact h _

/-- The selection of the driver lines touches nothing but the two lines, and
the lines it leaves depend on the selected extruder only when it is one of
the two hotends. -/
theorem ActiveExtruder_outside (E : Env) (s : DualExtruder) (t : Nat) :
    { ActiveExtruder E s t with extruder_cs_0_ := 0, extruder_cs_1_ := 0 }
      = { s with extruder_cs_0_ := 0, extruder_cs_1_ := 0 } := by
  unfold ActiveExtruder
  split_ifs <;> rfl

/-- The first three statements of the switch: what they set and what they keep. -/
theorem switch_selected_fields (E : Env) (s : DualExtruder) (t : Nat) :
    (switch_selected E s t).target_extruder_ = t ∧
    (switch_selected E s t).extruder_check_status_ = extruder_status_e.EXTRUDER_STATUS_IDLE ∧
    (switch_selected E s t).current_position_ = s.current_position_ ∧
    (switch_selected E s t).motor_state_ = s.motor_state_ ∧
    (switch_selected E s t).stepps_count_ = s.stepps_count_ ∧
    (switch_selected E s t).step_pin_state_ = s.step_pin_state_ ∧
    (switch_selected E s t).end_stop_enable_ = s.end_stop_enable_ ∧
    (switch_selected E s t).z_motor_step_ = s.z_motor_step_ ∧
    (switch_selected E s t).can_tx = s.can_tx ∧
    (switch_selected E s t).FuncId2MsgId = s.FuncId2MsgId ∧
    (switch_selected E s t).hw_log = s.hw_log ∧
    (switch_selected E s t).extruder_cs_0_ = (ActiveExtruder E s t).extruder_cs_0_ ∧
    (switch_selected E s t).extruder_cs_1_ = (ActiveExtruder E s t).extruder_cs_1_ := by
  by_cases h0 : t = E.TOOLHEAD_3DP_EXTRUDER0
  · subst h0
    simp [switch_selected, ActiveExtruder]
  · by_cases h1 : t = E.TOOLHEAD_3DP_EXTRUDER1
    · subst h1
      simp [switch_selected, ActiveExtruder, h0]
    · simp [switch_selected, ActiveExtruder, h0, h1]

/-- The last two statements of the switch: identity checking is resumed and,
with a reply route, the target is echoed; nothing else changes. -/
theorem switch_done_fields (E : Env) (y : DualExtruder) :
    (switch_done E y).extruder_check_status_ = extruder_status_e.EXTRUDER_STATUS_CHECK ∧
    (switch_done E y).can_tx =
      (if y.FuncId2MsgId FuncId.FUNC_SWITCH_EXTRUDER ≠ E.INVALID_VALUE then
        y.can_tx ++ [{ msgid := y.FuncId2MsgId FuncId.FUNC_SWITCH_EXTRUDER,
                       data := [y.target_extruder_] }]
      else y.can_tx) ∧
    (switch_done E y).motor_state_ = y.motor_state_ ∧
    (switch_done E y).target_extruder_ = y.target_extruder_ ∧
    (switch_done E y).current_position_ = y.current_position_ ∧
    (switch_done E y).FuncId2MsgId = y.FuncId2MsgId ∧
    (switch_done E y).end_stop_enable_ = y.end_stop_enable_ ∧
    (switch_done E y).extruder_cs_0_ = y.extruder_cs_0_ ∧
    (switch_done E y).extruder_cs_1_ = y.extruder_cs_1_ ∧
    (switch_done E y).stepps_count_ = y.stepps_count_ ∧
    (switch_done E y).stepps_sum_ = y.stepps_sum_ ∧
    (switch_done E y).step_pin_state_ = y.step_pin_state_ ∧
    (switch_done E y).z_motor_step_ = y.z_motor_step_ ∧
    (switch_done E y).stepper_timer = y.stepper_timer ∧
    (switch_done E y).hw_log = y.hw_log := by
  unfold switch_done
  by_cases h : y.FuncId2MsgId FuncId.FUNC_SWITCH_EXTRUDER ≠ E.INVALID_VALUE
  · simp [h, PushSendStandardData]
  · simp [h]

theorem sample_sqrt_zero : sample_sqrt 0 = 0 := by
  unfold sample_sqrt
  norm_num

/-- C25: after a poll of `ExtruderStatusCheck` in `CHECK` state, whatever the
state before and the two readings, `extruder_status_` is true exactly when
`active_extruder_` equals `target_extruder_`, `need_to_report_extruder_info_`
is false, and the poll has sent either nothing or one identity report whose
first byte is 0 exactly when the flag is true and whose second byte is the
detected extruder. -/
theorem C25_flags_after_a_poll (E : Env) (s : DualExtruder) (left right : Nat)
    (hcheck : s.extruder_check_status_ = extruder_status_e.EXTRUDER_STATUS_CHECK) :
    ((ExtruderStatusCheck E s left right).extruder_status_ = true ↔
      (ExtruderStatusCheck E s left right).active_extruder_
        = (ExtruderStatusCheck E s left right).target_extruder_) ∧
    (ExtruderStatusCheck E s left right).need_to_report_extruder_info_ = false ∧
    (ExtruderStatusCheck E s left right).active_extruder_ = detected_extruder E left right ∧
    ((ExtruderStatusCheck E s left right).can_tx = s.can_tx ∨
      (ExtruderStatusCheck E s left right).can_tx =
        s.can_tx ++ [{ msgid := (s.FuncId2MsgId FuncId.FUNC_REPORT_EXTRUDER_INFO : Int),
                       data := [if (ExtruderStatusCheck E s left right).extruder_status_ = true
                                  then 0 else 1,
                                detected_extruder E left right] }]) := by
  unfold ExtruderStatusCheck
  rw [hcheck]
  by_cases hm : detected_extruder E left right = s.target_extruder_ <;>
    cases hst : s.extruder_status_ <;>
    cases hneed : s.need_to_report_extruder_info_ <;>
    by_cases hroute : s.FuncId2MsgId FuncId.FUNC_REPORT_EXTRUDER_INFO = E.INVALID_VALUE <;>
    simp [hm, hst, hneed, hroute, ReportExtruderInfo, PushSendStandardData]

theorem C25_flags_after_a_poll_witness :
    sample_state.extruder_check_status_ = extruder_status_e.EXTRUDER_STATUS_CHECK ∧
    (ExtruderStatusCheck sample_env sample_state 1 0).extruder_status_ = true ∧
    (ExtruderStatusCheck sample_env sample_state 1 0).need_to_report_extruder_info_ = false ∧
    (ExtruderStatusCheck sample_env sample_state 1 0).can_tx
      = [{ msgid := 1, data := [0, 0] }] := by
  have h := C25_flags_after_a_poll sample_env sample_state 1 0 (by decide)
  refine ⟨by decide, h.1.2 (h.2.2.1.trans (by decide)), h.2.1, ?_⟩
  decide

/-! ## Homing -/

/-- What `DoBlockingMoveToZ` never writes, armed or not. -/
theorem DoBlockingMoveToZ_keeps (E : Env) (s : DualExtruder) (d speed : ℚ) :
    (DoBlockingMoveToZ E s d speed).extruder_check_status_ = s.extruder_check_status_ ∧
    (DoBlockingMoveToZ E s d speed).end_stop_enable_ = s.end_stop_enable_ ∧
    (DoBlockingMoveToZ E s d speed).homed_state_ = s.homed_state_ ∧
    (DoBlockingMoveToZ E s d speed).target_extruder_ = s.target_extruder_ ∧
    (DoBlockingMoveToZ E s d speed).active_extruder_ = s.active_extruder_ := by
  by_cases hm : s.motor_state_ = 0
  · simp only [DoBlockingMoveToZ, hm, length_magnitude, StepperTimerStart]
    by_cases hd : d < 0 <;> simp [hd, z_motor_dir_Out]
  · simp [DoBlockingMoveToZ, hm]

/-- What the executor never writes, beyond the members that the switch reads
back. -/
theorem runStepper_keeps (endstop : Nat → Nat) (n : Nat) (s : DualExtruder) :
    (runStepper endstop n s).extruder_check_status_ = s.extruder_check_status_ ∧
    (runStepper endstop n s).end_stop_enable_ = s.end_stop_enable_ ∧
    (runStepper endstop n s).homed_state_ = s.homed_state_ ∧
    (runStepper endstop n s).target_extruder_ = s.target_extruder_ ∧
    (runStepper endstop n s).active_extruder_ = s.active_extruder_ := by
  have h := runStepper_outside endstop n s
  have g1 : (outside_executor (runStepper endstop n s)).extruder_check_status_
      = (outside_executor s).extruder_check_status_ := by rw [h]
  have g2 : (outside_executor (runStepper endstop n s)).end_stop_enable_
      = (outside_executor s).end_stop_enable_ := by rw [h]
  have g3 : (outside_executor (runStepper endstop n s)).homed_state_
      = (outside_executor s).homed_state_ := by rw [h]
  have g4 : (outside_executor (runStepper endstop n s)).target_extruder_
      = (outside_executor s).target_extruder_ := by rw [h]
  have g5 : (outside_executor (runStepper endstop n s)).active_extruder_
      = (outside_executor s).active_extruder_ := by rw [h]
  exact ⟨g1, g2, g3, g4, g5⟩

/-- A wait that returns after an arming request made with the motor idle and
identity checking suspended is a move of the homing sequence. -/
theorem homing_move_of_wait (E : Env) (fuel : Nat) (r : Nat → Nat) (prev next : DualExtruder)
    (d v : ℚ) (hidle : prev.motor_state_ = 0)
    (hchk : prev.extruder_check_status_ = extruder_status_e.EXTRUDER_STATUS_IDLE)
    (h : MoveSync fuel r (DoBlockingMoveToZ E prev d v) = some next) :
    HomingMove E fuel r prev d v next := by
  obtain ⟨kchk, ken, _, _, _⟩ := DoBlockingMoveToZ_keeps E prev d v
  obtain ⟨n, _, hn, hoff, _⟩ := MoveSync_some fuel r _ next h
  obtain ⟨rchk, ren, _, _, _⟩ := runStepper_keeps r n (DoBlockingMoveToZ E prev d v)
  refine ⟨hidle, hchk, (DoBlockingMoveToZ_motion_fields E prev d v hidle).1,
    DoBlockingMoveToZ_stepps_sum E prev d v hidle, DoBlockingMoveToZ_direction E prev d v hidle,
    ken, ?_, h, hoff, ?_, ?_⟩
  · intro m
    rw [(runStepper_keeps r m _).1, kchk, hchk]
  · rw [hn, rchk, kchk, hchk]
  · rw [hn, ren, ken]

theorem switch_selected_keeps (E : Env) (s : DualExtruder) (t : Nat) :
    (switch_selected E s t).homed_state_ = s.homed_state_ ∧
    (switch_selected E s t).active_extruder_ = s.active_extruder_ := by
  by_cases h0 : t = E.TOOLHEAD_3DP_EXTRUDER0
  · subst h0
    simp [switch_selected, ActiveExtruder]
  · by_cases h1 : t = E.TOOLHEAD_3DP_EXTRUDER1
    · subst h1
      simp [switch_selected, ActiveExtruder, h0]
    · simp [switch_selected, ActiveExtruder, h0, h1]

/-- The state that the switch hands to its wait, for any target value. -/
theorem switch_armed_keeps (E : Env) (s : DualExtruder) (t : Nat) :
    (switch_armed E s t).target_extruder_ = t ∧
    (switch_armed E s t).homed_state_ = s.homed_state_ ∧
    (switch_armed E s t).end_stop_enable_ = s.end_stop_enable_ := by
  obtain ⟨ftar, _, _, _, _, _, fen, _⟩ := switch_selected_fields E s t
  obtain ⟨fhom, _⟩ := switch_selected_keeps E s t
  unfold switch_armed
  simp only [ftar]
  split_ifs
  · rw [PrepareMoveToDestination_eq]
    obtain ⟨_, ken, khom, ktar, _⟩ := DoBlockingMoveToZ_keeps E (switch_selected E s t)
      (max 0 (min Z_MAX_POS 5) - (switch_selected E s t).current_position_) 9
    exact ⟨ktar.trans ftar, khom.trans fhom, ken.trans fen⟩
  · rw [PrepareMoveToDestination_eq]
    obtain ⟨_, ken, khom, ktar, _⟩ := DoBlockingMoveToZ_keeps E (switch_selected E s t)
      (max 0 (min 0 5) - (switch_selected E s t).current_position_) 9
    exact ⟨ktar.trans ftar, khom.trans fhom, ken.trans fen⟩
  · exact ⟨ftar, fhom, fen⟩

theorem switch_done_homed (E : Env) (y : DualExtruder) :
    (switch_done E y).homed_state_ = y.homed_state_ := by
  unfold switch_done
  by_cases h : y.FuncId2MsgId FuncId.FUNC_SWITCH_EXTRUDER ≠ E.INVALID_VALUE
  · simp [h, PushSendStandardData]
  · simp [h]

/-- A switch that returns, whatever its target value: identity checking is on,
the motor is idle, the target is stored, and neither the homed flag nor the
endstop setting has changed. -/
theorem switch_result_any_target (E : Env) (fuel : Nat) (r : Nat → Nat) (s s1 : DualExtruder)
    (t : Nat) (h : ExtruderSwitcingWithMotor E fuel r s [t] = some s1) :
    s1.extruder_check_status_ = extruder_status_e.EXTRUDER_STATUS_CHECK ∧
    s1.motor_state_ = 0 ∧ s1.target_extruder_ = t ∧ s1.homed_state_ = s.homed_state_ ∧
    s1.end_stop_enable_ = s.end_stop_enable_ := by
  rw [ExtruderSwitcingWithMotor_eq] at h
  have hget : ([t] : List Nat).getD 0 0 = t := rfl
  rw [hget, Option.map_eq_some'] at h
  obtain ⟨y, hy, hs1⟩ := h
  obtain ⟨n, _, hn, hoff, _⟩ := MoveSync_some fuel r _ y hy
  obtain ⟨_, ren, rhom, rtar, _⟩ := runStepper_keeps r n (switch_armed E s t)
  obtain ⟨atar, ahom, aen⟩ := switch_armed_keeps E s t
  obtain ⟨dchk, _, dm, dtar, _, _, den, _⟩ := switch_done_fields E y
  have dhom := switch_done_homed E y
  rw [hs1] at dchk dm dtar den dhom
  rw [hn] at dtar den dhom
  exact ⟨dchk, dm.trans hoff, dtar.trans (rtar.trans atar), dhom.trans (rhom.trans ahom),
    den.trans (ren.trans aen)⟩

/-- C22: a homing `GoHome` started with the motor idle, every wait of which
returns, is this sequence. Identity checking is suspended first. If the endstop
reads triggered at entry the move (-2, 9) is armed under the endstop setting of
entry and waited for. Then the moves (9, 9) with the endstop stop enabled,
(-1, 9) with it disabled, (3/2, 1) with it enabled and (-2, 6) with it disabled
are armed and waited for, in this order; each request finds the motor idle, so
none is dropped, and identity checking is `IDLE` at every invocation of the
executor. After the last wait `homed_state_` is 1, `current_position_` is 0,
`end_stop_enable_` is false and identity checking is resumed; the state is handed
to a switch to the value of `active_extruder_`, which ends with identity checking
in `CHECK`, the motor idle and that value as target. -/
theorem C22_homing_sequence (E : Env) (s s1 : DualExtruder) (fuel at_entry : Nat)
    (reads : Nat → Nat → Nat) (hidle : s.motor_state_ = 0)
    (hret : GoHome E fuel at_entry reads s = some s1) :
    ∃ a b c d e : DualExtruder,
      (at_entry = 0 →
        a = { s with extruder_check_status_ := extruder_status_e.EXTRUDER_STATUS_IDLE }) ∧
      (at_entry ≠ 0 →
        HomingMove E fuel (reads 0)
          { s with extruder_check_status_ := extruder_status_e.EXTRUDER_STATUS_IDLE }
          (-2) 9 a) ∧
      HomingMove E fuel (reads 1) { a with end_stop_enable_ := true } 9 9 b ∧
      HomingMove E fuel (reads 2) { b with end_stop_enable_ := false } (-1) 9 c ∧
      HomingMove E fuel (reads 3) { c with end_stop_enable_ := true } (3 / 2) 1 d ∧
      HomingMove E fuel (reads 4) { d with end_stop_enable_ := false } (-2) 6 e ∧
      e.end_stop_enable_ = false ∧
      ExtruderSwitcingWithMotor E fuel (reads 5)
        { e with homed_state_ := 1, current_position_ := 0,
                 extruder_check_status_ := extruder_status_e.EXTRUDER_STATUS_CHECK }
        [e.active_extruder_] = some s1 ∧
      s1.extruder_check_status_ = extruder_status_e.EXTRUDER_STATUS_CHECK ∧
      s1.motor_state_ = 0 ∧ s1.target_extruder_ = e.active_extruder_ ∧
      s1.homed_state_ = 1 ∧ s1.end_stop_enable_ = false := by
  unfold GoHome at hret
  obtain ⟨a, ha, hret⟩ := Option.bind_eq_some.mp hret
  obtain ⟨b, hb, hret⟩ := Option.bind_eq_some.mp hret
  obtain ⟨c, hc, hret⟩ := Option.bind_eq_some.mp hret
  obtain ⟨d, hd, hret⟩ := Option.bind_eq_some.mp hret
  obtain ⟨e, he, hret⟩ := Option.bind_eq_some.mp hret
  -- the state after the optional retreat
  have hA : a.motor_state_ = 0 ∧
      a.extruder_check_status_ = extruder_status_e.EXTRUDER_STATUS_IDLE ∧
      (at_entry = 0 →
        a = { s with extruder_check_status_ := extruder_status_e.EXTRUDER_STATUS_IDLE }) ∧
      (at_entry ≠ 0 →
        HomingMove E fuel (reads 0)
          { s with extruder_check_status_ := extruder_status_e.EXTRUDER_STATUS_IDLE }
          (-2) 9 a) := by
    by_cases h0 : at_entry = 0
    · have h0n : ¬ at_entry ≠ 0 := fun h => h h0
      rw [if_neg h0n] at ha
      have hs : { s with extruder_check_status_ := extruder_status_e.EXTRUDER_STATUS_IDLE } = a :=
        Option.some.inj ha
      rw [← hs]
      exact ⟨hidle, rfl, fun _ => rfl, fun h => absurd h0 h⟩
    · rw [if_pos h0] at ha
      have hm := homing_move_of_wait E fuel (reads 0)
        { s with extruder_check_status_ := extruder_status_e.EXTRUDER_STATUS_IDLE } a (-2) 9
        hidle rfl ha
      exact ⟨hm.2.2.2.2.2.2.2.2.1, hm.2.2.2.2.2.2.2.2.2.1, fun h => absurd h h0, fun _ => hm⟩
  obtain ⟨am, achk, ha0, ha1⟩ := hA
  have hB := homing_move_of_wait E fuel (reads 1) { a with end_stop_enable_ := true } b 9 9
    am achk hb
  have hC := homing_move_of_wait E fuel (reads 2) { b with end_stop_enable_ := false } c (-1) 9
    hB.2.2.2.2.2.2.2.2.1 hB.2.2.2.2.2.2.2.2.2.1 hc
  have hD := homing_move_of_wait E fuel (reads 3) { c with end_stop_enable_ := true } d (3 / 2) 1
    hC.2.2.2.2.2.2.2.2.1 hC.2.2.2.2.2.2.2.2.2.1 hd
  have hE := homing_move_of_wait E fuel (reads 4) { d with end_stop_enable_ := false } e (-2) 6
    hD.2.2.2.2.2.2.2.2.1 hD.2.2.2.2.2.2.2.2.2.1 he
  have een : e.end_stop_enable_ = false := hE.2.2.2.2.2.2.2.2.2.2
  obtain ⟨rchk, rm, rtar, rhom, ren⟩ := switch_result_any_target E fuel (reads 5) _ s1
    e.active_extruder_ hret
  exact ⟨a, b, c, d, e, ha0, ha1, hB, hC, hD, hE, een, hret, rchk, rm, rtar, rhom,
    ren.trans een⟩

/-! ## Waits that return -/

/-- A wait that returns after the motor was on has seen the executor stop it:
the pulse counter is cleared. -/
theorem MoveSync_clean (fuel : Nat) (r : Nat → Nat) (a y : DualExtruder)
    (hon : a.motor_state_ ≠ 0) (h : MoveSync fuel r a = some y) :
    y.motor_state_ = 0 ∧ y.stepps_count_ = 0 ∧
    y.active_extruder_ = a.active_extruder_ ∧
    y.extruder_check_status_ = a.extruder_check_status_ := by
  obtain ⟨n, _, hn, hoff, hrun⟩ := MoveSync_some fuel r a y h
  obtain ⟨rchk, _, _, _, ract⟩ := runStepper_keeps r n a
  refine ⟨hoff, ?_, by rw [hn, ract], by rw [hn, rchk]⟩
  cases n with
  | zero =>
    have h1 : y.motor_state_ = a.motor_state_ := by rw [hn]; rfl
    rw [hoff] at h1
    exact absurd h1.symm hon
  | succ m =>
    have hstep : y = Stepper (runStepper r m a) (r m) := hn
    rw [hstep] at hoff ⊢
    exact (Stepper_stops_clean _ _ (hrun m (Nat.lt_succ_self m)) hoff).1

/-- Enough invocations give the result, endstop stop enabled: when the endstop
reads triggered at the first invocation, the wait returns after it. -/
theorem wait_returns_on_trigger (fuel : Nat) (r : Nat → Nat) (a : DualExtruder)
    (hon : a.motor_state_ ≠ 0) (hen : a.end_stop_enable_ = true) (hr : r 0 ≠ 0)
    (hfuel : 1 ≤ fuel) :
    MoveSync fuel r a = some (runStepper r 1 a) := by
  apply MoveSync_of_run fuel r a 1 hfuel
  · intro k hk
    have hk0 : k = 0 := by omega
    subst hk0
    exact hon
  · show (Stepper a (r 0)).motor_state_ = 0
    simp [Stepper, hen, hr, z_motor_step_Out, StepperTimerStop]

/-- Enough invocations give the result, endstop stop disabled: a move of `T`
pulses (at least one) on any table whose last threshold is `T`, started with the
pulse counter at 0 and the phase variable at any value, is over after `2 * T`
or `2 * T + 1` invocations, so a wait that allows `2 * T + 1` returns. -/
theorem wait_returns_without_endstop (B : SpeedCtrlBuffer) (T p fuel : Nat) (r : Nat → Nat)
    (a : DualExtruder) (hlast : (B 19).pulse_count = T) (hT : T ≤ UINT32_MAX) (hT1 : 1 ≤ T)
    (ha : Executing B T 0 p a) (hfuel : 2 * T + 1 ≤ fuel) :
    ∃ y, MoveSync fuel r a = some y := by
  by_cases hp : p = 0
  · subst hp
    obtain ⟨hon, hoff, _, _⟩ := runStepper_any_table B T hlast hT hT1 r a ha
    exact ⟨_, MoveSync_of_run fuel r a (2 * T) (by omega) hon hoff⟩
  · obtain ⟨hfall, _⟩ := Stepper_any_fall B T 0 p hlast (by omega) hp a (r 0) ha
    obtain ⟨hon, hoff, _, _⟩ := runStepper_any_table B T hlast hT hT1 (fun i => r (i + 1))
      (Stepper a (r 0)) hfall
    refine ⟨_, MoveSync_of_run fuel r a (2 * T + 1) hfuel ?_ ?_⟩
    · intro k hk
      cases k with
      | zero => exact ha.2.2.2.2.1
      | succ j =>
        rw [runStepper_shift]
        exact hon j (by omega)
    · rw [runStepper_shift]
      exact hoff

/-- A homing move under the enabled endstop stop returns at once when the
endstop reads triggered at the first invocation. -/
theorem stage_returns_on_trigger (E : Env) (fuel : Nat) (r : Nat → Nat) (prev : DualExtruder)
    (d v : ℚ) (hidle : prev.motor_state_ = 0) (hen : prev.end_stop_enable_ = true)
    (hr : r 0 ≠ 0) (hfuel : 1 ≤ fuel) :
    ∃ y, MoveSync fuel r (DoBlockingMoveToZ E prev d v) = some y ∧ y.motor_state_ = 0 ∧
      y.stepps_count_ = 0 ∧ y.active_extruder_ = prev.active_extruder_ := by
  obtain ⟨gm, _, _, _, ge⟩ := DoBlockingMoveToZ_motion_fields E prev d v hidle
  obtain ⟨_, _, _, _, kact⟩ := DoBlockingMoveToZ_keeps E prev d v
  have hon : (DoBlockingMoveToZ E prev d v).motor_state_ ≠ 0 := by
    rw [gm]
    decide
  have h := wait_returns_on_trigger fuel r _ hon (ge.trans hen) hr hfuel
  obtain ⟨cm, cc, ca, _⟩ := MoveSync_clean fuel r _ _ hon h
  exact ⟨_, h, cm, cc, ca.trans kact⟩

/-- A homing move under the disabled endstop stop returns when its wait allows
twice its pulse count plus one invocations. -/
theorem stage_returns_without_endstop (E : Env) (fuel : Nat) (r : Nat → Nat)
    (prev : DualExtruder) (d v : ℚ) (hidle : prev.motor_state_ = 0)
    (hen : prev.end_stop_enable_ = false) (hcount : prev.stepps_count_ = 0)
    (hT1 : 1 ≤ stepps_sum_of |d|) (hfuel : 2 * stepps_sum_of |d| + 1 ≤ fuel) :
    ∃ y, MoveSync fuel r (DoBlockingMoveToZ E prev d v) = some y ∧ y.motor_state_ = 0 ∧
      y.stepps_count_ = 0 ∧ y.active_extruder_ = prev.active_extruder_ := by
  obtain ⟨gm, _, gc, _, ge⟩ := DoBlockingMoveToZ_motion_fields E prev d v hidle
  obtain ⟨_, _, _, _, kact⟩ := DoBlockingMoveToZ_keeps E prev d v
  have hon : (DoBlockingMoveToZ E prev d v).motor_state_ ≠ 0 := by
    rw [gm]
    decide
  have hexec : Executing (DoBlockingMoveToZ E prev d v).speed_ctrl_buffer_ (stepps_sum_of |d|) 0
      (DoBlockingMoveToZ E prev d v).step_pin_state_ (DoBlockingMoveToZ E prev d v) :=
    ⟨rfl, DoBlockingMoveToZ_stepps_sum E prev d v hidle, gc.trans hcount, rfl, hon,
      ge.trans hen⟩
  obtain ⟨y, h⟩ := wait_returns_without_endstop _ _ _ fuel r _
    (DoBlockingMoveToZ_last_pulse E prev d v hidle) (f2u32_le_max _) hT1 hexec hfuel
  obtain ⟨cm, cc, ca, _⟩ := MoveSync_clean fuel r _ _ hon h
  exact ⟨y, h, cm, cc, ca.trans kact⟩

/-- A switch to a value that is neither 0 nor 1 arms no move: with the motor
idle it returns without waiting. -/
theorem switch_returns_no_move (E : Env) (fuel : Nat) (r : Nat → Nat) (s : DualExtruder)
    (t : Nat) (ht0 : t ≠ 0) (ht1 : t ≠ 1) (hidle : s.motor_state_ = 0) :
    ∃ s1, ExtruderSwitcingWithMotor E fuel r s [t] = some s1 := by
  obtain ⟨ftar, _, _, fmot, _⟩ := switch_selected_fields E s t
  have harm : switch_armed E s t = switch_selected E s t := by
    unfold switch_armed
    simp only [ftar, ht0, ht1, if_false]
  have hget : ([t] : List Nat).getD 0 0 = t := rfl
  refine ⟨switch_done E (switch_selected E s t), ?_⟩
  rw [ExtruderSwitcingWithMotor_eq, hget, harm, MoveSync_idle fuel r _ (fmot.trans hidle)]
  rfl

theorem stepps_sum_of_homing :
    stepps_sum_of |(-2 : ℚ)| = 3200 ∧ stepps_sum_of |(-1 : ℚ)| = 1600 := by
  constructor
  · have h : |(-2 : ℚ)| = 2 := by norm_num
    rw [h]
    norm_num [stepps_sum_of, f2u32, Z_AXIS_STEPS_PER_UNIT, UINT32_MAX]
    rfl
  · have h : |(-1 : ℚ)| = 1 := by norm_num
    rw [h]
    norm_num [stepps_sum_of, f2u32, Z_AXIS_STEPS_PER_UNIT, UINT32_MAX]
    rfl

/-- Enough invocations give the result: a homing started with the motor idle,
the pulse counter at 0 and the endstop stop disabled, during which the endstop
reads triggered at the first invocation of each of the two approaches, and
after which no hotend is detected as active, returns when each wait allows
6401 invocations. -/
theorem GoHome_returns (E : Env) (s : DualExtruder) (fuel at_entry : Nat)
    (reads : Nat → Nat → Nat) (hidle : s.motor_state_ = 0) (hcount : s.stepps_count_ = 0)
    (hen : s.end_stop_enable_ = false) (h1 : reads 1 0 ≠ 0) (h3 : reads 3 0 ≠ 0)
    (hact0 : s.active_extruder_ ≠ 0) (hact1 : s.active_extruder_ ≠ 1) (hfuel : 6401 ≤ fuel) :
    ∃ s1, GoHome E fuel at_entry reads s = some s1 := by
  obtain ⟨sum2, sum1⟩ := stepps_sum_of_homing
  -- the optional retreat
  have hA : ∃ a, (if at_entry ≠ 0 then
        MoveSync fuel (reads 0) (DoBlockingMoveToZ E
          { s with extruder_check_status_ := extruder_status_e.EXTRUDER_STATUS_IDLE } (-2) 9)
        else some { s with extruder_check_status_ := extruder_status_e.EXTRUDER_STATUS_IDLE })
        = some a ∧ a.motor_state_ = 0 ∧ a.stepps_count_ = 0 ∧
        a.active_extruder_ = s.active_extruder_ := by
    by_cases h0 : at_entry ≠ 0
    · rw [if_pos h0]
      exact stage_returns_without_endstop E fuel (reads 0)
        { s with extruder_check_status_ := extruder_status_e.EXTRUDER_STATUS_IDLE } (-2) 9
        hidle hen hcount (by rw [sum2]; norm_num) (by rw [sum2]; omega)
    · rw [if_neg h0]
      exact ⟨_, rfl, hidle, hcount, rfl⟩
  obtain ⟨a, ha, am, ac, aa⟩ := hA
  obtain ⟨b, hb, bm, bc, ba⟩ := stage_returns_on_trigger E fuel (reads 1)
    { a with end_stop_enable_ := true } 9 9 am rfl h1 (by omega)
  obtain ⟨c, hc, cm, cc, ca⟩ := stage_returns_without_endstop E fuel (reads 2)
    { b with end_stop_enable_ := false } (-1) 9 bm rfl bc (by rw [sum1]; norm_num)
    (by rw [sum1]; omega)
  obtain ⟨d, hd, dm, dc, da⟩ := stage_returns_on_trigger E fuel (reads 3)
    { c with end_stop_enable_ := true } (3 / 2) 1 cm rfl h3 (by omega)
  obtain ⟨e, he, em, ec, ea⟩ := stage_returns_without_endstop E fuel (reads 4)
    { d with end_stop_enable_ := false } (-2) 6 dm rfl dc (by rw [sum2]; norm_num)
    (by rw [sum2]; omega)
  have hact : e.active_extruder_ = s.active_extruder_ :=
    ea.trans (da.trans (ca.trans (ba.trans aa)))
  obtain ⟨s1, hs1⟩ := switch_returns_no_move E fuel (reads 5)
    { e with homed_state_ := 1, current_position_ := 0,
             extruder_check_status_ := extruder_status_e.EXTRUDER_STATUS_CHECK }
    e.active_extruder_ (by rw [hact]; exact hact0) (by rw [hact]; exact hact1) em
  refine ⟨s1, ?_⟩
  unfold GoHome
  exact Option.bind_eq_some.mpr ⟨a, ha, Option.bind_eq_some.mpr ⟨b, hb,
    Option.bind_eq_some.mpr ⟨c, hc, Option.bind_eq_some.mpr ⟨d, hd,
      Option.bind_eq_some.mpr ⟨e, he, hs1⟩⟩⟩⟩⟩

theorem C22_homing_sequence_witness :
    sample_state.motor_state_ = 0 ∧
    ∃ s1, GoHome sample_env 6401 1 (fun _ _ => 1) sample_state = some s1 ∧
      s1.extruder_check_status_ = extruder_status_e.EXTRUDER_STATUS_CHECK ∧
      s1.motor_state_ = 0 ∧ s1.homed_state_ = 1 ∧ s1.end_stop_enable_ = false := by
  obtain ⟨s1, hs1⟩ := GoHome_returns sample_env sample_state 6401 1 (fun _ _ => 1)
    (by decide) (by decide) (by decide) (by decide) (by decide) (by decide) (by decide)
    (le_refl 6401)
  obtain ⟨_, _, _, _, _, _, _, _, _, _, _, _, _, h1, h2, _, h3, h4⟩ :=
    C22_homing_sequence sample_env sample_state s1 6401 1 (fun _ _ => 1) (by decide) hs1
  exact ⟨by decide, s1, hs1, h1, h2, h3, h4⟩

/-! ## The planner in binary32: the two loops in closed form -/

namespace DualExtruder.InBinary32

theorem setPulseCount_timer (buf : SpeedCtrlBuffer) (i v j : Nat) :
    ((setPulseCount buf i v) j).timer_time = (buf j).timer_time := by
  unfold setPulseCount
  split
  · next h => rw [h]
  · rfl

theorem setTimerTime_timer (buf : SpeedCtrlBuffer) (i v j : Nat) :
    ((setTimerTime buf i v) j).timer_time = if j = i then v else (buf j).timer_time := by
  unfold setTimerTime
  split <;> rfl

theorem setTimerTime_pulse (buf : SpeedCtrlBuffer) (i v j : Nat) :
    ((setTimerTime buf i v) j).pulse_count = (buf j).pulse_count := by
  unfold setTimerTime
  split
  · next h => rw [h]
  · rfl

/-- After `n` rounds of the acceleration loop `acc_time` is `acc_time_at q n`. -/
theorem accel_loop_time_rounded (P : Platform) (q : ℚ) (buf : SpeedCtrlBuffer) (n : Nat) :
    (forLoop n (accel_body P q) (buf, q)).2 = acc_time_at q n := by
  induction n with
  | zero => simp [forLoop_zero, acc_time_at]
  | succ k ih =>
    rw [forLoop_succ]
    simp only [accel_body, ih, acc_time_at]

/-- Thresholds after `n` rounds of the acceleration loop. -/
theorem accel_loop_pulse_rounded (P : Platform) (q : ℚ) (buf : SpeedCtrlBuffer) (n i : Nat) :
    ((forLoop n (accel_body P q) (buf, q)).1 i).pulse_count =
      if i < n then f2u P (accel_value (acc_time_at q i)) else (buf i).pulse_count := by
  induction n with
  | zero => simp [forLoop_zero]
  | succ k ih =>
    rw [forLoop_succ]
    simp only [accel_body, accel_loop_time_rounded, setTimerTime_pulse, setPulseCount_pulse, accel_value]
    by_cases hik : i = k
    · subst hik
      simp
    · have h1 : (i < k + 1) = (i < k) := by
        apply propext
        omega
      simp only [hik, if_false, h1]
      exact ih

/-- Periods after `n` rounds of the acceleration loop. -/
theorem accel_loop_timer (P : Platform) (q : ℚ) (buf : SpeedCtrlBuffer) (n i : Nat) :
    ((forLoop n (accel_body P q) (buf, q)).1 i).timer_time =
      if i < n then period P (accel_divisor (acc_time_at q i)) else (buf i).timer_time := by
  induction n with
  | zero => simp [forLoop_zero]
  | succ k ih =>
    rw [forLoop_succ]
    simp only [accel_body, accel_loop_time_rounded, setTimerTime_timer, setPulseCount_timer,
      accel_divisor]
    by_cases hik : i = k
    · subst hik
      simp
    · have h1 : (i < k + 1) = (i < k) := by
        apply propext
        omega
      simp only [hik, if_false, h1]
      exact ih

theorem decel_loop_time_rounded (P : Platform) (v q : ℚ) (buf : SpeedCtrlBuffer) (n : Nat) :
    (forLoop n (decel_body P v q) (buf, q)).2 = acc_time_at q n := by
  induction n with
  | zero => simp [forLoop_zero, acc_time_at]
  | succ k ih =>
    rw [forLoop_succ]
    simp only [decel_body, ih, acc_time_at]

/-- Thresholds after `n` rounds of the deceleration loop. -/
theorem decel_loop_pulse_rounded (P : Platform) (v q : ℚ) (buf : SpeedCtrlBuffer) (n j : Nat) :
    ((forLoop n (decel_body P v q) (buf, q)).1 j).pulse_count =
      if 10 ≤ j ∧ j < 10 + n then
        f2u P (rnd (rnd ((buf 9).pulse_count : ℚ)
          + decel_increment v (acc_time_at q (j - 10))))
      else (buf j).pulse_count := by
  induction n generalizing j with
  | zero =>
    have h : ¬ (10 ≤ j ∧ j < 10 + 0) := by omega
    simp [forLoop_zero, h]
  | succ k ih =>
    rw [forLoop_succ]
    simp only [decel_body, decel_loop_time_rounded, setTimerTime_pulse, setPulseCount_pulse,
      decel_increment]
    by_cases hjk : j = 10 + k
    · subst hjk
      have h9 := ih 9
      have hn : ¬ (10 ≤ 9 ∧ 9 < 10 + k) := by omega
      rw [if_neg hn] at h9
      simp [h9]
    · have h1 : (10 ≤ j ∧ j < 10 + (k + 1)) = (10 ≤ j ∧ j < 10 + k) := by
        apply propext
        omega
      simp only [hjk, if_false, h1]
      exact ih j

/-- Periods after `n` rounds of the deceleration loop. -/
theorem decel_loop_timer (P : Platform) (v q : ℚ) (buf : SpeedCtrlBuffer) (n j : Nat) :
    ((forLoop n (decel_body P v q) (buf, q)).1 j).timer_time =
      if 10 ≤ j ∧ j < 10 + n then period P (decel_divisor v q (acc_time_at q (j - 10)))
      else (buf j).timer_time := by
  induction n generalizing j with
  | zero =>
    have h : ¬ (10 ≤ j ∧ j < 10 + 0) := by omega
    simp [forLoop_zero, h]
  | succ k ih =>
    rw [forLoop_succ]
    simp only [decel_body, decel_loop_time_rounded, setTimerTime_timer, setPulseCount_timer,
      decel_divisor]
    by_cases hjk : j = 10 + k
    · subst hjk
      simp
    · have h1 : (10 ≤ j ∧ j < 10 + (k + 1)) = (10 ≤ j ∧ j < 10 + k) := by
        apply propext
        omega
      simp only [hjk, if_false, h1]
      exact ih j

/-- Thresholds of the table built by the trapezoid branch. -/
theorem trapezoid_table_pulse_rounded (P : Platform) (buf : SpeedCtrlBuffer) (sum acc : Nat) (speed : ℚ)
    (j : Nat) :
    ((trapezoid_table P buf sum acc speed) j).pulse_count =
      if j = 19 then sum
      else if 10 ≤ j ∧ j < 20 then
        f2u P (rnd (rnd ((((sum + 4294967296 - acc) % 4294967296 : ℕ)) : ℚ)
          + decel_increment speed
              (acc_time_at (rnd (rnd (speed / ACCELERATION) / 10)) (j - 10))))
      else if j = 9 then (sum + 4294967296 - acc) % 4294967296
      else if j < 10 then
        f2u P (accel_value (acc_time_at (rnd (rnd (speed / ACCELERATION) / 10)) j))
      else (buf j).pulse_count := by
  simp only [trapezoid_table]
  rw [setPulseCount_pulse]
  by_cases h19 : j = 19
  · simp [h19]
  · simp only [h19, if_false]
    rw [decel_loop_pulse_rounded, setPulseCount_pulse, setPulseCount_pulse]
    by_cases hd : 10 ≤ j ∧ j < 10 + 10
    · have hd2 : 10 ≤ j ∧ j < 20 := by omega
      simp [hd, hd2]
    · have hd2 : ¬ (10 ≤ j ∧ j < 20) := by omega
      simp only [hd, hd2, if_false]
      rw [accel_loop_pulse_rounded]

/-- Thresholds of the table built by the triangular branch. -/
theorem triangle_table_pulse_rounded (E : Env) (P : Platform) (buf : SpeedCtrlBuffer) (sum : Nat)
    (length : ℚ) (j : Nat) :
    ((triangle_table E P buf sum length) j).pulse_count =
      if j = 19 then sum
      else if 10 ≤ j ∧ j < 20 then
        f2u P (rnd (rnd ((f2u P (accel_value (acc_time_at
              (rnd (rnd (E.sqrt (rnd (length / ACCELERATION))) / 10)) 9)) : ℕ) : ℚ)
          + decel_increment (rnd (ACCELERATION * rnd (E.sqrt (rnd (length / ACCELERATION)))))
              (acc_time_at (rnd (rnd (E.sqrt (rnd (length / ACCELERATION))) / 10)) (j - 10))))
      else if j < 10 then
        f2u P (accel_value (acc_time_at
          (rnd (rnd (E.sqrt (rnd (length / ACCELERATION))) / 10)) j))
      else (buf j).pulse_count := by
  simp only [triangle_table]
  rw [setPulseCount_pulse]
  by_cases h19 : j = 19
  · simp [h19]
  · simp only [h19, if_false]
    rw [decel_loop_pulse_rounded, accel_loop_pulse_rounded, accel_loop_pulse_rounded]
    by_cases hd : 10 ≤ j ∧ j < 10 + 10
    · have hd2 : 10 ≤ j ∧ j < 20 := by omega
      simp only [hd, hd2, if_true, and_self]
      norm_num
    · have hd2 : ¬ (10 ≤ j ∧ j < 20) := by omega
      simp only [hd, hd2, if_false]

/-- Periods of the table built by the trapezoid branch. -/
theorem trapezoid_table_timer (P : Platform) (buf : SpeedCtrlBuffer) (sum acc : Nat) (speed : ℚ)
    (j : Nat) :
    ((trapezoid_table P buf sum acc speed) j).timer_time =
      if 10 ≤ j ∧ j < 20 then
        period P (decel_divisor speed (rnd (rnd (speed / ACCELERATION) / 10))
          (acc_time_at (rnd (rnd (speed / ACCELERATION) / 10)) (j - 10)))
      else if j < 10 then
        period P (accel_divisor (acc_time_at (rnd (rnd (speed / ACCELERATION) / 10)) j))
      else (buf j).timer_time := by
  simp only [trapezoid_table]
  rw [setPulseCount_timer, decel_loop_timer, setPulseCount_timer, accel_loop_timer]

/-- Periods of the table built by the triangular branch. -/
theorem triangle_table_timer (E : Env) (P : Platform) (buf : SpeedCtrlBuffer) (sum : Nat)
    (length : ℚ) (j : Nat) :
    ((triangle_table E P buf sum length) j).timer_time =
      if 10 ≤ j ∧ j < 20 then
        period P (decel_divisor (rnd (ACCELERATION * rnd (E.sqrt (rnd (length / ACCELERATION)))))
          (rnd (rnd (E.sqrt (rnd (length / ACCELERATION))) / 10))
          (acc_time_at (rnd (rnd (E.sqrt (rnd (length / ACCELERATION))) / 10)) (j - 10)))
      else if j < 10 then
        period P (accel_divisor (acc_time_at
          (rnd (rnd (E.sqrt (rnd (length / ACCELERATION))) / 10)) j))
      else (buf j).timer_time := by
  simp only [triangle_table]
  rw [setPulseCount_timer, decel_loop_timer, accel_loop_timer]

/-! ## The planner in binary32: what is armed -/

theorem DoBlockingMoveToZ_fields (E : Env) (P : Platform) (s : DualExtruder) (d speed : ℚ)
    (hidle : s.motor_state_ = 0) :
    (DoBlockingMoveToZ E P s d speed).stepps_sum_ = stepps_sum_of P |d| ∧
    (DoBlockingMoveToZ E P s d speed).speed_ctrl_buffer_ =
      (if takes_trapezoid P |d| speed then
        trapezoid_table P s.speed_ctrl_buffer_ (stepps_sum_of P |d|) (acc_dec_stepps_of P speed)
          speed
      else triangle_table E P s.speed_ctrl_buffer_ (stepps_sum_of P |d|) |d|) ∧
    (DoBlockingMoveToZ E P s d speed).motor_state_ = 1 ∧
    (DoBlockingMoveToZ E P s d speed).stepper_timer
      = some (((DoBlockingMoveToZ E P s d speed).speed_ctrl_buffer_ 0).timer_time % 65536) := by
  simp only [DoBlockingMoveToZ, hidle, length_magnitude, StepperTimerStart]
  by_cases hd : d < 0 <;> simp [hd, z_motor_dir_Out]

theorem takes_trapezoid_iff_rounded (P : Platform) (length speed : ℚ) :
    takes_trapezoid P length speed = true ↔
      acc_dec_stepps_of P speed ≤ stepps_sum_of P length / 2 := by
  simp [takes_trapezoid]

/-- The thresholds of the table of an armed move, in both branches. -/
theorem DoBlockingMoveToZ_pulse (E : Env) (P : Platform) (s : DualExtruder) (d speed : ℚ)
    (hidle : s.motor_state_ = 0) :
    ((DoBlockingMoveToZ E P s d speed).speed_ctrl_buffer_ 19).pulse_count
      = stepps_sum_of P |d| ∧
    (∀ i, i < 9 → ((DoBlockingMoveToZ E P s d speed).speed_ctrl_buffer_ i).pulse_count
      = f2u P (accel_value (acc_time_at (quantum_of E P |d| speed) i))) ∧
    ((DoBlockingMoveToZ E P s d speed).speed_ctrl_buffer_ 9).pulse_count
      = (if takes_trapezoid P |d| speed then
          (stepps_sum_of P |d| + 4294967296 - acc_dec_stepps_of P speed) % 4294967296
        else f2u P (accel_value (acc_time_at (quantum_of E P |d| speed) 9))) ∧
    (∀ i, i < 9 → ((DoBlockingMoveToZ E P s d speed).speed_ctrl_buffer_ (10 + i)).pulse_count
      = f2u P (rnd (rnd
          ((((DoBlockingMoveToZ E P s d speed).speed_ctrl_buffer_ 9).pulse_count : ℕ) : ℚ)
          + decel_increment (velocity_of E P |d| speed)
              (acc_time_at (quantum_of E P |d| speed) i)))) := by
  obtain ⟨_, hbuf, _, _⟩ := DoBlockingMoveToZ_fields E P s d speed hidle
  rw [hbuf]
  by_cases hb : takes_trapezoid P |d| speed = true
  · simp only [hb, if_true, quantum_of, velocity_of]
    refine ⟨?_, ?_, ?_, ?_⟩
    · rw [trapezoid_table_pulse_rounded]
      norm_num
    · intro i hi
      rw [trapezoid_table_pulse_rounded]
      have h1 : ¬ i = 19 := by omega
      have h2 : ¬ (10 ≤ i ∧ i < 20) := by omega
      have h3 : ¬ i = 9 := by omega
      have h4 : i < 10 := by omega
      simp only [h1, h2, h3, h4, if_false, if_true]
    · rw [trapezoid_table_pulse_rounded]
      norm_num
    · intro i hi
      rw [trapezoid_table_pulse_rounded, trapezoid_table_pulse_rounded]
      have h1 : ¬ 10 + i = 19 := by omega
      have h2 : 10 ≤ 10 + i ∧ 10 + i < 20 := by omega
      have h3 : 10 + i - 10 = i := by omega
      simp only [h1, h2, h3, if_false, if_true, and_self]
      norm_num
  · have hb2 : takes_trapezoid P |d| speed = false := by simpa using hb
    simp only [hb2, Bool.false_eq_true, if_false, quantum_of, velocity_of]
    refine ⟨?_, ?_, ?_, ?_⟩
    · rw [triangle_table_pulse_rounded]
      norm_num
    · intro i hi
      rw [triangle_table_pulse_rounded]
      have h1 : ¬ i = 19 := by omega
      have h2 : ¬ (10 ≤ i ∧ i < 20) := by omega
      have h4 : i < 10 := by omega
      simp only [h1, h2, h4, if_false, if_true]
    · rw [triangle_table_pulse_rounded]
      norm_num
    · intro i hi
      rw [triangle_table_pulse_rounded, triangle_table_pulse_rounded]
      have h1 : ¬ 10 + i = 19 := by omega
      have h2 : 10 ≤ 10 + i ∧ 10 + i < 20 := by omega
      have h3 : 10 + i - 10 = i := by omega
      simp only [h1, h2, h3, if_false, if_true, and_self]
      norm_num

/-- The periods of the table of an armed move, in both branches. -/
theorem DoBlockingMoveToZ_timer (E : Env) (P : Platform) (s : DualExtruder) (d speed : ℚ)
    (hidle : s.motor_state_ = 0) (i : Nat) (hi : i < 10) :
    ((DoBlockingMoveToZ E P s d speed).speed_ctrl_buffer_ i).timer_time
      = period P (accel_divisor (acc_time_at (quantum_of E P |d| speed) i)) ∧
    ((DoBlockingMoveToZ E P s d speed).speed_ctrl_buffer_ (10 + i)).timer_time
      = period P (decel_divisor (velocity_of E P |d| speed) (quantum_of E P |d| speed)
          (acc_time_at (quantum_of E P |d| speed) i)) := by
  have h1 : ¬ (10 ≤ i ∧ i < 20) := by omega
  have h2 : 10 ≤ 10 + i ∧ 10 + i < 20 := by omega
  have h3 : 10 + i - 10 = i := by omega
  obtain ⟨_, hbuf, _, _⟩ := DoBlockingMoveToZ_fields E P s d speed hidle
  rw [hbuf]
  by_cases hb : takes_trapezoid P |d| speed = true
  · simp only [hb, if_true, quantum_of, velocity_of]
    rw [trapezoid_table_timer, trapezoid_table_timer]
    simp only [h1, h2, hi, h3, if_true, if_false, and_self]
  · have hb2 : takes_trapezoid P |d| speed = false := by simpa using hb
    simp only [hb2, Bool.false_eq_true, if_false, quantum_of, velocity_of]
    rw [triangle_table_timer, triangle_table_timer]
    simp only [h1, h2, hi, h3, if_true, if_false, and_self]

end DualExtruder.InBinary32

/-! ## The planner in binary32: conversions in range -/

namespace DualExtruder.InBinary32

theorem f2u_in_range (P : Platform) {x : ℚ} (h0 : 0 ≤ x) (h1 : x < 4294967296) :
    f2u P x = Int.toNat ⌊x⌋ := by
  have h : -1 < x ∧ x < 4294967296 := ⟨by linarith, h1⟩
  simp [f2u, h]

/-- A value in range is converted to the natural number just below it. -/
theorem f2u_eval (P : Platform) {x : ℚ} (n : Nat) (h1 : (n : ℚ) ≤ x) (h2 : x < n + 1)
    (h3 : x < 4294967296) : f2u P x = n := by
  have h0 : (0 : ℚ) ≤ x := le_trans (Nat.cast_nonneg n) h1
  rw [f2u_in_range P h0 h3]
  have hf : ⌊x⌋ = (n : ℤ) := by
    rw [Int.floor_eq_iff]
    exact ⟨by exact_mod_cast h1, by exact_mod_cast h2⟩
  rw [hf]
  rfl

theorem f2u_cast (P : Platform) {x : ℚ} (h0 : 0 ≤ x) (h1 : x < 4294967296) :
    ((f2u P x : ℕ) : ℤ) = ⌊x⌋ := by
  rw [f2u_in_range P h0 h1]
  exact Int.toNat_of_nonneg (Int.floor_nonneg.mpr h0)

theorem f2u_le (P : Platform) {x : ℚ} (h0 : 0 ≤ x) (h1 : x < 4294967296) :
    ((f2u P x : ℕ) : ℚ) ≤ x := by
  have h := f2u_cast P h0 h1
  have h2 : (((f2u P x : ℕ) : ℤ) : ℚ) = ((⌊x⌋ : ℤ) : ℚ) := by rw [h]
  have h3 : (((f2u P x : ℕ) : ℤ) : ℚ) = ((f2u P x : ℕ) : ℚ) := by norm_cast
  rw [← h3, h2]
  exact Int.floor_le x

theorem lt_f2u_succ (P : Platform) {x : ℚ} (h0 : 0 ≤ x) (h1 : x < 4294967296) :
    x < ((f2u P x : ℕ) : ℚ) + 1 := by
  have h := f2u_cast P h0 h1
  have h2 : (((f2u P x : ℕ) : ℤ) : ℚ) = ((⌊x⌋ : ℤ) : ℚ) := by rw [h]
  have h3 : (((f2u P x : ℕ) : ℤ) : ℚ) = ((f2u P x : ℕ) : ℚ) := by norm_cast
  rw [← h3, h2]
  exact Int.lt_floor_add_one x

theorem f2u_mono (P : Platform) {x y : ℚ} (h0 : 0 ≤ x) (h : x ≤ y) (h1 : y < 4294967296) :
    f2u P x ≤ f2u P y := by
  have hx := f2u_cast P h0 (lt_of_le_of_lt h h1)
  have hy := f2u_cast P (le_trans h0 h) h1
  have hf : ⌊x⌋ ≤ ⌊y⌋ := Int.floor_le_floor h
  omega

theorem f2u_lt (P : Platform) {x : ℚ} (h0 : 0 ≤ x) (h1 : x < 4294967296) :
    f2u P x < 4294967296 := by
  have h := f2u_le P h0 h1
  have h2 : ((f2u P x : ℕ) : ℚ) < ((4294967296 : ℕ) : ℚ) := by
    push_cast
    linarith
  exact_mod_cast h2

/-- Rounding does not exceed a number of the grid above the argument. -/
theorem rnd_le_grid {x g : ℚ} (hx : 0 ≤ x) (h : x ≤ g) (hg : rnd g = g) : rnd x ≤ g := by
  have := rnd_mono hx h
  rwa [hg] at this

/-- Rounding does not fall below a number of the grid below the argument. -/
theorem grid_le_rnd {x g : ℚ} (hg0 : 0 ≤ g) (h : g ≤ x) (hg : rnd g = g) : g ≤ rnd x := by
  have := rnd_mono hg0 h
  rwa [hg] at this

theorem rnd_two_pow_26 : rnd 67108864 = 67108864 := by
  rw [rnd_eval 26 (by norm_num [abs_of_pos]) (by norm_num [abs_of_pos])]
  norm_num [Binary32.roundEven]

theorem rnd_two_pow_20 : rnd 1048576 = 1048576 := by
  rw [rnd_eval 20 (by norm_num [abs_of_pos]) (by norm_num [abs_of_pos])]
  norm_num [Binary32.roundEven]

theorem rnd_two_pow_31 : rnd 2147483648 = 2147483648 := by
  rw [rnd_eval 31 (by norm_num [abs_of_pos]) (by norm_num [abs_of_pos])]
  norm_num [Binary32.roundEven]

theorem acc_dec_value_nonneg (speed : ℚ) : 0 ≤ acc_dec_value speed := by
  unfold acc_dec_value
  apply rnd_nonneg
  apply mul_nonneg _ (by norm_num [Z_AXIS_STEPS_PER_UNIT])
  apply rnd_nonneg
  apply div_nonneg _ (by norm_num [ACCELERATION])
  exact rnd_nonneg (mul_self_nonneg speed)

/-- For a speed of at most 8192 the value of line 327 is below `2 ^ 31`. -/
theorem acc_dec_value_le {speed : ℚ} (hv : |speed| ≤ 8192) :
    acc_dec_value speed ≤ 2147483648 := by
  unfold acc_dec_value
  have h0 : 0 ≤ speed * speed := mul_self_nonneg speed
  have h1 : speed * speed ≤ 67108864 := by
    have : speed * speed = |speed| * |speed| := (abs_mul_abs_self speed).symm
    rw [this]
    nlinarith [abs_nonneg speed]
  have r1 : rnd (speed * speed) ≤ 67108864 := rnd_le_grid h0 h1 rnd_two_pow_26
  have r1n : 0 ≤ rnd (speed * speed) := rnd_nonneg h0
  have h2n : 0 ≤ rnd (speed * speed) / (2 * ACCELERATION) :=
    div_nonneg r1n (by norm_num [ACCELERATION])
  have h2 : rnd (speed * speed) / (2 * ACCELERATION) ≤ 1048576 := by
    rw [div_le_iff₀ (by norm_num [ACCELERATION])]
    norm_num [ACCELERATION]
    linarith
  have r2 : rnd (rnd (speed * speed) / (2 * ACCELERATION)) ≤ 1048576 :=
    rnd_le_grid h2n h2 rnd_two_pow_20
  have r2n : 0 ≤ rnd (rnd (speed * speed) / (2 * ACCELERATION)) := rnd_nonneg h2n
  apply rnd_le_grid (mul_nonneg r2n (by norm_num [Z_AXIS_STEPS_PER_UNIT])) _ rnd_two_pow_31
  norm_num [Z_AXIS_STEPS_PER_UNIT]
  linarith

/-- For a distance of at most `2 ^ 20` the product of line 323 is at most `2 ^ 31`. -/
theorem steps_value_bounds {length : ℚ} (h0 : 0 ≤ length) (hd : length ≤ 1048576) :
    0 ≤ rnd (Z_AXIS_STEPS_PER_UNIT * length) ∧
    rnd (Z_AXIS_STEPS_PER_UNIT * length) ≤ 2147483648 := by
  have hp : 0 ≤ Z_AXIS_STEPS_PER_UNIT * length :=
    mul_nonneg (by norm_num [Z_AXIS_STEPS_PER_UNIT]) h0
  refine ⟨rnd_nonneg hp, rnd_le_grid hp ?_ rnd_two_pow_31⟩
  norm_num [Z_AXIS_STEPS_PER_UNIT]
  linarith

theorem stepps_sum_of_cast (P : Platform) {length : ℚ} (h0 : 0 ≤ length)
    (hd : length ≤ 1048576) :
    ((stepps_sum_of P length : ℕ) : ℤ) = ⌊rnd (Z_AXIS_STEPS_PER_UNIT * length) + 1 / 2⌋ := by
  obtain ⟨h1, h2⟩ := steps_value_bounds h0 hd
  unfold stepps_sum_of
  exact f2u_cast P (by linarith) (by linarith)

theorem acc_dec_stepps_of_cast (P : Platform) {speed : ℚ} (hv : |speed| ≤ 8192) :
    ((acc_dec_stepps_of P speed : ℕ) : ℤ) = ⌊acc_dec_value speed⌋ := by
  have h := f2u_cast P (acc_dec_value_nonneg speed)
    (lt_of_le_of_lt (acc_dec_value_le hv) (by norm_num))
  exact h

/-- The test of line 331 on the values before their conversion. -/
theorem takes_trapezoid_iff_floor (P : Platform) {length speed : ℚ} (h0 : 0 ≤ length)
    (hd : length ≤ 1048576) (hv : |speed| ≤ 8192) :
    takes_trapezoid P length speed = true ↔
      ⌊acc_dec_value speed⌋ ≤ ⌊rnd (Z_AXIS_STEPS_PER_UNIT * length) + 1 / 2⌋ / 2 := by
  rw [takes_trapezoid_iff_rounded, ← stepps_sum_of_cast P h0 hd, ← acc_dec_stepps_of_cast P hv]
  omega

end DualExtruder.InBinary32

/-! ## C8: which branch the planner takes -/

/-- C8 (as amended): for every distance of magnitude at most `2 ^ 20` and every
speed of magnitude at most 8192 (beyond which the conversions of lines 323 and
327 are undefined), `DoBlockingMoveToZ` compares integers. `stepps_sum_` is the
integer part of the binary32 product `1600 * |distance|` plus 0.5; the table is
the one of the trapezoid branch if and only if the integer part of the binary32
value of `((speed * speed) / (2 * 40)) * 1600` is at most `stepps_sum_ / 2` in
integer division, and the one of the triangular branch otherwise. In particular
the trapezoid branch is taken whenever the binary32 value, not truncated, is at
most half of `stepps_sum_`, equality included. -/
theorem C8_branch_compares_truncated_values (E : Env) (P : Binary32.Platform)
    (s : DualExtruder) (d speed : ℚ) (hidle : s.motor_state_ = 0)
    (hd : |d| ≤ 1048576) (hv : |speed| ≤ 8192) :
    (((InBinary32.DoBlockingMoveToZ E P s d speed).stepps_sum_ : ℕ) : ℤ)
      = ⌊Binary32.rnd (Z_AXIS_STEPS_PER_UNIT * |d|) + 1 / 2⌋ ∧
    (InBinary32.DoBlockingMoveToZ E P s d speed).speed_ctrl_buffer_ =
      (if ⌊InBinary32.acc_dec_value speed⌋
          ≤ (((InBinary32.DoBlockingMoveToZ E P s d speed).stepps_sum_ : ℕ) : ℤ) / 2 then
        InBinary32.trapezoid_table P s.speed_ctrl_buffer_
          (InBinary32.DoBlockingMoveToZ E P s d speed).stepps_sum_
          (Int.toNat ⌊InBinary32.acc_dec_value speed⌋) speed
      else
        InBinary32.triangle_table E P s.speed_ctrl_buffer_
          (InBinary32.DoBlockingMoveToZ E P s d speed).stepps_sum_ |d|) ∧
    (InBinary32.acc_dec_value speed
        ≤ (((InBinary32.DoBlockingMoveToZ E P s d speed).stepps_sum_ : ℕ) : ℚ) / 2 →
      (InBinary32.DoBlockingMoveToZ E P s d speed).speed_ctrl_buffer_ =
        InBinary32.trapezoid_table P s.speed_ctrl_buffer_
          (InBinary32.DoBlockingMoveToZ E P s d speed).stepps_sum_
          (Int.toNat ⌊InBinary32.acc_dec_value speed⌋) speed) := by
  obtain ⟨hsum, hbuf, _, _⟩ := InBinary32.DoBlockingMoveToZ_fields E P s d speed hidle
  have h0 : (0 : ℚ) ≤ |d| := abs_nonneg d
  have hcast := InBinary32.stepps_sum_of_cast P h0 hd
  have hacc := InBinary32.acc_dec_stepps_of_cast P hv
  have hacc2 : InBinary32.acc_dec_stepps_of P speed = Int.toNat ⌊InBinary32.acc_dec_value speed⌋ := by
    rw [← hacc]
    rfl
  have hiff := InBinary32.takes_trapezoid_iff_floor P h0 hd hv
  rw [← hcast] at hiff
  rw [hsum, hbuf, ← hacc2]
  refine ⟨hcast, ?_, ?_⟩
  · by_cases hb : InBinary32.takes_trapezoid P |d| speed = true
    · rw [if_pos hb, if_pos (hiff.mp hb)]
    · rw [if_neg hb, if_neg (fun h => hb (hiff.mpr h))]
  · intro hle
    have hfl : ⌊InBinary32.acc_dec_value speed⌋ ≤ ((InBinary32.stepps_sum_of P |d| : ℕ) : ℤ) / 2 := by
      have h1 : ((⌊InBinary32.acc_dec_value speed⌋ : ℤ) : ℚ) ≤ InBinary32.acc_dec_value speed := Int.floor_le _
      have h2 : ((⌊InBinary32.acc_dec_value speed⌋ : ℤ) : ℚ) * 2 ≤ ((InBinary32.stepps_sum_of P |d| : ℕ) : ℚ) := by
        linarith
      have h3 : ⌊InBinary32.acc_dec_value speed⌋ * 2 ≤ ((InBinary32.stepps_sum_of P |d| : ℕ) : ℤ) := by
        exact_mod_cast h2
      omega
    rw [if_pos (hiff.mpr hfl)]

theorem C8_branch_compares_truncated_values_witness :
    sample_state.motor_state_ = 0 ∧ |(5 : ℚ)| ≤ 1048576 ∧ |(9 : ℚ)| ≤ 8192 ∧
    (((InBinary32.DoBlockingMoveToZ sample_env sample_platform sample_state 5 9).stepps_sum_
        : ℕ) : ℤ) = ⌊Binary32.rnd (Z_AXIS_STEPS_PER_UNIT * |(5 : ℚ)|) + 1 / 2⌋ ∧
    (InBinary32.DoBlockingMoveToZ sample_env sample_platform sample_state 5 9).speed_ctrl_buffer_ =
      (if ⌊InBinary32.acc_dec_value 9⌋
          ≤ (((InBinary32.DoBlockingMoveToZ sample_env sample_platform sample_state 5 9).stepps_sum_
              : ℕ) : ℤ) / 2 then
        InBinary32.trapezoid_table sample_platform sample_state.speed_ctrl_buffer_
          (InBinary32.DoBlockingMoveToZ sample_env sample_platform sample_state 5 9).stepps_sum_
          (Int.toNat ⌊InBinary32.acc_dec_value 9⌋) 9
      else
        InBinary32.triangle_table sample_env sample_platform sample_state.speed_ctrl_buffer_
          (InBinary32.DoBlockingMoveToZ sample_env sample_platform sample_state 5 9).stepps_sum_
          |(5 : ℚ)|) ∧
    (InBinary32.acc_dec_value 9
        ≤ (((InBinary32.DoBlockingMoveToZ sample_env sample_platform sample_state 5 9).stepps_sum_
            : ℕ) : ℚ) / 2 →
      (InBinary32.DoBlockingMoveToZ sample_env sample_platform sample_state 5 9).speed_ctrl_buffer_ =
        InBinary32.trapezoid_table sample_platform sample_state.speed_ctrl_buffer_
          (InBinary32.DoBlockingMoveToZ sample_env sample_platform sample_state 5 9).stepps_sum_
          (Int.toNat ⌊InBinary32.acc_dec_value 9⌋) 9) :=
  ⟨by decide, by norm_num [abs_of_pos], by norm_num [abs_of_pos],
    C8_branch_compares_truncated_values sample_env sample_platform sample_state 5 9 (by decide)
      (by norm_num [abs_of_pos]) (by norm_num [abs_of_pos])⟩

/-- C8, counterexample to the claim as stated: for the distance 7/512 and the
speed 3/4 the claim's condition fails, since `((3/4)^2 / (2*40)) * 1600 = 11.25`
exceeds `round(|7/512| * 1600) / 2 = 22 / 2 = 11`, yet `DoBlockingMoveToZ`
writes the table of the trapezoid branch: it compares the truncated value 11
with `stepps_sum_ / 2 = 11`. -/
theorem C8_counterexample_truncated_comparison :
    ¬ (((3 / 4 : ℚ) * (3 / 4)) / (2 * ACCELERATION) * Z_AXIS_STEPS_PER_UNIT
        ≤ ((round (|(7 / 512 : ℚ)| * Z_AXIS_STEPS_PER_UNIT) : ℤ) : ℚ) / 2) ∧
    (InBinary32.DoBlockingMoveToZ sample_env sample_platform sample_state (7 / 512)
        (3 / 4)).stepps_sum_ = 22 ∧
    InBinary32.acc_dec_stepps_of sample_platform (3 / 4) = 11 ∧
    (InBinary32.DoBlockingMoveToZ sample_env sample_platform sample_state (7 / 512)
        (3 / 4)).speed_ctrl_buffer_ =
      InBinary32.trapezoid_table sample_platform sample_state.speed_ctrl_buffer_ 22 11 (3 / 4) := by
  have hidle : sample_state.motor_state_ = 0 := by decide
  have e1 : Binary32.rnd (3 / 4 * (3 / 4)) = (9 / 16) := by
    rw [rnd_eval (-1) (by norm_num [abs_of_pos]) (by norm_num [abs_of_pos])]
    norm_num [Binary32.roundEven]
  have e2 : Binary32.rnd ((9 / 16) / (2 * 40)) = (7549747 / 1073741824) := by
    rw [rnd_eval (-8) (by norm_num [abs_of_pos]) (by norm_num [abs_of_pos])]
    norm_num [Binary32.roundEven]
  have e3 : Binary32.rnd ((7549747 / 1073741824) * 1600) = (45 / 4) := by
    rw [rnd_eval (3) (by norm_num [abs_of_pos]) (by norm_num [abs_of_pos])]
    norm_num [Binary32.roundEven]
  have habs : |(7 / 512 : ℚ)| = 7 / 512 := abs_of_pos (by norm_num)
  have e4 : Binary32.rnd (1600 * (7 / 512)) = (175 / 8) := by
    rw [rnd_eval (4) (by norm_num [abs_of_pos]) (by norm_num [abs_of_pos])]
    norm_num [Binary32.roundEven]
  have hacc : InBinary32.acc_dec_stepps_of sample_platform (3 / 4) = 11 := by
    simp only [InBinary32.acc_dec_stepps_of, ACCELERATION, Z_AXIS_STEPS_PER_UNIT]
    rw [e1, e2, e3]
    exact InBinary32.f2u_eval sample_platform 11 (by norm_num) (by norm_num) (by norm_num)
  have hsum : InBinary32.stepps_sum_of sample_platform |(7 / 512 : ℚ)| = 22 := by
    simp only [InBinary32.stepps_sum_of, Z_AXIS_STEPS_PER_UNIT]
    rw [habs, e4]
    exact InBinary32.f2u_eval sample_platform 22 (by norm_num) (by norm_num) (by norm_num)
  have hb : InBinary32.takes_trapezoid sample_platform |(7 / 512 : ℚ)| (3 / 4) = true := by
    rw [InBinary32.takes_trapezoid_iff_rounded, hacc, hsum]
  obtain ⟨hs, hbuf, _, _⟩ :=
    InBinary32.DoBlockingMoveToZ_fields sample_env sample_platform sample_state (7 / 512) (3 / 4)
      hidle
  refine ⟨?_, by rw [hs, hsum], hacc, ?_⟩
  · norm_num [ACCELERATION, Z_AXIS_STEPS_PER_UNIT, abs_of_pos, round_eq]
  · rw [hbuf, if_pos hb, hsum, hacc]

/-! ## Error analysis of the planner in binary32 -/

namespace DualExtruder.InBinary32

theorem normal_of_decimal {B : ℚ} (hB : 1 / 10 ^ 37 ≤ B) : (2 : ℚ) ^ (-126 : ℤ) ≤ B := by
  exact le_trans (by norm_num) hB

/-- Rounding a non-negative value below a bound `B` of the normal range exceeds
`B` by at most one part in `10 ^ 7`. -/
theorem rnd_up {x B : ℚ} (h0 : 0 ≤ x) (h : x ≤ B) (hB : 1 / 10 ^ 37 ≤ B) :
    rnd x ≤ B * (1 + 1 / 10 ^ 7) := by
  have h1 : rnd x ≤ rnd B := rnd_mono h0 h
  have h2 := rnd_le_of_normal (normal_of_decimal hB)
  have h3 : (2 : ℚ) ^ (-24 : ℤ) ≤ 1 / 10 ^ 7 := by norm_num
  have hB0 : 0 ≤ B := le_trans (by norm_num) hB
  generalize (2 : ℚ) ^ (-24 : ℤ) = e at h2 h3
  have h4 := mul_le_mul_of_nonneg_left h3 hB0
  linarith

/-- Rounding a value above a bound `L` of the normal range falls below `L` by at
most one part in `10 ^ 7`. -/
theorem rnd_lo {x L : ℚ} (hL : 1 / 10 ^ 37 ≤ L) (h : L ≤ x) :
    L * (1 - 1 / 10 ^ 7) ≤ rnd x := by
  have hL0 : 0 ≤ L := le_trans (by norm_num) hL
  have h1 : rnd L ≤ rnd x := rnd_mono hL0 h
  have h2 := rnd_ge_of_normal (normal_of_decimal hL)
  have h3 : (2 : ℚ) ^ (-24 : ℤ) ≤ 1 / 10 ^ 7 := by norm_num
  generalize (2 : ℚ) ^ (-24 : ℤ) = e at h2 h3
  have h4 := mul_le_mul_of_nonneg_left h3 hL0
  linarith

theorem acc_time_at_succ (q : ℚ) (n : Nat) :
    acc_time_at q (n + 1) = rnd (acc_time_at q n + q) := rfl

theorem sq_decimal {B : ℚ} (hB : 1 / 10 ^ 18 ≤ B) : 1 / 10 ^ 36 ≤ B * B := by
  have h := mul_le_mul hB hB (by norm_num) (le_trans (by norm_num) hB)
  norm_num at h ⊢
  linarith

/-- The running `acc_time` stays within one part in 500000 of the multiples of
the quantum. -/
theorem acc_time_at_bounds {q : ℚ} (hq : 1 / 10 ^ 18 ≤ q) (i : Nat) (hi : i ≤ 9) :
    ((i : ℚ) + 1) * q * (1 - 1 / 500000) ≤ acc_time_at q i ∧
    acc_time_at q i ≤ ((i : ℚ) + 1) * q * (1 + 1 / 500000) := by
  have hq0 : 0 < q := lt_of_lt_of_le (by norm_num) hq
  induction i with
  | zero =>
    simp only [acc_time_at]
    constructor <;> nlinarith
  | succ k ih =>
    obtain ⟨ih1, ih2⟩ := ih (by omega)
    have hk : (k : ℚ) ≤ 8 := by
      have : k ≤ 8 := by omega
      exact_mod_cast this
    have hk0 : (0 : ℚ) ≤ k := Nat.cast_nonneg k
    have hkq : 0 ≤ (k : ℚ) * q := mul_nonneg hk0 (le_of_lt hq0)
    have hkq8 : (k : ℚ) * q ≤ 8 * q := mul_le_mul_of_nonneg_right hk (le_of_lt hq0)
    simp only [acc_time_at]
    push_cast
    constructor
    · have hL : (1 : ℚ) / 10 ^ 37 ≤ ((k : ℚ) + 1) * q * (1 - 1 / 500000) + q := by nlinarith
      have h := rnd_lo hL (by linarith : ((k : ℚ) + 1) * q * (1 - 1 / 500000) + q
        ≤ acc_time_at q k + q)
      nlinarith
    · have h0 : 0 ≤ acc_time_at q k + q := by nlinarith
      have hB : (1 : ℚ) / 10 ^ 37 ≤ ((k : ℚ) + 1) * q * (1 + 1 / 500000) + q := by nlinarith
      have h := rnd_up h0 (by linarith : acc_time_at q k + q
        ≤ ((k : ℚ) + 1) * q * (1 + 1 / 500000) + q) hB
      nlinarith

theorem acc_time_at_nonneg {q : ℚ} (hq : 0 ≤ q) (i : Nat) : 0 ≤ acc_time_at q i := by
  induction i with
  | zero => exact hq
  | succ k ih =>
    simp only [acc_time_at]
    exact rnd_nonneg (add_nonneg ih hq)

/-- The running `acc_time` never decreases when the quantum is a non-negative
binary32 number. -/
theorem acc_time_at_mono {q : ℚ} (hq : 0 ≤ q) (hg : rnd q = q) (i : Nat) :
    rnd (acc_time_at q i) = acc_time_at q i ∧ acc_time_at q i ≤ acc_time_at q (i + 1) := by
  have hfix : rnd (acc_time_at q i) = acc_time_at q i := by
    cases i with
    | zero => exact hg
    | succ k =>
      simp only [acc_time_at]
      exact rnd_idem (add_nonneg (acc_time_at_nonneg hq k) hq)
  refine ⟨hfix, ?_⟩
  have h : rnd (acc_time_at q i) ≤ rnd (acc_time_at q i + q) :=
    rnd_mono (acc_time_at_nonneg hq i) (by linarith)
  rw [hfix] at h
  exact h

theorem acc_time_at_le {q : ℚ} (hq : 0 ≤ q) (hg : rnd q = q) {i j : Nat} (h : i ≤ j) :
    acc_time_at q i ≤ acc_time_at q j := by
  induction j with
  | zero =>
    have : i = 0 := by omega
    rw [this]
  | succ k ih =>
    by_cases hik : i = k + 1
    · rw [hik]
    · exact le_trans (ih (by omega)) (acc_time_at_mono hq hg k).2

/-- The threshold of the acceleration loop grows with `acc_time`. -/
theorem accel_value_mono {a b : ℚ} (ha : 0 ≤ a) (h : a ≤ b) : accel_value a ≤ accel_value b := by
  unfold accel_value
  have h1 : a * a ≤ b * b := mul_le_mul h h ha (le_trans ha h)
  have r1 : rnd (a * a) ≤ rnd (b * b) := rnd_mono (mul_nonneg ha ha) h1
  have r1n : 0 ≤ rnd (a * a) := rnd_nonneg (mul_nonneg ha ha)
  have h2 : ACCELERATION * rnd (a * a) ≤ ACCELERATION * rnd (b * b) :=
    mul_le_mul_of_nonneg_left r1 (by norm_num [ACCELERATION])
  have h2n : 0 ≤ ACCELERATION * rnd (a * a) := mul_nonneg (by norm_num [ACCELERATION]) r1n
  have r2 := rnd_mono h2n h2
  have r2n := rnd_nonneg h2n
  have h3 : rnd (ACCELERATION * rnd (a * a)) / 2 ≤ rnd (ACCELERATION * rnd (b * b)) / 2 := by
    linarith
  have h3n : 0 ≤ rnd (ACCELERATION * rnd (a * a)) / 2 := by linarith
  have r3 := rnd_mono h3n h3
  have r3n := rnd_nonneg h3n
  have h4 : rnd (rnd (ACCELERATION * rnd (a * a)) / 2) * Z_AXIS_STEPS_PER_UNIT
      ≤ rnd (rnd (ACCELERATION * rnd (b * b)) / 2) * Z_AXIS_STEPS_PER_UNIT :=
    mul_le_mul_of_nonneg_right r3 (by norm_num [Z_AXIS_STEPS_PER_UNIT])
  exact rnd_mono (mul_nonneg r3n (by norm_num [Z_AXIS_STEPS_PER_UNIT])) h4

theorem accel_value_nonneg (a : ℚ) : 0 ≤ accel_value a := by
  unfold accel_value
  apply rnd_nonneg
  apply mul_nonneg _ (by norm_num [Z_AXIS_STEPS_PER_UNIT])
  apply rnd_nonneg
  apply div_nonneg _ (by norm_num)
  apply rnd_nonneg
  exact mul_nonneg (by norm_num [ACCELERATION]) (rnd_nonneg (mul_self_nonneg a))

/-- Upper bound of the threshold of the acceleration loop. -/
theorem accel_value_up {a B : ℚ} (ha : 0 ≤ a) (h : a ≤ B) (hB : 1 / 10 ^ 18 ≤ B) :
    accel_value a ≤ 32000 * (B * B) * (1 + 1 / 10 ^ 6) := by
  unfold accel_value
  have hBB := sq_decimal hB
  have h1 : a * a ≤ B * B := mul_le_mul h h ha (le_trans ha h)
  have r1 := rnd_up (mul_nonneg ha ha) h1 (by linarith)
  have r1n : 0 ≤ rnd (a * a) := rnd_nonneg (mul_nonneg ha ha)
  have r2 := rnd_up (x := ACCELERATION * rnd (a * a)) (B := 40 * (B * B * (1 + 1 / 10 ^ 7)))
    (mul_nonneg (by norm_num [ACCELERATION]) r1n) (by norm_num [ACCELERATION]; linarith)
    (by linarith)
  have r2n : 0 ≤ rnd (ACCELERATION * rnd (a * a)) :=
    rnd_nonneg (mul_nonneg (by norm_num [ACCELERATION]) r1n)
  have r3 := rnd_up (x := rnd (ACCELERATION * rnd (a * a)) / 2)
    (B := 40 * (B * B * (1 + 1 / 10 ^ 7)) * (1 + 1 / 10 ^ 7) / 2)
    (by linarith) (by linarith) (by linarith)
  have r3n : 0 ≤ rnd (rnd (ACCELERATION * rnd (a * a)) / 2) := rnd_nonneg (by linarith)
  have r4 := rnd_up (x := rnd (rnd (ACCELERATION * rnd (a * a)) / 2) * Z_AXIS_STEPS_PER_UNIT)
    (B := 40 * (B * B * (1 + 1 / 10 ^ 7)) * (1 + 1 / 10 ^ 7) / 2 * (1 + 1 / 10 ^ 7) * 1600)
    (mul_nonneg r3n (by norm_num [Z_AXIS_STEPS_PER_UNIT]))
    (by norm_num [Z_AXIS_STEPS_PER_UNIT]; linarith) (by linarith)
  linarith

/-- Lower bound of the threshold of the acceleration loop. -/
theorem accel_value_lo {a L : ℚ} (hL : 1 / 10 ^ 18 ≤ L) (h : L ≤ a) :
    32000 * (L * L) * (1 - 1 / 10 ^ 6) ≤ accel_value a := by
  unfold accel_value
  have hLL := sq_decimal hL
  have hL0 : 0 ≤ L := le_trans (by norm_num) hL
  have h1 : L * L ≤ a * a := mul_le_mul h h hL0 (le_trans hL0 h)
  have r1 := rnd_lo (by linarith) h1
  have r2 := rnd_lo (x := ACCELERATION * rnd (a * a)) (L := 40 * (L * L * (1 - 1 / 10 ^ 7)))
    (by linarith) (by norm_num [ACCELERATION]; linarith)
  have r3 := rnd_lo (x := rnd (ACCELERATION * rnd (a * a)) / 2)
    (L := 40 * (L * L * (1 - 1 / 10 ^ 7)) * (1 - 1 / 10 ^ 7) / 2)
    (by linarith) (by linarith)
  have r4 := rnd_lo (x := rnd (rnd (ACCELERATION * rnd (a * a)) / 2) * Z_AXIS_STEPS_PER_UNIT)
    (L := 40 * (L * L * (1 - 1 / 10 ^ 7)) * (1 - 1 / 10 ^ 7) / 2 * (1 - 1 / 10 ^ 7) * 1600)
    (by linarith) (by norm_num [Z_AXIS_STEPS_PER_UNIT]; linarith)
  linarith

end DualExtruder.InBinary32

/-! ## Rounding of negative and of nearly integral values -/

namespace DualExtruder.InBinary32

theorem roundEven_neg (y : ℚ) : roundEven (-y) = -roundEven y := by
  by_cases hint : (⌊y⌋ : ℚ) = y
  · rw [← hint, ← Int.cast_neg, roundEven_int, roundEven_int]
  · have h1 : (⌊y⌋ : ℚ) < y := lt_of_le_of_ne (Int.floor_le y) hint
    have h2 : y < (⌊y⌋ : ℚ) + 1 := Int.lt_floor_add_one y
    have hfl : ⌊-y⌋ = -⌊y⌋ - 1 := by
      rw [Int.floor_eq_iff]
      push_cast
      constructor <;> linarith
    unfold roundEven
    rw [hfl]
    push_cast
    split_ifs <;> first | omega | (exfalso; linarith)

theorem ulp_exp_neg (x : ℚ) : ulp_exp (-x) = ulp_exp x := by
  unfold ulp_exp
  rw [abs_neg]

/-- Rounding to binary32 is symmetric. -/
theorem rnd_neg (x : ℚ) : rnd (-x) = -rnd x := by
  unfold rnd
  rw [ulp_exp_neg, neg_div, roundEven_neg]
  push_cast
  ring

/-- The magnitude of a rounded value from a bound of the normal range on the
magnitude of the argument. -/
theorem abs_rnd_le {x B : ℚ} (h : |x| ≤ B) (hB : 1 / 10 ^ 37 ≤ B) :
    |rnd x| ≤ B * (1 + 1 / 10 ^ 7) := by
  by_cases hx : 0 ≤ x
  · rw [abs_of_nonneg hx] at h
    rw [abs_of_nonneg (rnd_nonneg hx)]
    exact rnd_up hx h hB
  · have hx' : 0 ≤ -x := by linarith
    rw [abs_of_neg (by linarith)] at h
    have h1 := rnd_up hx' h hB
    have h2 := rnd_nonneg hx'
    rw [rnd_neg] at h1 h2
    rw [abs_of_nonpos (by linarith)]
    exact h1

theorem roundEven_add_small (M : ℤ) {r : ℚ} (h1 : -(1 / 2) < r) (h2 : r < 1 / 2) :
    roundEven ((M : ℚ) + r) = M := by
  by_cases hr : 0 ≤ r
  · have hfl : ⌊(M : ℚ) + r⌋ = M := by
      rw [Int.floor_eq_iff]
      constructor <;> linarith
    unfold roundEven
    rw [hfl]
    have : (M : ℚ) + r - M < 1 / 2 := by linarith
    rw [if_pos this]
  · have hfl : ⌊(M : ℚ) + r⌋ = M - 1 := by
      rw [Int.floor_eq_iff]
      push_cast
      constructor <;> linarith
    unfold roundEven
    rw [hfl]
    push_cast
    have c1 : ¬ ((M : ℚ) + r - (M - 1) < 1 / 2) := by linarith
    have c2 : (1 : ℚ) / 2 < (M : ℚ) + r - (M - 1) := by linarith
    rw [if_neg c1, if_pos c2]
    ring

/-- A positive integer of at most `2 ^ 17`, disturbed by less than `2 ^ -30`,
is rounded to itself. -/
theorem rnd_nat_add_small (N : Nat) {e : ℚ} (h1 : 1 ≤ N) (h2 : N ≤ 131072)
    (he : |e| ≤ 1 / 2 ^ 30) : rnd ((N : ℚ) + e) = N := by
  have hN1 : (1 : ℚ) ≤ N := by exact_mod_cast h1
  have hN2 : (N : ℚ) ≤ 131072 := by exact_mod_cast h2
  obtain ⟨he1, he2⟩ := abs_le.mp he
  have hx1 : (1 : ℚ) / 2 ≤ (N : ℚ) + e := by
    have : (1 : ℚ) / 2 ^ 30 ≤ 1 / 2 := by norm_num
    linarith
  have hx2 : (N : ℚ) + e < 262144 := by
    have : (1 : ℚ) / 2 ^ 30 ≤ 1 := by norm_num
    linarith
  have hx0 : 0 < (N : ℚ) + e := by linarith
  have hl1 : -1 ≤ Int.log 2 ((N : ℚ) + e) := by
    rw [← Int.zpow_le_iff_le_log (by norm_num) hx0]
    norm_num
    linarith
  have hl2 : Int.log 2 ((N : ℚ) + e) < 18 := by
    rw [← Int.lt_zpow_iff_log_lt (by norm_num) hx0]
    norm_num
    linarith
  have hu : ulp_exp ((N : ℚ) + e) = Int.log 2 ((N : ℚ) + e) - 23 := by
    unfold ulp_exp
    rw [abs_of_pos hx0, max_eq_left (by omega)]
  obtain ⟨n, hn⟩ : ∃ n : ℕ, (n : ℤ) = 23 - Int.log 2 ((N : ℚ) + e) :=
    ⟨Int.toNat (23 - Int.log 2 ((N : ℚ) + e)), Int.toNat_of_nonneg (by omega)⟩
  have hn1 : 6 ≤ n := by omega
  have hn2 : n ≤ 24 := by omega
  have hk : ulp_exp ((N : ℚ) + e) = -(n : ℤ) := by
    rw [hu]
    omega
  have hpow : (2 : ℚ) ^ (-(n : ℤ)) = 1 / 2 ^ n := by
    rw [zpow_neg, zpow_natCast, one_div]
  have h2n : (0 : ℚ) < 2 ^ n := by positivity
  have h2n' : (2 : ℚ) ^ n ≤ 2 ^ 24 := pow_le_pow_right₀ (by norm_num) hn2
  unfold rnd
  rw [hk, hpow]
  have hdiv : ((N : ℚ) + e) / (1 / 2 ^ n) = (((N * 2 ^ n : ℕ) : ℤ) : ℚ) + e * 2 ^ n := by
    push_cast
    field_simp
    ring
  rw [hdiv, roundEven_add_small]
  · push_cast
    field_simp
  · have : -(1 / 2 ^ 30 * 2 ^ 24 : ℚ) ≤ e * 2 ^ n := by
      have h3 : -(1 / 2 ^ 30 : ℚ) * 2 ^ n ≤ e * 2 ^ n :=
        mul_le_mul_of_nonneg_right (by linarith) (le_of_lt h2n)
      have h4 : (1 / 2 ^ 30 : ℚ) * 2 ^ n ≤ 1 / 2 ^ 30 * 2 ^ 24 :=
        mul_le_mul_of_nonneg_left h2n' (by norm_num)
      linarith
    have h5 : -(1 / 2 : ℚ) < -(1 / 2 ^ 30 * 2 ^ 24) := by norm_num
    linarith
  · have : e * 2 ^ n ≤ (1 / 2 ^ 30 * 2 ^ 24 : ℚ) := by
      have h3 : e * 2 ^ n ≤ (1 / 2 ^ 30 : ℚ) * 2 ^ n :=
        mul_le_mul_of_nonneg_right he2 (le_of_lt h2n)
      have h4 : (1 / 2 ^ 30 : ℚ) * 2 ^ n ≤ 1 / 2 ^ 30 * 2 ^ 24 :=
        mul_le_mul_of_nonneg_left h2n' (by norm_num)
      linarith
    have h5 : (1 / 2 ^ 30 * 2 ^ 24 : ℚ) < 1 / 2 := by norm_num
    linarith

/-- A value of magnitude below 1 is converted to 0. -/
theorem f2u_eq_zero (P : Platform) {x : ℚ} (h : |x| < 1) : f2u P x = 0 := by
  obtain ⟨h1, h2⟩ := abs_lt.mp h
  have hr : -1 < x ∧ x < 4294967296 := ⟨h1, by linarith⟩
  simp only [f2u, hr, and_self, if_true]
  have hf : ⌊x⌋ ≤ 0 := by
    have h3 : ⌊x⌋ < 1 := by
      rw [Int.floor_lt]
      exact_mod_cast h2
    omega
  omega

end DualExtruder.InBinary32

namespace DualExtruder.InBinary32

/-- Upper bound of the running `acc_time` from an upper bound of the quantum. -/
theorem acc_time_at_up {q Q : ℚ} (hq0 : 0 ≤ q) (hqQ : q ≤ Q) (hQ : 1 / 10 ^ 18 ≤ Q) (i : Nat)
    (hi : i ≤ 9) : acc_time_at q i ≤ ((i : ℚ) + 1) * Q * (1 + 1 / 500000) := by
  have hQ0 : 0 < Q := lt_of_lt_of_le (by norm_num) hQ
  induction i with
  | zero =>
    simp only [acc_time_at]
    nlinarith
  | succ k ih =>
    have ih2 := ih (by omega)
    have hk : (k : ℚ) ≤ 8 := by
      have : k ≤ 8 := by omega
      exact_mod_cast this
    have hk0 : (0 : ℚ) ≤ k := Nat.cast_nonneg k
    have hkq : 0 ≤ (k : ℚ) * Q := mul_nonneg hk0 (le_of_lt hQ0)
    have hkq8 : (k : ℚ) * Q ≤ 8 * Q := mul_le_mul_of_nonneg_right hk (le_of_lt hQ0)
    simp only [acc_time_at]
    push_cast
    have h0 : 0 ≤ acc_time_at q k + q := add_nonneg (acc_time_at_nonneg hq0 k) hq0
    have hB : (1 : ℚ) / 10 ^ 37 ≤ ((k : ℚ) + 1) * Q * (1 + 1 / 500000) + Q := by nlinarith
    have h := rnd_up h0 (by linarith : acc_time_at q k + q
      ≤ ((k : ℚ) + 1) * Q * (1 + 1 / 500000) + Q) hB
    nlinarith

/-- The quantum of the trapezoid branch is a 400th of the speed, up to three
parts in `10 ^ 7`. -/
theorem trapezoid_quantum_bounds {s : ℚ} (hs : 1 / 10 ^ 15 ≤ s) :
    s / 400 * (1 - 3 / 10 ^ 7) ≤ rnd (rnd (s / ACCELERATION) / 10) ∧
    rnd (rnd (s / ACCELERATION) / 10) ≤ s / 400 * (1 + 3 / 10 ^ 7) := by
  have hs0 : 0 ≤ s := le_trans (by norm_num) hs
  have e : s / ACCELERATION = s / 40 := by norm_num [ACCELERATION]
  rw [e]
  have l1 := rnd_lo (x := s / 40) (L := s / 40) (by linarith) (le_refl _)
  have u1 := rnd_up (x := s / 40) (B := s / 40) (by linarith) (le_refl _) (by linarith)
  have l2 := rnd_lo (x := rnd (s / 40) / 10) (L := s / 40 * (1 - 1 / 10 ^ 7) / 10)
    (by linarith) (by linarith)
  have u2 := rnd_up (x := rnd (s / 40) / 10) (B := s / 40 * (1 + 1 / 10 ^ 7) / 10)
    (by linarith) (by linarith) (by linarith)
  constructor <;> linarith

/-- Upper bound of the quantum of the trapezoid branch for a small speed. -/
theorem trapezoid_quantum_up {s S : ℚ} (hs0 : 0 ≤ s) (hs : s ≤ S) (hS : 1 / 10 ^ 15 ≤ S) :
    0 ≤ rnd (rnd (s / ACCELERATION) / 10) ∧
    rnd (rnd (s / ACCELERATION) / 10) ≤ S / 400 * (1 + 3 / 10 ^ 7) := by
  have e : s / ACCELERATION = s / 40 := by norm_num [ACCELERATION]
  rw [e]
  have n1 : 0 ≤ rnd (s / 40) := rnd_nonneg (by linarith)
  have u1 := rnd_up (x := s / 40) (B := S / 40) (by linarith) (by linarith) (by linarith)
  have u2 := rnd_up (x := rnd (s / 40) / 10) (B := S / 40 * (1 + 1 / 10 ^ 7) / 10)
    (by linarith) (by linarith) (by linarith)
  exact ⟨rnd_nonneg (by linarith), by linarith⟩

/-- Lower bound of the value of line 327. -/
theorem acc_dec_value_lo {s : ℚ} (hs : 1 / 10 ^ 15 ≤ s) :
    20 * (s * s) * (1 - 1 / 10 ^ 6) ≤ acc_dec_value s := by
  unfold acc_dec_value
  have hs0 : 0 ≤ s := le_trans (by norm_num) hs
  have hss : (1 : ℚ) / 10 ^ 30 ≤ s * s := by
    have h := mul_le_mul hs hs (by norm_num) hs0
    norm_num at h ⊢
    linarith
  have l1 := rnd_lo (x := s * s) (L := s * s) (by linarith) (le_refl _)
  have l2 := rnd_lo (x := rnd (s * s) / (2 * ACCELERATION))
    (L := s * s * (1 - 1 / 10 ^ 7) / 80) (by linarith) (by norm_num [ACCELERATION]; linarith)
  have l3 := rnd_lo (x := rnd (rnd (s * s) / (2 * ACCELERATION)) * Z_AXIS_STEPS_PER_UNIT)
    (L := s * s * (1 - 1 / 10 ^ 7) / 80 * (1 - 1 / 10 ^ 7) * 1600) (by linarith)
    (by norm_num [Z_AXIS_STEPS_PER_UNIT]; linarith)
  linarith

/-- Upper bound of the value of line 327. -/
theorem acc_dec_value_up {s S : ℚ} (hs0 : 0 ≤ s) (hs : s ≤ S) (hS : 1 / 10 ^ 15 ≤ S) :
    acc_dec_value s ≤ 20 * (S * S) * (1 + 1 / 10 ^ 6) := by
  unfold acc_dec_value
  have hS0 : 0 ≤ S := le_trans (by norm_num) hS
  have hSS : (1 : ℚ) / 10 ^ 30 ≤ S * S := by
    have h := mul_le_mul hS hS (by norm_num) hS0
    norm_num at h ⊢
    linarith
  have h1 : s * s ≤ S * S := mul_le_mul hs hs hs0 hS0
  have n1 : 0 ≤ rnd (s * s) := rnd_nonneg (mul_nonneg hs0 hs0)
  have u1 := rnd_up (x := s * s) (B := S * S) (mul_nonneg hs0 hs0) h1 (by linarith)
  have n2 : 0 ≤ rnd (s * s) / (2 * ACCELERATION) := div_nonneg n1 (by norm_num [ACCELERATION])
  have u2 := rnd_up (x := rnd (s * s) / (2 * ACCELERATION))
    (B := S * S * (1 + 1 / 10 ^ 7) / 80) n2 (by norm_num [ACCELERATION]; linarith) (by linarith)
  have n3 := rnd_nonneg n2
  have u3 := rnd_up (x := rnd (rnd (s * s) / (2 * ACCELERATION)) * Z_AXIS_STEPS_PER_UNIT)
    (B := S * S * (1 + 1 / 10 ^ 7) / 80 * (1 + 1 / 10 ^ 7) * 1600)
    (mul_nonneg n3 (by norm_num [Z_AXIS_STEPS_PER_UNIT]))
    (by norm_num [Z_AXIS_STEPS_PER_UNIT]; linarith) (by linarith)
  linarith

/-- In the trapezoid branch no threshold of the acceleration loop before
`segment[9]` exceeds the value of line 327. -/
theorem accel_value_le_acc_dec_value {s : ℚ} (hs0 : 0 ≤ s) (i : Nat) (hi : i ≤ 8) :
    accel_value (acc_time_at (rnd (rnd (s / ACCELERATION) / 10)) i) < 1 ∨
    accel_value (acc_time_at (rnd (rnd (s / ACCELERATION) / 10)) i) ≤ acc_dec_value s := by
  have hi9 : i ≤ 9 := by omega
  have hic : (i : ℚ) ≤ 8 := by exact_mod_cast hi
  have hic0 : (0 : ℚ) ≤ i := Nat.cast_nonneg i
  by_cases hs : 1 / 10 ^ 15 ≤ s
  · right
    obtain ⟨hq1, hq2⟩ := trapezoid_quantum_bounds hs
    have hq0 : 0 ≤ rnd (rnd (s / ACCELERATION) / 10) := by
      have : 0 ≤ s / 400 * (1 - 3 / 10 ^ 7) := by nlinarith
      linarith
    have hQ : (1 : ℚ) / 10 ^ 18 ≤ s / 400 * (1 + 3 / 10 ^ 7) := by nlinarith
    have ha := acc_time_at_up hq0 hq2 hQ i hi9
    have ha9 : acc_time_at (rnd (rnd (s / ACCELERATION) / 10)) i
        ≤ 9 * (s / 400 * (1 + 3 / 10 ^ 7)) * (1 + 1 / 500000) := by
      have : ((i : ℚ) + 1) * (s / 400 * (1 + 3 / 10 ^ 7)) ≤ 9 * (s / 400 * (1 + 3 / 10 ^ 7)) :=
        mul_le_mul_of_nonneg_right (by linarith) (by linarith)
      nlinarith
    have hB : (1 : ℚ) / 10 ^ 18 ≤ 9 * (s / 400 * (1 + 3 / 10 ^ 7)) * (1 + 1 / 500000) := by
      nlinarith
    have hup := accel_value_up (acc_time_at_nonneg hq0 i) ha9 hB
    have hlo := acc_dec_value_lo hs
    have hss : 0 ≤ s * s := mul_self_nonneg s
    nlinarith
  · left
    have hs' : s ≤ 1 / 10 ^ 15 := le_of_lt (not_le.mp hs)
    obtain ⟨hq0, hq2⟩ := trapezoid_quantum_up hs0 hs' (le_refl _)
    have ha := acc_time_at_up hq0 hq2 (by norm_num) i hi9
    have ha9 : acc_time_at (rnd (rnd (s / ACCELERATION) / 10)) i ≤ 1 / 10 ^ 16 := by
      have : ((i : ℚ) + 1) ≤ 9 := by linarith
      nlinarith
    have hup := accel_value_up (acc_time_at_nonneg hq0 i) ha9 (by norm_num)
    norm_num at hup ⊢
    linarith

end DualExtruder.InBinary32

/-! ## The production move `DoBlockingMoveToZ(5, 9)` in binary32 -/

namespace DualExtruder.InBinary32

theorem acc_dec_stepps_of_sample : acc_dec_stepps_of sample_platform 9 = 1620 := by
  have e1 : Binary32.rnd (9 * 9) = 81 := by
    rw [rnd_eval (6) (by norm_num [abs_of_pos]) (by norm_num [abs_of_pos])]
    norm_num [Binary32.roundEven]
  have e2 : Binary32.rnd (81 / (2 * 40)) = (4246733 / 4194304) := by
    rw [rnd_eval (0) (by norm_num [abs_of_pos]) (by norm_num [abs_of_pos])]
    norm_num [Binary32.roundEven]
  have e3 : Binary32.rnd ((4246733 / 4194304) * 1600) = (13271041 / 8192) := by
    rw [rnd_eval (10) (by norm_num [abs_of_pos]) (by norm_num [abs_of_pos])]
    norm_num [Binary32.roundEven]
  simp only [acc_dec_stepps_of, ACCELERATION, Z_AXIS_STEPS_PER_UNIT]
  rw [e1, e2, e3]
  exact f2u_eval sample_platform 1620 (by norm_num) (by norm_num) (by norm_num)

theorem stepps_sum_of_sample : stepps_sum_of sample_platform |(5 : ℚ)| = 8000 := by
  have habs : |(5 : ℚ)| = 5 := abs_of_pos (by norm_num)
  have e4 : Binary32.rnd (1600 * 5) = 8000 := by
    rw [rnd_eval (12) (by norm_num [abs_of_pos]) (by norm_num [abs_of_pos])]
    norm_num [Binary32.roundEven]
  simp only [stepps_sum_of, Z_AXIS_STEPS_PER_UNIT]
  rw [habs, e4]
  exact f2u_eval sample_platform 8000 (by norm_num) (by norm_num) (by norm_num)

theorem takes_trapezoid_sample : takes_trapezoid sample_platform |(5 : ℚ)| 9 = true := by
  rw [takes_trapezoid_iff_rounded, acc_dec_stepps_of_sample, stepps_sum_of_sample]
  decide

/-- Thresholds of the acceleration loop of the trapezoid branch against the
local `acc_dec_stepps`. -/
theorem accel_threshold_le_acc_dec_stepps (P : Platform) {s : ℚ} (hs0 : 0 ≤ s)
    (hs : s ≤ 8192) (i : Nat) (hi : i ≤ 8) :
    f2u P (accel_value (acc_time_at (rnd (rnd (s / ACCELERATION) / 10)) i))
      ≤ acc_dec_stepps_of P s := by
  have habs : |s| ≤ 8192 := by rwa [abs_of_nonneg hs0]
  have hA := acc_dec_value_le habs
  rcases accel_value_le_acc_dec_value hs0 i hi with h | h
  · rw [f2u_eval P 0 (by simpa using accel_value_nonneg _) (by simpa using h)
      (by linarith)]
    exact Nat.zero_le _
  · show f2u P _ ≤ f2u P (acc_dec_value s)
    exact f2u_mono P (accel_value_nonneg _) h (lt_of_le_of_lt hA (by norm_num))

end DualExtruder.InBinary32

/-! ## C23: the subtraction that sets `segment[9]` -/

namespace DualExtruder.InBinary32

/-- Lower bound of the divisor of a period of the acceleration loop. -/
theorem accel_divisor_lo {a L : ℚ} (hL : 1 / 10 ^ 30 ≤ L) (h : L ≤ a) :
    64000 * L * (1 - 3 / 10 ^ 7) ≤ accel_divisor a := by
  unfold accel_divisor
  have r1 := rnd_lo (x := ACCELERATION * a) (L := 40 * L) (by linarith)
    (by norm_num [ACCELERATION]; linarith)
  have r2 := rnd_lo (x := rnd (ACCELERATION * a) * Z_AXIS_STEPS_PER_UNIT)
    (L := 40 * L * (1 - 1 / 10 ^ 7) * 1600) (by linarith)
    (by norm_num [Z_AXIS_STEPS_PER_UNIT]; linarith)
  linarith

/-- Lower bound of the divisor of a period of the deceleration loop, for an
`acc_time` between the quantum and ten quanta. -/
theorem decel_divisor_lo {v q a : ℚ} (hq : 1 / 10 ^ 18 ≤ q) (hqa : q ≤ a)
    (ha : a ≤ 10 * q * (1 + 1 / 500000)) (hv : 3999 / 10 * q ≤ v) :
    1600 * (v - 360001 / 1000 * q) * (1 - 3 / 10 ^ 7) ≤ decel_divisor v q a := by
  unfold decel_divisor
  have u1 := rnd_up (x := a - q) (B := 10 * q * (1 + 1 / 500000) - q) (by linarith)
    (by linarith) (by linarith)
  have n1 : 0 ≤ rnd (a - q) := rnd_nonneg (by linarith)
  have u2 := rnd_up (x := ACCELERATION * rnd (a - q))
    (B := 40 * ((10 * q * (1 + 1 / 500000) - q) * (1 + 1 / 10 ^ 7)))
    (mul_nonneg (by norm_num [ACCELERATION]) n1) (by norm_num [ACCELERATION]; linarith)
    (by linarith)
  have l3 := rnd_lo (x := v - rnd (ACCELERATION * rnd (a - q)))
    (L := v - 360001 / 1000 * q) (by linarith) (by linarith)
  have l4 := rnd_lo
    (x := rnd (v - rnd (ACCELERATION * rnd (a - q))) * Z_AXIS_STEPS_PER_UNIT)
    (L := (v - 360001 / 1000 * q) * (1 - 1 / 10 ^ 7) * 1600) (by linarith)
    (by norm_num [Z_AXIS_STEPS_PER_UNIT]; linarith)
  linarith

/-- Every divisor of the twenty step periods is at least 63800 quanta, when the
quantum is in the normal range and the starting speed of the deceleration is
at least 399.9 quanta. -/
theorem divisors_lower {v q : ℚ} (hq : 1 / 10 ^ 18 ≤ q) (hv : 3999 / 10 * q ≤ v) (i : Nat)
    (hi : i < 10) :
    63800 * q ≤ accel_divisor (acc_time_at q i) ∧
    63800 * q ≤ decel_divisor v q (acc_time_at q i) := by
  obtain ⟨hlo, hup⟩ := acc_time_at_bounds hq i (by omega)
  have hic : (i : ℚ) ≤ 9 := by
    have : i ≤ 9 := by omega
    exact_mod_cast this
  have hic0 : (0 : ℚ) ≤ i := Nat.cast_nonneg i
  have hq0 : 0 ≤ q := le_trans (by norm_num) hq
  have hiq : 0 ≤ (i : ℚ) * q := mul_nonneg hic0 hq0
  have hiq9 : (i : ℚ) * q ≤ 9 * q := mul_le_mul_of_nonneg_right hic hq0
  have hqa : q ≤ acc_time_at q i := by
    cases i with
    | zero => simp [acc_time_at]
    | succ k =>
      have hk : (1 : ℚ) ≤ ((k + 1 : ℕ) : ℚ) := by
        have : 1 ≤ k + 1 := by omega
        exact_mod_cast this
      have : q ≤ ((k + 1 : ℕ) : ℚ) * q := by nlinarith
      nlinarith
  have ha : acc_time_at q i ≤ 10 * q * (1 + 1 / 500000) := by nlinarith
  constructor
  · have h := accel_divisor_lo (a := acc_time_at q i) (L := q) (by linarith) hqa
    linarith
  · have h := decel_divisor_lo hq hqa ha hv
    linarith

/-- The quantum and the starting speed of the deceleration in the trapezoid
branch. -/
theorem trapezoid_quantum_velocity {s S : ℚ} (hS : 1 / 10 ^ 15 ≤ S) (hs : S ≤ s) :
    S / 401 ≤ rnd (rnd (s / ACCELERATION) / 10) ∧
    3999 / 10 * rnd (rnd (s / ACCELERATION) / 10) ≤ s ∧
    s ≤ 4001 / 10 * rnd (rnd (s / ACCELERATION) / 10) := by
  obtain ⟨h1, h2⟩ := trapezoid_quantum_bounds (le_trans hS hs)
  refine ⟨by linarith, by linarith, by linarith⟩

/-- The quantum and the starting speed of the deceleration from an
`acc_dec_time` of the normal range (lines 360 and 362). -/
theorem triangle_quantum_velocity {t T : ℚ} (hT : 1 / 10 ^ 16 ≤ T) (ht : T ≤ t) :
    T / 11 ≤ rnd (t / 10) ∧
    3999 / 10 * rnd (t / 10) ≤ rnd (ACCELERATION * t) ∧
    rnd (ACCELERATION * t) ≤ 4001 / 10 * rnd (t / 10) := by
  have ht0 : 1 / 10 ^ 16 ≤ t := le_trans hT ht
  have l1 := rnd_lo (x := t / 10) (L := t / 10) (by linarith) (le_refl _)
  have u1 := rnd_up (x := t / 10) (B := t / 10) (by linarith) (le_refl _) (by linarith)
  have l2 := rnd_lo (x := ACCELERATION * t) (L := 40 * t) (by linarith)
    (by norm_num [ACCELERATION])
  have u2 := rnd_up (x := ACCELERATION * t) (B := 40 * t)
    (by norm_num [ACCELERATION]; linarith) (by norm_num [ACCELERATION]) (by linarith)
  refine ⟨by linarith, by linarith, by linarith⟩

/-- A lower bound of `acc_dec_time` in the triangular branch from the accuracy
of `sqrt` at the rounded quotient `length / ACCELERATION`. -/
theorem triangle_time_lower (E : Env) {L L0 T : ℚ} (hL0 : 1 / 10 ^ 31 ≤ L0) (hL : L0 ≤ L)
    (hT : 1 / 10 ^ 16 ≤ T) (hTL : T * T * 41 ≤ L0)
    (hs0 : 0 ≤ E.sqrt (rnd (L / ACCELERATION)))
    (hs1 : rnd (L / ACCELERATION) * (1 - 1 / 500)
      ≤ E.sqrt (rnd (L / ACCELERATION)) ^ 2) :
    T * (1 - 1 / 10 ^ 7) ≤ rnd (E.sqrt (rnd (L / ACCELERATION))) := by
  have hx := rnd_lo (x := L / ACCELERATION) (L := L0 / 40) (by linarith)
    (by norm_num [ACCELERATION]; linarith)
  have hT0 : 0 ≤ T := le_trans (by norm_num) hT
  have hTT : T * T ≤ E.sqrt (rnd (L / ACCELERATION)) * E.sqrt (rnd (L / ACCELERATION)) := by
    have : T * T ≤ rnd (L / ACCELERATION) * (1 - 1 / 500) := by nlinarith
    calc T * T ≤ rnd (L / ACCELERATION) * (1 - 1 / 500) := this
      _ ≤ E.sqrt (rnd (L / ACCELERATION)) ^ 2 := hs1
      _ = _ := sq _
  have hle : T ≤ E.sqrt (rnd (L / ACCELERATION)) :=
    (mul_self_le_mul_self_iff hT0 hs0).mpr hTT
  exact rnd_lo (by linarith) hle

/-- The quantum of either branch is at least `Q`, and the starting speed of the
deceleration is within one part in 4000 of 400 quanta, for a speed of at least
`S0` and a distance of at least `L0`, when `Q <= S0 / 401`, `Q <= T / 12` and
`41 * T * T <= L0`. -/
theorem quantum_velocity_bounds (E : Env) (P : Platform) (L speed S0 L0 T Q : ℚ)
    (hS0 : 1 / 10 ^ 15 ≤ S0) (hs : S0 ≤ speed) (hL0 : 1 / 10 ^ 31 ≤ L0) (hL : L0 ≤ L)
    (hT : 11 / 10 ^ 17 ≤ T) (hTL : T * T * 41 ≤ L0) (hQ1 : Q ≤ S0 / 401) (hQ2 : Q ≤ T / 12)
    (hsqrt : takes_trapezoid P L speed = false →
      0 ≤ E.sqrt (rnd (L / ACCELERATION)) ∧
      rnd (L / ACCELERATION) * (1 - 1 / 500) ≤ E.sqrt (rnd (L / ACCELERATION)) ^ 2) :
    Q ≤ quantum_of E P L speed ∧
    3999 / 10 * quantum_of E P L speed ≤ velocity_of E P L speed ∧
    velocity_of E P L speed ≤ 4001 / 10 * quantum_of E P L speed := by
  by_cases hb : takes_trapezoid P L speed = true
  · simp only [quantum_of, velocity_of, hb, if_true]
    obtain ⟨h1, h2, h3⟩ := trapezoid_quantum_velocity hS0 hs
    exact ⟨by linarith, h2, h3⟩
  · have hb2 : takes_trapezoid P L speed = false := by simpa using hb
    obtain ⟨hs0, hs1⟩ := hsqrt hb2
    simp only [quantum_of, velocity_of, hb2, Bool.false_eq_true, if_false]
    have ht := triangle_time_lower E hL0 hL (by linarith) hTL hs0 hs1
    have hT' : (1 : ℚ) / 10 ^ 16 ≤ T * (1 - 1 / 10 ^ 7) := by linarith
    obtain ⟨h1, h2, h3⟩ := triangle_quantum_velocity hT' ht
    exact ⟨by linarith, h2, h3⟩

end DualExtruder.InBinary32

/-! ## A short move: `DoBlockingMoveToZ(3/8, 9)` takes the triangular branch -/

namespace DualExtruder.InBinary32

theorem stepps_sum_of_short : stepps_sum_of sample_platform |(3 / 8 : ℚ)| = 600 := by
  have habs : |(3 / 8 : ℚ)| = 3 / 8 := abs_of_pos (by norm_num)
  have e2 : Binary32.rnd (1600 * (3 / 8)) = 600 := by
    rw [rnd_eval (9) (by norm_num [abs_of_pos]) (by norm_num [abs_of_pos])]
    norm_num [Binary32.roundEven]
  simp only [stepps_sum_of, Z_AXIS_STEPS_PER_UNIT]
  rw [habs, e2]
  exact f2u_eval sample_platform 600 (by norm_num) (by norm_num) (by norm_num)

theorem takes_trapezoid_short : takes_trapezoid sample_platform |(3 / 8 : ℚ)| 9 = false := by
  have h : ¬ (takes_trapezoid sample_platform |(3 / 8 : ℚ)| 9 = true) := by
    rw [takes_trapezoid_iff_rounded, acc_dec_stepps_of_sample, stepps_sum_of_short]
    decide
  simpa using h

theorem rnd_short_quotient :
    rnd (|(3 / 8 : ℚ)| / ACCELERATION) = 5033165 / 536870912 := by
  have habs : |(3 / 8 : ℚ)| = 3 / 8 := abs_of_pos (by norm_num)
  have e1 : Binary32.rnd (3 / 8 / 40) = (5033165 / 536870912) := by
    rw [rnd_eval (-7) (by norm_num [abs_of_pos]) (by norm_num [abs_of_pos])]
    norm_num [Binary32.roundEven]
  rw [habs]
  simp only [ACCELERATION]
  exact e1

theorem sample_sqrt_short :
    sample_env.sqrt (rnd (|(3 / 8 : ℚ)| / ACCELERATION)) = 96824 / 1000000 := by
  have he : sample_env.sqrt = sample_sqrt := rfl
  rw [rnd_short_quotient, he]
  unfold sample_sqrt
  have hf : Int.toNat ⌊(5033165 / 536870912 : ℚ) * 1000000000000⌋ = 9375000372 := by
    have : ⌊(5033165 / 536870912 : ℚ) * 1000000000000⌋ = 9375000372 := by
      rw [Int.floor_eq_iff]
      constructor <;> norm_num
    rw [this]
    rfl
  have hs : Nat.sqrt 9375000372 = 96824 :=
    (Nat.eq_sqrt.mpr ⟨by norm_num, by norm_num⟩).symm
  rw [hf, hs]
  norm_num

/-- The accuracy that the statements ask of `sqrt`, for the sample environment
at the short move. -/
theorem sample_sqrt_short_accurate :
    0 ≤ sample_env.sqrt (rnd (|(3 / 8 : ℚ)| / ACCELERATION)) ∧
    rnd (|(3 / 8 : ℚ)| / ACCELERATION) * (1 - 1 / 500)
      ≤ sample_env.sqrt (rnd (|(3 / 8 : ℚ)| / ACCELERATION)) ^ 2 ∧
    sample_env.sqrt (rnd (|(3 / 8 : ℚ)| / ACCELERATION)) ^ 2
      ≤ rnd (|(3 / 8 : ℚ)| / ACCELERATION) * (1 + 1 / 500) := by
  rw [sample_sqrt_short, rnd_short_quotient]
  norm_num

/-- A period whose divisor is at least 15.886 is below `2 ^ 16`. -/
theorem period_lt_of_divisor_ge (P : Platform) {dv : ℚ} (h : 15886 / 1000 ≤ dv) :
    period P dv < 65536 := by
  have hdv : 0 < dv := lt_of_lt_of_le (by norm_num) h
  have hne : dv ≠ 0 := ne_of_gt hdv
  simp only [period, hne, if_false]
  have hx0 : (0 : ℚ) ≤ 1000000 / dv := le_of_lt (div_pos (by norm_num) hdv)
  have hx : (1000000 : ℚ) / dv ≤ 62949 := by
    rw [div_le_iff₀ hdv]
    linarith
  have hr := rnd_up hx0 hx (by norm_num)
  have hr0 := rnd_nonneg hx0
  have hlt : rnd (1000000 / dv) < 65536 := by
    norm_num at hr
    linarith
  have hle := f2u_le P hr0 (by linarith)
  have h2 : ((f2u P (rnd (1000000 / dv)) : ℕ) : ℚ) < ((65536 : ℕ) : ℚ) := by
    push_cast
    linarith
  exact_mod_cast h2

theorem period_of_ne_zero (P : Platform) {dv : ℚ} (h : dv ≠ 0) :
    period P dv = f2u P (rnd (1000000 / dv)) := by
  simp [period, h]

end DualExtruder.InBinary32

/-! ## C21: the divisors of the step periods are positive -/

/-- C24 (as amended): for every move with a speed between 0.1 and 8192 and a
distance of magnitude between 0.001 and `2 ^ 20`, with a `sqrt` whose square is
within one part in 500 of its argument where the triangular branch calls it,
each of the 20 `timer_time` values computed in binary32 is below 65536, so
`StepperTimerStart` programs it unchanged; in particular the timer is started
with `segment[0].timer_time`. -/
theorem C24_periods_fit_the_timer (E : Env) (P : Binary32.Platform) (s x : DualExtruder)
    (d speed : ℚ) (hidle : s.motor_state_ = 0)
    (hspeed : 1 / 10 ≤ speed) (_hspeed2 : speed ≤ 8192)
    (hdist : 1 / 1000 ≤ |d|) (_hdist2 : |d| ≤ 1048576)
    (hsqrt : InBinary32.takes_trapezoid P |d| speed = false →
      0 ≤ E.sqrt (Binary32.rnd (|d| / ACCELERATION)) ∧
      Binary32.rnd (|d| / ACCELERATION) * (1 - 1 / 500)
        ≤ E.sqrt (Binary32.rnd (|d| / ACCELERATION)) ^ 2)
    (j : Nat) (hj : j < 20) :
    ((InBinary32.DoBlockingMoveToZ E P s d speed).speed_ctrl_buffer_ j).timer_time < 65536 ∧
    (StepperTimerStart x
        ((InBinary32.DoBlockingMoveToZ E P s d speed).speed_ctrl_buffer_ j).timer_time).stepper_timer
      = some ((InBinary32.DoBlockingMoveToZ E P s d speed).speed_ctrl_buffer_ j).timer_time ∧
    (InBinary32.DoBlockingMoveToZ E P s d speed).stepper_timer
      = some ((InBinary32.DoBlockingMoveToZ E P s d speed).speed_ctrl_buffer_ 0).timer_time := by
  obtain ⟨hq, hv, _⟩ := InBinary32.quantum_velocity_bounds E P |d| speed
    (1 / 10) (1 / 1000) (49 / 10000) (249 / 10 ^ 6)
    (by norm_num) hspeed (by norm_num) hdist (by norm_num) (by norm_num) (by norm_num)
    (by norm_num) hsqrt
  have hq18 : (1 : ℚ) / 10 ^ 18 ≤ InBinary32.quantum_of E P |d| speed := by linarith
  have hall : ∀ k, k < 20 →
      ((InBinary32.DoBlockingMoveToZ E P s d speed).speed_ctrl_buffer_ k).timer_time
        < 65536 := by
    intro k hk
    by_cases hk10 : k < 10
    · obtain ⟨ha, _⟩ := InBinary32.divisors_lower hq18 hv k hk10
      obtain ⟨ht1, _⟩ := InBinary32.DoBlockingMoveToZ_timer E P s d speed hidle k hk10
      rw [ht1]
      exact InBinary32.period_lt_of_divisor_ge P (by linarith)
    · obtain ⟨_, hd⟩ := InBinary32.divisors_lower hq18 hv (k - 10) (by omega)
      obtain ⟨_, ht2⟩ := InBinary32.DoBlockingMoveToZ_timer E P s d speed hidle (k - 10)
        (by omega)
      have hk2 : 10 + (k - 10) = k := by omega
      rw [hk2] at ht2
      rw [ht2]
      exact InBinary32.period_lt_of_divisor_ge P (by linarith)
  obtain ⟨_, _, _, htimer⟩ := InBinary32.DoBlockingMoveToZ_fields E P s d speed hidle
  refine ⟨hall j hj, ?_, ?_⟩
  · simp only [StepperTimerStart]
    rw [Nat.mod_eq_of_lt (hall j hj)]
  · rw [htimer, Nat.mod_eq_of_lt (hall 0 (by norm_num))]

theorem C24_periods_fit_the_timer_witness :
    sample_state.motor_state_ = 0 ∧ (1 / 10 : ℚ) ≤ 9 ∧ (9 : ℚ) ≤ 8192 ∧
    (1 / 1000 : ℚ) ≤ |(3 / 8 : ℚ)| ∧ |(3 / 8 : ℚ)| ≤ 1048576 ∧
    InBinary32.takes_trapezoid sample_platform |(3 / 8 : ℚ)| 9 = false ∧
    0 ≤ sample_env.sqrt (Binary32.rnd (|(3 / 8 : ℚ)| / ACCELERATION)) ∧
    Binary32.rnd (|(3 / 8 : ℚ)| / ACCELERATION) * (1 - 1 / 500)
      ≤ sample_env.sqrt (Binary32.rnd (|(3 / 8 : ℚ)| / ACCELERATION)) ^ 2 ∧
    ((InBinary32.DoBlockingMoveToZ sample_env sample_platform sample_state (3 / 8)
        9).speed_ctrl_buffer_ 19).timer_time < 65536 ∧
    (InBinary32.DoBlockingMoveToZ sample_env sample_platform sample_state (3 / 8) 9).stepper_timer
      = some ((InBinary32.DoBlockingMoveToZ sample_env sample_platform sample_state (3 / 8)
          9).speed_ctrl_buffer_ 0).timer_time := by
  have habs : |(3 / 8 : ℚ)| = 3 / 8 := abs_of_pos (by norm_num)
  have hd1 : (1 / 1000 : ℚ) ≤ |(3 / 8 : ℚ)| := by
    rw [habs]
    norm_num
  have hd2 : |(3 / 8 : ℚ)| ≤ 1048576 := by
    rw [habs]
    norm_num
  have hsq := InBinary32.sample_sqrt_short_accurate
  have h := C24_periods_fit_the_timer sample_env sample_platform sample_state sample_state
    (3 / 8) 9 (by decide) (by norm_num) (by norm_num) hd1 hd2 (fun _ => ⟨hsq.1, hsq.2.1⟩) 19
    (by norm_num)
  exact ⟨by decide, by norm_num, by norm_num, hd1, hd2, InBinary32.takes_trapezoid_short,
    hsq.1, hsq.2.1, h.1, h.2.2⟩

/-- C24, counterexample to the claim as stated: for the distance 5 and the
speed 131/1024 (about 0.128, above 0.1) `DoBlockingMoveToZ` takes the
trapezoid branch and stores the period 48854 in `segment[0]` and the larger
period 48855 in `segment[19]`: the first period is not the largest. -/
theorem C24_counterexample_last_period_exceeds_first :
    (1 / 10 : ℚ) ≤ 131 / 1024 ∧ (1 / 1000 : ℚ) ≤ |(5 : ℚ)| ∧
    sample_state.motor_state_ = 0 ∧
    InBinary32.takes_trapezoid sample_platform |(5 : ℚ)| (131 / 1024) = true ∧
    ((InBinary32.DoBlockingMoveToZ sample_env sample_platform sample_state 5
        (131 / 1024)).speed_ctrl_buffer_ 0).timer_time = 48854 ∧
    ((InBinary32.DoBlockingMoveToZ sample_env sample_platform sample_state 5
        (131 / 1024)).speed_ctrl_buffer_ 19).timer_time = 48855 := by
  have hidle : sample_state.motor_state_ = 0 := by decide
  have e1 : Binary32.rnd ((131 / 1024) * (131 / 1024)) = (17161 / 1048576) := by
    rw [rnd_eval (-6) (by norm_num [abs_of_pos]) (by norm_num [abs_of_pos])]
    norm_num [Binary32.roundEven]
  have e2 : Binary32.rnd ((17161 / 1048576) / (2 * 40)) = (14058291 / 68719476736) := by
    rw [rnd_eval (-13) (by norm_num [abs_of_pos]) (by norm_num [abs_of_pos])]
    norm_num [Binary32.roundEven]
  have e3 : Binary32.rnd ((14058291 / 68719476736) * 1600) = (85805 / 262144) := by
    rw [rnd_eval (-2) (by norm_num [abs_of_pos]) (by norm_num [abs_of_pos])]
    norm_num [Binary32.roundEven]
  have e4 : Binary32.rnd ((131 / 1024) / 40) = (6868173 / 2147483648) := by
    rw [rnd_eval (-9) (by norm_num [abs_of_pos]) (by norm_num [abs_of_pos])]
    norm_num [Binary32.roundEven]
  have e5 : Binary32.rnd ((6868173 / 2147483648) / 10) = (10989077 / 34359738368) := by
    rw [rnd_eval (-12) (by norm_num [abs_of_pos]) (by norm_num [abs_of_pos])]
    norm_num [Binary32.roundEven]
  have e6 : Binary32.rnd ((10989077 / 34359738368) + (10989077 / 34359738368)) = (10989077 / 17179869184) := by
    rw [rnd_eval (-11) (by norm_num [abs_of_pos]) (by norm_num [abs_of_pos])]
    norm_num [Binary32.roundEven]
  have e7 : Binary32.rnd ((10989077 / 17179869184) + (10989077 / 34359738368)) = (515113 / 536870912) := by
    rw [rnd_eval (-11) (by norm_num [abs_of_pos]) (by norm_num [abs_of_pos])]
    norm_num [Binary32.roundEven]
  have e8 : Binary32.rnd ((515113 / 536870912) + (10989077 / 34359738368)) = (10989077 / 8589934592) := by
    rw [rnd_eval (-10) (by norm_num [abs_of_pos]) (by norm_num [abs_of_pos])]
    norm_num [Binary32.roundEven]
  have e9 : Binary32.rnd ((10989077 / 8589934592) + (10989077 / 34359738368)) = (6868173 / 4294967296) := by
    rw [rnd_eval (-10) (by norm_num [abs_of_pos]) (by norm_num [abs_of_pos])]
    norm_num [Binary32.roundEven]
  have e10 : Binary32.rnd ((6868173 / 4294967296) + (10989077 / 34359738368)) = (16483615 / 8589934592) := by
    rw [rnd_eval (-10) (by norm_num [abs_of_pos]) (by norm_num [abs_of_pos])]
    norm_num [Binary32.roundEven]
  have e11 : Binary32.rnd ((16483615 / 8589934592) + (10989077 / 34359738368)) = (4807721 / 2147483648) := by
    rw [rnd_eval (-9) (by norm_num [abs_of_pos]) (by norm_num [abs_of_pos])]
    norm_num [Binary32.roundEven]
  have e12 : Binary32.rnd ((4807721 / 2147483648) + (10989077 / 34359738368)) = (10989077 / 4294967296) := by
    rw [rnd_eval (-9) (by norm_num [abs_of_pos]) (by norm_num [abs_of_pos])]
    norm_num [Binary32.roundEven]
  have e13 : Binary32.rnd ((10989077 / 4294967296) + (10989077 / 34359738368)) = (1545339 / 536870912) := by
    rw [rnd_eval (-9) (by norm_num [abs_of_pos]) (by norm_num [abs_of_pos])]
    norm_num [Binary32.roundEven]
  have e14 : Binary32.rnd ((1545339 / 536870912) + (10989077 / 34359738368)) = (13736347 / 4294967296) := by
    rw [rnd_eval (-9) (by norm_num [abs_of_pos]) (by norm_num [abs_of_pos])]
    norm_num [Binary32.roundEven]
  have e15 : Binary32.rnd (40 * (10989077 / 34359738368)) = (6868173 / 536870912) := by
    rw [rnd_eval (-7) (by norm_num [abs_of_pos]) (by norm_num [abs_of_pos])]
    norm_num [Binary32.roundEven]
  have e16 : Binary32.rnd ((6868173 / 536870912) * 1600) = (655 / 32) := by
    rw [rnd_eval (4) (by norm_num [abs_of_pos]) (by norm_num [abs_of_pos])]
    norm_num [Binary32.roundEven]
  have e17 : Binary32.rnd (1000000 / (655 / 32)) = (6253435 / 128) := by
    rw [rnd_eval (15) (by norm_num [abs_of_pos]) (by norm_num [abs_of_pos])]
    norm_num [Binary32.roundEven]
  have e18 : Binary32.rnd ((13736347 / 4294967296) - (10989077 / 34359738368)) = (1545339 / 536870912) := by
    rw [rnd_eval (-9) (by norm_num [abs_of_pos]) (by norm_num [abs_of_pos])]
    norm_num [Binary32.roundEven]
  have e19 : Binary32.rnd (40 * (1545339 / 536870912)) = (7726695 / 67108864) := by
    rw [rnd_eval (-4) (by norm_num [abs_of_pos]) (by norm_num [abs_of_pos])]
    norm_num [Binary32.roundEven]
  have e20 : Binary32.rnd ((131 / 1024) - (7726695 / 67108864)) = (858521 / 67108864) := by
    rw [rnd_eval (-7) (by norm_num [abs_of_pos]) (by norm_num [abs_of_pos])]
    norm_num [Binary32.roundEven]
  have e21 : Binary32.rnd ((858521 / 67108864) * 1600) = (1341439 / 65536) := by
    rw [rnd_eval (4) (by norm_num [abs_of_pos]) (by norm_num [abs_of_pos])]
    norm_num [Binary32.roundEven]
  have e22 : Binary32.rnd (1000000 / (1341439 / 65536)) = 48855 := by
    rw [rnd_eval (15) (by norm_num [abs_of_pos]) (by norm_num [abs_of_pos])]
    norm_num [Binary32.roundEven]
  have hacc : InBinary32.acc_dec_stepps_of sample_platform (131 / 1024) = 0 := by
    simp only [InBinary32.acc_dec_stepps_of, ACCELERATION, Z_AXIS_STEPS_PER_UNIT]
    rw [e1, e2, e3]
    exact InBinary32.f2u_eval sample_platform 0 (by norm_num) (by norm_num) (by norm_num)
  have hb : InBinary32.takes_trapezoid sample_platform |(5 : ℚ)| (131 / 1024) = true := by
    rw [InBinary32.takes_trapezoid_iff_rounded, hacc, InBinary32.stepps_sum_of_sample]
    decide
  have hq : InBinary32.quantum_of sample_env sample_platform |(5 : ℚ)| (131 / 1024)
      = 10989077 / 34359738368 := by
    simp only [InBinary32.quantum_of, hb, if_true, ACCELERATION]
    rw [e4, e5]
  have hv : InBinary32.velocity_of sample_env sample_platform |(5 : ℚ)| (131 / 1024)
      = 131 / 1024 := by
    simp only [InBinary32.velocity_of, hb, if_true]
  have a0 : InBinary32.acc_time_at (10989077 / 34359738368) 0 = (10989077 / 34359738368) := rfl
  have a1 : InBinary32.acc_time_at (10989077 / 34359738368) 1 = (10989077 / 17179869184) := by
    rw [show (1 : ℕ) = 0 + 1 from rfl, InBinary32.acc_time_at_succ, a0, e6]
  have a2 : InBinary32.acc_time_at (10989077 / 34359738368) 2 = (515113 / 536870912) := by
    rw [show (2 : ℕ) = 1 + 1 from rfl, InBinary32.acc_time_at_succ, a1, e7]
  have a3 : InBinary32.acc_time_at (10989077 / 34359738368) 3 = (10989077 / 8589934592) := by
    rw [show (3 : ℕ) = 2 + 1 from rfl, InBinary32.acc_time_at_succ, a2, e8]
  have a4 : InBinary32.acc_time_at (10989077 / 34359738368) 4 = (6868173 / 4294967296) := by
    rw [show (4 : ℕ) = 3 + 1 from rfl, InBinary32.acc_time_at_succ, a3, e9]
  have a5 : InBinary32.acc_time_at (10989077 / 34359738368) 5 = (16483615 / 8589934592) := by
    rw [show (5 : ℕ) = 4 + 1 from rfl, InBinary32.acc_time_at_succ, a4, e10]
  have a6 : InBinary32.acc_time_at (10989077 / 34359738368) 6 = (4807721 / 2147483648) := by
    rw [show (6 : ℕ) = 5 + 1 from rfl, InBinary32.acc_time_at_succ, a5, e11]
  have a7 : InBinary32.acc_time_at (10989077 / 34359738368) 7 = (10989077 / 4294967296) := by
    rw [show (7 : ℕ) = 6 + 1 from rfl, InBinary32.acc_time_at_succ, a6, e12]
  have a8 : InBinary32.acc_time_at (10989077 / 34359738368) 8 = (1545339 / 536870912) := by
    rw [show (8 : ℕ) = 7 + 1 from rfl, InBinary32.acc_time_at_succ, a7, e13]
  have a9 : InBinary32.acc_time_at (10989077 / 34359738368) 9 = (13736347 / 4294967296) := by
    rw [show (9 : ℕ) = 8 + 1 from rfl, InBinary32.acc_time_at_succ, a8, e14]
  have hd0 : InBinary32.accel_divisor (10989077 / 34359738368) = 655 / 32 := by
    simp only [InBinary32.accel_divisor, ACCELERATION, Z_AXIS_STEPS_PER_UNIT]
    rw [e15, e16]
  have hd19 : InBinary32.decel_divisor (131 / 1024) (10989077 / 34359738368)
      (13736347 / 4294967296) = 1341439 / 65536 := by
    simp only [InBinary32.decel_divisor, ACCELERATION, Z_AXIS_STEPS_PER_UNIT]
    rw [e18, e19, e20, e21]
  have hp0 : Binary32.period sample_platform (655 / 32) = 48854 := by
    rw [InBinary32.period_of_ne_zero sample_platform (by norm_num), e17]
    exact InBinary32.f2u_eval sample_platform 48854 (by norm_num) (by norm_num) (by norm_num)
  have hp19 : Binary32.period sample_platform (1341439 / 65536) = 48855 := by
    rw [InBinary32.period_of_ne_zero sample_platform (by norm_num), e22]
    exact InBinary32.f2u_eval sample_platform 48855 (by norm_num) (by norm_num) (by norm_num)
  obtain ⟨ht0, _⟩ :=
    InBinary32.DoBlockingMoveToZ_timer sample_env sample_platform sample_state 5 (131 / 1024)
      hidle 0 (by norm_num)
  obtain ⟨_, ht19⟩ :=
    InBinary32.DoBlockingMoveToZ_timer sample_env sample_platform sample_state 5 (131 / 1024)
      hidle 9 (by norm_num)
  rw [hq, a0, hd0, hp0] at ht0
  rw [hq, hv, a9, hd19, hp19] at ht19
  refine ⟨by norm_num, ?_, hidle, hb, ht0, ht19⟩
  rw [abs_of_pos (by norm_num)]
  norm_num

/-- Below the normal range of binary32 a distance other than 0 has the same
effect as the distance 0: for the smallest positive binary32 number `2 ^ -149`
and the speed 9 the quotient `length / ACCELERATION` underflows to 0, the
triangular branch is taken with `acc_dec_time_quantum = 0`, and the first
divisor of the acceleration loop is 0. -/
theorem underflow_makes_the_quantum_zero :
    InBinary32.takes_trapezoid sample_platform |(1 / 2 ^ 149 : ℚ)| 9 = false ∧
    InBinary32.quantum_of sample_env sample_platform |(1 / 2 ^ 149 : ℚ)| 9 = 0 ∧
    InBinary32.accel_divisor (InBinary32.acc_time_at
      (InBinary32.quantum_of sample_env sample_platform |(1 / 2 ^ 149 : ℚ)| 9) 0) = 0 := by
  have habs : |(1 / 2 ^ 149 : ℚ)| = 1 / 2 ^ 149 := abs_of_pos (by norm_num)
  have e1 : Binary32.rnd (1 / 2 ^ 149 / 40) = 0 := by
    rw [rnd_eval (-155) (by norm_num [abs_of_pos]) (by norm_num [abs_of_pos])]
    norm_num [Binary32.roundEven]
  have e2 : Binary32.rnd (1600 * (1 / 2 ^ 149)) = 1600 * (1 / 2 ^ 149) := by
    rw [rnd_eval (-139) (by norm_num [abs_of_pos]) (by norm_num [abs_of_pos])]
    norm_num [Binary32.roundEven]
  have hsum : InBinary32.stepps_sum_of sample_platform |(1 / 2 ^ 149 : ℚ)| = 0 := by
    simp only [InBinary32.stepps_sum_of, Z_AXIS_STEPS_PER_UNIT]
    rw [habs, e2]
    exact InBinary32.f2u_eval sample_platform 0 (by norm_num) (by norm_num) (by norm_num)
  have hb : InBinary32.takes_trapezoid sample_platform |(1 / 2 ^ 149 : ℚ)| 9 = false := by
    have h : ¬ (InBinary32.takes_trapezoid sample_platform |(1 / 2 ^ 149 : ℚ)| 9 = true) := by
      rw [InBinary32.takes_trapezoid_iff_rounded, InBinary32.acc_dec_stepps_of_sample, hsum]
      decide
    simpa using h
  have he : sample_env.sqrt = sample_sqrt := rfl
  have hq : InBinary32.quantum_of sample_env sample_platform |(1 / 2 ^ 149 : ℚ)| 9 = 0 := by
    simp only [InBinary32.quantum_of, hb, Bool.false_eq_true, if_false, ACCELERATION]
    rw [habs, e1, he, sample_sqrt_zero, rnd_zero, zero_div, rnd_zero]
  refine ⟨hb, hq, ?_⟩
  rw [hq]
  have ha : InBinary32.acc_time_at (0 : ℚ) 0 = 0 := rfl
  rw [ha]
  simp only [InBinary32.accel_divisor, mul_zero, rnd_zero, zero_mul]

/-! ## The thresholds of the deceleration loop -/

namespace DualExtruder.InBinary32

/-- The two terms of the increment of the deceleration loop, `v * acc_time` and
`ACCELERATION * (acc_time * acc_time) / 2`, in binary32. -/
theorem decel_core_bounds {v a : ℚ} (hv : 1 / 10 ^ 18 ≤ v) (ha : 1 / 10 ^ 18 ≤ a) :
    v * a * (1 - 1 / 10 ^ 7) ≤ rnd (v * a) ∧ rnd (v * a) ≤ v * a * (1 + 1 / 10 ^ 7) ∧
    20 * (a * a) * (1 - 4 / 10 ^ 7) ≤ rnd (rnd (ACCELERATION * rnd (a * a)) / 2) ∧
    rnd (rnd (ACCELERATION * rnd (a * a)) / 2) ≤ 20 * (a * a) * (1 + 4 / 10 ^ 7) := by
  have hv0 : 0 ≤ v := le_trans (by norm_num) hv
  have ha0 : 0 ≤ a := le_trans (by norm_num) ha
  have hva : (1 : ℚ) / 10 ^ 36 ≤ v * a := by
    have h := mul_le_mul hv ha (by norm_num) hv0
    norm_num at h ⊢
    linarith
  have haa := sq_decimal ha
  have x1 := rnd_lo (x := v * a) (L := v * a) (by linarith) (le_refl _)
  have x2 := rnd_up (x := v * a) (B := v * a) (by linarith) (le_refl _) (by linarith)
  have l1 := rnd_lo (x := a * a) (L := a * a) (by linarith) (le_refl _)
  have u1 := rnd_up (x := a * a) (B := a * a) (by linarith) (le_refl _) (by linarith)
  have l2 := rnd_lo (x := ACCELERATION * rnd (a * a)) (L := 40 * (a * a * (1 - 1 / 10 ^ 7)))
    (by linarith) (by norm_num [ACCELERATION]; linarith)
  have u2 := rnd_up (x := ACCELERATION * rnd (a * a)) (B := 40 * (a * a * (1 + 1 / 10 ^ 7)))
    (by norm_num [ACCELERATION]; linarith) (by norm_num [ACCELERATION]; linarith) (by linarith)
  have l3 := rnd_lo (x := rnd (ACCELERATION * rnd (a * a)) / 2)
    (L := 40 * (a * a * (1 - 1 / 10 ^ 7)) * (1 - 1 / 10 ^ 7) / 2) (by linarith) (by linarith)
  have u3 := rnd_up (x := rnd (ACCELERATION * rnd (a * a)) / 2)
    (B := 40 * (a * a * (1 + 1 / 10 ^ 7)) * (1 + 1 / 10 ^ 7) / 2) (by linarith) (by linarith)
    (by linarith)
  refine ⟨x1, x2, by linarith, by linarith⟩

/-- The difference of the two terms is at least `18 * acc_time ^ 2` when the
starting speed is at least 39 times `acc_time`. -/
theorem decel_core_diff_lower {v a : ℚ} (ha : 1 / 10 ^ 18 ≤ a) (hva : 39 * a ≤ v) :
    18 * (a * a) ≤ rnd (v * a) - rnd (rnd (ACCELERATION * rnd (a * a)) / 2) := by
  have ha0 : 0 ≤ a := le_trans (by norm_num) ha
  have hv : 1 / 10 ^ 18 ≤ v := by linarith
  obtain ⟨x1, _, _, y2⟩ := decel_core_bounds hv ha
  have hp : 0 ≤ a * (v - 39 * a) := mul_nonneg ha0 (by linarith)
  have haa : 0 ≤ a * a := mul_nonneg ha0 ha0
  nlinarith

/-- The increment of the deceleration loop is not negative. -/
theorem decel_increment_nonneg {v a : ℚ} (ha : 1 / 10 ^ 18 ≤ a) (hva : 39 * a ≤ v) :
    0 ≤ decel_increment v a := by
  unfold decel_increment
  have ha0 : 0 ≤ a := le_trans (by norm_num) ha
  have h := decel_core_diff_lower ha hva
  have haa : 0 ≤ a * a := mul_nonneg ha0 ha0
  apply rnd_nonneg
  apply mul_nonneg _ (by norm_num [Z_AXIS_STEPS_PER_UNIT])
  apply rnd_nonneg
  linarith

/-- Upper bound of the increment of the deceleration loop. -/
theorem decel_increment_up {v a : ℚ} (ha : 1 / 10 ^ 18 ≤ a) (hva : 39 * a ≤ v) :
    decel_increment v a
      ≤ 1600 * (v * a * (1 + 1 / 10 ^ 7) - 20 * (a * a) * (1 - 4 / 10 ^ 7)) * (1 + 3 / 10 ^ 7) := by
  unfold decel_increment
  have ha0 : 0 ≤ a := le_trans (by norm_num) ha
  have hv : 1 / 10 ^ 18 ≤ v := by linarith
  obtain ⟨_, x2, y1, _⟩ := decel_core_bounds hv ha
  have hlow := decel_core_diff_lower ha hva
  have haa := sq_decimal ha
  have hz0 : 0 ≤ rnd (v * a) - rnd (rnd (ACCELERATION * rnd (a * a)) / 2) := by linarith
  have hB : (1 : ℚ) / 10 ^ 37
      ≤ v * a * (1 + 1 / 10 ^ 7) - 20 * (a * a) * (1 - 4 / 10 ^ 7) := by linarith
  have r1 := rnd_up hz0 (by linarith : rnd (v * a) - rnd (rnd (ACCELERATION * rnd (a * a)) / 2)
    ≤ v * a * (1 + 1 / 10 ^ 7) - 20 * (a * a) * (1 - 4 / 10 ^ 7)) hB
  have r1n := rnd_nonneg hz0
  have r2 := rnd_up
    (x := rnd (rnd (v * a) - rnd (rnd (ACCELERATION * rnd (a * a)) / 2)) * Z_AXIS_STEPS_PER_UNIT)
    (B := (v * a * (1 + 1 / 10 ^ 7) - 20 * (a * a) * (1 - 4 / 10 ^ 7)) * (1 + 1 / 10 ^ 7) * 1600)
    (mul_nonneg r1n (by norm_num [Z_AXIS_STEPS_PER_UNIT]))
    (by norm_num [Z_AXIS_STEPS_PER_UNIT]; linarith) (by linarith)
  have hBn : 0 ≤ v * a * (1 + 1 / 10 ^ 7) - 20 * (a * a) * (1 - 4 / 10 ^ 7) := by linarith
  nlinarith

/-- The increment of the deceleration loop grows from one round to the next, as
long as `acc_time` is at most 9.01 quanta. -/
theorem decel_increment_mono {v q a b : ℚ} (hq : 1 / 10 ^ 18 ≤ q) (hqa : q ≤ a)
    (hab : a + 99 / 100 * q ≤ b) (hb : b ≤ 901 / 100 * q) (hv1 : 3999 / 10 * q ≤ v)
    (hv2 : v ≤ 4001 / 10 * q) :
    decel_increment v a ≤ decel_increment v b := by
  unfold decel_increment
  have hq0 : 0 ≤ q := le_trans (by norm_num) hq
  have ha : 1 / 10 ^ 18 ≤ a := le_trans hq hqa
  have hb' : 1 / 10 ^ 18 ≤ b := by linarith
  have hv : 1 / 10 ^ 18 ≤ v := by linarith
  have ha0 : 0 ≤ a := le_trans hq0 hqa
  have hb0 : 0 ≤ b := by linarith
  have hv0 : 0 ≤ v := by linarith
  obtain ⟨_, xa2, ya1, _⟩ := decel_core_bounds hv ha
  obtain ⟨xb1, _, _, yb2⟩ := decel_core_bounds hv hb'
  have hza := decel_core_diff_lower ha (by linarith : 39 * a ≤ v)
  have haa : 0 ≤ a * a := mul_nonneg ha0 ha0
  have hqq : 0 ≤ q * q := mul_nonneg hq0 hq0
  -- products of the bounds
  have p1 : 0 ≤ (b - a - 99 / 100 * q) * (v - 20 * (a + b) - 59 * q) :=
    mul_nonneg (by linarith) (by linarith)
  have p2 : 0 ≤ q * (b - a - 99 / 100 * q) := mul_nonneg hq0 (by linarith)
  have p3 : 0 ≤ q * (v - 20 * (a + b) - 59 * q) := mul_nonneg hq0 (by linarith)
  have p4 : v * a ≤ (4001 / 10 * q) * (901 / 100 * q) :=
    mul_le_mul hv2 (by linarith) ha0 (by linarith)
  have p5 : v * b ≤ (4001 / 10 * q) * (901 / 100 * q) :=
    mul_le_mul hv2 hb hb0 (by linarith)
  have p6 : a * a ≤ (901 / 100 * q) * (901 / 100 * q) :=
    mul_le_mul (by linarith) (by linarith) ha0 (by linarith)
  have p7 : b * b ≤ (901 / 100 * q) * (901 / 100 * q) :=
    mul_le_mul hb hb hb0 (by linarith)
  have hz : rnd (v * a) - rnd (rnd (ACCELERATION * rnd (a * a)) / 2)
      ≤ rnd (v * b) - rnd (rnd (ACCELERATION * rnd (b * b)) / 2) := by
    nlinarith
  have hz0 : 0 ≤ rnd (v * a) - rnd (rnd (ACCELERATION * rnd (a * a)) / 2) := by linarith
  have r1 := rnd_mono hz0 hz
  have r1n := rnd_nonneg hz0
  exact rnd_mono (mul_nonneg r1n (by norm_num [Z_AXIS_STEPS_PER_UNIT]))
    (mul_le_mul_of_nonneg_right r1 (by norm_num [Z_AXIS_STEPS_PER_UNIT]))

/-- The number just below `n + 1` on the binary32 grid, for `n + 1 <= 2 ^ 17`. -/
theorem rnd_below_succ (n : Nat) (hn : n + 1 ≤ 131072) :
    rnd ((n : ℚ) + 1 - 1 / 128) = (n : ℚ) + 1 - 1 / 128 := by
  apply rnd_of_onGrid
  refine ⟨128 * (n + 1) - 1, -7, ?_, by norm_num, ?_⟩
  · norm_num
    omega
  · have h1 : (((128 * (n + 1) - 1 : ℕ)) : ℚ) = 128 * ((n : ℚ) + 1) - 1 := by
      have : 1 ≤ 128 * (n + 1) := by omega
      push_cast [Nat.cast_sub this]
      ring
    rw [h1]
    norm_num
    ring

/-- A threshold of the deceleration loop does not exceed `n` when the sum under
the conversion stays below `n + 1` by 1/128. -/
theorem f2u_rnd_le (P : Platform) {x : ℚ} (n : Nat) (hn : n + 1 ≤ 131072) (hx0 : 0 ≤ x)
    (hx : x ≤ (n : ℚ) + 1 - 1 / 128) : f2u P (rnd x) ≤ n := by
  have h1 := rnd_le_grid hx0 hx (rnd_below_succ n hn)
  have h0 := rnd_nonneg hx0
  have hn' : ((n : ℕ) : ℚ) + 1 ≤ 131072 := by exact_mod_cast hn
  have hle := f2u_le P h0 (by linarith)
  have h2 : ((f2u P (rnd x) : ℕ) : ℚ) < ((n + 1 : ℕ) : ℚ) := by
    push_cast
    linarith
  have h3 : f2u P (rnd x) < n + 1 := by exact_mod_cast h2
  omega

end DualExtruder.InBinary32

/-! ## The table is non-decreasing: the parts -/

namespace DualExtruder.InBinary32

/-- A table is non-decreasing when its three stretches are and they join. -/
theorem nonDecreasing_of_segments (buf : SpeedCtrlBuffer) (acc dcl : Nat → Nat) (N sum : Nat)
    (h1 : ∀ i, i < 9 → (buf i).pulse_count = acc i)
    (h2 : (buf 9).pulse_count = N)
    (h3 : ∀ i, i < 9 → (buf (10 + i)).pulse_count = dcl i)
    (h4 : (buf 19).pulse_count = sum)
    (hA : ∀ i, i < 8 → acc i ≤ acc (i + 1)) (hB : acc 8 ≤ N) (hC : N ≤ dcl 0)
    (hD : ∀ i, i < 8 → dcl i ≤ dcl (i + 1)) (hE : dcl 8 ≤ sum) :
    NonDecreasing buf := by
  intro i hi
  by_cases c1 : i < 8
  · rw [h1 i (by omega), h1 (i + 1) (by omega)]
    exact hA i c1
  · by_cases c2 : i = 8
    · subst c2
      rw [h1 8 (by omega), h2]
      exact hB
    · by_cases c3 : i = 9
      · subst c3
        rw [h2, show 9 + 1 = 10 + 0 from rfl, h3 0 (by omega)]
        exact hC
      · by_cases c4 : i = 18
        · subst c4
          rw [show 18 = 10 + 8 from rfl, h3 8 (by omega), show 10 + 8 + 1 = 19 from rfl, h4]
          exact hE
        · have e1 : i = 10 + (i - 10) := by omega
          have e2 : i + 1 = 10 + (i - 10 + 1) := by omega
          rw [e2, h3 (i - 10 + 1) (by omega)]
          rw [e1, h3 (i - 10) (by omega)]
          have := hD (i - 10) (by omega)
          simpa using this

theorem quantum_le_acc_time_at {q : ℚ} (hq : 1 / 10 ^ 18 ≤ q) (i : Nat) (hi : i ≤ 9) :
    q ≤ acc_time_at q i := by
  obtain ⟨hlo, _⟩ := acc_time_at_bounds hq i hi
  have hq0 : 0 ≤ q := le_trans (by norm_num) hq
  cases i with
  | zero => simp [acc_time_at]
  | succ k =>
    have hk : (1 : ℚ) ≤ ((k + 1 : ℕ) : ℚ) := by
      have : 1 ≤ k + 1 := by omega
      exact_mod_cast this
    have : q ≤ ((k + 1 : ℕ) : ℚ) * q := by nlinarith
    nlinarith

/-- The running `acc_time` grows by at least 0.99 quanta per round. -/
theorem acc_time_at_step {q : ℚ} (hq : 1 / 10 ^ 18 ≤ q) (i : Nat) (hi : i + 1 ≤ 9) :
    acc_time_at q i + 99 / 100 * q ≤ acc_time_at q (i + 1) := by
  have hq0 : 0 ≤ q := le_trans (by norm_num) hq
  obtain ⟨_, hup⟩ := acc_time_at_bounds hq i (by omega)
  have hqa := quantum_le_acc_time_at hq i (by omega)
  have hic : (i : ℚ) ≤ 8 := by
    have : i ≤ 8 := by omega
    exact_mod_cast this
  have hiq : (i : ℚ) * q ≤ 8 * q := mul_le_mul_of_nonneg_right hic hq0
  have h := rnd_lo (x := acc_time_at q i + q) (L := acc_time_at q i + q) (by linarith)
    (le_refl _)
  rw [acc_time_at_succ]
  nlinarith

/-- The thresholds of the deceleration loop in the normal range: they start at
`segment[9]`, never decrease, and end at most at `sum` when the last
increment leaves `segment[9]` below `sum + 1` by 1/128. -/
theorem decel_thresholds_mono (P : Platform) {v q : ℚ} (N sum : Nat) (hq : 1 / 10 ^ 18 ≤ q)
    (hv1 : 3999 / 10 * q ≤ v) (hv2 : v ≤ 4001 / 10 * q) (hN : N ≤ 16777216)
    (hsum : sum + 1 ≤ 131072)
    (hlast : (N : ℚ) + decel_increment v (acc_time_at q 8) ≤ (sum : ℚ) + 1 - 1 / 128) :
    N ≤ f2u P (rnd (rnd (N : ℚ) + decel_increment v (acc_time_at q 0))) ∧
    (∀ i, i < 8 →
      f2u P (rnd (rnd (N : ℚ) + decel_increment v (acc_time_at q i)))
        ≤ f2u P (rnd (rnd (N : ℚ) + decel_increment v (acc_time_at q (i + 1))))) ∧
    f2u P (rnd (rnd (N : ℚ) + decel_increment v (acc_time_at q 8))) ≤ sum := by
  have hq0 : 0 ≤ q := le_trans (by norm_num) hq
  have hrN : rnd (N : ℚ) = N := rnd_nat N (by norm_num; exact hN)
  have hN0 : (0 : ℚ) ≤ N := Nat.cast_nonneg N
  rw [hrN]
  -- the increments
  have hinc0 : ∀ i, i ≤ 8 → 0 ≤ decel_increment v (acc_time_at q i) := by
    intro i hi
    obtain ⟨_, hup⟩ := acc_time_at_bounds hq i (by omega)
    have hqa := quantum_le_acc_time_at hq i (by omega)
    have hic : (i : ℚ) ≤ 8 := by exact_mod_cast hi
    have hiq : (i : ℚ) * q ≤ 8 * q := mul_le_mul_of_nonneg_right hic hq0
    exact decel_increment_nonneg (le_trans hq hqa) (by nlinarith)
  have hincm : ∀ i, i < 8 →
      decel_increment v (acc_time_at q i) ≤ decel_increment v (acc_time_at q (i + 1)) := by
    intro i hi
    obtain ⟨_, hup⟩ := acc_time_at_bounds hq (i + 1) (by omega)
    have hic : ((i + 1 : ℕ) : ℚ) ≤ 8 := by
      have : i + 1 ≤ 8 := by omega
      exact_mod_cast this
    have hiq : ((i + 1 : ℕ) : ℚ) * q ≤ 8 * q := mul_le_mul_of_nonneg_right hic hq0
    exact decel_increment_mono hq (quantum_le_acc_time_at hq i (by omega))
      (acc_time_at_step hq i (by omega)) (by nlinarith) hv1 hv2
  have hle8 : ∀ i, i ≤ 8 →
      decel_increment v (acc_time_at q i) ≤ decel_increment v (acc_time_at q 8) := by
    intro i hi
    have key : ∀ k, k ≤ 8 → i ≤ k →
        decel_increment v (acc_time_at q i) ≤ decel_increment v (acc_time_at q k) := by
      intro k
      induction k with
      | zero =>
        intro _ hik
        have : i = 0 := by omega
        rw [this]
      | succ m ih =>
        intro hm hik
        by_cases heq : i = m + 1
        · rw [heq]
        · exact le_trans (ih (by omega) (by omega)) (hincm m (by omega))
    exact key 8 (le_refl 8) hi
  have hsumc : ((sum : ℕ) : ℚ) + 1 ≤ 131072 := by exact_mod_cast hsum
  have hrange : ∀ i, i ≤ 8 →
      rnd ((N : ℚ) + decel_increment v (acc_time_at q i)) ≤ (sum : ℚ) + 1 - 1 / 128 := by
    intro i hi
    exact rnd_le_grid (add_nonneg hN0 (hinc0 i hi)) (by linarith [hle8 i hi])
      (rnd_below_succ sum hsum)
  refine ⟨?_, ?_, ?_⟩
  · have h1 : rnd (N : ℚ) ≤ rnd ((N : ℚ) + decel_increment v (acc_time_at q 0)) :=
      rnd_mono hN0 (by linarith [hinc0 0 (by omega)])
    rw [hrN] at h1
    have h2 := f2u_mono P hN0 h1 (by linarith [hrange 0 (by omega)])
    have h3 : f2u P (N : ℚ) = N :=
      f2u_eval P N (le_refl _) (by linarith) (by
        have : ((N : ℕ) : ℚ) ≤ 16777216 := by exact_mod_cast hN
        linarith)
    omega
  · intro i hi
    have h1 : rnd ((N : ℚ) + decel_increment v (acc_time_at q i))
        ≤ rnd ((N : ℚ) + decel_increment v (acc_time_at q (i + 1))) :=
      rnd_mono (add_nonneg hN0 (hinc0 i (by omega))) (by linarith [hincm i hi])
    exact f2u_mono P (rnd_nonneg (add_nonneg hN0 (hinc0 i (by omega)))) h1
      (by linarith [hrange (i + 1) (by omega)])
  · exact f2u_rnd_le P sum hsum (add_nonneg hN0 (hinc0 8 (by omega))) hlast

/-- The thresholds of the acceleration loop never decrease. -/
theorem accel_thresholds_mono (P : Platform) {q : ℚ} (hq : 0 ≤ q) (hg : rnd q = q) {i j : Nat}
    (hij : i ≤ j) (hr : accel_value (acc_time_at q j) < 4294967296) :
    f2u P (accel_value (acc_time_at q i)) ≤ f2u P (accel_value (acc_time_at q j)) :=
  f2u_mono P (accel_value_nonneg _)
    (accel_value_mono (acc_time_at_nonneg hq i) (acc_time_at_le hq hg hij)) hr

end DualExtruder.InBinary32

/-! ## The table is non-decreasing: moves below the normal range -/

namespace DualExtruder.InBinary32

/-- The increment of the deceleration loop is negligible for a tiny starting
speed and a tiny `acc_time`. -/
theorem decel_increment_small {v a : ℚ} (hv0 : 0 ≤ v) (hv : v ≤ 1 / 10 ^ 14) (ha0 : 0 ≤ a)
    (ha : a ≤ 1 / 10 ^ 15) : |decel_increment v a| ≤ 1 / 10 ^ 20 := by
  unfold decel_increment
  have hva : v * a ≤ 1 / 10 ^ 14 * (1 / 10 ^ 15) := mul_le_mul hv ha ha0 (by norm_num)
  have haa : a * a ≤ 1 / 10 ^ 15 * (1 / 10 ^ 15) := mul_le_mul ha ha ha0 (by norm_num)
  have x0 : 0 ≤ rnd (v * a) := rnd_nonneg (mul_nonneg hv0 ha0)
  have x1 := rnd_up (mul_nonneg hv0 ha0) hva (by norm_num)
  have n1 : 0 ≤ rnd (a * a) := rnd_nonneg (mul_nonneg ha0 ha0)
  have u1 := rnd_up (mul_nonneg ha0 ha0) haa (by norm_num)
  have n2 : 0 ≤ ACCELERATION * rnd (a * a) := mul_nonneg (by norm_num [ACCELERATION]) n1
  have u2 := rnd_up (x := ACCELERATION * rnd (a * a))
    (B := 40 * (1 / 10 ^ 15 * (1 / 10 ^ 15) * (1 + 1 / 10 ^ 7))) n2
    (by norm_num [ACCELERATION]; norm_num at u1; linarith) (by norm_num)
  have n3 : 0 ≤ rnd (ACCELERATION * rnd (a * a)) / 2 := by
    have := rnd_nonneg n2
    linarith
  have u3 := rnd_up (x := rnd (ACCELERATION * rnd (a * a)) / 2)
    (B := 40 * (1 / 10 ^ 15 * (1 / 10 ^ 15) * (1 + 1 / 10 ^ 7)) * (1 + 1 / 10 ^ 7) / 2) n3
    (by linarith) (by norm_num)
  have y0 := rnd_nonneg n3
  have hz : |rnd (v * a) - rnd (rnd (ACCELERATION * rnd (a * a)) / 2)| ≤ 1 / 10 ^ 28 := by
    rw [abs_le]
    norm_num at x1 u3 ⊢
    constructor <;> linarith
  have r1 := abs_rnd_le hz (by norm_num)
  have hz2 : |rnd (rnd (v * a) - rnd (rnd (ACCELERATION * rnd (a * a)) / 2))
      * Z_AXIS_STEPS_PER_UNIT| ≤ 1 / 10 ^ 24 := by
    rw [abs_mul, abs_of_pos (by norm_num [Z_AXIS_STEPS_PER_UNIT] : (0 : ℚ) < Z_AXIS_STEPS_PER_UNIT)]
    norm_num [Z_AXIS_STEPS_PER_UNIT] at r1 ⊢
    linarith
  have r2 := abs_rnd_le hz2 (by norm_num)
  norm_num at r2 ⊢
  linarith

/-- Below the normal range the thresholds of the acceleration loop are 0 and
those of the deceleration loop equal `segment[9]`. -/
theorem tiny_table_parts (P : Platform) {v q : ℚ} (N : Nat) (hq0 : 0 ≤ q)
    (hq : q ≤ 5 / 10 ^ 17) (hv0 : 0 ≤ v) (hv : v ≤ 1 / 10 ^ 14) (hN : N ≤ 131072) (i : Nat)
    (hi : i ≤ 9) :
    f2u P (accel_value (acc_time_at q i)) = 0 ∧
    f2u P (rnd (rnd (N : ℚ) + decel_increment v (acc_time_at q i))) = N := by
  have hic : (i : ℚ) ≤ 9 := by exact_mod_cast hi
  have hic0 : (0 : ℚ) ≤ i := Nat.cast_nonneg i
  have ha0 := acc_time_at_nonneg hq0 i
  have ha := acc_time_at_up hq0 hq (by norm_num) i hi
  have ha15 : acc_time_at q i ≤ 1 / 10 ^ 15 := by
    have : ((i : ℚ) + 1) * (5 / 10 ^ 17) * (1 + 1 / 500000) ≤ 1 / 10 ^ 15 := by
      norm_num
      linarith
    linarith
  constructor
  · have hup := accel_value_up ha0 ha15 (by norm_num)
    apply f2u_eq_zero
    rw [abs_of_nonneg (accel_value_nonneg _)]
    norm_num at hup ⊢
    linarith
  · have hinc := decel_increment_small hv0 hv ha0 ha15
    have hrN : rnd (N : ℚ) = N := rnd_nat N (by norm_num; omega)
    rw [hrN]
    by_cases h0 : N = 0
    · subst h0
      have hr := abs_rnd_le
        (x := ((0 : ℕ) : ℚ) + decel_increment v (acc_time_at q i)) (B := 1 / 10 ^ 20)
        (by simpa using hinc) (by norm_num)
      apply f2u_eq_zero
      norm_num at hr ⊢
      linarith
    · have hsmall : |decel_increment v (acc_time_at q i)| ≤ 1 / 2 ^ 30 :=
        le_trans hinc (by norm_num)
      rw [rnd_nat_add_small N (by omega) hN hsmall]
      exact f2u_eval P N (le_refl _) (by linarith) (by
        have : ((N : ℕ) : ℚ) ≤ 131072 := by exact_mod_cast hN
        linarith)

/-- The pulse count of a move of at most 64 units is below `2 ^ 17`, and lies
within half a step of the binary32 product of line 323. -/
theorem stepps_sum_of_bounds (P : Platform) {L : ℚ} (h0 : 0 ≤ L) (hL : L ≤ 64) :
    stepps_sum_of P L + 1 ≤ 131072 ∧
    ((stepps_sum_of P L : ℕ) : ℚ) ≤ rnd (Z_AXIS_STEPS_PER_UNIT * L) + 1 / 2 ∧
    rnd (Z_AXIS_STEPS_PER_UNIT * L) + 1 / 2 < ((stepps_sum_of P L : ℕ) : ℚ) + 1 := by
  have hp : 0 ≤ Z_AXIS_STEPS_PER_UNIT * L := mul_nonneg (by norm_num [Z_AXIS_STEPS_PER_UNIT]) h0
  have hg : rnd 102400 = 102400 := by
    rw [rnd_eval 16 (by norm_num [abs_of_pos]) (by norm_num [abs_of_pos])]
    norm_num [Binary32.roundEven]
  have hr : rnd (Z_AXIS_STEPS_PER_UNIT * L) ≤ 102400 :=
    rnd_le_grid hp (by norm_num [Z_AXIS_STEPS_PER_UNIT]; linarith) hg
  have hr0 := rnd_nonneg hp
  unfold stepps_sum_of
  have h1 := f2u_le P (x := rnd (Z_AXIS_STEPS_PER_UNIT * L) + 1 / 2) (by linarith) (by linarith)
  have h2 := lt_f2u_succ P (x := rnd (Z_AXIS_STEPS_PER_UNIT * L) + 1 / 2) (by linarith)
    (by linarith)
  refine ⟨?_, h1, h2⟩
  have h3 : ((f2u P (rnd (Z_AXIS_STEPS_PER_UNIT * L) + 1 / 2) : ℕ) : ℚ) < ((131071 : ℕ) : ℚ) := by
    push_cast
    linarith
  have h4 : f2u P (rnd (Z_AXIS_STEPS_PER_UNIT * L) + 1 / 2) < 131071 := by exact_mod_cast h3
  omega

end DualExtruder.InBinary32

/-! ## The table is non-decreasing: the trapezoid branch -/

namespace DualExtruder.InBinary32

/-- In the trapezoid branch the last increment of the deceleration loop stays
below `acc_dec_stepps + 1` by 1/128. -/
theorem trapezoid_last_increment (P : Platform) {s : ℚ} (hs : 1 / 10 ^ 15 ≤ s)
    (hs2 : s ≤ 8192) :
    decel_increment s (acc_time_at (rnd (rnd (s / ACCELERATION) / 10)) 8)
      ≤ ((acc_dec_stepps_of P s : ℕ) : ℚ) + 1 - 1 / 128 := by
  have hs0 : 0 ≤ s := le_trans (by norm_num) hs
  obtain ⟨hq1, hq2⟩ := trapezoid_quantum_bounds hs
  have hq18 : (1 : ℚ) / 10 ^ 18 ≤ rnd (rnd (s / ACCELERATION) / 10) := by linarith
  obtain ⟨ha1, ha2⟩ := acc_time_at_bounds hq18 8 (by norm_num)
  have hqa := quantum_le_acc_time_at hq18 8 (by norm_num)
  -- the running time after eight additions, against the speed
  have hau : acc_time_at (rnd (rnd (s / ACCELERATION) / 10)) 8 ≤ 225001 / 10000000 * s := by
    norm_num at ha2 ⊢
    linarith
  have hal : 224999 / 10000000 * s ≤ acc_time_at (rnd (rnd (s / ACCELERATION) / 10)) 8 := by
    norm_num at ha1 ⊢
    linarith
  have ha0 : 0 ≤ acc_time_at (rnd (rnd (s / ACCELERATION) / 10)) 8 := by linarith
  have hinc := decel_increment_up (v := s) (le_trans hq18 hqa) (by linarith)
  have hsa : s * acc_time_at (rnd (rnd (s / ACCELERATION) / 10)) 8
      ≤ s * (225001 / 10000000 * s) := mul_le_mul_of_nonneg_left hau hs0
  have haa : (224999 / 10000000 * s) * (224999 / 10000000 * s)
      ≤ acc_time_at (rnd (rnd (s / ACCELERATION) / 10)) 8
        * acc_time_at (rnd (rnd (s / ACCELERATION) / 10)) 8 :=
    mul_le_mul hal hal (by linarith) ha0
  have hA := acc_dec_value_lo hs
  have habs : |s| ≤ 8192 := by rwa [abs_of_nonneg hs0]
  have hlt : acc_dec_value s < ((acc_dec_stepps_of P s : ℕ) : ℚ) + 1 :=
    lt_f2u_succ P (acc_dec_value_nonneg s) (lt_of_le_of_lt (acc_dec_value_le habs) (by norm_num))
  have hacc0 : (0 : ℚ) ≤ ((acc_dec_stepps_of P s : ℕ) : ℚ) := Nat.cast_nonneg _
  have hss : 0 ≤ s * s := mul_nonneg hs0 hs0
  nlinarith

/-- The table of the trapezoid branch is non-decreasing for a move of at most
64 units at a speed of at most 8192. -/
theorem trapezoid_nonDecreasing (E : Env) (P : Platform) (s : DualExtruder) (d speed : ℚ)
    (hidle : s.motor_state_ = 0) (hb : takes_trapezoid P |d| speed = true)
    (hs0 : 0 ≤ speed) (hs : speed ≤ 8192) (hd : |d| ≤ 64) :
    NonDecreasing (DoBlockingMoveToZ E P s d speed).speed_ctrl_buffer_ := by
  obtain ⟨h19, hacc, h9, hdcl⟩ := DoBlockingMoveToZ_pulse E P s d speed hidle
  obtain ⟨hsum, _, _⟩ := stepps_sum_of_bounds P (abs_nonneg d) hd
  have hle := (takes_trapezoid_iff_rounded P |d| speed).mp hb
  have hq : quantum_of E P |d| speed = rnd (rnd (speed / ACCELERATION) / 10) := by
    simp [quantum_of, hb]
  have hv : velocity_of E P |d| speed = speed := by
    simp [velocity_of, hb]
  rw [if_pos hb] at h9
  have h9' : ((DoBlockingMoveToZ E P s d speed).speed_ctrl_buffer_ 9).pulse_count
      = stepps_sum_of P |d| - acc_dec_stepps_of P speed := by
    rw [h9]
    omega
  rw [hq] at hacc
  rw [hq, hv, h9'] at hdcl
  have hq0 : 0 ≤ rnd (rnd (speed / ACCELERATION) / 10) :=
    rnd_nonneg (div_nonneg (rnd_nonneg (div_nonneg hs0 (by norm_num [ACCELERATION])))
      (by norm_num))
  have hg : rnd (rnd (rnd (speed / ACCELERATION) / 10)) = rnd (rnd (speed / ACCELERATION) / 10) :=
    rnd_idem (div_nonneg (rnd_nonneg (div_nonneg hs0 (by norm_num [ACCELERATION])))
      (by norm_num))
  have habs : |speed| ≤ 8192 := by rwa [abs_of_nonneg hs0]
  -- the thresholds of the acceleration loop
  have hA : ∀ i, i < 8 →
      f2u P (accel_value (acc_time_at (rnd (rnd (speed / ACCELERATION) / 10)) i))
        ≤ f2u P (accel_value (acc_time_at (rnd (rnd (speed / ACCELERATION) / 10)) (i + 1))) := by
    intro i hi
    apply accel_thresholds_mono P hq0 hg (by omega)
    rcases accel_value_le_acc_dec_value hs0 (i + 1) (by omega) with h | h
    · linarith
    · have := acc_dec_value_le habs
      linarith
  have hB : f2u P (accel_value (acc_time_at (rnd (rnd (speed / ACCELERATION) / 10)) 8))
      ≤ stepps_sum_of P |d| - acc_dec_stepps_of P speed := by
    have := accel_threshold_le_acc_dec_stepps P hs0 hs 8 (le_refl 8)
    omega
  by_cases hnorm : 1 / 10 ^ 15 ≤ speed
  · -- the normal range
    obtain ⟨hq1, hv1, hv2⟩ := trapezoid_quantum_velocity (le_refl (1 / 10 ^ 15 : ℚ)) hnorm
    have hq18 : (1 : ℚ) / 10 ^ 18 ≤ rnd (rnd (speed / ACCELERATION) / 10) := by
      norm_num at hq1 ⊢
      linarith
    have hinc := trapezoid_last_increment P hnorm hs
    have hcast : (((stepps_sum_of P |d| - acc_dec_stepps_of P speed : ℕ)) : ℚ)
        = ((stepps_sum_of P |d| : ℕ) : ℚ) - ((acc_dec_stepps_of P speed : ℕ) : ℚ) := by
      rw [Nat.cast_sub (by omega)]
    obtain ⟨hC, hD, hE⟩ := decel_thresholds_mono P
      (stepps_sum_of P |d| - acc_dec_stepps_of P speed) (stepps_sum_of P |d|) hq18 hv1 hv2
      (by omega) hsum (by rw [hcast]; linarith)
    exact nonDecreasing_of_segments _
      (fun i => f2u P (accel_value (acc_time_at (rnd (rnd (speed / ACCELERATION) / 10)) i)))
      (fun i => f2u P (rnd (rnd
        (((stepps_sum_of P |d| - acc_dec_stepps_of P speed : ℕ)) : ℚ)
        + decel_increment speed (acc_time_at (rnd (rnd (speed / ACCELERATION) / 10)) i))))
      (stepps_sum_of P |d| - acc_dec_stepps_of P speed) (stepps_sum_of P |d|)
      hacc h9' hdcl h19 hA hB hC hD hE
  · -- a speed below the normal range: the thresholds are 0 up to segment 8 and the pulse
    -- count from segment 9 on
    have hs' : speed ≤ 1 / 10 ^ 15 := le_of_lt (not_le.mp hnorm)
    obtain ⟨_, hq2⟩ := trapezoid_quantum_up hs0 hs' (le_refl _)
    have hq5 : rnd (rnd (speed / ACCELERATION) / 10) ≤ 5 / 10 ^ 17 := by
      norm_num at hq2 ⊢
      linarith
    have htiny := fun i (hi : i ≤ 9) =>
      tiny_table_parts P (v := speed) (stepps_sum_of P |d| - acc_dec_stepps_of P speed) hq0 hq5
        hs0 (by linarith) (by omega) i hi
    have hdcl' : ∀ i, i < 9 →
        ((DoBlockingMoveToZ E P s d speed).speed_ctrl_buffer_ (10 + i)).pulse_count
          = stepps_sum_of P |d| - acc_dec_stepps_of P speed := by
      intro i hi
      rw [hdcl i hi]
      exact (htiny i (by omega)).2
    exact nonDecreasing_of_segments _
      (fun i => f2u P (accel_value (acc_time_at (rnd (rnd (speed / ACCELERATION) / 10)) i)))
      (fun _ => stepps_sum_of P |d| - acc_dec_stepps_of P speed)
      (stepps_sum_of P |d| - acc_dec_stepps_of P speed) (stepps_sum_of P |d|)
      hacc h9' hdcl' h19 hA hB (le_refl _) (fun _ _ => le_refl _) (Nat.sub_le _ _)

end DualExtruder.InBinary32

/-! ## The table is non-decreasing: the triangular branch -/

namespace DualExtruder.InBinary32

/-- The square of the `acc_dec_time` of the triangular branch against the
distance, for a `sqrt` whose square exceeds its argument by at most one part in
500. -/
theorem triangle_time_sq {L y : ℚ} (hL : 1 / 10 ^ 30 ≤ L) (hy : 15 / 10 ^ 17 ≤ y)
    (hy2 : y ^ 2 ≤ rnd (L / ACCELERATION) * (1 + 1 / 500)) :
    1 / 10 ^ 16 ≤ rnd y ∧ rnd y * rnd y ≤ L * (25051 / 1000000) := by
  have hL0 : 0 ≤ L := le_trans (by norm_num) hL
  have hx2 := rnd_up (x := L / ACCELERATION) (B := L / 40)
    (div_nonneg hL0 (by norm_num [ACCELERATION])) (by norm_num [ACCELERATION]) (by linarith)
  have ht1 := rnd_lo (x := y) (L := y) (by linarith) (le_refl _)
  have ht2 := rnd_up (x := y) (B := y) (by linarith) (le_refl _) (by linarith)
  have ht : (1 : ℚ) / 10 ^ 16 ≤ rnd y := by linarith
  have ht0 : 0 ≤ rnd y := by linarith
  have hyy : y * y ≤ L / 40 * (1 + 1 / 10 ^ 7) * (1 + 1 / 500) := by
    have : y * y = y ^ 2 := (sq y).symm
    rw [this]
    linarith only [hy2, hx2]
  have htt : rnd y * rnd y ≤ (y * (1 + 1 / 10 ^ 7)) * (y * (1 + 1 / 10 ^ 7)) :=
    mul_le_mul ht2 ht2 ht0 (by linarith)
  have e0 : (y * (1 + 1 / 10 ^ 7)) * (y * (1 + 1 / 10 ^ 7))
      = (1 + 1 / 10 ^ 7) ^ 2 * (y * y) := by ring
  rw [e0] at htt
  refine ⟨ht, ?_⟩
  linarith only [htt, hyy, hL0]

/-- The running `acc_time` of rounds 8 and 9 against `acc_dec_time`, and the
starting speed of the deceleration. -/
theorem triangle_times {t : ℚ} (ht : 1 / 10 ^ 16 ≤ t) :
    1 / 10 ^ 18 ≤ rnd (t / 10) ∧
    3999 / 10 * rnd (t / 10) ≤ rnd (ACCELERATION * t) ∧
    rnd (ACCELERATION * t) ≤ 4001 / 10 * rnd (t / 10) ∧
    rnd (ACCELERATION * t) ≤ 40 * t * (1 + 1 / 10 ^ 7) ∧
    8999981 / 10000000 * t ≤ acc_time_at (rnd (t / 10)) 8 ∧
    acc_time_at (rnd (t / 10)) 8 ≤ 9000019 / 10000000 * t ∧
    acc_time_at (rnd (t / 10)) 9 ≤ 10000022 / 10000000 * t ∧
    39 * acc_time_at (rnd (t / 10)) 8 ≤ rnd (ACCELERATION * t) := by
  have hq1 := rnd_lo (x := t / 10) (L := t / 10) (by linarith) (le_refl _)
  have hq2 := rnd_up (x := t / 10) (B := t / 10) (by linarith) (le_refl _) (by linarith)
  have hv2 := rnd_up (x := ACCELERATION * t) (B := 40 * t)
    (by norm_num [ACCELERATION]; linarith) (by norm_num [ACCELERATION]) (by linarith)
  have hq18 : (1 : ℚ) / 10 ^ 18 ≤ rnd (t / 10) := by linarith
  obtain ⟨_, hv1, hv3⟩ := triangle_quantum_velocity (le_refl (1 / 10 ^ 16 : ℚ)) ht
  obtain ⟨ha1, ha2⟩ := acc_time_at_bounds hq18 8 (by norm_num)
  obtain ⟨_, hb2⟩ := acc_time_at_bounds hq18 9 (by norm_num)
  refine ⟨hq18, hv1, hv3, hv2, ?_, ?_, ?_, ?_⟩
  · norm_num at ha1 ⊢
    linarith only [ha1, hq1, ht]
  · norm_num at ha2 ⊢
    linarith only [ha2, hq2, ht]
  · norm_num at hb2 ⊢
    linarith only [hb2, hq2, ht]
  · norm_num at ha2 ⊢
    linarith only [ha2, hv1, hq18]

/-- In the normal range of the triangular branch `segment[9]` and the last
increment of the deceleration loop are bounded by multiples of the square of
`acc_dec_time`. -/
theorem triangle_last_terms {t : ℚ} (ht : 1 / 10 ^ 16 ≤ t) :
    accel_value (acc_time_at (rnd (t / 10)) 9) ≤ 32001 * (t * t) ∧
    decel_increment (rnd (ACCELERATION * t)) (acc_time_at (rnd (t / 10)) 8)
      ≤ 31681 * (t * t) := by
  obtain ⟨hq18, hv1, _, hv2, hal, hau, hbu, h39⟩ := triangle_times ht
  have ht0 : 0 ≤ t := by linarith
  have hTT0 : 0 ≤ t * t := mul_nonneg ht0 ht0
  have hqa := quantum_le_acc_time_at hq18 8 (by norm_num)
  have hqb := quantum_le_acc_time_at hq18 9 (by norm_num)
  have ha0 : 0 ≤ acc_time_at (rnd (t / 10)) 8 := by linarith
  have hb0 : 0 ≤ acc_time_at (rnd (t / 10)) 9 := by linarith
  constructor
  · have hav := accel_value_up hb0 hbu (by linarith)
    have e1 : (10000022 / 10000000 * t) * (10000022 / 10000000 * t)
        = (10000022 / 10000000) ^ 2 * (t * t) := by ring
    rw [e1] at hav
    linarith only [hav, hTT0]
  · have hinc := decel_increment_up (v := rnd (ACCELERATION * t)) (le_trans hq18 hqa)
      (by linarith)
    have hva : rnd (ACCELERATION * t) * acc_time_at (rnd (t / 10)) 8
        ≤ (40 * t * (1 + 1 / 10 ^ 7)) * (9000019 / 10000000 * t) :=
      mul_le_mul hv2 hau ha0 (by linarith)
    have e2 : (40 * t * (1 + 1 / 10 ^ 7)) * (9000019 / 10000000 * t)
        = 40 * (1 + 1 / 10 ^ 7) * (9000019 / 10000000) * (t * t) := by ring
    rw [e2] at hva
    have haa : (8999981 / 10000000 * t) * (8999981 / 10000000 * t)
        ≤ acc_time_at (rnd (t / 10)) 8 * acc_time_at (rnd (t / 10)) 8 :=
      mul_le_mul hal hal (by linarith) ha0
    have e3 : (8999981 / 10000000 * t) * (8999981 / 10000000 * t)
        = (8999981 / 10000000) ^ 2 * (t * t) := by ring
    rw [e3] at haa
    linarith only [hinc, hva, haa, hTT0]

/-- In the normal range of the triangular branch `segment[9]` and the last
increment of the deceleration loop together stay below the pulse count plus 1
by 1/128, for a `sqrt` whose square exceeds its argument by at most one part
in 500. -/
theorem triangle_last_increment (P : Platform) {L y : ℚ} (hL : 1 / 10 ^ 30 ≤ L)
    (hL2 : L ≤ 64) (hy : 15 / 10 ^ 17 ≤ y)
    (hy2 : y ^ 2 ≤ rnd (L / ACCELERATION) * (1 + 1 / 500)) :
    accel_value (acc_time_at (rnd (rnd y / 10)) 9) ≤ 51400 ∧
    ((f2u P (accel_value (acc_time_at (rnd (rnd y / 10)) 9)) : ℕ) : ℚ)
        + decel_increment (rnd (ACCELERATION * rnd y)) (acc_time_at (rnd (rnd y / 10)) 8)
      ≤ ((stepps_sum_of P L : ℕ) : ℚ) + 1 - 1 / 128 := by
  have hL0 : 0 ≤ L := le_trans (by norm_num) hL
  obtain ⟨ht, hTT⟩ := triangle_time_sq hL hy hy2
  obtain ⟨hav, hinc⟩ := triangle_last_terms ht
  have hr : accel_value (acc_time_at (rnd (rnd y / 10)) 9) ≤ 51400 := by
    linarith only [hav, hTT, hL2]
  have hN := f2u_le P (accel_value_nonneg (acc_time_at (rnd (rnd y / 10)) 9))
    (by linarith only [hr])
  obtain ⟨_, _, hS⟩ := stepps_sum_of_bounds P hL0 hL2
  have hp := rnd_lo (x := Z_AXIS_STEPS_PER_UNIT * L) (L := 1600 * L) (by linarith only [hL])
    (by norm_num [Z_AXIS_STEPS_PER_UNIT])
  refine ⟨hr, ?_⟩
  linarith only [hav, hinc, hTT, hN, hS, hp, hL0]

/-- A non-negative number whose square is at most that of `T` is at most `T`. -/
theorem le_of_sq_le {y T : ℚ} (hy : 0 ≤ y) (hT : 0 ≤ T) (h : y ^ 2 ≤ T * T) : y ≤ T := by
  rw [sq] at h
  exact (mul_self_le_mul_self_iff hy hT).mpr h

theorem le_of_le_sq {y T : ℚ} (hy : 0 ≤ y) (hT : 0 ≤ T) (h : T * T ≤ y ^ 2) : T ≤ y := by
  rw [sq] at h
  exact (mul_self_le_mul_self_iff hT hy).mpr h

/-- The table of the triangular branch is non-decreasing for a move of at most
64 units, for a `sqrt` that is not negative and whose square is within one part
in 500 of its argument. -/
theorem triangle_nonDecreasing (E : Env) (P : Platform) (s : DualExtruder) (d speed : ℚ)
    (hidle : s.motor_state_ = 0) (hb : takes_trapezoid P |d| speed = false) (hd : |d| ≤ 64)
    (hy0 : 0 ≤ E.sqrt (rnd (|d| / ACCELERATION)))
    (hy1 : rnd (|d| / ACCELERATION) * (1 - 1 / 500) ≤ E.sqrt (rnd (|d| / ACCELERATION)) ^ 2)
    (hy2 : E.sqrt (rnd (|d| / ACCELERATION)) ^ 2 ≤ rnd (|d| / ACCELERATION) * (1 + 1 / 500)) :
    NonDecreasing (DoBlockingMoveToZ E P s d speed).speed_ctrl_buffer_ := by
  obtain ⟨h19, hacc, h9, hdcl⟩ := DoBlockingMoveToZ_pulse E P s d speed hidle
  have hL0 : 0 ≤ |d| := abs_nonneg d
  obtain ⟨hsum, _, _⟩ := stepps_sum_of_bounds P hL0 hd
  have hq : quantum_of E P |d| speed = rnd (rnd (E.sqrt (rnd (|d| / ACCELERATION))) / 10) := by
    simp [quantum_of, hb]
  have hv : velocity_of E P |d| speed
      = rnd (ACCELERATION * rnd (E.sqrt (rnd (|d| / ACCELERATION)))) := by
    simp [velocity_of, hb]
  rw [hb] at h9
  simp only [Bool.false_eq_true, if_false] at h9
  rw [hq] at hacc h9
  rw [hq, hv, h9] at hdcl
  have ht0 : 0 ≤ rnd (E.sqrt (rnd (|d| / ACCELERATION))) := rnd_nonneg hy0
  have hq0 : 0 ≤ rnd (rnd (E.sqrt (rnd (|d| / ACCELERATION))) / 10) :=
    rnd_nonneg (div_nonneg ht0 (by norm_num))
  have hg : rnd (rnd (rnd (E.sqrt (rnd (|d| / ACCELERATION))) / 10))
      = rnd (rnd (E.sqrt (rnd (|d| / ACCELERATION))) / 10) :=
    rnd_idem (div_nonneg ht0 (by norm_num))
  have hv0 : 0 ≤ rnd (ACCELERATION * rnd (E.sqrt (rnd (|d| / ACCELERATION)))) :=
    rnd_nonneg (mul_nonneg (by norm_num [ACCELERATION]) ht0)
  have hx0 : 0 ≤ |d| / ACCELERATION := div_nonneg hL0 (by norm_num [ACCELERATION])
  by_cases hnorm : 1 / 10 ^ 30 ≤ |d|
  · -- the normal range
    have hx1 := rnd_lo (x := |d| / ACCELERATION) (L := |d| / 40) (by linarith)
      (by norm_num [ACCELERATION])
    have hy : 15 / 10 ^ 17 ≤ E.sqrt (rnd (|d| / ACCELERATION)) := by
      apply le_of_le_sq hy0 (by norm_num)
      have : (15 / 10 ^ 17 : ℚ) * (15 / 10 ^ 17)
          ≤ rnd (|d| / ACCELERATION) * (1 - 1 / 500) := by
        norm_num at hx1 hnorm ⊢
        linarith
      linarith
    obtain ⟨hr, hlast⟩ := triangle_last_increment P hnorm hd hy hy2
    have ht1 := rnd_lo (x := E.sqrt (rnd (|d| / ACCELERATION)))
      (L := E.sqrt (rnd (|d| / ACCELERATION))) (by linarith) (le_refl _)
    have ht : (1 : ℚ) / 10 ^ 16 ≤ rnd (E.sqrt (rnd (|d| / ACCELERATION))) := by linarith
    obtain ⟨hq1, hv1, hv2⟩ := triangle_quantum_velocity (le_refl (1 / 10 ^ 16 : ℚ)) ht
    have hq18 : (1 : ℚ) / 10 ^ 18 ≤ rnd (rnd (E.sqrt (rnd (|d| / ACCELERATION))) / 10) := by
      norm_num at hq1 ⊢
      linarith
    have hN9 := f2u_le P
      (accel_value_nonneg (acc_time_at (rnd (rnd (E.sqrt (rnd (|d| / ACCELERATION))) / 10)) 9))
      (by linarith)
    have hN : f2u P (accel_value
        (acc_time_at (rnd (rnd (E.sqrt (rnd (|d| / ACCELERATION))) / 10)) 9)) ≤ 16777216 := by
      have h1 : ((f2u P (accel_value
          (acc_time_at (rnd (rnd (E.sqrt (rnd (|d| / ACCELERATION))) / 10)) 9)) : ℕ) : ℚ)
          ≤ ((16777216 : ℕ) : ℚ) := by
        push_cast
        linarith
      exact_mod_cast h1
    obtain ⟨hC, hD, hE⟩ := decel_thresholds_mono P _ (stepps_sum_of P |d|) hq18 hv1 hv2 hN
      hsum hlast
    have hA : ∀ i, i < 9 →
        f2u P (accel_value
            (acc_time_at (rnd (rnd (E.sqrt (rnd (|d| / ACCELERATION))) / 10)) i))
          ≤ f2u P (accel_value
            (acc_time_at (rnd (rnd (E.sqrt (rnd (|d| / ACCELERATION))) / 10)) (i + 1))) := by
      intro i hi
      apply accel_thresholds_mono P hq0 hg (by omega)
      have := accel_value_mono (acc_time_at_nonneg hq0 (i + 1))
        (acc_time_at_le hq0 hg (by omega : i + 1 ≤ 9))
      linarith
    exact nonDecreasing_of_segments _
      (fun i => f2u P (accel_value
        (acc_time_at (rnd (rnd (E.sqrt (rnd (|d| / ACCELERATION))) / 10)) i)))
      (fun i => f2u P (rnd (rnd
        ((f2u P (accel_value
          (acc_time_at (rnd (rnd (E.sqrt (rnd (|d| / ACCELERATION))) / 10)) 9)) : ℕ) : ℚ)
        + decel_increment (rnd (ACCELERATION * rnd (E.sqrt (rnd (|d| / ACCELERATION)))))
          (acc_time_at (rnd (rnd (E.sqrt (rnd (|d| / ACCELERATION))) / 10)) i))))
      _ (stepps_sum_of P |d|) hacc h9 hdcl h19 (fun i hi => hA i (by omega)) (hA 8 (by omega))
      hC hD hE
  · -- a distance below the normal range: every threshold before the last is 0
    have hL' : |d| ≤ 1 / 10 ^ 30 := le_of_lt (not_le.mp hnorm)
    have hx2 := rnd_up (x := |d| / ACCELERATION) (B := 1 / 10 ^ 30 / 40) hx0
      (by norm_num [ACCELERATION]; linarith) (by norm_num)
    have hy : E.sqrt (rnd (|d| / ACCELERATION)) ≤ 2 / 10 ^ 16 := by
      apply le_of_sq_le hy0 (by norm_num)
      norm_num at hx2 hy2 ⊢
      linarith
    have ht2 := rnd_up hy0 hy (by norm_num)
    have hq2 := rnd_up (x := rnd (E.sqrt (rnd (|d| / ACCELERATION))) / 10)
      (B := 2 / 10 ^ 16 * (1 + 1 / 10 ^ 7) / 10) (div_nonneg ht0 (by norm_num))
      (by linarith) (by norm_num)
    have hA40 : ACCELERATION * rnd (E.sqrt (rnd (|d| / ACCELERATION)))
        ≤ 40 * (2 / 10 ^ 16 * (1 + 1 / 10 ^ 7)) := by
      have : ACCELERATION * rnd (E.sqrt (rnd (|d| / ACCELERATION)))
          = 40 * rnd (E.sqrt (rnd (|d| / ACCELERATION))) := by
        simp only [ACCELERATION]
      rw [this]
      linarith
    have hv2 := rnd_up (x := ACCELERATION * rnd (E.sqrt (rnd (|d| / ACCELERATION))))
      (B := 40 * (2 / 10 ^ 16 * (1 + 1 / 10 ^ 7)))
      (mul_nonneg (by norm_num [ACCELERATION]) ht0) hA40 (by norm_num)
    have hq5 : rnd (rnd (E.sqrt (rnd (|d| / ACCELERATION))) / 10) ≤ 5 / 10 ^ 17 := by
      norm_num at hq2 ⊢
      linarith
    have hv14 : rnd (ACCELERATION * rnd (E.sqrt (rnd (|d| / ACCELERATION)))) ≤ 1 / 10 ^ 14 := by
      norm_num at hv2 ⊢
      linarith
    have htiny := fun i (hi : i ≤ 9) =>
      tiny_table_parts P 0 hq0 hq5 hv0 hv14 (by norm_num) i hi
    have h9z : ((DoBlockingMoveToZ E P s d speed).speed_ctrl_buffer_ 9).pulse_count = 0 := by
      rw [h9]
      exact (htiny 9 (le_refl 9)).1
    rw [(htiny 9 (le_refl 9)).1] at hdcl
    have hacc' : ∀ i, i < 9 →
        ((DoBlockingMoveToZ E P s d speed).speed_ctrl_buffer_ i).pulse_count = 0 := by
      intro i hi
      rw [hacc i hi]
      exact (htiny i (by omega)).1
    have hdcl' : ∀ i, i < 9 →
        ((DoBlockingMoveToZ E P s d speed).speed_ctrl_buffer_ (10 + i)).pulse_count = 0 := by
      intro i hi
      rw [hdcl i hi]
      exact (htiny i (by omega)).2
    exact nonDecreasing_of_segments _ (fun _ => 0) (fun _ => 0) 0 (stepps_sum_of P |d|)
      hacc' h9z hdcl' h19 (fun _ _ => le_refl _) (le_refl _) (le_refl _)
      (fun _ _ => le_refl _) (Nat.zero_le _)

/-- The pulse count of a move of at most 64 units differs from the rounded
number of steps by at most 1. -/
theorem stepps_sum_near_round (P : Platform) {L : ℚ} (h0 : 0 ≤ L) (hL : L ≤ 64) :
    |((stepps_sum_of P L : ℕ) : ℤ) - round (L * 1600)| ≤ 1 := by
  have hc := stepps_sum_of_cast P h0 (by linarith : L ≤ 1048576)
  have hp : 0 ≤ Z_AXIS_STEPS_PER_UNIT * L := mul_nonneg (by norm_num [Z_AXIS_STEPS_PER_UNIT]) h0
  have hclose : |rnd (Z_AXIS_STEPS_PER_UNIT * L) - L * 1600| ≤ 1 / 10 := by
    rw [abs_le]
    by_cases hn : 1 / 10 ^ 37 ≤ 1600 * L
    · have l := rnd_lo (x := Z_AXIS_STEPS_PER_UNIT * L) (L := 1600 * L) hn
        (by norm_num [Z_AXIS_STEPS_PER_UNIT])
      have u := rnd_up (x := Z_AXIS_STEPS_PER_UNIT * L) (B := 1600 * L) hp
        (by norm_num [Z_AXIS_STEPS_PER_UNIT]) hn
      constructor <;> linarith
    · have u := rnd_up (x := Z_AXIS_STEPS_PER_UNIT * L) (B := 1 / 10 ^ 37) hp
        (by norm_num [Z_AXIS_STEPS_PER_UNIT]; linarith) (le_refl _)
      have := rnd_nonneg hp
      norm_num at u hn ⊢
      constructor <;> linarith
  obtain ⟨c1, c2⟩ := abs_le.mp hclose
  rw [hc, round_eq]
  have a1 := Int.floor_le (rnd (Z_AXIS_STEPS_PER_UNIT * L) + 1 / 2)
  have a2 := Int.lt_floor_add_one (rnd (Z_AXIS_STEPS_PER_UNIT * L) + 1 / 2)
  have b1 := Int.floor_le (L * 1600 + 1 / 2)
  have b2 := Int.lt_floor_add_one (L * 1600 + 1 / 2)
  rw [abs_le]
  constructor
  · have h : ((⌊L * 1600 + 1 / 2⌋ : ℤ) : ℚ)
        < ((⌊rnd (Z_AXIS_STEPS_PER_UNIT * L) + 1 / 2⌋ + 2 : ℤ) : ℚ) := by
      push_cast
      linarith
    have h2 : ⌊L * 1600 + 1 / 2⌋ < ⌊rnd (Z_AXIS_STEPS_PER_UNIT * L) + 1 / 2⌋ + 2 := by
      exact_mod_cast h
    omega
  · have h : ((⌊rnd (Z_AXIS_STEPS_PER_UNIT * L) + 1 / 2⌋ : ℤ) : ℚ)
        < ((⌊L * 1600 + 1 / 2⌋ + 2 : ℤ) : ℚ) := by
      push_cast
      linarith
    have h2 : ⌊rnd (Z_AXIS_STEPS_PER_UNIT * L) + 1 / 2⌋ < ⌊L * 1600 + 1 / 2⌋ + 2 := by
      exact_mod_cast h
    omega

end DualExtruder.InBinary32

/-! ## C1: the thresholds of the table -/

/-- C1 (as amended): for every distance of magnitude at most 64 and every speed
between 0 and 8192, with a `sqrt` that is not negative and whose square is
within one part in 500 of its argument where the triangular branch calls it,
the 20-segment table that `DoBlockingMoveToZ` builds in binary32 when the motor
is idle has non-decreasing `pulse_count` thresholds in both branches, and
`segment[19].pulse_count` is `stepps_sum_`, the integer part of the binary32
product `1600 * |distance|` plus 0.5, which differs from
`round(|distance| * 1600)` by at most 1. -/
theorem C1_table_nondecreasing_and_clamped (E : Env) (P : Binary32.Platform)
    (s : DualExtruder) (d speed : ℚ) (hidle : s.motor_state_ = 0) (hdist : |d| ≤ 64)
    (hs0 : 0 ≤ speed) (hs : speed ≤ 8192)
    (hsqrt : InBinary32.takes_trapezoid P |d| speed = false →
      0 ≤ E.sqrt (Binary32.rnd (|d| / ACCELERATION)) ∧
      Binary32.rnd (|d| / ACCELERATION) * (1 - 1 / 500)
        ≤ E.sqrt (Binary32.rnd (|d| / ACCELERATION)) ^ 2 ∧
      E.sqrt (Binary32.rnd (|d| / ACCELERATION)) ^ 2
        ≤ Binary32.rnd (|d| / ACCELERATION) * (1 + 1 / 500)) :
    (∀ i, i < 19 →
      ((InBinary32.DoBlockingMoveToZ E P s d speed).speed_ctrl_buffer_ i).pulse_count ≤
        ((InBinary32.DoBlockingMoveToZ E P s d speed).speed_ctrl_buffer_ (i + 1)).pulse_count) ∧
    ((InBinary32.DoBlockingMoveToZ E P s d speed).speed_ctrl_buffer_ 19).pulse_count
      = (InBinary32.DoBlockingMoveToZ E P s d speed).stepps_sum_ ∧
    ((((InBinary32.DoBlockingMoveToZ E P s d speed).speed_ctrl_buffer_ 19).pulse_count : ℕ) : ℤ)
      = ⌊Binary32.rnd (Z_AXIS_STEPS_PER_UNIT * |d|) + 1 / 2⌋ ∧
    |((((InBinary32.DoBlockingMoveToZ E P s d speed).speed_ctrl_buffer_ 19).pulse_count : ℕ) : ℤ)
      - round (|d| * 1600)| ≤ 1 := by
  obtain ⟨h19, _, _, _⟩ := InBinary32.DoBlockingMoveToZ_pulse E P s d speed hidle
  obtain ⟨hsum, _, _, _⟩ := InBinary32.DoBlockingMoveToZ_fields E P s d speed hidle
  have hmono : NonDecreasing (InBinary32.DoBlockingMoveToZ E P s d speed).speed_ctrl_buffer_ := by
    by_cases hb : InBinary32.takes_trapezoid P |d| speed = true
    · exact InBinary32.trapezoid_nonDecreasing E P s d speed hidle hb hs0 hs hdist
    · have hb2 : InBinary32.takes_trapezoid P |d| speed = false := by simpa using hb
      obtain ⟨h0, h1, h2⟩ := hsqrt hb2
      exact InBinary32.triangle_nonDecreasing E P s d speed hidle hb2 hdist h0 h1 h2
  refine ⟨hmono, ?_, ?_, ?_⟩
  · rw [h19, hsum]
  · rw [h19]
    exact InBinary32.stepps_sum_of_cast P (abs_nonneg d) (by linarith)
  · rw [h19]
    exact InBinary32.stepps_sum_near_round P (abs_nonneg d) hdist

theorem C1_table_witness :
    sample_state.motor_state_ = 0 ∧ |(3 / 8 : ℚ)| ≤ 64 ∧ (0 : ℚ) ≤ 9 ∧ (9 : ℚ) ≤ 8192 ∧
    InBinary32.takes_trapezoid sample_platform |(3 / 8 : ℚ)| 9 = false ∧
    0 ≤ sample_env.sqrt (Binary32.rnd (|(3 / 8 : ℚ)| / ACCELERATION)) ∧
    Binary32.rnd (|(3 / 8 : ℚ)| / ACCELERATION) * (1 - 1 / 500)
      ≤ sample_env.sqrt (Binary32.rnd (|(3 / 8 : ℚ)| / ACCELERATION)) ^ 2 ∧
    sample_env.sqrt (Binary32.rnd (|(3 / 8 : ℚ)| / ACCELERATION)) ^ 2
      ≤ Binary32.rnd (|(3 / 8 : ℚ)| / ACCELERATION) * (1 + 1 / 500) ∧
    (∀ i, i < 19 →
      ((InBinary32.DoBlockingMoveToZ sample_env sample_platform sample_state (3 / 8)
          9).speed_ctrl_buffer_ i).pulse_count ≤
        ((InBinary32.DoBlockingMoveToZ sample_env sample_platform sample_state (3 / 8)
          9).speed_ctrl_buffer_ (i + 1)).pulse_count) ∧
    ((InBinary32.DoBlockingMoveToZ sample_env sample_platform sample_state (3 / 8)
        9).speed_ctrl_buffer_ 19).pulse_count = 600 := by
  have habs : |(3 / 8 : ℚ)| = 3 / 8 := abs_of_pos (by norm_num)
  have hd : |(3 / 8 : ℚ)| ≤ 64 := by
    rw [habs]
    norm_num
  have hsq := InBinary32.sample_sqrt_short_accurate
  have h := C1_table_nondecreasing_and_clamped sample_env sample_platform sample_state (3 / 8) 9
    (by decide) hd (by norm_num) (by norm_num) (fun _ => hsq)
  obtain ⟨hsum, _, _, _⟩ :=
    InBinary32.DoBlockingMoveToZ_fields sample_env sample_platform sample_state (3 / 8) 9
      (by decide)
  refine ⟨by decide, hd, by norm_num, by norm_num, InBinary32.takes_trapezoid_short,
    hsq.1, hsq.2.1, hsq.2.2, h.1, ?_⟩
  rw [h.2.1, hsum, InBinary32.stepps_sum_of_short]

/-- C1, counterexample to the claim as stated: for the distance
`6372065 / 2097152` (the binary32 number `0x1.84eb84p+1`, about 3.0384) and the
speed 9 the product `1600 * distance` is 4861.4998 and is rounded to the
binary32 number 4861.5, so `segment[19].pulse_count` is 4862, while
`round(|distance| * 1600)` is 4861. -/
theorem C1_counterexample_rounded_product :
    sample_state.motor_state_ = 0 ∧ (0 : ℚ) < 9 ∧
    ((InBinary32.DoBlockingMoveToZ sample_env sample_platform sample_state (6372065 / 2097152)
        9).speed_ctrl_buffer_ 19).pulse_count = 4862 ∧
    round (|(6372065 / 2097152 : ℚ)| * 1600) = 4861 := by
  have hidle : sample_state.motor_state_ = 0 := by decide
  have habs : |(6372065 / 2097152 : ℚ)| = 6372065 / 2097152 := abs_of_pos (by norm_num)
  have e1 : Binary32.rnd (1600 * (6372065 / 2097152)) = (9723 / 2) := by
    rw [rnd_eval (12) (by norm_num [abs_of_pos]) (by norm_num [abs_of_pos])]
    norm_num [Binary32.roundEven]
  have hsum : InBinary32.stepps_sum_of sample_platform |(6372065 / 2097152 : ℚ)| = 4862 := by
    simp only [InBinary32.stepps_sum_of, Z_AXIS_STEPS_PER_UNIT]
    rw [habs, e1]
    exact InBinary32.f2u_eval sample_platform 4862 (by norm_num) (by norm_num) (by norm_num)
  obtain ⟨h19, _, _, _⟩ :=
    InBinary32.DoBlockingMoveToZ_pulse sample_env sample_platform sample_state
      (6372065 / 2097152) 9 hidle
  refine ⟨hidle, by norm_num, ?_, ?_⟩
  · rw [h19, hsum]
  · rw [habs, round_eq]
    rw [Int.floor_eq_iff]
    constructor <;> norm_num

/-- A move beyond the range of C1 whose table decreases at its end: for the
distance 1024 and the speed 7/32 the trapezoid branch stores 1638401 in
`segment[18]`, since the binary32 sum of `segment[9] = 1638400` and the last
increment 0.947 is rounded up, and the pulse count 1638400 in `segment[19]`. -/
theorem long_move_table_decreases :
    InBinary32.takes_trapezoid sample_platform |(1024 : ℚ)| (7 / 32) = true ∧
    ((InBinary32.DoBlockingMoveToZ sample_env sample_platform sample_state 1024
        (7 / 32)).speed_ctrl_buffer_ 18).pulse_count = 1638401 ∧
    ((InBinary32.DoBlockingMoveToZ sample_env sample_platform sample_state 1024
        (7 / 32)).speed_ctrl_buffer_ 19).pulse_count = 1638400 := by
  have hidle : sample_state.motor_state_ = 0 := by decide
  have habs : |(1024 : ℚ)| = 1024 := abs_of_pos (by norm_num)
  have e1 : Binary32.rnd ((7 / 32) * (7 / 32)) = (49 / 1024) := by
    rw [rnd_eval (-5) (by norm_num [abs_of_pos]) (by norm_num [abs_of_pos])]
    norm_num [Binary32.roundEven]
  have e2 : Binary32.rnd ((49 / 1024) / (2 * 40)) = (10276045 / 17179869184) := by
    rw [rnd_eval (-11) (by norm_num [abs_of_pos]) (by norm_num [abs_of_pos])]
    norm_num [Binary32.roundEven]
  have e3 : Binary32.rnd ((10276045 / 17179869184) * 1600) = (245 / 256) := by
    rw [rnd_eval (-1) (by norm_num [abs_of_pos]) (by norm_num [abs_of_pos])]
    norm_num [Binary32.roundEven]
  have e4 : Binary32.rnd (1600 * 1024) = 1638400 := by
    rw [rnd_eval (20) (by norm_num [abs_of_pos]) (by norm_num [abs_of_pos])]
    norm_num [Binary32.roundEven]
  have e5 : Binary32.rnd ((7 / 32) / 40) = (11744051 / 2147483648) := by
    rw [rnd_eval (-8) (by norm_num [abs_of_pos]) (by norm_num [abs_of_pos])]
    norm_num [Binary32.roundEven]
  have e6 : Binary32.rnd ((11744051 / 2147483648) / 10) = (9395241 / 17179869184) := by
    rw [rnd_eval (-11) (by norm_num [abs_of_pos]) (by norm_num [abs_of_pos])]
    norm_num [Binary32.roundEven]
  have e7 : Binary32.rnd ((9395241 / 17179869184) + (9395241 / 17179869184)) = (9395241 / 8589934592) := by
    rw [rnd_eval (-10) (by norm_num [abs_of_pos]) (by norm_num [abs_of_pos])]
    norm_num [Binary32.roundEven]
  have e8 : Binary32.rnd ((9395241 / 8589934592) + (9395241 / 17179869184)) = (7046431 / 4294967296) := by
    rw [rnd_eval (-10) (by norm_num [abs_of_pos]) (by norm_num [abs_of_pos])]
    norm_num [Binary32.roundEven]
  have e9 : Binary32.rnd ((7046431 / 4294967296) + (9395241 / 17179869184)) = (9395241 / 4294967296) := by
    rw [rnd_eval (-9) (by norm_num [abs_of_pos]) (by norm_num [abs_of_pos])]
    norm_num [Binary32.roundEven]
  have e10 : Binary32.rnd ((9395241 / 4294967296) + (9395241 / 17179869184)) = (11744051 / 4294967296) := by
    rw [rnd_eval (-9) (by norm_num [abs_of_pos]) (by norm_num [abs_of_pos])]
    norm_num [Binary32.roundEven]
  have e11 : Binary32.rnd ((11744051 / 4294967296) + (9395241 / 17179869184)) = (14092861 / 4294967296) := by
    rw [rnd_eval (-9) (by norm_num [abs_of_pos]) (by norm_num [abs_of_pos])]
    norm_num [Binary32.roundEven]
  have e12 : Binary32.rnd ((14092861 / 4294967296) + (9395241 / 17179869184)) = (16441671 / 4294967296) := by
    rw [rnd_eval (-9) (by norm_num [abs_of_pos]) (by norm_num [abs_of_pos])]
    norm_num [Binary32.roundEven]
  have e13 : Binary32.rnd ((16441671 / 4294967296) + (9395241 / 17179869184)) = (9395241 / 2147483648) := by
    rw [rnd_eval (-8) (by norm_num [abs_of_pos]) (by norm_num [abs_of_pos])]
    norm_num [Binary32.roundEven]
  have e14 : Binary32.rnd ((9395241 / 2147483648) + (9395241 / 17179869184)) = (5284823 / 1073741824) := by
    rw [rnd_eval (-8) (by norm_num [abs_of_pos]) (by norm_num [abs_of_pos])]
    norm_num [Binary32.roundEven]
  have e15 : Binary32.rnd ((7 / 32) * (5284823 / 1073741824)) = (1156055 / 1073741824) := by
    rw [rnd_eval (-10) (by norm_num [abs_of_pos]) (by norm_num [abs_of_pos])]
    norm_num [Binary32.roundEven]
  have e16 : Binary32.rnd ((5284823 / 1073741824) * (5284823 / 1073741824)) = (6658877 / 274877906944) := by
    rw [rnd_eval (-16) (by norm_num [abs_of_pos]) (by norm_num [abs_of_pos])]
    norm_num [Binary32.roundEven]
  have e17 : Binary32.rnd (40 * (6658877 / 274877906944)) = (2080899 / 2147483648) := by
    rw [rnd_eval (-11) (by norm_num [abs_of_pos]) (by norm_num [abs_of_pos])]
    norm_num [Binary32.roundEven]
  have e18 : Binary32.rnd ((2080899 / 2147483648) / 2) = (2080899 / 4294967296) := by
    rw [rnd_eval (-12) (by norm_num [abs_of_pos]) (by norm_num [abs_of_pos])]
    norm_num [Binary32.roundEven]
  have e19 : Binary32.rnd ((1156055 / 1073741824) - (2080899 / 4294967296)) = (2543321 / 4294967296) := by
    rw [rnd_eval (-11) (by norm_num [abs_of_pos]) (by norm_num [abs_of_pos])]
    norm_num [Binary32.roundEven]
  have e20 : Binary32.rnd ((2543321 / 4294967296) * 1600) = (3973939 / 4194304) := by
    rw [rnd_eval (-1) (by norm_num [abs_of_pos]) (by norm_num [abs_of_pos])]
    norm_num [Binary32.roundEven]
  have e22 : Binary32.rnd (1638400 + (3973939 / 4194304)) = 1638401 := by
    rw [rnd_eval (20) (by norm_num [abs_of_pos]) (by norm_num [abs_of_pos])]
    norm_num [Binary32.roundEven]
  have hacc : InBinary32.acc_dec_stepps_of sample_platform (7 / 32) = 0 := by
    simp only [InBinary32.acc_dec_stepps_of, ACCELERATION, Z_AXIS_STEPS_PER_UNIT]
    rw [e1, e2, e3]
    exact InBinary32.f2u_eval sample_platform 0 (by norm_num) (by norm_num) (by norm_num)
  have hsum : InBinary32.stepps_sum_of sample_platform |(1024 : ℚ)| = 1638400 := by
    simp only [InBinary32.stepps_sum_of, Z_AXIS_STEPS_PER_UNIT]
    rw [habs, e4]
    exact InBinary32.f2u_eval sample_platform 1638400 (by norm_num) (by norm_num) (by norm_num)
  have hb : InBinary32.takes_trapezoid sample_platform |(1024 : ℚ)| (7 / 32) = true := by
    rw [InBinary32.takes_trapezoid_iff_rounded, hacc, hsum]
    decide
  have hq : InBinary32.quantum_of sample_env sample_platform |(1024 : ℚ)| (7 / 32)
      = 9395241 / 17179869184 := by
    simp only [InBinary32.quantum_of, hb, if_true, ACCELERATION]
    rw [e5, e6]
  have hv : InBinary32.velocity_of sample_env sample_platform |(1024 : ℚ)| (7 / 32)
      = 7 / 32 := by
    simp only [InBinary32.velocity_of, hb, if_true]
  have a0 : InBinary32.acc_time_at (9395241 / 17179869184) 0 = (9395241 / 17179869184) := rfl
  have a1 : InBinary32.acc_time_at (9395241 / 17179869184) 1 = (9395241 / 8589934592) := by
    rw [show (1 : ℕ) = 0 + 1 from rfl, InBinary32.acc_time_at_succ, a0, e7]
  have a2 : InBinary32.acc_time_at (9395241 / 17179869184) 2 = (7046431 / 4294967296) := by
    rw [show (2 : ℕ) = 1 + 1 from rfl, InBinary32.acc_time_at_succ, a1, e8]
  have a3 : InBinary32.acc_time_at (9395241 / 17179869184) 3 = (9395241 / 4294967296) := by
    rw [show (3 : ℕ) = 2 + 1 from rfl, InBinary32.acc_time_at_succ, a2, e9]
  have a4 : InBinary32.acc_time_at (9395241 / 17179869184) 4 = (11744051 / 4294967296) := by
    rw [show (4 : ℕ) = 3 + 1 from rfl, InBinary32.acc_time_at_succ, a3, e10]
  have a5 : InBinary32.acc_time_at (9395241 / 17179869184) 5 = (14092861 / 4294967296) := by
    rw [show (5 : ℕ) = 4 + 1 from rfl, InBinary32.acc_time_at_succ, a4, e11]
  have a6 : InBinary32.acc_time_at (9395241 / 17179869184) 6 = (16441671 / 4294967296) := by
    rw [show (6 : ℕ) = 5 + 1 from rfl, InBinary32.acc_time_at_succ, a5, e12]
  have a7 : InBinary32.acc_time_at (9395241 / 17179869184) 7 = (9395241 / 2147483648) := by
    rw [show (7 : ℕ) = 6 + 1 from rfl, InBinary32.acc_time_at_succ, a6, e13]
  have a8 : InBinary32.acc_time_at (9395241 / 17179869184) 8 = (5284823 / 1073741824) := by
    rw [show (8 : ℕ) = 7 + 1 from rfl, InBinary32.acc_time_at_succ, a7, e14]
  have hinc : InBinary32.decel_increment (7 / 32) (5284823 / 1073741824)
      = 3973939 / 4194304 := by
    simp only [InBinary32.decel_increment, ACCELERATION, Z_AXIS_STEPS_PER_UNIT]
    rw [e15, e16, e17, e18, e19, e20]
  obtain ⟨h19, _, h9, hdcl⟩ :=
    InBinary32.DoBlockingMoveToZ_pulse sample_env sample_platform sample_state 1024 (7 / 32)
      hidle
  have h9' : ((InBinary32.DoBlockingMoveToZ sample_env sample_platform sample_state 1024
      (7 / 32)).speed_ctrl_buffer_ 9).pulse_count = 1638400 := by
    rw [h9, if_pos hb, hsum, hacc]
  have h18 := hdcl 8 (by norm_num)
  rw [h9', hq, hv, a8, hinc, rnd_nat 1638400 (by norm_num)] at h18
  have hcast : (((1638400 : ℕ) : ℚ)) + 3973939 / 4194304 = 1638400 + (3973939 / 4194304) := by
    norm_num
  rw [hcast, e22] at h18
  refine ⟨hb, ?_, ?_⟩
  · rw [show (18 : ℕ) = 10 + 8 from rfl, h18]
    exact InBinary32.f2u_eval sample_platform 1638401 (by norm_num) (by norm_num) (by norm_num)
  · rw [h19, hsum]

/-! ## The two embeddings of the planner on whole numbers of steps -/

/-- Where `1600 * length` is a natural number of at most `2 ^ 24`, as it is for
the moves of 9, 5, 2, 1.5 and 1 units that `GoHome` and the switch of the
extruder arm, the product is exact in binary32 and both embeddings of the
planner yield this number as the pulse count. -/
theorem stepps_sum_of_agrees (P : Binary32.Platform) (n : Nat) (hn : n ≤ 16777216) (L : ℚ)
    (hL : Z_AXIS_STEPS_PER_UNIT * L = n) :
    InBinary32.stepps_sum_of P L = n ∧ DualExtruder.stepps_sum_of L = n := by
  have hc : ((n : ℕ) : ℚ) ≤ 16777216 := by exact_mod_cast hn
  have hn0 : (0 : ℚ) ≤ n := Nat.cast_nonneg n
  constructor
  · unfold InBinary32.stepps_sum_of
    rw [hL, rnd_nat n (by norm_num; exact hn)]
    exact InBinary32.f2u_eval P n (by linarith) (by linarith) (by linarith)
  · unfold DualExtruder.stepps_sum_of f2u32
    rw [hL]
    have hf : ⌊(n : ℚ) + 1 / 2⌋ = (n : ℤ) := by
      rw [Int.floor_eq_iff]
      constructor <;> push_cast <;> linarith
    rw [hf, Int.toNat_natCast]
    exact min_eq_left (by
      unfold UINT32_MAX
      omega)

/-! ## The stale step phase on the travels of the extruder switch -/

/-- The motion fields that the planner in binary32 leaves alone or sets. -/
theorem DoBlockingMoveToZ_motion_fields_rounded (E : Env) (P : Binary32.Platform)
    (s : DualExtruder) (d speed : ℚ) (hidle : s.motor_state_ = 0) :
    (InBinary32.DoBlockingMoveToZ E P s d speed).motor_state_ = 1 ∧
    (InBinary32.DoBlockingMoveToZ E P s d speed).speed_ctrl_index_ = 0 ∧
    (InBinary32.DoBlockingMoveToZ E P s d speed).stepps_count_ = s.stepps_count_ ∧
    (InBinary32.DoBlockingMoveToZ E P s d speed).step_pin_state_ = s.step_pin_state_ ∧
    (InBinary32.DoBlockingMoveToZ E P s d speed).end_stop_enable_ = s.end_stop_enable_ := by
  simp only [InBinary32.DoBlockingMoveToZ, hidle, length_magnitude, StepperTimerStart]
  by_cases hd : d < 0 <;> simp [hd, z_motor_dir_Out]

/-- A move armed by the planner in binary32 from an idle state whose pulse
counter is 0 is a running move at count 0, with the step phase of the state it
was armed in. -/
theorem DoBlockingMoveToZ_running_rounded (E : Env) (P : Binary32.Platform)
    (s : DualExtruder) (d speed : ℚ) (hidle : s.motor_state_ = 0)
    (hcount : s.stepps_count_ = 0) :
    Running (InBinary32.DoBlockingMoveToZ E P s d speed).speed_ctrl_buffer_
      (InBinary32.DoBlockingMoveToZ E P s d speed).stepps_sum_ 0 s.step_pin_state_
      (InBinary32.DoBlockingMoveToZ E P s d speed) := by
  obtain ⟨hm, _, hc, hp, _⟩ := DoBlockingMoveToZ_motion_fields_rounded E P s d speed hidle
  refine ⟨rfl, rfl, ?_, hp, ?_, Nat.zero_le _⟩
  · rw [hc, hcount]
  · rw [hm]
    exact one_ne_zero

/-- A travel of 5 units at speed 9, in either direction, armed in an idle state:
8000 pulses, a non-decreasing table, last threshold 8000. -/
theorem full_travel_table (s : DualExtruder) (hidle : s.motor_state_ = 0) (d : ℚ)
    (hd : |d| = |(5 : ℚ)|) :
    (InBinary32.DoBlockingMoveToZ sample_env sample_platform s d 9).stepps_sum_ = 8000 ∧
    NonDecreasing
      (InBinary32.DoBlockingMoveToZ sample_env sample_platform s d 9).speed_ctrl_buffer_ ∧
    ((InBinary32.DoBlockingMoveToZ sample_env sample_platform s d 9).speed_ctrl_buffer_
      19).pulse_count = 8000 := by
  have hsum := (InBinary32.DoBlockingMoveToZ_fields sample_env sample_platform s d 9 hidle).1
  have h19 := (InBinary32.DoBlockingMoveToZ_pulse sample_env sample_platform s d 9 hidle).1
  rw [hd, InBinary32.stepps_sum_of_sample] at hsum
  rw [hd, InBinary32.stepps_sum_of_sample] at h19
  refine ⟨hsum, ?_, h19⟩
  refine InBinary32.trapezoid_nonDecreasing sample_env sample_platform s d 9 hidle ?_
    (by norm_num) (by norm_num) ?_
  · rw [hd]
    exact InBinary32.takes_trapezoid_sample
  · rw [hd]
    norm_num [abs_of_pos]

/-- The travel out, armed with the step phase low, is complete after 16000
invocations of `Stepper` and leaves the phase variable at 1. -/
theorem after_travel_out_state :
    travel_out.stepps_sum_ = 8000 ∧
    (∀ k, k < 16000 → (runStepper (fun _ => 0) k travel_out).motor_state_ ≠ 0) ∧
    after_travel_out.motor_state_ = 0 ∧ after_travel_out.stepps_count_ = 0 ∧
    after_travel_out.step_pin_state_ = 1 := by
  have hidle : sample_state.motor_state_ = 0 := by decide
  have hcount : sample_state.stepps_count_ = 0 := by decide
  have hphase : sample_state.step_pin_state_ = 0 := by decide
  have hout : travel_out
      = InBinary32.DoBlockingMoveToZ sample_env sample_platform sample_state 5 9 := rfl
  have hafter : after_travel_out = runStepper (fun _ => 0) (2 * 8000) travel_out := rfl
  obtain ⟨hsum, hmono, hlast⟩ := full_travel_table sample_state hidle 5 rfl
  have hrun := DoBlockingMoveToZ_running_rounded sample_env sample_platform sample_state 5 9
    hidle hcount
  rw [← hout] at hsum hmono hlast hrun
  rw [hphase, hsum] at hrun
  have hend := runStepper_clean_start travel_out.speed_ctrl_buffer_ 8000 hmono hlast
    (by norm_num [UINT32_MAX]) (by norm_num) (fun _ => 0) (fun _ => rfl) travel_out hrun
  rw [← hafter] at hend
  exact ⟨hsum, hend.1, hend.2⟩

/-- C2, the code against the claim: the switch to the second extruder arms
`DoBlockingMoveToZ(5, 9)` and the executor completes it in 16000 invocations of
`Stepper`; the switch back then arms `DoBlockingMoveToZ(-5, 9)`. With the
planner in binary32 this second move has `stepps_sum_ = 8000` pulses and a
non-decreasing table whose last threshold is its pulse count, and with the
endstop never triggered its motor is still on after every number of
invocations up to `2 * stepps_sum_ = 16000`, that number included; it goes off
at invocation 16001. -/
theorem C2_travel_back_ends_one_invocation_late :
    after_travel_out.motor_state_ = 0 ∧
    travel_back.stepps_sum_ = 8000 ∧
    (∀ i, i < 19 →
      (travel_back.speed_ctrl_buffer_ i).pulse_count ≤
        (travel_back.speed_ctrl_buffer_ (i + 1)).pulse_count) ∧
    (travel_back.speed_ctrl_buffer_ 19).pulse_count = travel_back.stepps_sum_ ∧
    (∀ k, k ≤ 2 * travel_back.stepps_sum_ →
      (runStepper (fun _ => 0) k travel_back).motor_state_ ≠ 0) ∧
    (runStepper (fun _ => 0) (2 * travel_back.stepps_sum_ + 1) travel_back).motor_state_ = 0 := by
  obtain ⟨_, _, hidle2, hcount2, hphase2⟩ := after_travel_out_state
  have hback : travel_back
      = InBinary32.DoBlockingMoveToZ sample_env sample_platform after_travel_out (-5) 9 := rfl
  obtain ⟨hsum, hmono, hlast⟩ := full_travel_table after_travel_out hidle2 (-5) (abs_neg (5 : ℚ))
  have hrun := DoBlockingMoveToZ_running_rounded sample_env sample_platform after_travel_out
    (-5) 9 hidle2 hcount2
  rw [← hback] at hsum hmono hlast hrun
  rw [hphase2, hsum] at hrun
  have hend := runStepper_stale_start travel_back.speed_ctrl_buffer_ 8000 hmono hlast
    (by norm_num [UINT32_MAX]) (by norm_num) (fun _ => 0) (fun _ => rfl) travel_back hrun
  refine ⟨hidle2, hsum, hmono, ?_, ?_, ?_⟩
  · rw [hlast, hsum]
  · intro k hk
    rw [hsum] at hk
    exact hend.1 k (by omega)
  · rw [hsum]
    exact hend.2
